import Mathlib

/-!
# Shadow-map lifecycle manager (Falcor `ShadowMap`)

A shallow embedding of `Source/Falcor/Rendering/ShadowMaps/ShadowMap.cpp` and of the
declarations of `ShadowMap.h`, and of the page allocator of
`Source/Falcor/Core/API/GpuMemoryHeap.cpp`.

Conventions of the embedding.

* C++ `float` values are elements of an ordered field `F`; arithmetic is exact, so rounding,
  infinities and NaN are not represented.  Every definition is computable and can be run at
  `F = ℚ`.
* C++ `uint` values are natural numbers; counters that are incremented or multiplied are
  reduced modulo `2 ^ 32` (`u32`).
* `std::vector` is `List`, `push_back` appends at the end, `ref<T>` that may be null is `Option`.
* Functions of the math library that are not part of the translated sources (`pow`,
  `math::perspective`, `math::inverse`, ...) are fields of `MathEnv`; `math::mul` and
  `math::ortho`, whose values the reuse test of the cascades depends on, are defined.
* An out-of-bounds `operator[]` makes the embedded function return `none`.
* `FALCOR_ASSERT` raises a fatal error, so `prepareShadowMapBuffers` returns in `Except`.
* The content of a buffer is a list of elements, each written or not; a frame reads what the
  scene and the raster programs supply (lights, camera, fence value, results of `addDefines`)
  from a `Frame`, and what it renders is the list of its raster calls.
* The UI functions read what the user does from a `UIInput`; `size_t` values of the heap are
  reduced modulo `2 ^ 64` (`u64`) where they are added.
-/

namespace Falcor

/-! ## Enumerations -/

/-- Light kinds of the scene (`LightType`).  `getLightType` only distinguishes `Point` and
`Directional`; every other kind falls through to the last `return`. -/
inductive LightType where
  | Point | Directional | Distant | Rect | Disc | Sphere
  deriving DecidableEq, Repr

/-- Shadow-map classification of a light (`LightTypeSM`). -/
inductive LightTypeSM where
  | NotSupported | Point | Spot | Directional
  deriving DecidableEq, Repr

/-- Filtering algorithm (`ShadowMapType`). -/
inductive ShadowMapType where
  | ShadowMap | Variance | Exponential | ExponentialVariance | MSMHamburger | MSMHausdorff
  | SDVariance | SDExponentialVariance | SDMSM
  deriving DecidableEq, Repr

/-- Resource formats (`ResourceFormat`).  The formats named in `ShadowMap.cpp` are constructors
of their own, every other format of the enumeration is `other id`. -/
inductive ResourceFormat where
  | Unknown | D32Float | D16Unorm | R32Float | R16Float | R16Unorm
  | RG32Float | RG16Unorm | RGBA32Float | RGBA16Float
  | other (id : Nat)
  deriving DecidableEq, Repr

/-- The bits of `ResourceBindFlags` that `ShadowMap.cpp` uses, as a set of flags. -/
structure ResourceBindFlags where
  shaderResource : Bool := false
  unorderedAccess : Bool := false
  renderTarget : Bool := false
  depthStencil : Bool := false
  deriving DecidableEq, Repr

namespace ResourceBindFlags

def ShaderResource : ResourceBindFlags := { shaderResource := true }
def UnorderedAccess : ResourceBindFlags := { unorderedAccess := true }
def RenderTarget : ResourceBindFlags := { renderTarget := true }
def DepthStencil : ResourceBindFlags := { depthStencil := true }

/-- The operator `|` on bind flags. -/
def or (a b : ResourceBindFlags) : ResourceBindFlags :=
  { shaderResource := a.shaderResource || b.shaderResource
    unorderedAccess := a.unorderedAccess || b.unorderedAccess
    renderTarget := a.renderTarget || b.renderTarget
    depthStencil := a.depthStencil || b.depthStencil }

instance : OrOp ResourceBindFlags := ⟨ResourceBindFlags.or⟩

end ResourceBindFlags

/-- Update mode (`SMUpdateMode`). -/
inductive SMUpdateMode where
  | Static | Dynamic
  deriving DecidableEq, Repr

/-- Split mode of the cascades (`CascadedFrustumMode`). -/
inductive CascadedFrustumMode where
  | Manual | AutomaticNvidia
  deriving DecidableEq, Repr

/-! ## Vectors, matrices, boxes -/

structure float2 (F : Type) where
  x : F
  y : F
  deriving DecidableEq, Repr

structure float3 (F : Type) where
  x : F
  y : F
  z : F
  deriving DecidableEq, Repr

structure float4 (F : Type) where
  x : F
  y : F
  z : F
  w : F
  deriving DecidableEq, Repr

/-- Row-major 4x4 matrix. -/
structure float4x4 (F : Type) where
  r0 : float4 F
  r1 : float4 F
  r2 : float4 F
  r3 : float4 F
  deriving DecidableEq, Repr

/-- Axis-aligned box (`AABB`). -/
structure AABB (F : Type) where
  minPoint : float3 F
  maxPoint : float3 F
  deriving DecidableEq, Repr

/-! ## Machine integers -/

/-- Reduction of a natural number to the range of a C++ `uint`. -/
def u32 (n : Nat) : Nat := n % 2 ^ 32

/-! ## Lights -/

/-- The fields of `LightData` read by the shadow-map code. -/
structure LightData (F : Type) where
  posW : float3 F
  dirW : float3 F
  openingAngle : F
  deriving DecidableEq, Repr

/-- The bits of `Light::Changes` that the shadow-map code tests with `is_set`. -/
structure LightChanges where
  Active : Bool := false
  Position : Bool := false
  Direction : Bool := false
  deriving DecidableEq, Repr

/-- A scene light: its kind, its data, whether it is active and what `getChanges` returns in
the current frame. -/
structure Light (F : Type) where
  type : LightType
  data : LightData F
  active : Bool := true
  changes : LightChanges := {}
  deriving DecidableEq, Repr

section Classification

variable {F : Type} [LinearOrderedField F]

/-- The constant `M_PI_4` of `<cmath>`: the `double` nearest to pi/4, which is
`7074237752028440 / 2 ^ 53`.  A `float` compared with it is promoted to `double` without
rounding, so the comparison in `getLightType` is a comparison with this number. -/
def M_PI_4 : F := 7074237752028440 / 2 ^ 53

/-- `ShadowMap::getLightType`. -/
def getLightType (light : Light F) : LightTypeSM :=
  if light.type = LightType.Directional then LightTypeSM.Directional
  else if light.type = LightType.Point then
    if light.data.openingAngle > M_PI_4 then LightTypeSM.Point
    else LightTypeSM.Spot
  else LightTypeSM.NotSupported

end Classification

/-! ## GPU resources -/

/-- The mip count of a texture: a number or `Texture::kMaxPossible`. -/
inductive MipLevels where
  | count (n : Nat)
  | kMaxPossible
  deriving DecidableEq, Repr

inductive TextureKind where
  | Tex2D | Cube
  deriving DecidableEq, Repr

/-- What `Texture::create2D` and `Texture::createCube` are given. -/
structure Texture where
  kind : TextureKind
  width : Nat
  height : Nat
  format : ResourceFormat
  arraySize : Nat
  mipLevels : MipLevels
  bindFlags : ResourceBindFlags
  name : String := ""
  deriving DecidableEq, Repr

def Texture.create2D (width height : Nat) (format : ResourceFormat) (arraySize : Nat)
    (mipLevels : MipLevels) (bindFlags : ResourceBindFlags) : Texture :=
  { kind := TextureKind.Tex2D, width := width, height := height, format := format,
    arraySize := arraySize, mipLevels := mipLevels, bindFlags := bindFlags }

def Texture.createCube (width height : Nat) (format : ResourceFormat) (arraySize : Nat)
    (mipLevels : MipLevels) (bindFlags : ResourceBindFlags) : Texture :=
  { kind := TextureKind.Cube, width := width, height := height, format := format,
    arraySize := arraySize, mipLevels := mipLevels, bindFlags := bindFlags }

def Texture.setName (t : Texture) (n : String) : Texture := { t with name := n }

inductive CpuAccess where
  | None | Write
  deriving DecidableEq, Repr

/-- What `Buffer::createStructured` is given; `initData` is `none` for a null pointer.  `data`
is the content of the buffer, element by element: `none` is an element that was never
written. -/
structure Buffer (α : Type) where
  structSize : Nat
  elementCount : Nat
  bindFlags : ResourceBindFlags
  cpuAccess : CpuAccess
  initData : Option (List α)
  name : String := ""
  data : List (Option α) := []
  deriving DecidableEq, Repr

/-- `Buffer::createStructured`: the content is the init data, of `elementCount` elements, or
unwritten without init data. -/
def Buffer.createStructured {α : Type} (structSize elementCount : Nat)
    (bindFlags : ResourceBindFlags) (cpuAccess : CpuAccess) (initData : Option (List α)) :
    Buffer α :=
  { structSize := structSize, elementCount := elementCount, bindFlags := bindFlags,
    cpuAccess := cpuAccess, initData := initData,
    data :=
      match initData with
      | some l => l.map some
      | none => List.replicate elementCount none }

def Buffer.setName {α : Type} (b : Buffer α) (n : String) : Buffer α := { b with name := n }

/-- `kStagingBufferCount`. -/
def kStagingBufferCount : Nat := 4

/-- `ShadowMap::VPMatrixBuffer`. -/
structure VPMatrixBuffer (F : Type) where
  buffer : Option (Buffer (float4x4 F)) := none
  staging : Option (Buffer (float4x4 F)) := none
  stagingFenceWaitValues : List Nat := List.replicate kStagingBufferCount 0
  stagingCount : Nat := 0
  deriving DecidableEq, Repr

/-- `VPMatrixBuffer::reset`. -/
def VPMatrixBuffer.reset {F : Type} (b : VPMatrixBuffer F) : VPMatrixBuffer F :=
  { b with buffer := none, staging := none }

/-- `ShadowMap::CascadedTemporalReuse`. -/
structure CascadedTemporalReuse (F : Type) where
  valid : Bool
  aabb : AABB F
  view : float4x4 F
  ortho : float4x4 F
  deriving DecidableEq, Repr

/-- What `FrustumCulling::updateFrustum` is given. -/
structure FrustumData (F : Type) where
  eye : float3 F
  center : float3 F
  up : float3 F
  left : F
  right : F
  bottom : F
  top : F
  near : F
  far : F
  deriving DecidableEq, Repr

/-- What the perspective overload of `FrustumCulling::updateFrustum` is given. -/
structure PerspectiveFrustum (F : Type) where
  eye : float3 F
  center : float3 F
  up : float3 F
  aspect : F
  fovY : F
  near : F
  far : F
  deriving DecidableEq, Repr

/-- A frustum culling object: the arguments of the last call of `updateFrustum`, which is
either the orthographic overload (`frustum`) or the perspective one (`perspective`); both are
`none` until `updateFrustum` is called. -/
structure FrustumCulling (F : Type) where
  frustum : Option (FrustumData F) := none
  perspective : Option (PerspectiveFrustum F) := none
  deriving DecidableEq, Repr

/-- `std::vector::resize`: keeps the first `n` elements and pads with `d`. -/
def resize {α : Type} (l : List α) (n : Nat) (d : α) : List α :=
  l.take n ++ List.replicate (n - l.length) d

/-- Writes `v` at index `i`; `none` when `i` is out of bounds. -/
def setAt {α : Type} (l : List α) (i : Nat) (v : α) : Option (List α) :=
  if i < l.length then some (l.set i v) else none

section Matrices

variable {F : Type} [LinearOrderedField F]

/-- `float4x4::identity()`. -/
def float4x4.identity : float4x4 F :=
  { r0 := ⟨1, 0, 0, 0⟩, r1 := ⟨0, 1, 0, 0⟩, r2 := ⟨0, 0, 1, 0⟩, r3 := ⟨0, 0, 0, 1⟩ }

/-- The default constructor `float4x4()`, which builds the identity matrix. -/
def float4x4.default : float4x4 F := float4x4.identity

end Matrices

/-! ## The state of a `ShadowMap` object -/

/-- The data members of `ShadowMap` that the embedded functions read or write, with the
initial values of `ShadowMap.h`.  A blur pass (`mpBlurShadowMap`, `mpBlurCascaded`,
`mpBlurCube`) is modelled by whether it is held, and `mStaticTexturesReady` is the pair of its
two elements. -/
structure ShadowMap (F : Type) [LinearOrderedField F] where
  mShadowMapType : ShadowMapType := ShadowMapType.SDExponentialVariance
  mShadowMapSize : Nat := 2048
  mShadowMapSizeCube : Nat := 1024
  mShadowMapSizeCascaded : Nat := 2048
  mShadowMapFormat : ResourceFormat := ResourceFormat.D32Float
  mUseFrustumCulling : Bool := true
  mUseShadowMipMaps : Bool := false
  mCascadedFrustumMode : CascadedFrustumMode := CascadedFrustumMode.AutomaticNvidia
  mCascadedLevelCount : Nat := 4
  mCascadedFrustumFix : F := 85 / 100
  mCascadedReuseEnlargeFactor : F := 15 / 100
  mEnableTemporalCascadedBoxTest : Bool := true
  mSceneIsDynamic : Bool := false
  mShadowMapUpdateMode : SMUpdateMode := SMUpdateMode.Static
  mUpdateShadowMap : Bool := true
  mResetShadowMapBuffers : Bool := false
  mShadowResChanged : Bool := false
  mCountSpotShadowMaps : Nat := 0
  mFrustumCullingVectorOffsets : Nat × Nat := (0, 0)
  mFrustumCulling : List (FrustumCulling F) := []
  mCascadedVPMatrix : List (float4x4 F) := []
  mCascadedTemporalReuse : List (CascadedTemporalReuse F) := []
  mCascadedFrustumManualVals : List F := [5 / 100, 15 / 100, 3 / 10, 1]
  mCascadedMaxFar : F := 1000000
  mCascadedZSlices : List F := []
  mCascadedWidthHeight : List (float2 F) := []
  mMultipleSMTypes : Bool := false
  mSpotDirViewProjMat : List (float4x4 F) := []
  mPrevLightType : List LightTypeSM := []
  mpCascadedShadowMaps : Option Texture := none
  mpShadowMapsCube : List Texture := []
  mpShadowMaps : List Texture := []
  mpShadowMapsCubeStatic : List Texture := []
  mpLightMapping : Option (Buffer Nat) := none
  mpVPMatrixBuffer : VPMatrixBuffer F := {}
  mpCascadedVPMatrixBuffer : VPMatrixBuffer F := {}
  mpDepthCascaded : Option Texture := none
  mpDepthCube : Option Texture := none
  mpDepth : Option Texture := none
  mpDepthCubeStatic : List Texture := []
  mTypeChanged : Bool := false
  mRasterDefinesChanged : Bool := false
  mBiasSettingsChanged : Bool := false
  mClearDynamicSM : Bool := false
  mRerenderStatic : Bool := false
  mStaticTexturesReady : Bool × Bool := (false, false)
  mNear : F := 1 / 10
  mFar : F := 60
  mSMDoubleSidedOnly : Bool := false
  mCanUseRayTracing : Bool := true
  mCascadedLevelTrace : Nat := 2
  mCascadedLastLevelRayTrace : Bool := true
  mBlurForCascaded : List Bool := [true, true, true, true]
  mUseGaussianBlur : Bool := false
  mpBlurShadowMap : Bool := false
  mpBlurCascaded : Bool := false
  mpBlurCube : Bool := false
  mCascadedDisableAlphaLevel : Nat := 4
  mCascadedStochasticRange : F := 5 / 100

/-- A fatal error raised by `FALCOR_ASSERT`. -/
inductive FatalError where
  | assertionFailed (condition : String)
  deriving DecidableEq, Repr

/-- Modelled from the spec: the macro `FALCOR_ASSERT` is not part of the translated sources; a
condition that does not hold is a fatal precondition violation signalled to the caller. -/
def FALCOR_ASSERT (cond : Bool) (condition : String) : Except FatalError Unit :=
  if cond then Except.ok () else Except.error (FatalError.assertionFailed condition)

section Prepare

variable {F : Type} [LinearOrderedField F]

/-! ## `prepareShadowMapBuffers` -/

/-- The four locals set by the `switch (mShadowMapType)` of `prepareShadowMapBuffers`. -/
structure FormatPlan where
  shadowMapFormat : ResourceFormat
  shadowMapBindFlags : ResourceBindFlags
  generateAdditionalDepthTextures : Bool
  genMipMaps : Bool
  deriving DecidableEq, Repr

/-- The `switch (mShadowMapType)` of `prepareShadowMapBuffers` (lines 165-206).  The locals
start as `ShaderResource`, `false`, `false`. -/
def formatPlan (s : ShadowMap F) : FormatPlan :=
  let shadowMapBindFlags := ResourceBindFlags.ShaderResource
  let generateAdditionalDepthTextures := false
  let genMipMaps := false
  match s.mShadowMapType with
  | ShadowMapType.Variance =>
    { shadowMapFormat :=
        if s.mShadowMapFormat = ResourceFormat.D32Float then ResourceFormat.RG32Float
        else ResourceFormat.RG16Unorm
      shadowMapBindFlags := shadowMapBindFlags |||
        (ResourceBindFlags.UnorderedAccess ||| ResourceBindFlags.RenderTarget)
      generateAdditionalDepthTextures := true
      genMipMaps := s.mUseShadowMipMaps }
  | ShadowMapType.Exponential =>
    { shadowMapFormat :=
        if s.mShadowMapFormat = ResourceFormat.D32Float then ResourceFormat.R32Float
        else ResourceFormat.R16Float
      shadowMapBindFlags := shadowMapBindFlags |||
        (ResourceBindFlags.UnorderedAccess ||| ResourceBindFlags.RenderTarget)
      generateAdditionalDepthTextures := true
      genMipMaps := s.mUseShadowMipMaps }
  | ShadowMapType.ExponentialVariance | ShadowMapType.MSMHamburger
  | ShadowMapType.MSMHausdorff =>
    { shadowMapFormat :=
        if s.mShadowMapFormat = ResourceFormat.D32Float then ResourceFormat.RGBA32Float
        else ResourceFormat.RGBA16Float
      shadowMapBindFlags := shadowMapBindFlags |||
        (ResourceBindFlags.UnorderedAccess ||| ResourceBindFlags.RenderTarget)
      generateAdditionalDepthTextures := true
      genMipMaps := s.mUseShadowMipMaps }
  | ShadowMapType.ShadowMap | ShadowMapType.SDVariance | ShadowMapType.SDExponentialVariance
  | ShadowMapType.SDMSM =>
    { shadowMapFormat := s.mShadowMapFormat
      shadowMapBindFlags := shadowMapBindFlags ||| ResourceBindFlags.DepthStencil
      generateAdditionalDepthTextures := generateAdditionalDepthTextures
      genMipMaps := genMipMaps }

/-- The `switch (shadowMapFormat)` that picks the cube format (lines 221-238). -/
def shadowMapCubeFormat (shadowMapFormat : ResourceFormat) : ResourceFormat :=
  match shadowMapFormat with
  | ResourceFormat.D32Float => ResourceFormat.R32Float
  | ResourceFormat.D16Unorm => ResourceFormat.R16Unorm
  | f => f

/-- The bind flags of a cube shadow map (lines 240-242). -/
def cubeBindFlags (s : ShadowMap F) : ResourceBindFlags :=
  let flags := ResourceBindFlags.ShaderResource ||| ResourceBindFlags.RenderTarget
  if s.mShadowMapType ≠ ShadowMapType.ShadowMap then flags ||| ResourceBindFlags.UnorderedAccess
  else flags

/-- The locals and members written by the loop over the lights (lines 212-269). -/
structure LightLoop where
  countPoint : Nat
  mCountSpotShadowMaps : Nat
  countCascade : Nat
  lightMapping : List Nat
  mPrevLightType : List LightTypeSM
  mpShadowMapsCube : List Texture
  deriving DecidableEq, Repr

/-- One iteration of `for (ref<Light> light : lights)`. -/
def lightLoopBody (s : ShadowMap F) (shadowMapFormat : ResourceFormat) (acc : LightLoop)
    (light : Light F) : LightLoop :=
  let lightType := getLightType light
  let acc := { acc with mPrevLightType := acc.mPrevLightType ++ [lightType] }
  if lightType = LightTypeSM.Point then
    let tex := (Texture.createCube s.mShadowMapSizeCube s.mShadowMapSizeCube
      (shadowMapCubeFormat shadowMapFormat) 1 (MipLevels.count 1) (cubeBindFlags s)).setName
      ("ShadowMapCube" ++ toString acc.countPoint)
    { acc with
      lightMapping := acc.lightMapping ++ [acc.countPoint]
      countPoint := u32 (acc.countPoint + 1)
      mpShadowMapsCube := acc.mpShadowMapsCube ++ [tex] }
  else if lightType = LightTypeSM.Spot then
    { acc with
      lightMapping := acc.lightMapping ++ [acc.mCountSpotShadowMaps]
      mCountSpotShadowMaps := u32 (acc.mCountSpotShadowMaps + 1) }
  else if lightType = LightTypeSM.Directional then
    { acc with
      lightMapping := acc.lightMapping ++ [0]
      countCascade := u32 (acc.countCascade + 1) }
  else
    { acc with lightMapping := acc.lightMapping ++ [0] }

/-- The loop over the lights, started from the locals of lines 155-163 and the cube textures
`cube` that the object holds. -/
def lightLoop (s : ShadowMap F) (shadowMapFormat : ResourceFormat) (cube : List Texture)
    (lights : List (Light F)) : LightLoop :=
  lights.foldl (lightLoopBody s shadowMapFormat)
    { countPoint := 0, mCountSpotShadowMaps := 0, countCascade := 0, lightMapping := [],
      mPrevLightType := [], mpShadowMapsCube := cube }

/-- The 2D texture created by iteration `i` of the spot loop (lines 273-287). -/
def spotTexture (s : ShadowMap F) (plan : FormatPlan) (countSpot i : Nat) : Texture :=
  let tex := Texture.create2D s.mShadowMapSize s.mShadowMapSize plan.shadowMapFormat 1
    (if plan.genMipMaps && decide (i < countSpot) then MipLevels.kMaxPossible
     else MipLevels.count 1)
    plan.shadowMapBindFlags
  if i ≥ countSpot then tex.setName ("ShadowMapSpotDyn" ++ toString (i - countSpot))
  else tex.setName ("ShadowMapSpot" ++ toString i)

/-- The cascade texture array (lines 293-298). -/
def cascadeTexture (s : ShadowMap F) (plan : FormatPlan) : Texture :=
  let levelCount :=
    if s.mSceneIsDynamic then u32 (s.mCascadedLevelCount * 2) else s.mCascadedLevelCount
  (Texture.create2D s.mShadowMapSizeCascaded s.mShadowMapSizeCascaded plan.shadowMapFormat
    levelCount (if plan.genMipMaps then MipLevels.kMaxPossible else MipLevels.count 1)
    plan.shadowMapBindFlags).setName "ShadowMapCascade"

/-- A depth helper texture (lines 304-324). -/
def depthHelper (size : Nat) (format : ResourceFormat) (name : String) : Texture :=
  (Texture.create2D size size format 1 (MipLevels.count 1)
    ResourceBindFlags.DepthStencil).setName name

/-- The static copy of cube texture `t`, the `i`-th of the list (lines 334-339). -/
def cubeStaticCopy (i : Nat) (t : Texture) : Texture :=
  (Texture.createCube t.width t.height t.format 1 (MipLevels.count 1) t.bindFlags).setName
    ("ShadowMapCubeStatic" ++ toString i)

/-- The six per-face depth textures of cube texture `i` (lines 342-353). -/
def cubeStaticDepth (depthCube : Option Texture) (i : Nat) : List Texture :=
  match depthCube with
  | some d =>
    (List.range 6).map fun face =>
      (Texture.create2D d.width d.height d.format 1 (MipLevels.count 1) d.bindFlags).setName
        ("ShadowMapCubePassDepthHelperStatic" ++ toString i ++ "Face" ++ toString face)
  | none => []

/-- The check for several classifications in one scene (lines 375-385): the flag is set when
some entry differs from the first one, and is never cleared. -/
def checkMultipleSMTypes (prev : List LightTypeSM) (mMultipleSMTypes : Bool) : Bool :=
  match prev with
  | [] => mMultipleSMTypes
  | checkType :: rest =>
    if rest.any (fun t => decide (checkType ≠ t)) then true else mMultipleSMTypes

/-- The two buffers of a view-projection matrix buffer for `size` matrices (lines 400-414 and
419-433). -/
def createVPMatrixBuffer (b : VPMatrixBuffer F) (size : Nat) (name stagingName : String) :
    VPMatrixBuffer F :=
  let initData : List (float4x4 F) :=
    List.replicate (size * kStagingBufferCount) float4x4.identity
  { b with
    buffer := some ((Buffer.createStructured 64 size ResourceBindFlags.ShaderResource
      CpuAccess.None none).setName name)
    staging := some ((Buffer.createStructured 64 (size * kStagingBufferCount)
      ResourceBindFlags.ShaderResource CpuAccess.Write (some initData)).setName stagingName) }

/-- The two resets at the start of `prepareShadowMapBuffers` (lines 126-150). -/
def resetShadowMaps (s : ShadowMap F) : ShadowMap F :=
  let s :=
    if s.mShadowResChanged || s.mResetShadowMapBuffers then
      { s with
        mpShadowMaps := [], mpShadowMapsCube := [], mpCascadedShadowMaps := none,
        mpDepthCascaded := none, mpDepthCube := none, mpDepth := none,
        mpShadowMapsCubeStatic := [], mpDepthCubeStatic := [] }
    else s
  if s.mResetShadowMapBuffers then
    { s with
      mpLightMapping := none
      mpVPMatrixBuffer := s.mpVPMatrixBuffer.reset
      mpCascadedVPMatrixBuffer := s.mpCascadedVPMatrixBuffer.reset }
  else s

/-- The spot textures held after the loop of lines 272-287. -/
def spotTextures (s : ShadowMap F) (plan : FormatPlan) (countSpot : Nat) : List Texture :=
  let loopCount := if s.mSceneIsDynamic then u32 (countSpot * 2) else countSpot
  s.mpShadowMaps ++ (List.range loopCount).map (spotTexture s plan countSpot)

/-- The members written by the loop over the lights, stored into the object. -/
def storeLightLoop (s : ShadowMap F) (loop : LightLoop) : ShadowMap F :=
  { s with
    mCountSpotShadowMaps := loop.mCountSpotShadowMaps
    mPrevLightType := loop.mPrevLightType
    mpShadowMapsCube := loop.mpShadowMapsCube }

/-- Lines 271-287: the textures of the spot lights. -/
def createSpotTextures (s : ShadowMap F) (plan : FormatPlan) : ShadowMap F :=
  { s with mpShadowMaps := spotTextures s plan s.mCountSpotShadowMaps }

/-- Lines 291-299: the cascade array, created when there is a directional light. -/
def createCascadeTexture (s : ShadowMap F) (plan : FormatPlan) (countCascade : Nat) :
    ShadowMap F :=
  if countCascade > 0 then { s with mpCascadedShadowMaps := some (cascadeTexture s plan) }
  else s

/-- Lines 304-324: the depth helper textures. -/
def createDepthHelpers (s : ShadowMap F) (plan : FormatPlan) (countPoint countCascade : Nat) :
    ShadowMap F :=
  let s :=
    if s.mpDepthCascaded.isNone && decide (countCascade > 0) &&
        plan.generateAdditionalDepthTextures then
      { s with mpDepthCascaded := some (depthHelper s.mShadowMapSizeCascaded s.mShadowMapFormat
          ("ShadowMapCascadedPassDepthHelper")) }
    else s
  let s :=
    if s.mpDepthCube.isNone && decide (countPoint > 0) then
      { s with mpDepthCube := some (depthHelper s.mShadowMapSizeCube s.mShadowMapFormat
          ("ShadowMapCubePassDepthHelper")) }
    else s
  if s.mpDepth.isNone && decide (s.mCountSpotShadowMaps > 0) &&
      plan.generateAdditionalDepthTextures then
    { s with mpDepth := some (depthHelper s.mShadowMapSize s.mShadowMapFormat
        ("ShadowMap2DPassDepthHelper")) }
  else s

/-- Lines 329-355: the static copies for scenes with dynamic geometry. -/
def createStaticCopies (s : ShadowMap F) : ShadowMap F :=
  if s.mSceneIsDynamic then
    { s with
      mpShadowMapsCubeStatic := s.mpShadowMapsCubeStatic ++
        s.mpShadowMapsCube.enum.map (fun it => cubeStaticCopy it.1 it.2)
      mpDepthCubeStatic := s.mpDepthCubeStatic ++
        (List.range s.mpShadowMapsCube.length).flatMap (cubeStaticDepth s.mpDepthCube) }
  else s

/-- Lines 360-368: the frustum culling objects. -/
def createFrustumCulling (s : ShadowMap F) (countPoint : Nat) : ShadowMap F :=
  if s.mUseFrustumCulling then
    let frustumCullingVectorSize :=
      u32 (u32 (s.mCountSpotShadowMaps + s.mCascadedLevelCount) + u32 (countPoint * 6))
    { s with
      mFrustumCullingVectorOffsets :=
        (s.mCountSpotShadowMaps, u32 (s.mCountSpotShadowMaps + s.mCascadedLevelCount))
      mFrustumCulling := List.replicate frustumCullingVectorSize {} }
  else s

/-- Lines 375-395: the check for several classifications and the light mapping buffer. -/
def createLightMapping (s : ShadowMap F) (lightMapping : List Nat) : ShadowMap F :=
  let s := { s with
    mMultipleSMTypes := checkMultipleSMTypes s.mPrevLightType s.mMultipleSMTypes }
  if s.mpLightMapping.isNone && decide (lightMapping.length > 0) then
    { s with mpLightMapping := some ((Buffer.createStructured 4 lightMapping.length
        ResourceBindFlags.ShaderResource CpuAccess.None (some lightMapping)).setName
        ("ShadowMapLightMapping")) }
  else s

/-- Lines 397-434: the view-projection matrix buffers. -/
def createVPMatrices (s : ShadowMap F) : ShadowMap F :=
  let s :=
    if s.mpVPMatrixBuffer.buffer.isNone && decide (s.mpShadowMaps.length > 0) then
      { s with mpVPMatrixBuffer := (createVPMatrixBuffer s.mpVPMatrixBuffer
          s.mpShadowMaps.length ("ShadowMap_VP") ("ShadowMap_VPStaging")) }
    else s
  if s.mpCascadedVPMatrixBuffer.buffer.isNone && s.mpCascadedShadowMaps.isSome then
    { s with mpCascadedVPMatrixBuffer := (createVPMatrixBuffer s.mpCascadedVPMatrixBuffer
        s.mCascadedLevelCount ("SMCascaded_VP") ("SMCascaded_VPStaging")) }
  else s

/-- Lines 436-444: the CPU-side matrix lists and the flags. -/
def finishPrepare (s : ShadowMap F) : ShadowMap F :=
  { s with
    mCascadedVPMatrix := resize s.mCascadedVPMatrix s.mCascadedLevelCount float4x4.default
    mCascadedWidthHeight := resize s.mCascadedWidthHeight s.mCascadedLevelCount ⟨0, 0⟩
    mSpotDirViewProjMat := List.replicate s.mpShadowMaps.length float4x4.default
    mResetShadowMapBuffers := false
    mShadowResChanged := false
    mUpdateShadowMap := true }

/-- `ShadowMap::prepareShadowMapBuffers`, for the light list `lights` of the scene. -/
def prepareShadowMapBuffers (s : ShadowMap F) (lights : List (Light F)) :
    Except FatalError (ShadowMap F) :=
  let s0 := resetShadowMaps s
  let plan := formatPlan s0
  let loop := lightLoop s0 plan.shadowMapFormat s0.mpShadowMapsCube lights
  let s1 := createSpotTextures (storeLightLoop s0 loop) plan
  (FALCOR_ASSERT (decide (loop.countCascade ≤ 1)) "countCascade <= 1").bind fun _ =>
    let s2 := createCascadeTexture s1 plan loop.countCascade
    let s3 := createDepthHelpers s2 plan loop.countPoint loop.countCascade
    let s4 := createFrustumCulling (createStaticCopies s3) loop.countPoint
    let s5 := createVPMatrices (createLightMapping s4 loop.lightMapping)
    Except.ok (finishPrepare s5)

end Prepare

/-! ## `calcProjViewForCascaded` -/

/-- The functions of the math library and of `AABB` that `calcProjViewForCascaded` calls and
that are not part of the translated sources. -/
structure MathEnv (F : Type) where
  /-- `pow(base, exponent)` of `<cmath>`. -/
  pow : F → F → F
  /-- `focalLengthToFovY(focalLength, frameHeight)`. -/
  focalLengthToFovY : F → F → F
  /-- `math::perspective(fovy, aspect, zNear, zFar)`. -/
  perspective : F → F → F → F → float4x4 F
  /-- `math::inverse`. -/
  inverse : float4x4 F → float4x4 F
  /-- `math::matrixFromLookAt(eye, center, up)`. -/
  matrixFromLookAt : float3 F → float3 F → float3 F → float4x4 F
  /-- `math::clamp` on `float3`. -/
  clamp : float3 F → float3 F → float3 F → float3 F
  /-- `AABB::transform`. -/
  transform : AABB F → float4x4 F → AABB F
  /-- `AABB::radius`. -/
  radius : AABB F → F
  /-- The box built by the default constructor `AABB()`. -/
  emptyAABB : AABB F

/-- The fields of `CameraData` read by `calcProjViewForCascaded`; `nearZ` and `farZ` are what
`getNearPlane` and `getFarPlane` return. -/
structure CameraData (F : Type) where
  nearZ : F
  farZ : F
  focalLength : F
  frameHeight : F
  aspectRatio : F
  viewMat : float4x4 F
  deriving DecidableEq, Repr

/-- What `calcProjViewForCascaded` reads from the scene. -/
structure SceneView (F : Type) where
  sceneBounds : AABB F
  camera : CameraData F
  deriving DecidableEq, Repr

/-- The orthographic box of a cascade level. -/
structure OrthoBox (F : Type) where
  minX : F
  maxX : F
  minY : F
  maxY : F
  minZ : F
  maxZ : F
  deriving DecidableEq, Repr

section Cascaded

variable {F : Type} [LinearOrderedField F]

/-- `std::numeric_limits<float>::max()`, which is `(2 ^ 24 - 1) * 2 ^ 104`. -/
def FLT_MAX : F := (2 ^ 24 - 1) * 2 ^ 104

def float4.xyz (v : float4 F) : float3 F := ⟨v.x, v.y, v.z⟩

def float4.dot (a b : float4 F) : F := a.x * b.x + a.y * b.y + a.z * b.z + a.w * b.w

/-- Division of a `float4` by a scalar. -/
def float4.divScalar (v : float4 F) (c : F) : float4 F := ⟨v.x / c, v.y / c, v.z / c, v.w / c⟩

def float3.add (a b : float3 F) : float3 F := ⟨a.x + b.x, a.y + b.y, a.z + b.z⟩

/-- Division of a `float3` by a scalar. -/
def float3.divScalar (v : float3 F) (c : F) : float3 F := ⟨v.x / c, v.y / c, v.z / c⟩

/-- Modelled from the spec: `math::mul(float4x4, float4)` is not part of the translated sources;
it is the product of a matrix and a column vector, by which the planner transforms a corner
into a view space or into the NDC range. -/
def mulVec (m : float4x4 F) (v : float4 F) : float4 F :=
  ⟨m.r0.dot v, m.r1.dot v, m.r2.dot v, m.r3.dot v⟩

/-- Column `j` of a matrix, `j < 4`. -/
def float4x4.col (m : float4x4 F) (j : Nat) : float4 F :=
  match j with
  | 0 => ⟨m.r0.x, m.r1.x, m.r2.x, m.r3.x⟩
  | 1 => ⟨m.r0.y, m.r1.y, m.r2.y, m.r3.y⟩
  | 2 => ⟨m.r0.z, m.r1.z, m.r2.z, m.r3.z⟩
  | _ => ⟨m.r0.w, m.r1.w, m.r2.w, m.r3.w⟩

/-- Modelled from the spec: `math::mul(float4x4, float4x4)` is not part of the translated
sources; it is the matrix product, by which a projection is composed with a view matrix. -/
def mulMat (a b : float4x4 F) : float4x4 F :=
  let row (r : float4 F) : float4 F :=
    ⟨r.dot (b.col 0), r.dot (b.col 1), r.dot (b.col 2), r.dot (b.col 3)⟩
  ⟨row a.r0, row a.r1, row a.r2, row a.r3⟩

/-- Modelled from the spec: `math::ortho(left, right, bottom, top, zNear, zFar)` is not part of
the translated sources; it is the orthographic projection of a right-handed view space that
maps the box to the NDC range `[-1,1] x [-1,1] x [0,1]`. -/
def ortho (left right bottom top zNear zFar : F) : float4x4 F :=
  { r0 := ⟨2 / (right - left), 0, 0, -(right + left) / (right - left)⟩
    r1 := ⟨0, 2 / (top - bottom), 0, -(top + bottom) / (top - bottom)⟩
    r2 := ⟨0, 0, -1 / (zFar - zNear), -zNear / (zFar - zNear)⟩
    r3 := ⟨0, 0, 0, 1⟩ }

/-- The values written into a resized `mCascadedFrustumManualVals` (lines 1188-1194): `n`
elements, each the running sum `partSum`, which grows by `equalLevel`. -/
def fillManualVals (equalLevel : F) : Nat → F → List F
  | 0, _ => []
  | n + 1, partSum => partSum :: fillManualVals equalLevel n (partSum + equalLevel)

/-- The manual breakpoints in use after lines 1184-1195. -/
def manualVals (s : ShadowMap F) : List F :=
  if s.mCascadedFrustumManualVals.length ≠ s.mCascadedLevelCount then
    let equalLevel : F := 1 / (s.mCascadedLevelCount : F)
    fillManualVals equalLevel s.mCascadedLevelCount equalLevel
  else s.mCascadedFrustumManualVals

/-- The far distances of the `Manual` case (lines 1181-1201).  Both vectors have
`mCascadedLevelCount` elements when the loop of line 1198 runs. -/
def zSlicesManual (s : ShadowMap F) (camera : CameraData F) : List F :=
  let near := camera.nearZ
  let distanceFarNear := camera.farZ - near
  (manualVals s).map fun v => near + distanceFarNear * v

/-- The value stored in `cascadedSlices[i - 1]` (lines 1212-1214). -/
def nvidiaSlice (env : MathEnv F) (mCascadedFrustumFix nearZ mCascadedMaxFar : F) (N i : Nat) :
    F :=
  mCascadedFrustumFix * (nearZ * env.pow (mCascadedMaxFar / nearZ) ((i : F) / (N : F))) +
    (1 - mCascadedFrustumFix) * (nearZ + ((i : F) / (N : F)) * (mCascadedMaxFar - nearZ))

/-- The far distances of the `AutomaticNvidia` case (lines 1208-1219): `cascadedSlices` is
filled for `i = 1 .. N` and copied to `mCascadedZSlices`, which has `N` elements. -/
def zSlicesNvidia (env : MathEnv F) (s : ShadowMap F) (camera : CameraData F)
    (mCascadedMaxFar : F) : List F :=
  let N := s.mCascadedLevelCount
  (List.range N).map fun j =>
    nvidiaSlice env s.mCascadedFrustumFix camera.nearZ mCascadedMaxFar N (j + 1)

/-- The value of `mCascadedMaxFar` (line 1158). -/
def cascadedMaxFar (env : MathEnv F) (scene : SceneView F) : F :=
  min (env.radius scene.sceneBounds * 2) scene.camera.farZ

/-- The cache after lines 1168-1175: cleared and resized to one default entry per level when
temporal reuse is enabled and the size is wrong. -/
def temporalReuseSized (env : MathEnv F) (s : ShadowMap F) : List (CascadedTemporalReuse F) :=
  if s.mEnableTemporalCascadedBoxTest &&
      decide (s.mCascadedTemporalReuse.length ≠ s.mCascadedLevelCount) then
    List.replicate s.mCascadedLevelCount
      { valid := false, aabb := env.emptyAABB, view := float4x4.identity,
        ortho := float4x4.identity }
  else s.mCascadedTemporalReuse

/-- The block "Cascaded level calculations" (lines 1156-1223): the far clamp, the resizes and
the far distances of the levels.  `mCascadedZSlices` is resized to `mCascadedLevelCount`
elements (lines 1161-1165) and then written in full by either case of the `switch`, so it is
the list of the far distances. -/
def cascadedLevelCalculations (env : MathEnv F) (s : ShadowMap F) (scene : SceneView F) :
    ShadowMap F :=
  let maxFar := cascadedMaxFar env scene
  let reuse := temporalReuseSized env s
  match s.mCascadedFrustumMode with
  | CascadedFrustumMode.Manual =>
    { s with
      mCascadedMaxFar := maxFar
      mCascadedTemporalReuse := reuse
      mCascadedFrustumManualVals := manualVals s
      mCascadedZSlices := zSlicesManual s scene.camera }
  | CascadedFrustumMode.AutomaticNvidia =>
    { s with
      mCascadedMaxFar := maxFar
      mCascadedTemporalReuse := reuse
      mCascadedZSlices := zSlicesNvidia env s scene.camera maxFar }

/-- The eight corners of the frustum part between `near` and `zFar` (lines 1232-1242), in the
order of the three nested loops. -/
def frustumCorners (env : MathEnv F) (camera : CameraData F) (near zFar : F) :
    List (float4 F) :=
  let camFovY := env.focalLengthToFovY camera.focalLength camera.frameHeight
  let proj := env.perspective camFovY camera.aspectRatio near zFar
  let inv := env.inverse (mulMat proj camera.viewMat)
  ([0, 1] : List Nat).flatMap fun x =>
    ([0, 1] : List Nat).flatMap fun y =>
      ([0, 1] : List Nat).map fun z =>
        let pt := mulVec inv ⟨2 * (x : F) - 1, 2 * (y : F) - 1, (z : F), 1⟩
        pt.divScalar pt.w

/-- The centre of the corners (lines 1245-1249). -/
def frustumCenter (corners : List (float4 F)) : float3 F :=
  (corners.foldl (fun (center : float3 F) (p : float4 F) => center.add p.xyz)
    (⟨0, 0, 0⟩ : float3 F)).divScalar 8

/-- A corner in the view space `view`, clamped to `aabb` (lines 1263-1264 and 1291-1292). -/
def clampedViewPoint (env : MathEnv F) (view : float4x4 F) (aabb : AABB F) (p : float4 F) :
    float3 F :=
  env.clamp (mulVec view p).xyz aabb.minPoint aabb.maxPoint

/-- One iteration of the loop of lines 1262-1271. -/
def growBox (env : MathEnv F) (casView : float4x4 F) (smViewAABB : AABB F) (b : OrthoBox F)
    (p : float4 F) : OrthoBox F :=
  let vp := clampedViewPoint env casView smViewAABB p
  { minX := min b.minX vp.x, maxX := max b.maxX vp.x
    minY := min b.minY vp.y, maxY := max b.maxY vp.y
    minZ := min b.minZ vp.z, maxZ := max b.maxZ vp.z }

/-- The box of a level (lines 1256-1275). -/
def levelBox (env : MathEnv F) (casView : float4x4 F) (smViewAABB : AABB F)
    (corners : List (float4 F)) : OrthoBox F :=
  let b := corners.foldl (growBox env casView smViewAABB)
    { minX := FLT_MAX, maxX := -FLT_MAX, minY := FLT_MAX, maxY := -FLT_MAX,
      minZ := FLT_MAX, maxZ := -FLT_MAX }
  { b with maxZ := max b.maxZ smViewAABB.maxPoint.z, minZ := min b.minZ smViewAABB.minPoint.z }

/-- The test of line 1295 on a projected corner. -/
def outsideNDC (projP : float3 F) : Bool :=
  decide (projP.x < -1) || decide (projP.x > 1) || decide (projP.y < -1) ||
    decide (projP.y > 1) || (decide (projP.z < 0) && decide (projP.z > 1))

/-- The flag `temporalValid` after the loop of lines 1287-1297. -/
def temporalValid (env : MathEnv F) (c : CascadedTemporalReuse F) (corners : List (float4 F)) :
    Bool :=
  corners.foldl
    (fun valid p =>
      let viewP := clampedViewPoint env c.view c.aabb p
      let projP := (mulVec c.ortho ⟨viewP.x, viewP.y, viewP.z, 1⟩).xyz
      if outsideNDC projP then false else valid)
    true

/-- The enlargement of the box in x and y (lines 1304-1319). -/
def enlargeBox (e : F) (b : OrthoBox F) : OrthoBox F :=
  { b with
    minX := if b.minX > 0 then b.minX - b.minX * e else b.minX + b.minX * e
    minY := if b.minY > 0 then b.minY - b.minY * e else b.minY + b.minY * e
    maxX := if b.maxX < 0 then b.maxX - b.maxX * e else b.maxX + b.maxX * e
    maxY := if b.maxY < 0 then b.maxY - b.maxY * e else b.maxY + b.maxY * e }

/-- The projection of a level (line 1325). -/
def casProj (b : OrthoBox F) : float4x4 F :=
  ortho b.minX b.maxX b.minY b.maxY (-1 * b.maxZ) (-1 * b.minZ)

/-- The variables carried by the loop over the levels (lines 1229-1344): the local `near`,
the caller's `renderLevel` and the members that the loop writes. -/
structure CascadeLoop (F : Type) where
  near : F
  renderLevel : List Bool
  mCascadedTemporalReuse : List (CascadedTemporalReuse F)
  mCascadedWidthHeight : List (float2 F)
  mCascadedVPMatrix : List (float4x4 F)
  mFrustumCulling : List (FrustumCulling F)
  deriving DecidableEq, Repr

/-- The loop variables with which `calcProjViewForCascaded` enters the loop over the levels:
`near` is the near plane of the camera (line 1226). -/
def cascadeLoopStart (s : ShadowMap F) (scene : SceneView F) (renderLevel : List Bool) :
    CascadeLoop F :=
  { near := scene.camera.nearZ, renderLevel := renderLevel,
    mCascadedTemporalReuse := s.mCascadedTemporalReuse,
    mCascadedWidthHeight := s.mCascadedWidthHeight,
    mCascadedVPMatrix := s.mCascadedVPMatrix,
    mFrustumCulling := s.mFrustumCulling }

/-- The end of an iteration that is not skipped (lines 1325-1343), for the box `b`. -/
def storeLevel (s : ShadowMap F) (lightData : LightData F) (center : float3 F)
    (casView : float4x4 F) (smViewAABB : AABB F) (b : OrthoBox F) (st : CascadeLoop F)
    (i : Nat) : Option (CascadeLoop F) :=
  let upVec : float3 F := ⟨0, 1, 0⟩
  let proj := casProj b
  (if s.mEnableTemporalCascadedBoxTest then
    (st.mCascadedTemporalReuse[i]?).bind fun c =>
      setAt st.mCascadedTemporalReuse i { c with aabb := smViewAABB, view := casView, ortho := proj }
  else some st.mCascadedTemporalReuse).bind fun reuse =>
  (setAt st.mCascadedWidthHeight i ⟨|b.maxX - b.minX|, |b.maxY - b.minY|⟩).bind fun wh =>
  (setAt st.mCascadedVPMatrix i (mulMat proj casView)).bind fun vp =>
  (if s.mUseFrustumCulling then
    let cullingIndex := u32 (s.mFrustumCullingVectorOffsets.1 + i)
    setAt st.mFrustumCulling cullingIndex
      { frustum := some
          { eye := center, center := center.add lightData.dirW, up := upVec,
            left := b.minX, right := b.maxX, bottom := b.minY, top := b.maxY,
            near := -1 * b.maxZ, far := -1 * b.minZ } }
  else some st.mFrustumCulling).bind fun culling =>
  some { st with
    mCascadedTemporalReuse := reuse, mCascadedWidthHeight := wh, mCascadedVPMatrix := vp,
    mFrustumCulling := culling }

/-- Lines 1303-1322 followed by the end of the iteration: the box is enlarged, the cache entry
is marked valid and the level is flagged for rendering. -/
def recomputeLevel (s : ShadowMap F) (lightData : LightData F) (center : float3 F)
    (casView : float4x4 F) (smViewAABB : AABB F) (b : OrthoBox F) (st : CascadeLoop F)
    (i : Nat) : Option (CascadeLoop F) :=
  (st.mCascadedTemporalReuse[i]?).bind fun c =>
  (setAt st.mCascadedTemporalReuse i { c with valid := true }).bind fun reuse =>
  (setAt st.renderLevel i true).bind fun renderLevel =>
  storeLevel s lightData center casView smViewAABB
    (enlargeBox s.mCascadedReuseEnlargeFactor b)
    { st with mCascadedTemporalReuse := reuse, renderLevel := renderLevel } i

/-- One iteration of the loop over the levels (lines 1229-1344).  The members of `s` that the
loop only reads are taken from `s`. -/
def cascadeLevel (env : MathEnv F) (s : ShadowMap F) (scene : SceneView F)
    (lightData : LightData F) (forceUpdate : Bool) (st : CascadeLoop F) (i : Nat) :
    Option (CascadeLoop F) :=
  (s.mCascadedZSlices[i]?).bind fun zFar =>
  let corners := frustumCorners env scene.camera st.near zFar
  let center := frustumCenter corners
  let upVec : float3 F := ⟨0, 1, 0⟩
  let casView := env.matrixFromLookAt center (center.add lightData.dirW) upVec
  let smViewAABB := env.transform scene.sceneBounds casView
  let b := levelBox env casView smViewAABB corners
  (setAt st.renderLevel i (!s.mEnableTemporalCascadedBoxTest)).bind fun renderLevel =>
  let st := { st with renderLevel := renderLevel, near := zFar }
  if s.mEnableTemporalCascadedBoxTest then
    (st.mCascadedTemporalReuse[i]?).bind fun c =>
    if c.valid && !forceUpdate then
      if temporalValid env c corners then some st
      else recomputeLevel s lightData center casView smViewAABB b st i
    else recomputeLevel s lightData center casView smViewAABB b st i
  else storeLevel s lightData center casView smViewAABB b st i

/-- The loop over the levels `0 .. n - 1`. -/
def cascadeLevels (env : MathEnv F) (s : ShadowMap F) (scene : SceneView F)
    (lightData : LightData F) (forceUpdate : Bool) (st : CascadeLoop F) (n : Nat) :
    Option (CascadeLoop F) :=
  (List.range n).foldlM (cascadeLevel env s scene lightData forceUpdate) st

/-- `ShadowMap::calcProjViewForCascaded`; `renderLevel` is the vector passed by reference,
which is returned with the state of the object. -/
def calcProjViewForCascaded (env : MathEnv F) (s : ShadowMap F) (scene : SceneView F)
    (lightData : LightData F) (renderLevel : List Bool) (forceUpdate : Bool) :
    Option (ShadowMap F × List Bool) :=
  let s := cascadedLevelCalculations env s scene
  (cascadeLevels env s scene lightData forceUpdate (cascadeLoopStart s scene renderLevel)
    s.mCascadedLevelCount).map fun st =>
  ({ s with
    mCascadedTemporalReuse := st.mCascadedTemporalReuse
    mCascadedWidthHeight := st.mCascadedWidthHeight
    mCascadedVPMatrix := st.mCascadedVPMatrix
    mFrustumCulling := st.mFrustumCulling }, st.renderLevel)

end Cascaded

/-! ## Notions of the specification -/

section SpecNotions

variable {F : Type} [LinearOrderedField F]

/-- The number of lights of `lights` that `getLightType` puts in class `t`. -/
def countOfLights (t : LightTypeSM) (lights : List (Light F)) : Nat :=
  lights.countP fun l => decide (getLightType l = t)

/-- The number of directional lights of `lights` that are active. -/
def countActiveDirectional (lights : List (Light F)) : Nat :=
  lights.countP fun l => decide (getLightType l = LightTypeSM.Directional) && l.active

/-- The slot that the specification assigns to the light at global index `g`: the number of
earlier lights of the same class for a point or a spot light, and `0` otherwise. -/
def slotIndex (lights : List (Light F)) (g : Nat) : Nat :=
  match lights[g]? with
  | some l =>
    match getLightType l with
    | LightTypeSM.Point => countOfLights LightTypeSM.Point (lights.take g)
    | LightTypeSM.Spot => countOfLights LightTypeSM.Spot (lights.take g)
    | _ => 0
  | none => 0

/-- The object holds no shadow texture of a point or spot light. -/
def texturesReleased (s : ShadowMap F) : Prop :=
  s.mpShadowMaps = [] ∧ s.mpShadowMapsCube = [] ∧ s.mpShadowMapsCubeStatic = []

/-- The object holds neither the light mapping buffer nor a matrix buffer. -/
def buffersReleased (s : ShadowMap F) : Prop :=
  s.mpLightMapping = none ∧ s.mpVPMatrixBuffer.buffer = none ∧
    s.mpCascadedVPMatrixBuffer.buffer = none

/-- The factor `2 if dynamic else 1` of the specification. -/
def sliceFactor (s : ShadowMap F) : Nat := if s.mSceneIsDynamic then 2 else 1

/-- The members of a `ShadowMap` that the allocator claims are about. -/
structure Resources (F : Type) where
  dyn : Bool
  levels : Nat
  cube : List Texture
  spot : List Texture
  cubeStatic : List Texture
  cascade : Option Texture
  lightMapping : Option (Buffer Nat)
  vp : VPMatrixBuffer F
  cascadedVP : VPMatrixBuffer F

def resources (s : ShadowMap F) : Resources F :=
  { dyn := s.mSceneIsDynamic, levels := s.mCascadedLevelCount, cube := s.mpShadowMapsCube,
    spot := s.mpShadowMaps, cubeStatic := s.mpShadowMapsCubeStatic,
    cascade := s.mpCascadedShadowMaps, lightMapping := s.mpLightMapping,
    vp := s.mpVPMatrixBuffer, cascadedVP := s.mpCascadedVPMatrixBuffer }

/-- The state that `prepareShadowMapBuffers` returns when the assertion passes. -/
def prepared (s : ShadowMap F) (lights : List (Light F)) : ShadowMap F :=
  let s0 := resetShadowMaps s
  let plan := formatPlan s0
  let loop := lightLoop s0 plan.shadowMapFormat s0.mpShadowMapsCube lights
  let s1 := createSpotTextures (storeLightLoop s0 loop) plan
  let s2 := createCascadeTexture s1 plan loop.countCascade
  let s3 := createDepthHelpers s2 plan loop.countPoint loop.countCascade
  let s4 := createFrustumCulling (createStaticCopies s3) loop.countPoint
  finishPrepare (createVPMatrices (createLightMapping s4 loop.lightMapping))

/-- The format plan as the specification tabulates it. -/
structure FormatTable where
  primaryFormat : ResourceFormat
  cubeFormat : ResourceFormat
  bindFlags : ResourceBindFlags
  needsDepthHelper : Bool
  supportsMips : Bool
  deriving DecidableEq, Repr

/-- The table of the specification: the plan for a shadow-map type, the configured depth
format and the mip setting. -/
def planFormats (type : ShadowMapType) (depthFormat : ResourceFormat) (mipMaps : Bool) :
    FormatTable :=
  let is32 : Bool := decide (depthFormat = ResourceFormat.D32Float)
  let filterable : Bool :=
    match type with
    | ShadowMapType.Variance | ShadowMapType.Exponential | ShadowMapType.ExponentialVariance
    | ShadowMapType.MSMHamburger | ShadowMapType.MSMHausdorff => true
    | _ => false
  let primary : ResourceFormat :=
    match type with
    | ShadowMapType.Variance =>
      if is32 then ResourceFormat.RG32Float else ResourceFormat.RG16Unorm
    | ShadowMapType.Exponential =>
      if is32 then ResourceFormat.R32Float else ResourceFormat.R16Float
    | ShadowMapType.ExponentialVariance | ShadowMapType.MSMHamburger
    | ShadowMapType.MSMHausdorff =>
      if is32 then ResourceFormat.RGBA32Float else ResourceFormat.RGBA16Float
    | _ => depthFormat
  { primaryFormat := primary
    cubeFormat :=
      if primary = ResourceFormat.D32Float then ResourceFormat.R32Float
      else if primary = ResourceFormat.D16Unorm then ResourceFormat.R16Unorm
      else primary
    bindFlags :=
      if filterable then
        { shaderResource := true, unorderedAccess := true, renderTarget := true }
      else { shaderResource := true, depthStencil := true }
    needsDepthHelper := filterable
    supportsMips := filterable && mipMaps }

/-- A light of kind `Point` with the given opening angle. -/
def pointLight (openingAngle : F) : Light F :=
  { type := LightType.Point, data := ⟨⟨0, 0, 0⟩, ⟨0, 0, -1⟩, openingAngle⟩ }

/-- A light of kind `Directional`. -/
def directionalLight (active : Bool) : Light F :=
  { type := LightType.Directional, data := ⟨⟨0, 0, 0⟩, ⟨0, -1, 0⟩, 0⟩, active := active }

/-- Three point lights, two spot lights and one directional light. -/
def sampleLights : List (Light ℚ) :=
  [pointLight 3, pointLight (1 / 2), directionalLight true, pointLight 2, pointLight 3,
    pointLight (1 / 4)]

end SpecNotions

section Samples

/-- Rational stand-ins for the library functions, with which the definitions are run on
concrete inputs: `pow b x` is the chord `1 + (b - 1) * x`, the camera and light matrices are
the identity, a box is its own transform and `radius` is half the extent in x. -/
def sampleEnv : MathEnv ℚ :=
  { pow := fun b x => 1 + (b - 1) * x
    focalLengthToFovY := fun focalLength frameHeight => frameHeight / focalLength
    perspective := fun _ _ _ _ => float4x4.identity
    inverse := fun m => m
    matrixFromLookAt := fun _ _ _ => float4x4.identity
    clamp := fun v lo hi =>
      ⟨max lo.x (min hi.x v.x), max lo.y (min hi.y v.y), max lo.z (min hi.z v.z)⟩
    transform := fun b _ => b
    radius := fun b => (b.maxPoint.x - b.minPoint.x) / 2
    emptyAABB := ⟨⟨FLT_MAX, FLT_MAX, FLT_MAX⟩, ⟨-FLT_MAX, -FLT_MAX, -FLT_MAX⟩⟩ }

/-- A camera with near plane `1` and far plane `4`. -/
def sampleCamera : CameraData ℚ :=
  { nearZ := 1, farZ := 4, focalLength := 21, frameHeight := 24, aspectRatio := 16 / 9,
    viewMat := float4x4.identity }

/-- A scene whose bounds have `radius` 2 in `sampleEnv`, so that `2 * radius` is the far plane
of the camera. -/
def sampleScene : SceneView ℚ :=
  { sceneBounds := ⟨⟨-2, -2, -2⟩, ⟨2, 2, 2⟩⟩, camera := sampleCamera }

/-- Manual split mode with two levels and the breakpoints `1/2` and `1/4`, as set through the
two sliders of the UI. -/
def manualDecreasing : ShadowMap ℚ :=
  { mCascadedFrustumMode := CascadedFrustumMode.Manual, mCascadedLevelCount := 2,
    mCascadedFrustumManualVals := [1 / 2, 1 / 4] }

end Samples

section ReuseNotions

variable {F : Type} [LinearOrderedField F]

/-- The value of the local `near` after `n` iterations of the loop over the levels: the near
plane of the camera, then the far distance of the last level processed. -/
def nearAfter (nearZ : F) (zSlices : List F) (n : Nat) : F :=
  match n with
  | 0 => nearZ
  | k + 1 => zSlices.getD k nearZ

/-- The corners that iteration `i` of the loop computes. -/
def levelCorners (env : MathEnv F) (scene : SceneView F) (zSlices : List F) (i : Nat) :
    List (float4 F) :=
  frustumCorners env scene.camera (nearAfter scene.camera.nearZ zSlices i) (zSlices.getD i 0)

end ReuseNotions

section SizeNotions

variable {F : Type} [LinearOrderedField F]

/-- The vectors that the loop over the levels indexes have room for the levels below `n`. -/
def loopSized (s : ShadowMap F) (st : CascadeLoop F) (n : Nat) : Prop :=
  n ≤ st.renderLevel.length ∧
  (s.mEnableTemporalCascadedBoxTest = true → n ≤ st.mCascadedTemporalReuse.length) ∧
  n ≤ st.mCascadedWidthHeight.length ∧
  n ≤ st.mCascadedVPMatrix.length ∧
  (s.mUseFrustumCulling = true →
    ∀ i, i < n → u32 (s.mFrustumCullingVectorOffsets.1 + i) < st.mFrustumCulling.length)

end SizeNotions

section DepthSample

/-- The corner `p` in the NDC range of a cache entry (lines 1291-1294). -/
def projectedCorner {F : Type} [LinearOrderedField F] (env : MathEnv F)
    (c : CascadedTemporalReuse F) (p : float4 F) : float3 F :=
  let viewP := clampedViewPoint env c.view c.aabb p
  (mulVec c.ortho ⟨viewP.x, viewP.y, viewP.z, 1⟩).xyz

end DepthSample

/-! ## The matrix buffers (`updateSMVPBuffer`) -/

section MatrixBuffer

/-- The loop of lines 1648-1649 from the index `i` on: `mats[stagingOffset + i] = vpMatrix[i]`
for the matrices that are left; `none` when an index is out of bounds. -/
def writeStaging {α : Type} (stagingOffset : Nat) :
    List (Option α) → Nat → List α → Option (List (Option α))
  | mats, _, [] => some mats
  | mats, i, m :: rest =>
    (setAt mats (stagingOffset + i) (some m)).bind fun mats =>
      writeStaging stagingOffset mats (i + 1) rest

/-- Modelled from the spec: `RenderContext::copyBufferRegion` is not part of the translated
sources; it is the region copy of `count` elements of `src` from `srcOffset` on into `dst` from
`dstOffset` on (offsets and sizes in elements, where the source gives them in bytes as
multiples of `sizeof(float4x4)`); `none` when a region is out of bounds. -/
def copyBufferRegion {α : Type} (dst : List (Option α)) (dstOffset : Nat)
    (src : List (Option α)) (srcOffset count : Nat) : Option (List (Option α)) :=
  if srcOffset + count ≤ src.length ∧ dstOffset + count ≤ dst.length then
    some (dst.take dstOffset ++ (src.drop srcOffset).take count ++
      dst.drop (dstOffset + count))
  else none

/-- What a call of `updateSMVPBuffer` leaves: the buffer object, the staging slot that was
written and the value given to `syncCpu`. -/
structure StagedUpload (F : Type) where
  vpBuffer : VPMatrixBuffer F
  slot : Nat
  fenceWaitVal : Nat
  deriving DecidableEq, Repr

/-- `ShadowMap::updateSMVPBuffer`; `lastFrameFenceValue` is what
`mpScene->getLastFrameFenceValue()` returns.  `none` is an access out of bounds or through a
null buffer. -/
def updateSMVPBuffer {F : Type} (vpBuffer : VPMatrixBuffer F) (lastFrameFenceValue : Nat)
    (vpMatrix : List (float4x4 F)) : Option (StagedUpload F) :=
  (setAt vpBuffer.stagingFenceWaitValues vpBuffer.stagingCount lastFrameFenceValue).bind
    fun fences =>
  let stagingCount := u32 (vpBuffer.stagingCount + 1) % kStagingBufferCount
  let totalSize := vpMatrix.length
  (fences[stagingCount]?).bind fun fenceWaitVal =>
  let stagingOffset := u32 (totalSize * stagingCount)
  vpBuffer.staging.bind fun staging =>
  (writeStaging stagingOffset staging.data 0 vpMatrix).bind fun mats =>
  vpBuffer.buffer.bind fun buffer =>
  (copyBufferRegion buffer.data 0 mats stagingOffset totalSize).bind fun data =>
  some
    { vpBuffer :=
        { buffer := some { buffer with data := data }
          staging := some { staging with data := mats }
          stagingFenceWaitValues := fences
          stagingCount := stagingCount }
      slot := stagingCount
      fenceWaitVal := fenceWaitVal }

end MatrixBuffer

section UploadNotions

/-- A sequence of calls of `updateSMVPBuffer` on one matrix buffer, each with the value that
`getLastFrameFenceValue` returns and the matrix list: the uploads in the order of the calls. -/
def uploads {F : Type} (vpBuffer : VPMatrixBuffer F) :
    List (Nat × List (float4x4 F)) → Option (List (StagedUpload F))
  | [] => some []
  | call :: rest =>
    (updateSMVPBuffer vpBuffer call.1 call.2).bind fun r =>
      (uploads r.vpBuffer rest).map fun log => r :: log

/-- The matrix buffer holds a persistent buffer of `n` elements and a staging buffer of
`kStagingBufferCount` slots of `n` elements, as `createVPMatrixBuffer` creates them, and its
slot counter and fence array are those of a ring of `kStagingBufferCount` slots. -/
def VPMatrixBuffer.sized {F : Type} (vpBuffer : VPMatrixBuffer F) (n : Nat) : Prop :=
  ∃ buffer staging, vpBuffer.buffer = some buffer ∧ vpBuffer.staging = some staging ∧
    buffer.elementCount = n ∧ buffer.data.length = n ∧
    staging.data.length = n * kStagingBufferCount ∧
    vpBuffer.stagingCount < kStagingBufferCount ∧
    vpBuffer.stagingFenceWaitValues.length = kStagingBufferCount

/-- The fence value that was read by the last call of `history` that wrote `slot`, and `0`
when no call of `history` wrote it; an entry of `history` is the slot that a call wrote and
the fence value that the call read. -/
def fenceAtLastWrite (history : List (Nat × Nat)) (slot : Nat) : Nat :=
  match history.reverse.find? (fun e => e.1 == slot) with
  | some e => e.2
  | none => 0

/-- The claim on the fence values, for the uploads `log` of a sequence of calls that read the
fence values `fences`: each call waits on the fence value read by the last earlier call that
wrote the same slot, and on 0 when no earlier call wrote it. -/
def waitsOnLastWrite {F : Type} (fences : List Nat) (log : List (StagedUpload F)) : Prop :=
  ∀ k r, log[k]? = some r →
    r.fenceWaitVal =
      fenceAtLastWrite (((log.take k).map fun e => e.slot).zip fences) r.slot

/-- Four calls with one matrix each, which read the fence values 7, 8, 9 and 10. -/
def sampleCalls : List (Nat × List (float4x4 ℚ)) :=
  [(7, [float4x4.identity]), (8, [float4x4.identity]), (9, [float4x4.identity]),
    (10, [float4x4.identity])]

/-- A matrix buffer for one matrix as `createVPMatrixBuffer` creates it in a new object. -/
def sampleVPBuffer : VPMatrixBuffer ℚ :=
  createVPMatrixBuffer {} 1 ("ShadowMap_VP") ("ShadowMap_VPStaging")

end UploadNotions

/-! ## Rendering (`rasterCubeEachFace`, `rasterSpotLight`, `rasterCascaded`) -/

/-- `RasterizerState::MeshRenderMode`, a bit mask; `{}` is `MeshRenderMode::All`. -/
structure MeshRenderMode where
  SkipStatic : Bool := false
  SkipDynamic : Bool := false
  SkipNonDoubleSided : Bool := false
  deriving DecidableEq, Repr

/-- The texture that a raster call renders into: `mpShadowMaps[idx]`, face `face` of
`mpShadowMapsCube[index]` or of `mpShadowMapsCubeStatic[index]`, or slice `level` of
`mpCascadedShadowMaps`. -/
inductive RenderTarget where
  | shadowMap (idx : Nat)
  | cube (index face : Nat)
  | cubeStatic (index face : Nat)
  | cascaded (level : Nat)
  deriving DecidableEq, Repr

/-- A call of `Scene::rasterizeFrustumCulling` (`culling` is the index of the entry of
`mFrustumCulling` that it is given) or of `Scene::rasterize` (`culling` is `none`).  The other
GPU commands of a frame (clears, copies, blur passes, mip generation) write no member of the
object and are not recorded. -/
structure RasterCall where
  target : RenderTarget
  meshRenderMode : MeshRenderMode
  culling : Option Nat
  deriving DecidableEq, Repr

/-- What the scene and the raster programs supply to one call of `update`: the lights, the
bounds and the camera, whether the camera moved (line 1614), the value of
`getLastFrameFenceValue`, and what `addDefines` returns for each of the three raster
programs. -/
structure Frame (F : Type) where
  lights : List (Light F)
  view : SceneView F
  cameraMoved : Bool := false
  lastFrameFenceValue : Nat := 0
  cubeDefinesChanged : Bool := false
  spotDefinesChanged : Bool := false
  cascadedDefinesChanged : Bool := false

section Raster

variable {F : Type} [LinearOrderedField F]

/-- The constant `float(M_PI_2)`: the `float` nearest to pi/2, which is `13176795 / 2 ^ 23`. -/
def M_PI_2 : F := 13176795 / 2 ^ 23

/-- Lines 1025-1035 of `rasterSpotLight`: the defines of the raster program are updated by
the call for the first light. -/
def spotDefines (s : ShadowMap F) (definesChanged : Bool) (index : Nat) : ShadowMap F :=
  if index = 0 then { s with mUpdateShadowMap := s.mUpdateShadowMap || definesChanged } else s

/-- Lines 1053-1063 of `rasterSpotLight`: the view-projection matrix and the frustum of the
light. -/
def updateSpotVP (env : MathEnv F) (s : ShadowMap F) (index : Nat) (lightData : LightData F) :
    Option (ShadowMap F) :=
  let lightTarget := lightData.posW.add lightData.dirW
  let up : float3 F := if |lightData.dirW.y| = 1 then ⟨0, 0, 1⟩ else ⟨0, 1, 0⟩
  let viewMat := env.matrixFromLookAt lightData.posW lightTarget up
  let projMat := env.perspective (lightData.openingAngle * 2) 1 s.mNear s.mFar
  (setAt s.mSpotDirViewProjMat index (mulMat projMat viewMat)).bind fun vp =>
  (if s.mUseFrustumCulling then
    setAt s.mFrustumCulling index
      { perspective := some
          { eye := lightData.posW, center := lightTarget, up := up, aspect := 1,
            fovY := lightData.openingAngle * 2, near := s.mNear, far := s.mFar } }
  else some s.mFrustumCulling).bind fun culling =>
  some { s with mSpotDirViewProjMat := vp, mFrustumCulling := culling }

/-- The lambda `bindAndRenderShadowMap` of `rasterSpotLight` (lines 1076-1117), for the light
`index`: the raster call into `mpShadowMaps[idx]`. -/
def bindAndRenderShadowMap (s : ShadowMap F) (index idx : Nat) (renderMode : MeshRenderMode) :
    Option RasterCall :=
  (s.mpShadowMaps[idx]?).bind fun _ =>
  if s.mUseFrustumCulling then
    (s.mFrustumCulling[index]?).map fun _ =>
      { target := RenderTarget.shadowMap idx, meshRenderMode := renderMode,
        culling := some index }
  else
    some { target := RenderTarget.shadowMap idx, meshRenderMode := renderMode, culling := none }

/-- `ShadowMap::rasterSpotLight`: the state, the returned flag and the raster calls, in the
order of the calls.  `definesChanged` is what `addDefines` returns; `none` is an access out of
bounds. -/
def rasterSpotLight (env : MathEnv F) (s : ShadowMap F) (definesChanged : Bool) (index : Nat)
    (light : Light F) : Option (ShadowMap F × Bool × List RasterCall) :=
  let s := spotDefines s definesChanged index
  let changes := light.changes
  let dynamicMode := decide (s.mShadowMapUpdateMode ≠ SMUpdateMode.Static) || s.mClearDynamicSM
  let lightMoved := changes.Position || changes.Direction
  let updateVP := changes.Active || lightMoved || s.mUpdateShadowMap
  if !light.active then some (s, false, [])
  else
    (if updateVP then updateSpotVP env s index light.data else some s).bind fun s =>
    (s.mSpotDirViewProjMat[index]?).bind fun _ =>
    (if updateVP then
      (bindAndRenderShadowMap s index index
        (if dynamicMode then { SkipDynamic := true } else {})).map fun call => [call]
    else some []).bind fun staticPass =>
    (if dynamicMode then
      let dynIndex := u32 (s.mCountSpotShadowMaps + index)
      (bindAndRenderShadowMap s index dynIndex { SkipStatic := true }).map fun call => [call]
    else some []).bind fun dynamicPass =>
    some (s, updateVP, staticPass ++ dynamicPass)

/-- The `switch` of `getProjViewForCubeFace` (lines 862-888): `lightTarget`, before the
position of the light is added, and `up`; `face` is below 6 at every call. -/
def cubeFaceAxes (face : Nat) : float3 F × float3 F :=
  match face with
  | 0 => (⟨1, 0, 0⟩, ⟨0, -1, 0⟩)
  | 1 => (⟨-1, 0, 0⟩, ⟨0, -1, 0⟩)
  | 2 => (⟨0, -1, 0⟩, ⟨0, 0, -1⟩)
  | 3 => (⟨0, 1, 0⟩, ⟨0, 0, 1⟩)
  | 4 => (⟨0, 0, 1⟩, ⟨0, -1, 0⟩)
  | _ => (⟨0, 0, -1⟩, ⟨0, -1, 0⟩)

/-- `ShadowMap::getProjViewForCubeFace` with its two output parameters: the matrix,
`lightTarget` and `up`. -/
def getProjViewForCubeFace (env : MathEnv F) (face : Nat) (lightData : LightData F)
    (projectionMatrix : float4x4 F) : float4x4 F × float3 F × float3 F :=
  let lightTarget := (cubeFaceAxes face).1.add lightData.posW
  let up : float3 F := (cubeFaceAxes face).2
  let viewMat := env.matrixFromLookAt lightData.posW lightTarget up
  (mulMat projectionMatrix viewMat, lightTarget, up)

/-- The render target of a face (lines 946-968): the textures that the branch indexes are
read, `none` when an index is out of bounds. -/
def cubeFaceTarget (s : ShadowMap F) (index face : Nat) (meshRenderMode : MeshRenderMode) :
    Option RenderTarget :=
  let cubeDepthIdx := u32 (index * 6 + face)
  if meshRenderMode.SkipDynamic then
    (s.mpShadowMapsCubeStatic[index]?).bind fun _ =>
    (s.mpDepthCubeStatic[cubeDepthIdx]?).map fun _ => RenderTarget.cubeStatic index face
  else if meshRenderMode.SkipStatic then
    (s.mpDepthCubeStatic[cubeDepthIdx]?).bind fun _ =>
    (if face = 0 then (s.mpShadowMapsCubeStatic[index]?).map fun _ => () else some ()).bind
      fun _ =>
    (s.mpShadowMapsCube[index]?).map fun _ => RenderTarget.cube index face
  else
    (s.mpShadowMapsCube[index]?).map fun _ => RenderTarget.cube index face

/-- One iteration of the loop over the faces in `rasterCubeEachFace` (lines 944-1008). -/
def rasterCubeFace (env : MathEnv F) (index : Nat) (light : Light F) (lightMoved : Bool)
    (meshRenderMode : MeshRenderMode) (acc : ShadowMap F × List RasterCall) (face : Nat) :
    Option (ShadowMap F × List RasterCall) :=
  let s := acc.1
  let projMat := env.perspective M_PI_2 1 s.mNear s.mFar
  (cubeFaceTarget s index face meshRenderMode).bind fun target =>
  let pv := getProjViewForCubeFace env face light.data projMat
  let cullingIndex := u32 (s.mFrustumCullingVectorOffsets.1 + index * 6 + face)
  (if (lightMoved || s.mUpdateShadowMap) && s.mUseFrustumCulling then
    setAt s.mFrustumCulling cullingIndex
      { perspective := some
          { eye := light.data.posW, center := pv.2.1, up := pv.2.2, aspect := 1,
            fovY := M_PI_2, near := s.mNear, far := s.mFar } }
  else some s.mFrustumCulling).bind fun culling =>
  (if s.mUseFrustumCulling then
    (culling[cullingIndex]?).map fun _ =>
      { target := target, meshRenderMode := meshRenderMode, culling := some cullingIndex }
  else
    some { target := target, meshRenderMode := meshRenderMode, culling := none }).bind
    fun (call : RasterCall) =>
  some ({ s with mFrustumCulling := culling }, acc.2 ++ [call])

/-- Lines 898-913 of `rasterCubeEachFace`: the defines are updated by the call for the first
light, and a pending re-render invalidates the static cube textures. -/
def cubeDefines (s : ShadowMap F) (definesChanged : Bool) (index : Nat) : ShadowMap F :=
  let s :=
    if index = 0 then { s with mUpdateShadowMap := s.mUpdateShadowMap || definesChanged }
    else s
  if s.mUpdateShadowMap then
    { s with mStaticTexturesReady := (s.mStaticTexturesReady.1, false) }
  else s

/-- `ShadowMap::rasterCubeEachFace`: the state and the raster calls. -/
def rasterCubeEachFace (env : MathEnv F) (s : ShadowMap F) (definesChanged : Bool)
    (index : Nat) (light : Light F) : Option (ShadowMap F × List RasterCall) :=
  let s := cubeDefines s definesChanged index
  let changes := light.changes
  let lightMoved := changes.Position
  let renderLight :=
    (match s.mShadowMapUpdateMode with
      | SMUpdateMode.Static => changes.Active || lightMoved
      | SMUpdateMode.Dynamic => true) || s.mUpdateShadowMap
  if !renderLight || !light.active then some (s, [])
  else
    let meshRenderMode : MeshRenderMode :=
      if decide (s.mShadowMapUpdateMode ≠ SMUpdateMode.Static) && !s.mStaticTexturesReady.2 then
        { SkipDynamic := true }
      else if s.mShadowMapUpdateMode ≠ SMUpdateMode.Static then { SkipStatic := true }
      else {}
    ((List.range 6).foldlM (rasterCubeFace env index light lightMoved meshRenderMode)
      (s, [])).map fun r =>
    (if meshRenderMode.SkipDynamic then
      { r.1 with mStaticTexturesReady := (r.1.mStaticTexturesReady.1, true) }
    else r.1, r.2)

end Raster

section RasterCascaded

variable {F : Type} [LinearOrderedField F]

/-- One iteration of the loop over the passes in `rasterCascaded` (lines 1381-1462), for the
flags `renderCascadedLevel` that `calcProjViewForCascaded` has written. -/
def rasterCascadedPass (s : ShadowMap F) (dynamicMode : Bool) (renderCascadedLevel : List Bool)
    (calls : List RasterCall) (i : Nat) : Option (List RasterCall) :=
  let cascLevel := if dynamicMode then i / 2 else i
  let isDynamic := if dynamicMode then decide (i % 2 = 1) else false
  let cascRenderTargetLevel :=
    if isDynamic then u32 (cascLevel + s.mCascadedLevelCount) else cascLevel
  (renderCascadedLevel[cascLevel]?).bind fun render =>
  if !render && !isDynamic then some calls
  else if s.mCanUseRayTracing && s.mCascadedLastLevelRayTrace &&
      decide (cascLevel > s.mCascadedLevelTrace) then some calls
  else
    (s.mCascadedVPMatrix[cascLevel]?).bind fun _ =>
    let meshRenderMode : MeshRenderMode :=
      if dynamicMode then
        (if isDynamic then { SkipStatic := true } else { SkipDynamic := true })
      else {}
    if dynamicMode && (s.mClearDynamicSM && isDynamic) then some calls
    else
      let meshRenderMode : MeshRenderMode :=
        if s.mSMDoubleSidedOnly then { meshRenderMode with SkipNonDoubleSided := true }
        else meshRenderMode
      if s.mUseFrustumCulling then
        let cullingIndex := u32 (s.mFrustumCullingVectorOffsets.1 + cascLevel)
        (s.mFrustumCulling[cullingIndex]?).map fun _ =>
          calls ++ [{ target := RenderTarget.cascaded cascRenderTargetLevel,
                      meshRenderMode := meshRenderMode, culling := some cullingIndex }]
      else
        some (calls ++ [{ target := RenderTarget.cascaded cascRenderTargetLevel,
                          meshRenderMode := meshRenderMode, culling := none }])

/-- Lines 1468-1479 of `rasterCascaded`: with a blur pass, the per-level blur flags are
resized to the level count and set. -/
def resizeBlurForCascaded (s : ShadowMap F) : ShadowMap F :=
  if s.mpBlurCascaded && decide (s.mBlurForCascaded.length ≠ s.mCascadedLevelCount) then
    { s with mBlurForCascaded := List.replicate s.mCascadedLevelCount true }
  else s

/-- `ShadowMap::rasterCascaded`: the state, the returned flag and the raster calls.
`definesChanged` is what `addDefines` returns and `view` holds the bounds and the camera of
the scene. -/
def rasterCascaded (env : MathEnv F) (s : ShadowMap F) (view : SceneView F)
    (definesChanged : Bool) (light : Light F) (cameraMoved : Bool) :
    Option (ShadowMap F × Bool × List RasterCall) :=
  let s := { s with mUpdateShadowMap := s.mUpdateShadowMap || definesChanged }
  let dynamicMode := decide (s.mShadowMapUpdateMode ≠ SMUpdateMode.Static) || s.mClearDynamicSM
  let directionChanged := light.changes.Direction
  if !cameraMoved && !s.mUpdateShadowMap && !dynamicMode && !directionChanged then
    some (s, false, [])
  else if !light.active then some (s, false, [])
  else
    (calcProjViewForCascaded env s view light.data
      (List.replicate s.mCascadedLevelCount false)
      (s.mUpdateShadowMap || directionChanged)).bind fun r =>
    let s := r.1
    let renderCascadedLevel := r.2
    let loopCount := if dynamicMode then u32 (s.mCascadedLevelCount * 2)
      else s.mCascadedLevelCount
    ((List.range loopCount).foldlM (rasterCascadedPass s dynamicMode renderCascadedLevel)
      []).map fun calls =>
    let oneStaticIsRendered := renderCascadedLevel.foldl (fun acc b => acc || b) false
    (resizeBlurForCascaded s, oneStaticIsRendered, calls)

end RasterCascaded

/-! ## `update` -/

/-- The three render lists of `update`. -/
structure RenderLists (F : Type) where
  lightRenderListCube : List (Light F) := []
  lightRenderListMisc : List (Light F) := []
  lightRenderListCascaded : List (Light F) := []

/-- How the loop over the lights in `update` (lines 1566-1592) ends: with a read of
`mPrevLightType` past its end, with the early return of lines 1572-1576, or with the render
lists. -/
inductive LightSort (F : Type) where
  | outOfBounds
  | typeChanged
  | sorted (lists : RenderLists F)

/-- What a call of `update` leaves: the state, the returned flag, the raster calls and the
values given to `syncCpu`, in the order of the calls. -/
structure UpdateResult (F : Type) [LinearOrderedField F] where
  state : ShadowMap F
  returned : Bool
  rasterCalls : List RasterCall := []
  fenceWaits : List Nat := []

section Update

variable {F : Type} [LinearOrderedField F]

/-- Modelled from the spec: `Scene::getActiveLightCount` is not part of the translated
sources; it is the number of lights of the scene that are active. -/
def getActiveLightCount (lights : List (Light F)) : Nat :=
  (lights.filter fun light => light.active).length

/-- Lines 1523-1530 of `update`; `prepareProgramms` builds the GPU programs and the parameter
block and writes no member of the embedding. -/
def applyTypeChanged (s : ShadowMap F) : ShadowMap F :=
  if s.mTypeChanged then
    { s with
      mResetShadowMapBuffers := true, mShadowResChanged := true, mBiasSettingsChanged := true,
      mTypeChanged := false }
  else s

/-- Lines 1532-1537 of `update`; `prepareRasterProgramms` builds the raster programs and
writes no member of the embedding. -/
def applyRasterDefinesChanged (s : ShadowMap F) : ShadowMap F :=
  if s.mRasterDefinesChanged then
    { s with mUpdateShadowMap := true, mRasterDefinesChanged := false }
  else s

/-- Lines 1539-1543 of `update`. -/
def rebuildBuffers (s : ShadowMap F) (lights : List (Light F)) :
    Except FatalError (ShadowMap F) :=
  if s.mResetShadowMapBuffers || s.mShadowResChanged then prepareShadowMapBuffers s lights
  else Except.ok s

/-- Lines 1545-1551 of `update`; `updateRasterizerStates` builds the rasterizer states and
writes no member of the embedding. -/
def applyBiasSettingsChanged (s : ShadowMap F) : ShadowMap F :=
  if s.mBiasSettingsChanged then
    { s with mUpdateShadowMap := true, mBiasSettingsChanged := false }
  else s

/-- Lines 1553-1554 of `update`. -/
def applyRerenderStatic (s : ShadowMap F) : ShadowMap F :=
  if s.mRerenderStatic && decide (s.mShadowMapUpdateMode = SMUpdateMode.Static) then
    { s with mUpdateShadowMap := true }
  else s

/-- `ShadowMap::prepareGaussianBlur`; a blur pass is modelled by whether it is held. -/
def prepareGaussianBlur (s : ShadowMap F) : ShadowMap F :=
  let filterableShadowMapType :=
    decide (s.mShadowMapType ≠ ShadowMapType.ShadowMap) &&
    decide (s.mShadowMapType ≠ ShadowMapType.SDVariance) &&
    decide (s.mShadowMapType ≠ ShadowMapType.SDExponentialVariance) &&
    decide (s.mShadowMapType ≠ ShadowMapType.SDMSM)
  if s.mUseGaussianBlur && filterableShadowMapType then
    let createShadowMap := !s.mpBlurShadowMap && decide (s.mpShadowMaps.length > 0)
    let createCascaded := !s.mpBlurCascaded && s.mpCascadedShadowMaps.isSome
    let createCube := !s.mpBlurCube && decide (s.mpShadowMapsCube.length > 0)
    { s with
      mpBlurShadowMap := s.mpBlurShadowMap || createShadowMap
      mpBlurCascaded := s.mpBlurCascaded || createCascaded
      mpBlurCube := s.mpBlurCube || createCube
      mUpdateShadowMap := s.mUpdateShadowMap || (createShadowMap || createCascaded || createCube) }
  else
    { s with
      mpBlurShadowMap := false, mpBlurCascaded := false, mpBlurCube := false
      mUpdateShadowMap :=
        s.mUpdateShadowMap || (s.mpBlurShadowMap || s.mpBlurCascaded || s.mpBlurCube) }

/-- Lines 1523-1556 of `update`: the pending changes are applied, which can rebuild the
buffers. -/
def applyPendingChanges (s : ShadowMap F) (lights : List (Light F)) :
    Except FatalError (ShadowMap F) :=
  (rebuildBuffers (applyRasterDefinesChanged (applyTypeChanged s)) lights).map fun s =>
    prepareGaussianBlur (applyRerenderStatic (applyBiasSettingsChanged s))

/-- The `switch` of lines 1578-1591. -/
def pushLight (lists : RenderLists F) (type : LightTypeSM) (light : Light F) : RenderLists F :=
  match type with
  | LightTypeSM.Directional =>
    { lists with lightRenderListCascaded := lists.lightRenderListCascaded ++ [light] }
  | LightTypeSM.Point => { lists with lightRenderListCube := lists.lightRenderListCube ++ [light] }
  | LightTypeSM.Spot => { lists with lightRenderListMisc := lists.lightRenderListMisc ++ [light] }
  | LightTypeSM.NotSupported => lists

/-- The loop over the lights of lines 1566-1592, from the index `i` on. -/
def sortLights (mPrevLightType : List LightTypeSM) :
    List (Light F) → Nat → RenderLists F → LightSort F
  | [], _, lists => LightSort.sorted lists
  | light :: rest, i, lists =>
    let type := getLightType light
    match mPrevLightType[i]? with
    | none => LightSort.outOfBounds
    | some prev =>
      if type ≠ prev then LightSort.typeChanged
      else sortLights mPrevLightType rest (i + 1) (pushLight lists type light)

/-- The loop of lines 1595-1596, over the cube list from the index `i` on. -/
def rasterCubeLights (env : MathEnv F) (frame : Frame F) :
    List (Light F) → Nat → ShadowMap F × List RasterCall →
      Option (ShadowMap F × List RasterCall)
  | [], _, acc => some acc
  | light :: rest, i, acc =>
    (rasterCubeEachFace env acc.1 frame.cubeDefinesChanged (u32 i) light).bind fun r =>
      rasterCubeLights env frame rest (i + 1) (r.1, acc.2 ++ r.2)

/-- The loop of lines 1601-1602, over the 2D list from the index `i` on; the flag is
`updateVP`. -/
def rasterSpotLights (env : MathEnv F) (frame : Frame F) :
    List (Light F) → Nat → ShadowMap F × Bool × List RasterCall →
      Option (ShadowMap F × Bool × List RasterCall)
  | [], _, acc => some acc
  | light :: rest, i, acc =>
    (rasterSpotLight env acc.1 frame.spotDefinesChanged (u32 i) light).bind fun r =>
      rasterSpotLights env frame rest (i + 1) (r.1, acc.2.1 || r.2.1, acc.2.2 ++ r.2.2)

/-- Lines 1604-1606 and 1620-1622: an upload of a matrix list when its flag is set. -/
def uploadIf (flag : Bool) (vpBuffer : VPMatrixBuffer F) (lastFrameFenceValue : Nat)
    (vpMatrix : List (float4x4 F)) : Option (VPMatrixBuffer F × List Nat) :=
  if flag then
    (updateSMVPBuffer vpBuffer lastFrameFenceValue vpMatrix).map fun r =>
      (r.vpBuffer, [r.fenceWaitVal])
  else some (vpBuffer, [])

/-- Lines 1594-1628 of `update`: the lights of the render lists are rendered, the matrix lists
that changed are uploaded and the flags are cleared. -/
def renderLights (env : MathEnv F) (s : ShadowMap F) (frame : Frame F)
    (lists : RenderLists F) : Option (UpdateResult F) :=
  (rasterCubeLights env frame lists.lightRenderListCube 0 (s, [])).bind fun cube =>
  (rasterSpotLights env frame lists.lightRenderListMisc 0 (cube.1, false, [])).bind fun misc =>
  (uploadIf misc.2.1 misc.1.mpVPMatrixBuffer frame.lastFrameFenceValue
    misc.1.mSpotDirViewProjMat).bind fun vp =>
  let s := { misc.1 with mpVPMatrixBuffer := vp.1 }
  (match lists.lightRenderListCascaded with
    | [] => some (s, false, [])
    | light :: _ =>
      rasterCascaded env s frame.view frame.cascadedDefinesChanged light
        frame.cameraMoved).bind fun cascaded =>
  (uploadIf cascaded.2.1 cascaded.1.mpCascadedVPMatrixBuffer frame.lastFrameFenceValue
    cascaded.1.mCascadedVPMatrix).bind fun cascadedVP =>
  some
    { state :=
        { cascaded.1 with
          mpCascadedVPMatrixBuffer := cascadedVP.1
          mClearDynamicSM := if cascaded.1.mClearDynamicSM then false
            else cascaded.1.mClearDynamicSM
          mUpdateShadowMap := false }
      returned := true
      rasterCalls := cube.2 ++ misc.2.2 ++ cascaded.2.2
      fenceWaits := vp.2 ++ cascadedVP.2 }

/-- `ShadowMap::update`; `scene` is `none` for a null `mpScene`.  The result is a fatal error
when `prepareShadowMapBuffers` raises one, and `none` when an access is out of bounds. -/
def update (env : MathEnv F) (s : ShadowMap F) (scene : Option (Frame F)) :
    Except FatalError (Option (UpdateResult F)) :=
  match scene with
  | none => Except.ok (some { state := s, returned := false })
  | some frame =>
    if getActiveLightCount frame.lights = 0 then
      Except.ok (some { state := s, returned := true })
    else
      (applyPendingChanges s frame.lights).map fun s =>
        match sortLights s.mPrevLightType frame.lights 0 {} with
        | LightSort.outOfBounds => none
        | LightSort.typeChanged =>
          some { state := { s with mResetShadowMapBuffers := true }, returned := false }
        | LightSort.sorted lists => renderLights env s frame lists

end Update

section FrameSamples

/-- A frame of a scene with one directional light and one point light. -/
def overlapFrame : Frame ℚ :=
  { lights := [directionalLight true, pointLight 3], view := sampleScene }

/-- The render target and the culling entry of every raster call of an update that
returns. -/
def cullingEntries (r : Except FatalError (Option (UpdateResult ℚ))) :
    List (RenderTarget × Option Nat) :=
  match r with
  | Except.ok (some r) => r.rasterCalls.map fun call => (call.target, call.culling)
  | _ => []

/-- A frame of a scene with one spot light. -/
def oneSpotFrame : Frame ℚ := { lights := [pointLight (1 / 2)], view := sampleScene }

/-- A frame of a scene with two spot lights. -/
def twoSpotFrame : Frame ℚ :=
  { lights := [pointLight (1 / 2), pointLight (1 / 4)], view := sampleScene }

/-- The flag that an update returns and the flag `mResetShadowMapBuffers` that it leaves;
`none` when the update does not return. -/
def returnedAndReset (r : Except FatalError (Option (UpdateResult ℚ))) : Option (Bool × Bool) :=
  match r with
  | Except.ok (some r) => some (r.returned, r.state.mResetShadowMapBuffers)
  | _ => none

/-- A scene whose only light is switched off. -/
def darkFrame : Frame ℚ := { lights := [directionalLight false], view := sampleScene }

end FrameSamples

section SortNotions

variable {F : Type} [LinearOrderedField F]

/-- The subsequence of the lights of `lights` with classification `t`, in the order of
`lights`. -/
def lightsOfType (t : LightTypeSM) (lights : List (Light F)) : List (Light F) :=
  lights.filter fun l => decide (getLightType l = t)

/-- The state in which `update` reaches the loop over the lights when no rebuild is pending
for `prepared`. -/
def readyToRender (s : ShadowMap F) : ShadowMap F :=
  prepareGaussianBlur (applyRerenderStatic (applyBiasSettingsChanged s))

end SortNotions

section CarriedNotions

/-- The members that rendering does not write: the cached classifications and the
pending-change flags other than `mUpdateShadowMap` and `mClearDynamicSM`. -/
structure Carried where
  mPrevLightType : List LightTypeSM
  mTypeChanged : Bool
  mRasterDefinesChanged : Bool
  mBiasSettingsChanged : Bool
  mResetShadowMapBuffers : Bool
  mShadowResChanged : Bool

def carried {F : Type} [LinearOrderedField F] (s : ShadowMap F) : Carried :=
  { mPrevLightType := s.mPrevLightType, mTypeChanged := s.mTypeChanged,
    mRasterDefinesChanged := s.mRasterDefinesChanged,
    mBiasSettingsChanged := s.mBiasSettingsChanged,
    mResetShadowMapBuffers := s.mResetShadowMapBuffers,
    mShadowResChanged := s.mShadowResChanged }

end CarriedNotions

section FrameSamples2

/-- A frame of the scene with the sample lights. -/
def sampleFrame : Frame ℚ := { lights := sampleLights, view := sampleScene }

/-- A new object on which every kind of change is pending. -/
def allPending : ShadowMap ℚ :=
  { mTypeChanged := true, mRasterDefinesChanged := true, mBiasSettingsChanged := true,
    mClearDynamicSM := true, mResetShadowMapBuffers := true, mShadowResChanged := true }

end FrameSamples2

section FrameSamples3

/-- A frame of a scene with one point light. -/
def onePointFrame : Frame ℚ := { lights := [pointLight 3], view := sampleScene }

/-- A frame of a scene whose only light is a point light that is switched off. -/
def inactivePointFrame : Frame ℚ :=
  { lights := [{ pointLight 3 with active := false }], view := sampleScene }

/-- The call of `update` that follows a call that has returned. -/
def thenUpdate (env : MathEnv ℚ) (r : Except FatalError (Option (UpdateResult ℚ)))
    (scene : Option (Frame ℚ)) : Except FatalError (Option (UpdateResult ℚ)) :=
  match r with
  | Except.ok (some r) => update env r.state scene
  | other => other

/-- Whether the spot matrix buffer and the cascaded matrix buffer are held after an update
that has returned. -/
def matrixBuffersHeld (r : Except FatalError (Option (UpdateResult ℚ))) :
    Option (Bool × Bool) :=
  match r with
  | Except.ok (some r) =>
    some (r.state.mpVPMatrixBuffer.buffer.isSome, r.state.mpCascadedVPMatrixBuffer.buffer.isSome)
  | _ => none

/-- A dynamic scene with two spot lights after its first frame: the object as
`prepareShadowMapBuffers` leaves it, with `mUpdateShadowMap` cleared. -/
def dynamicSpots : ShadowMap ℚ :=
  { prepared ({ mSceneIsDynamic := true, mShadowMapUpdateMode := SMUpdateMode.Dynamic })
      twoSpotFrame.lights with mUpdateShadowMap := false }

/-- A spot light that has moved. -/
def movedSpot : Light ℚ := { pointLight (1 / 4) with changes := { Position := true } }

/-- The object with one cached spot light when `update` reaches the loop over the lights. -/
def staleSpot : ShadowMap ℚ := readyToRender (prepared {} oneSpotFrame.lights)

/-- The object `staleSpot` with the reset flag set. -/
def flagged : ShadowMap ℚ := { staleSpot with mResetShadowMapBuffers := true }

end FrameSamples3

section AlphaTest

variable {F : Type} [LinearOrderedField F]

/-- `ShadowMap::getCascadedFarForLevel`; the index is in bounds where the slice is read. -/
def getCascadedFarForLevel (s : ShadowMap F) (level : Nat) : F :=
  if s.mCascadedZSlices.length > level then
    let range := s.mCascadedZSlices.getD level 0 - s.mNear
    s.mCascadedZSlices.getD level 0 + s.mCascadedStochasticRange * range
  else 0

/-- `ShadowMap::getCascadedAlphaTestDistance`; the subtraction is one of `uint` values. -/
def getCascadedAlphaTestDistance (s : ShadowMap F) : F :=
  if s.mCascadedDisableAlphaLevel < s.mCascadedLevelCount then
    getCascadedFarForLevel s (u32 (s.mCascadedDisableAlphaLevel + 2 ^ 32 - 1))
  else 100000

end AlphaTest

section AlphaSamples

/-- Four far distances, as the planner leaves them, with the alpha test disabled from level 2
on. -/
def alphaFromTwo : ShadowMap ℚ :=
  { mCascadedZSlices := [2, 4, 8, 16], mCascadedDisableAlphaLevel := 2, mNear := 1 }

/-- A box that reaches from -2 to 2 in x and from 1 to 3 in y. -/
def sampleBox : OrthoBox ℚ := { minX := -2, maxX := 2, minY := 1, maxY := 3, minZ := -1, maxZ := 1 }

end AlphaSamples

section SlotNotions

/-- The matrix buffer before each call of a sequence and after the last one: the buffer that
the sequence starts with, then the buffer that each upload of `log` leaves. -/
def buffersAlong {F : Type} (vpBuffer : VPMatrixBuffer F) (log : List (StagedUpload F)) :
    List (VPMatrixBuffer F) :=
  vpBuffer :: log.map fun r => r.vpBuffer

/-- What a call that writes the slot `slot` with the `n` matrices `vpMatrix` does to the
staging content `before`, leaving `after`: the elements of the slot are the matrices and every
other element is as it was. -/
def writesSlot {F : Type} (before after : List (Option (float4x4 F))) (slot n : Nat)
    (vpMatrix : List (float4x4 F)) : Prop :=
  after.length = before.length ∧ slot * n + n ≤ before.length ∧
  (∀ i, i < n → after[slot * n + i]? = (vpMatrix[i]?).map some) ∧
  ∀ j, (j < slot * n ∨ slot * n + n ≤ j) → after[j]? = before[j]?

end SlotNotions

section RegistryNotions

/-- The members that decide which culling entries exist and which ones rendering uses. -/
structure Registry where
  mUseFrustumCulling : Bool
  mCountSpotShadowMaps : Nat
  mCascadedLevelCount : Nat
  offsets : Nat × Nat
  size : Nat
  deriving DecidableEq, Repr

def registry {F : Type} [LinearOrderedField F] (s : ShadowMap F) : Registry :=
  { mUseFrustumCulling := s.mUseFrustumCulling
    mCountSpotShadowMaps := s.mCountSpotShadowMaps
    mCascadedLevelCount := s.mCascadedLevelCount
    offsets := s.mFrustumCullingVectorOffsets
    size := s.mFrustumCulling.length }

end RegistryNotions

section LevelNotions

variable {F : Type} [LinearOrderedField F]

/-- The view-projection matrix and the width and height that an iteration of the loop over
the levels computes when it is not skipped (lines 1232-1333), for the local `near` and the far
distance `zFar` of the level: the box is enlarged when temporal reuse is enabled. -/
def levelResult (env : MathEnv F) (s : ShadowMap F) (scene : SceneView F)
    (lightData : LightData F) (near zFar : F) : float4x4 F × float2 F :=
  let corners := frustumCorners env scene.camera near zFar
  let center := frustumCenter corners
  let upVec : float3 F := ⟨0, 1, 0⟩
  let casView := env.matrixFromLookAt center (center.add lightData.dirW) upVec
  let smViewAABB := env.transform scene.sceneBounds casView
  let b0 := levelBox env casView smViewAABB corners
  let b := if s.mEnableTemporalCascadedBoxTest then enlargeBox s.mCascadedReuseEnlargeFactor b0
    else b0
  (mulMat (casProj b) casView, ⟨|b.maxX - b.minX|, |b.maxY - b.minY|⟩)

/-- What the loop over the levels holds for the level `j`: the render flag, the matrix, the
width and height and the cache entry. -/
def levelAt (st : CascadeLoop F) (j : Nat) :
    Option Bool × Option (float4x4 F) × Option (float2 F) × Option (CascadedTemporalReuse F) :=
  (st.renderLevel[j]?, st.mCascadedVPMatrix[j]?, st.mCascadedWidthHeight[j]?,
    st.mCascadedTemporalReuse[j]?)

end LevelNotions

section SettingsNotions

/-- The members that the render functions only read: the settings of the passes, the counts
and the sizes of the textures. -/
structure Settings where
  mSceneIsDynamic : Bool
  mShadowMapUpdateMode : SMUpdateMode
  mCascadedLevelCount : Nat
  mCanUseRayTracing : Bool
  mCascadedLastLevelRayTrace : Bool
  mCascadedLevelTrace : Nat
  mSMDoubleSidedOnly : Bool
  mUseFrustumCulling : Bool
  mFrustumCullingVectorOffsets : Nat × Nat
  mCountSpotShadowMaps : Nat
  spotTextures : Nat
  cascadeSlices : Option Nat
  deriving DecidableEq, Repr

def settings {F : Type} [LinearOrderedField F] (s : ShadowMap F) : Settings :=
  { mSceneIsDynamic := s.mSceneIsDynamic
    mShadowMapUpdateMode := s.mShadowMapUpdateMode
    mCascadedLevelCount := s.mCascadedLevelCount
    mCanUseRayTracing := s.mCanUseRayTracing
    mCascadedLastLevelRayTrace := s.mCascadedLastLevelRayTrace
    mCascadedLevelTrace := s.mCascadedLevelTrace
    mSMDoubleSidedOnly := s.mSMDoubleSidedOnly
    mUseFrustumCulling := s.mUseFrustumCulling
    mFrustumCullingVectorOffsets := s.mFrustumCullingVectorOffsets
    mCountSpotShadowMaps := s.mCountSpotShadowMaps
    spotTextures := s.mpShadowMaps.length
    cascadeSlices := s.mpCascadedShadowMaps.map fun t => t.arraySize }

/-- Level `i` is left to ray tracing (line 1391). -/
def fullyRayTraced {F : Type} [LinearOrderedField F] (s : ShadowMap F) (i : Nat) : Bool :=
  s.mCanUseRayTracing && s.mCascadedLastLevelRayTrace && decide (i > s.mCascadedLevelTrace)

/-- The raster call of the static pass of cascade level `i` (lines 1394-1461). -/
def staticCascadeCall {F : Type} [LinearOrderedField F] (s : ShadowMap F) (dynamicMode : Bool)
    (i : Nat) : RasterCall :=
  let meshRenderMode : MeshRenderMode := if dynamicMode then { SkipDynamic := true } else {}
  { target := RenderTarget.cascaded i
    meshRenderMode :=
      if s.mSMDoubleSidedOnly then { meshRenderMode with SkipNonDoubleSided := true }
      else meshRenderMode
    culling :=
      if s.mUseFrustumCulling then some (u32 (s.mFrustumCullingVectorOffsets.1 + i)) else none }

/-- Neither early return of `rasterCascaded` is taken (lines 1366-1373), so that the planner
`calcProjViewForCascaded` runs. -/
def cascadesPlanned {F : Type} [LinearOrderedField F] (s : ShadowMap F) (definesChanged : Bool)
    (light : Light F) (cameraMoved : Bool) : Bool :=
  let mUpdateShadowMap := s.mUpdateShadowMap || definesChanged
  let dynamicMode := decide (s.mShadowMapUpdateMode ≠ SMUpdateMode.Static) || s.mClearDynamicSM
  let directionChanged := light.changes.Direction
  !(!cameraMoved && !mUpdateShadowMap && !dynamicMode && !directionChanged) && light.active

end SettingsNotions

section SnapshotSamples

/-- A point light whose position has changed in the frame. -/
def movedPoint : Light ℚ := { pointLight 3 with changes := { Position := true } }

/-- A frame of a scene with one point light, which has moved. -/
def movedPointFrame : Frame ℚ := { lights := [movedPoint], view := sampleScene }

/-- The object after its constructor for a scene with dynamic geometry and one point light
(lines 82-87 and 122). -/
def dynamicPoint : ShadowMap ℚ :=
  prepared ({ mSceneIsDynamic := true, mShadowMapUpdateMode := SMUpdateMode.Dynamic })
    onePointFrame.lights

/-- The render target and the mesh render mode of every raster call of an update that
returns. -/
def renderModes (r : Except FatalError (Option (UpdateResult ℚ))) :
    List (RenderTarget × MeshRenderMode) :=
  match r with
  | Except.ok (some r) => r.rasterCalls.map fun call => (call.target, call.meshRenderMode)
  | _ => []

end SnapshotSamples

/-! ## `GpuMemoryHeap` -/

section Heap

/-- A `size_t` or `uint64_t` value after an operation: arithmetic is modulo `2 ^ 64`. -/
def u64 (n : Nat) : Nat := n % 2 ^ 64

/-- Modelled from the spec: what `GpuMemoryHeap.cpp` takes from headers that are not among the
translated sources, `align_to(alignment, value)` of `Utils/Math/Common.h` and the constant
`Allocation::kMegaPageId` of `GpuMemoryHeap.h`.  They are parameters of the model. -/
structure HeapEnv where
  align_to : Nat → Nat → Nat
  kMegaPageId : Nat

/-- Modelled from the spec: `GpuMemoryHeap::PageData`, with the members that
`GpuMemoryHeap.cpp` reads and writes; the buffer of the page and its mapping are not
modelled. -/
structure PageData where
  allocationsCount : Nat := 0
  currentOffset : Nat := 0
  deriving DecidableEq, Repr

/-- Modelled from the spec: `GpuMemoryHeap::Allocation`; `gfxBufferResource` records whether
the reference to the buffer is set. -/
structure Allocation where
  pageID : Nat := 0
  offset : Nat := 0
  fenceValue : Nat := 0
  gfxBufferResource : Bool := false
  deriving DecidableEq, Repr

/-- Modelled from the spec: the members of `GpuMemoryHeap`.  `mUsedPages` is a map from page
ids to pages, `mAvailablePages` a queue (front first) and `mDeferredReleases` a priority
queue whose top is a release with the smallest fence value. -/
structure GpuMemoryHeap where
  mPageSize : Nat
  mCurrentPageId : Nat := 0
  mpActivePage : Option PageData := none
  mUsedPages : List (Nat × PageData) := []
  mAvailablePages : List PageData := []
  mDeferredReleases : List Allocation := []
  deriving DecidableEq, Repr

namespace GpuMemoryHeap

/-- The assignment `mUsedPages[id] = page`. -/
def setUsedPage (used : List (Nat × PageData)) (id : Nat) (page : PageData) :
    List (Nat × PageData) :=
  (id, page) :: used.filter fun e => decide (e.1 ≠ id)

/-- `GpuMemoryHeap::allocateNewPage` (lines 54-76). -/
def allocateNewPage (h : GpuMemoryHeap) : GpuMemoryHeap :=
  let used :=
    match h.mpActivePage with
    | some page => setUsedPage h.mUsedPages h.mCurrentPageId page
    | none => h.mUsedPages
  let next : PageData × List PageData :=
    match h.mAvailablePages with
    | page :: rest => ({ page with allocationsCount := 0, currentOffset := 0 }, rest)
    | [] => ({}, [])
  { h with
    mUsedPages := used
    mpActivePage := some { next.1 with currentOffset := 0 }
    mAvailablePages := next.2
    mCurrentPageId := u64 (h.mCurrentPageId + 1) }

/-- The constructor (lines 43-47): the first page becomes active. -/
def create (pageSize : Nat) : GpuMemoryHeap :=
  allocateNewPage { mPageSize := pageSize }

/-- `GpuMemoryHeap::allocate` (lines 78-106); `cpuValue` is the value of
`mpFence->getCpuValue()`.  The result is `none` when there is no active page. -/
def allocate (env : HeapEnv) (h : GpuMemoryHeap) (size alignment cpuValue : Nat) :
    Option (Allocation × GpuMemoryHeap) :=
  if size > h.mPageSize then
    some ({ pageID := env.kMegaPageId, offset := 0, fenceValue := cpuValue,
            gfxBufferResource := true }, h)
  else
    h.mpActivePage.bind fun active =>
    let currentOffset := env.align_to alignment active.currentOffset
    let r : Nat × GpuMemoryHeap :=
      if u64 (currentOffset + size) > h.mPageSize then (0, allocateNewPage h)
      else (currentOffset, h)
    r.2.mpActivePage.map fun active =>
      ({ pageID := r.2.mCurrentPageId, offset := r.1, fenceValue := cpuValue,
         gfxBufferResource := true },
       { r.2 with
         mpActivePage := some
           { active with
             currentOffset := u64 (r.1 + size)
             allocationsCount := u32 (active.allocationsCount + 1) } })

/-- `GpuMemoryHeap::release` (lines 108-112). -/
def release (h : GpuMemoryHeap) (data : Allocation) : Except FatalError GpuMemoryHeap :=
  (FALCOR_ASSERT data.gfxBufferResource "data.gfxBufferResource").map fun _ =>
    { h with mDeferredReleases := data :: h.mDeferredReleases }

/-- The top of the priority queue: a release with the smallest fence value. -/
def top (queue : List Allocation) : Option Allocation :=
  queue.foldl
    (fun best data =>
      match best with
      | none => some data
      | some b => if data.fenceValue < b.fenceValue then some data else some b)
    none

/-- The body of the loop of `executeDeferredReleases` for the release `data`
(lines 119-140), without the `pop`; `none` when the page of the release is looked up and not
found. -/
def executeRelease (env : HeapEnv) (h : GpuMemoryHeap) (data : Allocation) :
    Option GpuMemoryHeap :=
  if data.pageID = h.mCurrentPageId then
    h.mpActivePage.map fun active =>
      let count := u32 (active.allocationsCount + 2 ^ 32 - 1)
      { h with
        mpActivePage := some
          { allocationsCount := count
            currentOffset := if count = 0 then 0 else active.currentOffset } }
  else if data.pageID ≠ env.kMegaPageId then
    (h.mUsedPages.lookup data.pageID).map fun pData =>
      let count := u32 (pData.allocationsCount + 2 ^ 32 - 1)
      if count = 0 then
        { h with
          mAvailablePages := h.mAvailablePages ++ [{ pData with allocationsCount := count }]
          mUsedPages := h.mUsedPages.filter fun e => decide (e.1 ≠ data.pageID) }
      else
        { h with
          mUsedPages := setUsedPage h.mUsedPages data.pageID
            { pData with allocationsCount := count } }
  else some h

/-- The loop of `executeDeferredReleases` for at most `fuel` iterations. -/
def executeLoop (env : HeapEnv) (gpuVal : Nat) : Nat → GpuMemoryHeap → Option GpuMemoryHeap
  | 0, h => some h
  | fuel + 1, h =>
    match top h.mDeferredReleases with
    | none => some h
    | some data =>
      if data.fenceValue ≤ gpuVal then
        (executeRelease env h data).bind fun h' =>
          executeLoop env gpuVal fuel
            { h' with mDeferredReleases := h'.mDeferredReleases.erase data }
      else some h

/-- `GpuMemoryHeap::executeDeferredReleases` (lines 114-142); `gpuVal` is the value of
`mpFence->getGpuValue()`.  Every iteration pops a release, so the number of queued releases
bounds the number of iterations. -/
def executeDeferredReleases (env : HeapEnv) (h : GpuMemoryHeap) (gpuVal : Nat) :
    Option GpuMemoryHeap :=
  executeLoop env gpuVal h.mDeferredReleases.length h

end GpuMemoryHeap

/-- An allocation that was served from a page: the page id, the offset and the size of the
request. -/
structure Made where
  pageID : Nat
  offset : Nat
  size : Nat
  deriving DecidableEq, Repr

/-- A call of the interface of the heap, with the values that the fence supplies. -/
inductive HeapCall where
  | allocate (size alignment cpuValue : Nat)
  | release (data : Allocation)
  | executeDeferredReleases (gpuVal : Nat)
  deriving DecidableEq, Repr

/-- One call on a heap.  The list that goes with the heap holds the allocations made on the
active page since it became active; with `sinceRewind` the list is also emptied when
`executeDeferredReleases` resets the offset of the active page.  The result is `none` when the
call does not return. -/
def heapStep (env : HeapEnv) (sinceRewind : Bool) (st : GpuMemoryHeap × List Made) :
    HeapCall → Option (GpuMemoryHeap × List Made)
  | HeapCall.allocate size alignment cpuValue =>
    (st.1.allocate env size alignment cpuValue).map fun r =>
      (r.2,
        if size > st.1.mPageSize then st.2
        else if r.2.mCurrentPageId = st.1.mCurrentPageId then
          st.2 ++ [{ pageID := r.1.pageID, offset := r.1.offset, size := size }]
        else [{ pageID := r.1.pageID, offset := r.1.offset, size := size }])
  | HeapCall.release data =>
    match st.1.release data with
    | Except.ok h => some (h, st.2)
    | Except.error _ => none
  | HeapCall.executeDeferredReleases gpuVal =>
    (st.1.executeDeferredReleases env gpuVal).map fun h =>
      (h,
        if sinceRewind && decide (h.mpActivePage.map (fun p => p.currentOffset) ≠
            st.1.mpActivePage.map (fun p => p.currentOffset)) then []
        else st.2)

/-- A sequence of calls on a heap. -/
def heapCalls (env : HeapEnv) (sinceRewind : Bool) (st : GpuMemoryHeap × List Made)
    (calls : List HeapCall) : Option (GpuMemoryHeap × List Made) :=
  calls.foldlM (heapStep env sinceRewind) st

/-- What the heap relies on in `align_to`: for a positive alignment the result is the least
multiple of the alignment that is not below the value. -/
def HeapEnv.rounds (env : HeapEnv) : Prop :=
  ∀ a v, 0 < a → a ∣ env.align_to a v ∧ v ≤ env.align_to a v ∧ env.align_to a v < v + a

/-- The requests that the heap is made for: a positive alignment, and sizes for which the
`size_t` arithmetic of `allocate` does not wrap. -/
def HeapCall.fits (pageSize : Nat) : HeapCall → Prop
  | HeapCall.allocate _ alignment _ => 0 < alignment ∧ alignment + 2 * pageSize ≤ 2 ^ 64
  | _ => True

/-- The active page exists, its offset is within the page, and the allocations of the list
were made on it below its offset. -/
def heapInv (h : GpuMemoryHeap) (live : List Made) : Prop :=
  ∃ p, h.mpActivePage = some p ∧ p.currentOffset ≤ h.mPageSize ∧
    ∀ m ∈ live, m.pageID = h.mCurrentPageId ∧ m.offset + m.size ≤ p.currentOffset

/-- Modelled from the spec: `align_to` as the round-up to a multiple of the alignment and
`kMegaPageId` as the largest `uint64_t`, with which the model is run on examples. -/
def sampleHeapEnv : HeapEnv :=
  { align_to := fun alignment value => (value + alignment - 1) / alignment * alignment
    kMegaPageId := 2 ^ 64 - 1 }

/-- The first allocation of `heapOverlap`: eight bytes at the start of the first page. -/
def firstAllocation : Allocation :=
  { pageID := 1, offset := 0, fenceValue := 5, gfxBufferResource := true }

/-- An allocation of eight bytes on a new heap with pages of 64 bytes, its release, and a
call of `executeDeferredReleases` after the fence has passed. -/
def rewindCalls : List HeapCall :=
  [HeapCall.allocate 8 4 5, HeapCall.release firstAllocation,
    HeapCall.executeDeferredReleases 5]

end Heap

/-! ## The constructor and the UI functions -/

section UI

variable {F : Type} [LinearOrderedField F]

/-- Modelled from the spec: the widgets of `Gui::Widgets` are not part of the translated
sources.  A checkbox, a dropdown or a `var` holds a value; `input` is the value that the user
sets in the frame, if any, and the widget returns whether the value has changed. -/
def widgetSet {α : Type} [DecidableEq α] (value : α) (input : Option α) : α × Bool :=
  match input with
  | none => (value, false)
  | some v => (v, decide (v ≠ value))

/-- Modelled from the spec: `var(label, value, min, max, step)` on a `uint`, which keeps the
value that the user sets within `[min, max]`. -/
def varUint (value lo hi : Nat) (input : Option Nat) : Nat × Bool :=
  widgetSet value (input.map fun v => max lo (min hi v))

/-- Modelled from the spec: `var(label, value, min, max, step)` on a `float`. -/
def varFloat (value lo hi : F) (input : Option F) : F × Bool :=
  widgetSet value (input.map fun v => max lo (min hi v))

/-- What the user and the members outside the embedding supply to one call of a UI function:
the value set in each widget that writes a member of the embedding (`none` when the widget is
left alone), whether each group is open, whether each button is pressed, the values of the
function-static `resolution` and `nearFar` after their widgets, and the results of the
widgets that decide a write of a flag but hold a member outside the embedding (alpha test,
cull mode, bias, the stochastic levels and the UI of the blur passes). -/
structure UIInput (F : Type) where
  shadowMapType : Option ShadowMapType := none
  commonSettings : Bool := true
  resolution : Nat × Nat × Nat := (2048, 1024, 2048)
  applyChange : Bool := false
  near : Option F := none
  far : Option F := none
  nearFar : F × F
  alphaTestChanged : Bool := false
  useAlphaTest : Bool := false
  alphaModeChanged : Bool := false
  cullModeChanged : Bool := false
  useFrustumCulling : Option Bool := none
  renderEveryFrame : Option Bool := none
  updateMode : Option SMUpdateMode := none
  resetStaticSM : Bool := false
  doubleSidedOnly : Option Bool := none
  typeOptions : Bool := true
  biasChanged : Bool := false
  enableBlur : Option Bool := none
  enableBlurMip : Option Bool := none
  useMipMaps : Option Bool := none
  cascadedOptions : Bool := true
  cascadedLevel : Option Nat := none
  frustumMode : Option CascadedFrustumMode := none
  manualVals : List (Option F) := []
  frustumFix : Option F := none
  levelTrace : Option Nat := none
  lastLevelRayTrace : Option Bool := none
  temporalReuse : Option Bool := none
  enlargeFactor : Option F := none
  useStochasticLevels : Bool := false
  stochasticRange : Option F := none
  disableAlphaLevel : Option Nat := none
  gaussianBlurOptions : Bool := true
  blurShadowMapGroup : Bool := true
  blurCascadedGroup : Bool := true
  blurCubeGroup : Bool := true
  blurShadowMapChanged : Bool := false
  blurCascadedChanged : Bool := false
  blurCubeChanged : Bool := false
  blurPerLevel : Bool := true
  blurForCascaded : List (Option Bool) := []

/-- The dropdown "Shadow Map Type" (lines 1664-1682 and 1998-2016). -/
def uiShadowMapType (s : ShadowMap F) (ui : UIInput F) : ShadowMap F :=
  let type := widgetSet s.mShadowMapType ui.shadowMapType
  if type.2 then { s with mShadowMapType := type.1, mTypeChanged := true }
  else { s with mShadowMapType := type.1 }

/-- The button "Apply Change" (lines 1696-1704 and 2045-2052). -/
def uiApplyResolution (s : ShadowMap F) (ui : UIInput F) : ShadowMap F :=
  if ui.applyChange then
    { s with
      mShadowMapSize := ui.resolution.1
      mShadowMapSizeCube := ui.resolution.2.1
      mShadowMapSizeCascaded := ui.resolution.2.2
      mShadowResChanged := true }
  else s

/-- The rest of the group "Common Settings" of `renderUILeakTracing` (lines 1707-1733). -/
def uiCommonWidgetsLeakTracing (s : ShadowMap F) (ui : UIInput F) : ShadowMap F :=
  let hasPointSpot := decide (s.mpShadowMaps.length > 0) || decide (s.mpShadowMapsCube.length > 0)
  let raster := s.mRasterDefinesChanged || ui.alphaTestChanged
  let culling := widgetSet s.mUseFrustumCulling ui.useFrustumCulling
  { s with
    mNear := if hasPointSpot then (widgetSet s.mNear ui.near).1 else s.mNear
    mFar := if hasPointSpot then (widgetSet s.mFar ui.far).1 else s.mFar
    mRasterDefinesChanged := if ui.useAlphaTest then raster || ui.alphaModeChanged else raster
    mUpdateShadowMap := if ui.cullModeChanged then true else s.mUpdateShadowMap
    mUseFrustumCulling := culling.1
    mResetShadowMapBuffers := s.mResetShadowMapBuffers || culling.2
    mRerenderStatic :=
      if s.mShadowMapUpdateMode = SMUpdateMode.Static then
        (widgetSet s.mRerenderStatic ui.renderEveryFrame).1
      else s.mRerenderStatic }

/-- The group "Common Settings" of `renderUILeakTracing` (lines 1686-1734). -/
def uiCommonLeakTracing (s : ShadowMap F) (ui : UIInput F) : ShadowMap F :=
  if ui.commonSettings then uiCommonWidgetsLeakTracing (uiApplyResolution s ui) ui else s

/-- The lambda `blurMipUi` of `renderUILeakTracing` (lines 1746-1756). -/
def blurMipUi (s : ShadowMap F) (ui : UIInput F) : ShadowMap F :=
  let mips := widgetSet s.mUseShadowMipMaps ui.useMipMaps
  { s with
    mUseGaussianBlur := (widgetSet s.mUseGaussianBlur ui.enableBlurMip).1
    mUseShadowMipMaps := mips.1
    mResetShadowMapBuffers := s.mResetShadowMapBuffers || mips.2 }

/-- The checkbox "Enable Blur" of a type specific group. -/
def uiEnableBlur (s : ShadowMap F) (ui : UIInput F) : ShadowMap F :=
  { s with mUseGaussianBlur := (widgetSet s.mUseGaussianBlur ui.enableBlur).1 }

/-- The bias widgets of the group "Shadow Map Options" (lines 1770-1780 and 2096-2111). -/
def uiBias (s : ShadowMap F) (ui : UIInput F) : ShadowMap F :=
  if ui.biasChanged then { s with mBiasSettingsChanged := true } else s

/-- The type specific group of `renderUILeakTracing` (lines 1759-1881). -/
def uiTypeLeakTracing (s : ShadowMap F) (ui : UIInput F) : ShadowMap F :=
  if ui.typeOptions then
    match s.mShadowMapType with
    | ShadowMapType.ShadowMap => uiBias s ui
    | ShadowMapType.Variance => blurMipUi s ui
    | ShadowMapType.SDVariance => s
    | ShadowMapType.Exponential => blurMipUi (uiEnableBlur s ui) ui
    | ShadowMapType.ExponentialVariance => blurMipUi s ui
    | ShadowMapType.SDExponentialVariance => s
    | ShadowMapType.MSMHamburger => blurMipUi s ui
    | ShadowMapType.MSMHausdorff => blurMipUi s ui
    | ShadowMapType.SDMSM => s
  else s

/-- The `var` "Cacaded Level" (lines 1889-1893 and 2263-2267). -/
def uiCascadedLevel (s : ShadowMap F) (ui : UIInput F) : ShadowMap F :=
  let level := varUint s.mCascadedLevelCount 1 8 ui.cascadedLevel
  if level.2 then
    { s with
      mCascadedLevelCount := level.1, mResetShadowMapBuffers := true, mShadowResChanged := true }
  else { s with mCascadedLevelCount := level.1 }

/-- The dropdown "Cascaded Frustum Mode" and the widgets of the mode (lines 1898-1921 and
2270-2292). -/
def uiFrustumMode (s : ShadowMap F) (ui : UIInput F) : ShadowMap F :=
  match (widgetSet s.mCascadedFrustumMode ui.frustumMode).1 with
  | CascadedFrustumMode.Manual =>
    { s with
      mCascadedFrustumMode := CascadedFrustumMode.Manual
      mCascadedFrustumManualVals := s.mCascadedFrustumManualVals.enum.map fun e =>
        (varFloat e.2 0 1 (ui.manualVals.getD e.1 none)).1 }
  | CascadedFrustumMode.AutomaticNvidia =>
    { s with
      mCascadedFrustumMode := CascadedFrustumMode.AutomaticNvidia
      mCascadedFrustumFix := (varFloat s.mCascadedFrustumFix 0 1 ui.frustumFix).1 }

/-- The widgets "Cascaded LTT Settings" of `renderUILeakTracing` (lines 1922-1940). -/
def uiLevelTraceLeakTracing (s : ShadowMap F) (ui : UIInput F) (leakTracingEnabled : Bool) :
    ShadowMap F :=
  if leakTracingEnabled then
    let trace := varUint s.mCascadedLevelTrace 0 (u32 (s.mCascadedLevelCount + 2 ^ 32 - 1))
      ui.levelTrace
    let last := widgetSet s.mCascadedLastLevelRayTrace ui.lastLevelRayTrace
    if decide (trace.1 < u32 (s.mCascadedLevelCount + 2 ^ 32 - 1)) && last.2 then
      { s with
        mCascadedLevelTrace := trace.1, mUpdateShadowMap := true
        mCascadedLastLevelRayTrace := last.1 }
    else { s with mCascadedLevelTrace := trace.1, mUpdateShadowMap := s.mUpdateShadowMap || trace.2 }
  else s

/-- The widgets of the temporal reuse (lines 1942-1949 and 2298-2304). -/
def uiTemporalReuse (s : ShadowMap F) (ui : UIInput F) : ShadowMap F :=
  let reuse := (widgetSet s.mEnableTemporalCascadedBoxTest ui.temporalReuse).1
  { s with
    mEnableTemporalCascadedBoxTest := reuse
    mCascadedReuseEnlargeFactor :=
      if reuse then (varFloat s.mCascadedReuseEnlargeFactor 0 10 ui.enlargeFactor).1
      else s.mCascadedReuseEnlargeFactor }

/-- The group "CascadedOptions" of `renderUILeakTracing` (lines 1884-1952). -/
def uiCascadedLeakTracing (s : ShadowMap F) (ui : UIInput F) (leakTracingEnabled : Bool) :
    ShadowMap F :=
  if s.mpCascadedShadowMaps.isSome && ui.cascadedOptions then
    uiTemporalReuse
      (uiLevelTraceLeakTracing (uiFrustumMode (uiCascadedLevel s ui) ui) ui leakTracingEnabled) ui
  else s

/-- The checkboxes "Enable Blur per Cascaded Level" (lines 1963-1972 and 2333-2343). -/
def uiBlurPerLevel (s : ShadowMap F) (ui : UIInput F) : ShadowMap F :=
  if ui.blurPerLevel then
    { s with
      mBlurForCascaded := s.mBlurForCascaded.enum.map fun e =>
        (widgetSet e.2 (ui.blurForCascaded.getD e.1 none)).1 }
  else s

/-- The group "Gaussian Blur Options" of `renderUILeakTracing` (lines 1955-1979). -/
def uiBlurLeakTracing (s : ShadowMap F) (ui : UIInput F) : ShadowMap F :=
  if s.mUseGaussianBlur && s.mpBlurCascaded then
    if ui.gaussianBlurOptions then
      { uiBlurPerLevel s ui with
        mUpdateShadowMap := s.mUpdateShadowMap || ui.blurCascadedChanged }
    else s
  else s

/-- `ShadowMap::renderUILeakTracing`: the state that the call leaves.  The returned flag
`dirty` and the members outside the embedding are not modelled. -/
def renderUILeakTracing (s : ShadowMap F) (ui : UIInput F) (leakTracingEnabled : Bool) :
    ShadowMap F :=
  uiBlurLeakTracing
    (uiCascadedLeakTracing
      (uiTypeLeakTracing (uiCommonLeakTracing (uiShadowMapType s ui) ui) ui) ui
      leakTracingEnabled) ui

/-- The checkbox "Use FrustumCulling" of `renderUI` (line 1992). -/
def uiFrustumCulling (s : ShadowMap F) (ui : UIInput F) : ShadowMap F :=
  let culling := widgetSet s.mUseFrustumCulling ui.useFrustumCulling
  { s with
    mUseFrustumCulling := culling.1
    mResetShadowMapBuffers := s.mResetShadowMapBuffers || culling.2 }

/-- The dropdown "Update Mode" and the button "Reset Static SM" of `renderUI`
(lines 2019-2034). -/
def uiUpdateMode (s : ShadowMap F) (ui : UIInput F) : ShadowMap F :=
  if s.mSceneIsDynamic then
    let mode := widgetSet s.mShadowMapUpdateMode ui.updateMode
    { s with
      mShadowMapUpdateMode := mode.1
      mClearDynamicSM := s.mClearDynamicSM || mode.2
      mStaticTexturesReady :=
        if decide (mode.1 ≠ SMUpdateMode.Static) && ui.resetStaticSM then (false, false)
        else s.mStaticTexturesReady }
  else s

/-- The checkbox "Render every frame" of `renderUI` (lines 2036-2040). -/
def uiRerenderStatic (s : ShadowMap F) (ui : UIInput F) : ShadowMap F :=
  if s.mShadowMapUpdateMode = SMUpdateMode.Static then
    { s with mRerenderStatic := (widgetSet s.mRerenderStatic ui.renderEveryFrame).1 }
  else s

/-- The group "Common Settings" of `renderUI` (lines 2057-2087). -/
def uiCommon (s : ShadowMap F) (ui : UIInput F) : ShadowMap F :=
  if ui.commonSettings then
    let doubleSided := widgetSet s.mSMDoubleSidedOnly ui.doubleSidedOnly
    let raster := s.mRasterDefinesChanged || ui.alphaTestChanged
    let moved := decide (ui.nearFar.1 ≠ s.mNear) || decide (ui.nearFar.2 ≠ s.mFar)
    { s with
      mSMDoubleSidedOnly := doubleSided.1
      mRasterDefinesChanged := if ui.useAlphaTest then raster || ui.alphaModeChanged else raster
      mNear := if moved then ui.nearFar.1 else s.mNear
      mFar := if moved then ui.nearFar.2 else s.mFar
      mUpdateShadowMap :=
        if ui.cullModeChanged then true
        else if moved then true
        else s.mUpdateShadowMap || doubleSided.2 }
  else s

/-- The checkboxes "Enable Blur" and "Use Mip Maps" of a type specific group of `renderUI`
(lines 2147-2148, 2167-2174, 2201-2202 and 2239-2243). -/
def uiBlurMips (s : ShadowMap F) (ui : UIInput F) : ShadowMap F :=
  let mips := widgetSet s.mUseShadowMipMaps ui.useMipMaps
  { s with
    mUseGaussianBlur := (widgetSet s.mUseGaussianBlur ui.enableBlur).1
    mUseShadowMipMaps := mips.1
    mResetShadowMapBuffers := s.mResetShadowMapBuffers || mips.2 }

/-- The type specific group of `renderUI` (lines 2090-2257). -/
def uiType (s : ShadowMap F) (ui : UIInput F) : ShadowMap F :=
  if ui.typeOptions then
    match s.mShadowMapType with
    | ShadowMapType.ShadowMap => uiBias s ui
    | ShadowMapType.Variance => uiBlurMips s ui
    | ShadowMapType.SDVariance => s
    | ShadowMapType.Exponential => uiBlurMips s ui
    | ShadowMapType.ExponentialVariance => uiBlurMips s ui
    | ShadowMapType.SDExponentialVariance => s
    | ShadowMapType.MSMHamburger => uiBlurMips s ui
    | ShadowMapType.MSMHausdorff => uiBlurMips s ui
    | ShadowMapType.SDMSM => s
  else s

/-- The widgets of the hybrid cutoff of `renderUI` (lines 2294-2297). -/
def uiLevelTrace (s : ShadowMap F) (ui : UIInput F) : ShadowMap F :=
  let trace := varUint s.mCascadedLevelTrace 0 (u32 (s.mCascadedLevelCount + 2 ^ 32 - 1))
    ui.levelTrace
  let last := widgetSet s.mCascadedLastLevelRayTrace ui.lastLevelRayTrace
  { s with
    mCascadedLevelTrace := trace.1
    mCascadedLastLevelRayTrace := last.1
    mUpdateShadowMap := s.mUpdateShadowMap || trace.2 || last.2 }

/-- The widgets of the stochastic levels and of the alpha test of `renderUI`
(lines 2306-2314). -/
def uiStochastic (s : ShadowMap F) (ui : UIInput F) : ShadowMap F :=
  { s with
    mCascadedStochasticRange :=
      if ui.useStochasticLevels then
        (varFloat s.mCascadedStochasticRange 0 (3 / 10) ui.stochasticRange).1
      else s.mCascadedStochasticRange
    mCascadedDisableAlphaLevel :=
      (varUint s.mCascadedDisableAlphaLevel 0 s.mCascadedLevelCount ui.disableAlphaLevel).1 }

/-- The group "CascadedOptions" of `renderUI` (lines 2259-2316). -/
def uiCascaded (s : ShadowMap F) (ui : UIInput F) : ShadowMap F :=
  if s.mpCascadedShadowMaps.isSome && ui.cascadedOptions then
    uiStochastic
      (uiTemporalReuse (uiLevelTrace (uiFrustumMode (uiCascadedLevel s ui) ui) ui) ui) ui
  else s

/-- The group "Gaussian Blur Options" of `renderUI` (lines 2318-2355). -/
def uiBlur (s : ShadowMap F) (ui : UIInput F) : ShadowMap F :=
  if s.mUseGaussianBlur && ui.gaussianBlurOptions then
    let blurSettingsChanged :=
      (s.mpBlurShadowMap && ui.blurShadowMapGroup && ui.blurShadowMapChanged) ||
      (s.mpBlurCascaded && ui.blurCascadedGroup && ui.blurCascadedChanged) ||
      (s.mpBlurCube && ui.blurCubeGroup && ui.blurCubeChanged)
    { (if s.mpBlurCascaded && ui.blurCascadedGroup then uiBlurPerLevel s ui else s) with
      mUpdateShadowMap := s.mUpdateShadowMap || blurSettingsChanged }
  else s

/-- `ShadowMap::renderUI`: the state that the call leaves.  The returned flag `dirty` and the
members outside the embedding are not modelled. -/
def renderUI (s : ShadowMap F) (ui : UIInput F) : ShadowMap F :=
  uiBlur
    (uiCascaded
      (uiType
        (uiCommon
          (uiApplyResolution
            (uiRerenderStatic (uiUpdateMode (uiShadowMapType (uiFrustumCulling s ui) ui) ui) ui)
            ui) ui) ui) ui) ui

/-- The constructor (lines 72-123) for the light list of the scene; the programs, the
samplers and the rasterizer states are not members of the embedding, and the near and far
planes that are adjusted belong to the cameras of the scene. -/
def construct (hasDynamicGeometry : Bool) (lights : List (Light F)) :
    Except FatalError (ShadowMap F) :=
  let s : ShadowMap F :=
    if hasDynamicGeometry then
      { mSceneIsDynamic := true, mShadowMapUpdateMode := SMUpdateMode.Dynamic }
    else {}
  (prepareShadowMapBuffers s lights).map fun s =>
    { s with
      mpVPMatrixBuffer :=
        { s.mpVPMatrixBuffer with
          stagingFenceWaitValues := s.mpVPMatrixBuffer.stagingFenceWaitValues.map fun _ => 0 }
      mpCascadedVPMatrixBuffer :=
        { s.mpCascadedVPMatrixBuffer with
          stagingFenceWaitValues :=
            s.mpCascadedVPMatrixBuffer.stagingFenceWaitValues.map fun _ => 0 }
      mUpdateShadowMap := true }

/-- The states of the object: after the constructor, and after a call of `update`,
`renderUI` or `renderUILeakTracing` that has returned, for scenes with fewer than `2 ^ 31`
lights. -/
inductive Reachable (env : MathEnv F) : ShadowMap F → Prop where
  | construct (hasDynamicGeometry : Bool) (lights : List (Light F)) (s : ShadowMap F) :
    lights.length < 2 ^ 31 → construct hasDynamicGeometry lights = Except.ok s → Reachable env s
  | update (s : ShadowMap F) (frame : Frame F) (r : UpdateResult F) :
    Reachable env s → frame.lights.length < 2 ^ 31 →
    update env s (some frame) = Except.ok (some r) → Reachable env r.state
  | renderUI (s : ShadowMap F) (ui : UIInput F) : Reachable env s → Reachable env (renderUI s ui)
  | renderUILeakTracing (s : ShadowMap F) (ui : UIInput F) (leakTracingEnabled : Bool) :
    Reachable env s → Reachable env (renderUILeakTracing s ui leakTracingEnabled)

/-- The relation between the state before and after a step that creates no texture: the
scene flag, the spot count and the sizes of the 2D textures and of the cascade array are
kept, a dynamic mode or a pending clear comes from one or from a dynamic scene, a pending
rebuild stays pending, and the level count is kept unless a rebuild is pending afterwards and
the count is at most 8. -/
def keepsLayout (s s' : ShadowMap F) : Prop :=
  s'.mSceneIsDynamic = s.mSceneIsDynamic ∧
  s'.mCountSpotShadowMaps = s.mCountSpotShadowMaps ∧
  s'.mpShadowMaps.length = s.mpShadowMaps.length ∧
  s'.mpCascadedShadowMaps.map (fun t => t.arraySize) =
    s.mpCascadedShadowMaps.map (fun t => t.arraySize) ∧
  ((s'.mShadowMapUpdateMode ≠ SMUpdateMode.Static ∨ s'.mClearDynamicSM = true) →
    (s.mShadowMapUpdateMode ≠ SMUpdateMode.Static ∨ s.mClearDynamicSM = true ∨
      s.mSceneIsDynamic = true)) ∧
  (s.mResetShadowMapBuffers = true → s'.mResetShadowMapBuffers = true) ∧
  (s.mShadowResChanged = true → s'.mShadowResChanged = true) ∧
  (s'.mCascadedLevelCount = s.mCascadedLevelCount ∨
    (s'.mResetShadowMapBuffers = true ∧ s'.mShadowResChanged = true ∧
      s'.mCascadedLevelCount ≤ 8))

/-- The invariant of the texture layout: a dynamic mode or a pending clear implies a dynamic
scene, there are `mCountSpotShadowMaps * (2 if dynamic else 1)` 2D textures, there are at
most 8 levels, and while no rebuild is pending a cascade array that is held has
`mCascadedLevelCount * (2 if dynamic else 1)` slices. -/
def layoutInv (s : ShadowMap F) : Prop :=
  ((s.mShadowMapUpdateMode ≠ SMUpdateMode.Static ∨ s.mClearDynamicSM = true) →
    s.mSceneIsDynamic = true) ∧
  s.mpShadowMaps.length = s.mCountSpotShadowMaps * sliceFactor s ∧
  s.mCascadedLevelCount ≤ 8 ∧
  (s.mResetShadowMapBuffers = false → s.mShadowResChanged = false →
    ∀ t, s.mpCascadedShadowMaps = some t →
      t.arraySize = s.mCascadedLevelCount * sliceFactor s)

/-- The state that the constructor leaves, the state with the initial values when it raises
an error. -/
def constructed (hasDynamicGeometry : Bool) (lights : List (Light ℚ)) : ShadowMap ℚ :=
  match construct hasDynamicGeometry lights with
  | Except.ok s => s
  | Except.error _ => {}

/-- The user sets the number of cascade levels to 8 and leaves the other widgets alone. -/
def eightLevels : UIInput ℚ := { nearFar := (1 / 10, 60), cascadedLevel := some 8 }

/-- The spot count, the update mode and the pending clear. -/
structure SpotMode where
  mCountSpotShadowMaps : Nat
  mShadowMapUpdateMode : SMUpdateMode
  mClearDynamicSM : Bool
  deriving DecidableEq, Repr

def spotMode (s : ShadowMap F) : SpotMode :=
  { mCountSpotShadowMaps := s.mCountSpotShadowMaps
    mShadowMapUpdateMode := s.mShadowMapUpdateMode
    mClearDynamicSM := s.mClearDynamicSM }

end UI

section SplitSamples

/-- The near and the far plane that the constructor leaves in a camera of the scene (lines
89-97); `far` is the length of the extent of the scene bounds (line 90). -/
def clampCameraPlanes {F : Type} [LinearOrderedField F] (far : F) (camera : CameraData F) :
    CameraData F :=
  let near := 5 / 10000 * far
  { camera with nearZ := max camera.nearZ near, farZ := min camera.farZ far }

/-- The user selects the `Manual` split mode and moves the slider of the last of the four
levels from `1` to `0.9` (lines 2270-2281); the other widgets are left alone. -/
def lastBelowOne : UIInput ℚ :=
  { nearFar := (1 / 10, 60), frustumMode := some CascadedFrustumMode.Manual,
    manualVals := [none, none, none, some (9 / 10)] }

/-- The object after the constructor for a static scene with one directional light and a call
of `renderUI` with the input `lastBelowOne`. -/
def manualLastBelow : ShadowMap ℚ :=
  renderUI (constructed false [directionalLight true]) lastBelowOne

end SplitSamples

/-! # Theorems -/

/-! ## The loop over the lights -/

section LightLoopLemmas

variable {F : Type} [LinearOrderedField F]

theorem u32_of_lt {n : Nat} (h : n < 2 ^ 32) : u32 n = n := Nat.mod_eq_of_lt h

theorem countOfLights_le (t : LightTypeSM) (lights : List (Light F)) :
    countOfLights t lights ≤ lights.length := by
  unfold countOfLights
  exact List.countP_le_length _

theorem countOfLights_append (t : LightTypeSM) (l₁ l₂ : List (Light F)) :
    countOfLights t (l₁ ++ l₂) = countOfLights t l₁ + countOfLights t l₂ := by
  unfold countOfLights
  exact List.countP_append _ _ _

theorem countOfLights_singleton (t : LightTypeSM) (l : Light F) :
    countOfLights t [l] = if getLightType l = t then 1 else 0 := by
  unfold countOfLights
  simp [List.countP_cons]

theorem lightLoop_append (s : ShadowMap F) (fmt : ResourceFormat) (cube : List Texture)
    (init : List (Light F)) (l : Light F) :
    lightLoop s fmt cube (init ++ [l]) =
      lightLoopBody s fmt (lightLoop s fmt cube init) l := by
  simp [lightLoop, List.foldl_append]

theorem slotIndex_append_left (init : List (Light F)) (l : Light F) {g : Nat}
    (hg : g < init.length) : slotIndex (init ++ [l]) g = slotIndex init g := by
  unfold slotIndex
  rw [List.getElem?_append_left hg, List.take_append_of_le_length (Nat.le_of_lt hg)]

theorem slotIndex_append_last (init : List (Light F)) (l : Light F) :
    slotIndex (init ++ [l]) init.length =
      match getLightType l with
      | LightTypeSM.Point => countOfLights LightTypeSM.Point init
      | LightTypeSM.Spot => countOfLights LightTypeSM.Spot init
      | _ => 0 := by
  unfold slotIndex
  simp

/-- What the loop over the lights computes, for fewer than `2 ^ 32` lights. -/
theorem lightLoop_spec (s : ShadowMap F) (fmt : ResourceFormat) (cube : List Texture)
    (lights : List (Light F)) (h : lights.length < 2 ^ 32) :
    (lightLoop s fmt cube lights).countPoint = countOfLights LightTypeSM.Point lights ∧
    (lightLoop s fmt cube lights).mCountSpotShadowMaps =
      countOfLights LightTypeSM.Spot lights ∧
    (lightLoop s fmt cube lights).countCascade =
      countOfLights LightTypeSM.Directional lights ∧
    (lightLoop s fmt cube lights).mPrevLightType = lights.map getLightType ∧
    (lightLoop s fmt cube lights).mpShadowMapsCube.length =
      cube.length + countOfLights LightTypeSM.Point lights ∧
    (lightLoop s fmt cube lights).lightMapping.length = lights.length ∧
    ∀ g, g < lights.length →
      (lightLoop s fmt cube lights).lightMapping[g]? = some (slotIndex lights g) := by
  induction lights using List.reverseRecOn with
  | nil => simp [lightLoop, countOfLights]
  | append_singleton init l ih =>
    have hlen : init.length + 1 < 2 ^ 32 := by simpa using h
    obtain ⟨hP, hS, hD, hT, hC, hL, hM⟩ := ih (by omega)
    have bP := countOfLights_le LightTypeSM.Point init
    have bS := countOfLights_le LightTypeSM.Spot init
    have bD := countOfLights_le LightTypeSM.Directional init
    rw [lightLoop_append]
    simp only [countOfLights_append, countOfLights_singleton, List.map_append, List.map_cons,
      List.map_nil, List.length_append, List.length_singleton]
    have key : ∀ (m : List Nat) (e : Nat), m.length = init.length →
        (∀ g, g < init.length → m[g]? = some (slotIndex init g)) →
        e = slotIndex (init ++ [l]) init.length →
        ∀ g, g < init.length + 1 → (m ++ [e])[g]? = some (slotIndex (init ++ [l]) g) := by
      intro m e hm hmm he g hg
      rcases Nat.lt_succ_iff_lt_or_eq.mp hg with hlt | heq
      · rw [List.getElem?_append_left (by omega), hmm g hlt, slotIndex_append_left init l hlt]
      · subst heq
        rw [← hm, List.getElem?_concat_length, he, hm]
    generalize lightLoop s fmt cube init = acc at hP hS hD hT hC hL hM
    rcases hty : getLightType l with _ | _ | _ | _
    · -- NotSupported
      refine ⟨?_, ?_, ?_, ?_, ?_, ?_, ?_⟩
      · simp [lightLoopBody, hty, hP]
      · simp [lightLoopBody, hty, hS]
      · simp [lightLoopBody, hty, hD]
      · simp [lightLoopBody, hty, hT]
      · simp [lightLoopBody, hty, hC]
      · simp [lightLoopBody, hty, hL]
      · simp only [lightLoopBody, hty]
        apply key _ _ hL hM
        rw [slotIndex_append_last, hty]
    · -- Point
      refine ⟨?_, ?_, ?_, ?_, ?_, ?_, ?_⟩
      · simp [lightLoopBody, hty, hP]
        exact u32_of_lt (by omega)
      · simp [lightLoopBody, hty, hS]
      · simp [lightLoopBody, hty, hD]
      · simp [lightLoopBody, hty, hT]
      · simp [lightLoopBody, hty, hC]
        omega
      · simp [lightLoopBody, hty, hL]
      · simp only [lightLoopBody, hty]
        apply key _ _ hL hM
        rw [slotIndex_append_last, hty, hP]
    · -- Spot
      refine ⟨?_, ?_, ?_, ?_, ?_, ?_, ?_⟩
      · simp [lightLoopBody, hty, hP]
      · simp [lightLoopBody, hty, hS]
        exact u32_of_lt (by omega)
      · simp [lightLoopBody, hty, hD]
      · simp [lightLoopBody, hty, hT]
      · simp [lightLoopBody, hty, hC]
      · simp [lightLoopBody, hty, hL]
      · simp only [lightLoopBody, hty]
        apply key _ _ hL hM
        rw [slotIndex_append_last, hty, hS]
    · -- Directional
      refine ⟨?_, ?_, ?_, ?_, ?_, ?_, ?_⟩
      · simp [lightLoopBody, hty, hP]
      · simp [lightLoopBody, hty, hS]
      · simp [lightLoopBody, hty, hD]
        exact u32_of_lt (by omega)
      · simp [lightLoopBody, hty, hT]
      · simp [lightLoopBody, hty, hC]
      · simp [lightLoopBody, hty, hL]
      · simp only [lightLoopBody, hty]
        apply key _ _ hL hM
        rw [slotIndex_append_last, hty]

end LightLoopLemmas

/-! ## The stages of `prepareShadowMapBuffers` -/

section AllocatorLemmas

variable {F : Type} [LinearOrderedField F]

theorem resetShadowMaps_config (s : ShadowMap F) :
    (resetShadowMaps s).mSceneIsDynamic = s.mSceneIsDynamic ∧
    (resetShadowMaps s).mCascadedLevelCount = s.mCascadedLevelCount ∧
    (resetShadowMaps s).mShadowMapType = s.mShadowMapType ∧
    (resetShadowMaps s).mShadowMapFormat = s.mShadowMapFormat ∧
    (resetShadowMaps s).mUseShadowMipMaps = s.mUseShadowMipMaps := by
  unfold resetShadowMaps
  cases h1 : s.mShadowResChanged <;> cases h2 : s.mResetShadowMapBuffers <;> simp [h1, h2]

theorem resetShadowMaps_textures (s : ShadowMap F)
    (h : s.mShadowResChanged = true ∨ s.mResetShadowMapBuffers = true ∨ texturesReleased s) :
    texturesReleased (resetShadowMaps s) := by
  unfold texturesReleased resetShadowMaps
  cases h1 : s.mShadowResChanged <;> cases h2 : s.mResetShadowMapBuffers <;>
    simp [h1, h2, texturesReleased] at h ⊢
  exact h

theorem resetShadowMaps_buffers (s : ShadowMap F)
    (h : s.mResetShadowMapBuffers = true ∨ buffersReleased s) :
    buffersReleased (resetShadowMaps s) := by
  unfold buffersReleased resetShadowMaps
  cases h1 : s.mShadowResChanged <;> cases h2 : s.mResetShadowMapBuffers <;>
    simp [h1, h2, buffersReleased, VPMatrixBuffer.reset] at h ⊢ <;> exact h

theorem resources_createCascadeTexture (s : ShadowMap F) (plan : FormatPlan) (cc : Nat) :
    resources (createCascadeTexture s plan cc) =
      { resources s with
        cascade :=
          if cc > 0 then some (cascadeTexture s plan) else (resources s).cascade } := by
  unfold createCascadeTexture
  simp only [resources]
  split_ifs <;> rfl

theorem resources_createDepthHelpers (s : ShadowMap F) (plan : FormatPlan) (cp cc : Nat) :
    resources (createDepthHelpers s plan cp cc) = resources s := by
  unfold createDepthHelpers
  simp only []
  split_ifs <;> rfl

theorem resources_createStaticCopies (s : ShadowMap F) :
    resources (createStaticCopies s) =
      { resources s with
        cubeStatic :=
          if (resources s).dyn then (resources s).cubeStatic ++
            (resources s).cube.enum.map (fun it => cubeStaticCopy it.1 it.2)
          else (resources s).cubeStatic } := by
  unfold createStaticCopies
  simp only [resources]
  split_ifs <;> rfl

theorem resources_createFrustumCulling (s : ShadowMap F) (cp : Nat) :
    resources (createFrustumCulling s cp) = resources s := by
  unfold createFrustumCulling
  simp only []
  split_ifs <;> rfl

theorem resources_createLightMapping (s : ShadowMap F) (lm : List Nat) :
    resources (createLightMapping s lm) =
      { resources s with
        lightMapping :=
          if (resources s).lightMapping.isNone && decide (lm.length > 0) then
            some ((Buffer.createStructured 4 lm.length ResourceBindFlags.ShaderResource
              CpuAccess.None (some lm)).setName ("ShadowMapLightMapping"))
          else (resources s).lightMapping } := by
  unfold createLightMapping
  simp only [resources]
  split_ifs <;> rfl

theorem resources_createVPMatrices (s : ShadowMap F) :
    resources (createVPMatrices s) =
      { resources s with
        vp :=
          if (resources s).vp.buffer.isNone && decide ((resources s).spot.length > 0) then
            (createVPMatrixBuffer (resources s).vp (resources s).spot.length
              ("ShadowMap_VP") ("ShadowMap_VPStaging"))
          else (resources s).vp
        cascadedVP :=
          if (resources s).cascadedVP.buffer.isNone && (resources s).cascade.isSome then
            (createVPMatrixBuffer (resources s).cascadedVP (resources s).levels
              ("SMCascaded_VP") ("SMCascaded_VPStaging"))
          else (resources s).cascadedVP } := by
  unfold createVPMatrices
  simp only [resources]
  split_ifs <;> rfl

theorem prepareShadowMapBuffers_eq (s : ShadowMap F) (lights : List (Light F)) :
    prepareShadowMapBuffers s lights =
      if (lightLoop (resetShadowMaps s) (formatPlan (resetShadowMaps s)).shadowMapFormat
          (resetShadowMaps s).mpShadowMapsCube lights).countCascade ≤ 1
      then Except.ok (prepared s lights)
      else Except.error (FatalError.assertionFailed "countCascade <= 1") := by
  unfold prepareShadowMapBuffers FALCOR_ASSERT
  by_cases h : (lightLoop (resetShadowMaps s) (formatPlan (resetShadowMaps s)).shadowMapFormat
      (resetShadowMaps s).mpShadowMapsCube lights).countCascade ≤ 1
  · simp only [h, decide_True, if_true]
    rfl
  · simp only [h, decide_False, if_false]
    rfl

theorem resources_finishPrepare (s : ShadowMap F) :
    resources (finishPrepare s) = resources s := rfl

theorem resources_createSpotTextures (s : ShadowMap F) (plan : FormatPlan) (loop : LightLoop) :
    resources (createSpotTextures (storeLightLoop s loop) plan) =
      { resources s with
        cube := loop.mpShadowMapsCube
        spot := (resources s).spot ++
          (List.range (if (resources s).dyn then u32 (loop.mCountSpotShadowMaps * 2)
            else loop.mCountSpotShadowMaps)).map
            (spotTexture (storeLightLoop s loop) plan loop.mCountSpotShadowMaps) } := rfl

/-- The resources held after a call that passes the assertion, in terms of the state `s0`
after the resets and of the result `loop` of the loop over the lights. -/
theorem resources_prepared (s : ShadowMap F) (lights : List (Light F)) (s0 : ShadowMap F)
    (loop : LightLoop) (hs0 : s0 = resetShadowMaps s)
    (hloop : loop = lightLoop s0 (formatPlan s0).shadowMapFormat s0.mpShadowMapsCube lights) :
    resources (prepared s lights) =
      { dyn := s0.mSceneIsDynamic
        levels := s0.mCascadedLevelCount
        cube := loop.mpShadowMapsCube
        spot := s0.mpShadowMaps ++
          (List.range (if s0.mSceneIsDynamic then u32 (loop.mCountSpotShadowMaps * 2)
            else loop.mCountSpotShadowMaps)).map
            (spotTexture (storeLightLoop s0 loop) (formatPlan s0) loop.mCountSpotShadowMaps)
        cubeStatic :=
          if s0.mSceneIsDynamic then s0.mpShadowMapsCubeStatic ++
            loop.mpShadowMapsCube.enum.map (fun it => cubeStaticCopy it.1 it.2)
          else s0.mpShadowMapsCubeStatic
        cascade :=
          if loop.countCascade > 0 then
            some (cascadeTexture (createSpotTextures (storeLightLoop s0 loop) (formatPlan s0))
              (formatPlan s0))
          else s0.mpCascadedShadowMaps
        lightMapping :=
          if s0.mpLightMapping.isNone && decide (loop.lightMapping.length > 0) then
            some ((Buffer.createStructured 4 loop.lightMapping.length
              ResourceBindFlags.ShaderResource CpuAccess.None
              (some loop.lightMapping)).setName ("ShadowMapLightMapping"))
          else s0.mpLightMapping
        vp :=
          if s0.mpVPMatrixBuffer.buffer.isNone &&
              decide ((resources (prepared s lights)).spot.length > 0) then
            (createVPMatrixBuffer s0.mpVPMatrixBuffer (resources (prepared s lights)).spot.length
              ("ShadowMap_VP") ("ShadowMap_VPStaging"))
          else s0.mpVPMatrixBuffer
        cascadedVP :=
          if s0.mpCascadedVPMatrixBuffer.buffer.isNone &&
              (resources (prepared s lights)).cascade.isSome then
            (createVPMatrixBuffer s0.mpCascadedVPMatrixBuffer s0.mCascadedLevelCount
              ("SMCascaded_VP") ("SMCascaded_VPStaging"))
          else s0.mpCascadedVPMatrixBuffer } := by
  subst hs0
  unfold prepared
  simp only [← hloop, resources_finishPrepare, resources_createVPMatrices,
    resources_createLightMapping, resources_createFrustumCulling,
    resources_createStaticCopies, resources_createDepthHelpers,
    resources_createCascadeTexture, resources_createSpotTextures]
  rfl

/-- The assertion of line 290 in terms of the light list. -/
theorem prepareShadowMapBuffers_cases (s : ShadowMap F) (lights : List (Light F))
    (h : lights.length < 2 ^ 32) :
    prepareShadowMapBuffers s lights =
      if countOfLights LightTypeSM.Directional lights ≤ 1 then Except.ok (prepared s lights)
      else Except.error (FatalError.assertionFailed "countCascade <= 1") := by
  rw [prepareShadowMapBuffers_eq, (lightLoop_spec _ _ _ lights h).2.2.1]

end AllocatorLemmas

/-! ## Classification, light mapping and allocation -/

section AllocatorClaims

variable {F : Type} [LinearOrderedField F]

/-- C1. `getLightType` puts every light in exactly one class: `Directional` exactly for the
lights of kind `Directional`, `Point` exactly for the lights of kind `Point` whose opening
angle is strictly greater than `M_PI_4`, `Spot` exactly for the lights of kind `Point` whose
opening angle is at most `M_PI_4` (so the angle `M_PI_4` itself gives `Spot`), and
`NotSupported` exactly for the lights of any other kind. -/
theorem getLightType_classification (light : Light F) :
    (getLightType light = LightTypeSM.Directional ↔ light.type = LightType.Directional) ∧
    (getLightType light = LightTypeSM.Point ↔
      light.type = LightType.Point ∧ M_PI_4 < light.data.openingAngle) ∧
    (getLightType light = LightTypeSM.Spot ↔
      light.type = LightType.Point ∧ light.data.openingAngle ≤ M_PI_4) ∧
    (getLightType light = LightTypeSM.NotSupported ↔
      light.type ≠ LightType.Directional ∧ light.type ≠ LightType.Point) ∧
    getLightType (pointLight (M_PI_4 : F)) = LightTypeSM.Spot := by
  unfold getLightType
  refine ⟨?_, ?_, ?_, ?_, ?_⟩
  · split_ifs <;> simp_all
  · split_ifs <;> simp_all
  · split_ifs <;> simp_all
  · split_ifs <;> simp_all
  · simp [pointLight]

/-- C2. For fewer than `2 ^ 32` lights, the light-mapping table built by the loop of
`prepareShadowMapBuffers` has one entry per light, in the order of the list; the entry of a
point light (of a spot light) at global index `g` is the number of point lights (of spot
lights) at smaller indices, and the entry of any other light is `0`. This table is the initial
data of the light mapping buffer that the call creates. -/
theorem lightMapping_slots (s : ShadowMap F) (lights : List (Light F))
    (h : lights.length < 2 ^ 32) :
    ∃ table : List Nat,
      table = (lightLoop (resetShadowMaps s) (formatPlan (resetShadowMaps s)).shadowMapFormat
        (resetShadowMaps s).mpShadowMapsCube lights).lightMapping ∧
      table.length = lights.length ∧
      (∀ g l, lights[g]? = some l →
        table[g]? = some
          (match getLightType l with
           | LightTypeSM.Point => countOfLights LightTypeSM.Point (lights.take g)
           | LightTypeSM.Spot => countOfLights LightTypeSM.Spot (lights.take g)
           | _ => 0)) ∧
      ((resetShadowMaps s).mpLightMapping = none → lights ≠ [] →
        countOfLights LightTypeSM.Directional lights ≤ 1 →
        ∃ s' buf, prepareShadowMapBuffers s lights = Except.ok s' ∧
          s'.mpLightMapping = some buf ∧ buf.initData = some table ∧
          buf.elementCount = lights.length) := by
  obtain ⟨-, -, -, -, -, hL, hM⟩ := lightLoop_spec (resetShadowMaps s)
    (formatPlan (resetShadowMaps s)).shadowMapFormat (resetShadowMaps s).mpShadowMapsCube lights h
  refine ⟨_, rfl, hL, ?_, ?_⟩
  · intro g l hg
    have hlt : g < lights.length := by
      rcases Nat.lt_or_ge g lights.length with h1 | h1
      · exact h1
      · rw [List.getElem?_eq_none h1] at hg; cases hg
    rw [hM g hlt]
    unfold slotIndex
    rw [hg]
  · intro hnone hne hdir
    have hpos : 0 < lights.length := List.length_pos.mpr hne
    have hres := resources_prepared s lights _ _ rfl rfl
    have hlm := congrArg Resources.lightMapping hres
    simp only [resources, hnone, Option.isNone_none, hL, hpos, gt_iff_lt, decide_True,
      Bool.and_self, if_true] at hlm
    refine ⟨prepared s lights, _, ?_, hlm, rfl, rfl⟩
    rw [prepareShadowMapBuffers_cases s lights h, if_pos hdir]

end AllocatorClaims

section AllocatorClaims2

variable {F : Type} [LinearOrderedField F]

/-- The counts of the allocator for a light list of fewer than `2 ^ 31` lights, when the
texture lists are empty after the resets. -/
theorem prepared_counts (s : ShadowMap F) (lights : List (Light F))
    (hlen : lights.length < 2 ^ 31)
    (hclear : texturesReleased (resetShadowMaps s)) :
    (prepared s lights).mpShadowMapsCube.length = countOfLights LightTypeSM.Point lights ∧
    (prepared s lights).mpShadowMapsCubeStatic.length =
      (if s.mSceneIsDynamic then countOfLights LightTypeSM.Point lights else 0) ∧
    (prepared s lights).mpShadowMaps.length =
      countOfLights LightTypeSM.Spot lights * sliceFactor s := by
  have hres := resources_prepared s lights _ _ rfl rfl
  obtain ⟨-, hS, -, -, hC, -, -⟩ := lightLoop_spec (resetShadowMaps s)
    (formatPlan (resetShadowMaps s)).shadowMapFormat (resetShadowMaps s).mpShadowMapsCube lights
    (by omega)
  obtain ⟨h1, h2, h3⟩ := hclear
  have hdyn := (resetShadowMaps_config s).1
  have bS := countOfLights_le LightTypeSM.Spot lights
  have hcube := congrArg Resources.cube hres
  have hstatic := congrArg Resources.cubeStatic hres
  have hspot := congrArg Resources.spot hres
  simp only [resources] at hcube hstatic hspot
  rw [h2] at hC hcube hstatic
  simp only [List.length_nil, Nat.zero_add] at hC
  refine ⟨?_, ?_, ?_⟩
  · rw [hcube, hC]
  · rw [hstatic, hdyn, h3]
    cases s.mSceneIsDynamic <;> simp [hC]
  · rw [hspot, hdyn, h1, hS]
    unfold sliceFactor
    cases s.mSceneIsDynamic
    · simp
    · simp
      exact u32_of_lt (by omega)

/-- The cascade array created when the list has a directional light. -/
theorem prepared_cascade (s : ShadowMap F) (lights : List (Light F))
    (hlen : lights.length < 2 ^ 32) (hdir : 0 < countOfLights LightTypeSM.Directional lights) :
    (prepared s lights).mpCascadedShadowMaps =
      some (cascadeTexture (createSpotTextures (storeLightLoop (resetShadowMaps s)
        (lightLoop (resetShadowMaps s) (formatPlan (resetShadowMaps s)).shadowMapFormat
          (resetShadowMaps s).mpShadowMapsCube lights)) (formatPlan (resetShadowMaps s)))
        (formatPlan (resetShadowMaps s))) := by
  have hres := congrArg Resources.cascade (resources_prepared s lights _ _ rfl rfl)
  obtain ⟨-, -, hD, -⟩ := lightLoop_spec (resetShadowMaps s)
    (formatPlan (resetShadowMaps s)).shadowMapFormat (resetShadowMaps s).mpShadowMapsCube lights
    hlen
  simp only [resources, hD, gt_iff_lt, hdir, if_true] at hres
  exact hres

theorem cascadeTexture_arraySize (s : ShadowMap F) (plan : FormatPlan) :
    (cascadeTexture s plan).arraySize =
      if s.mSceneIsDynamic then u32 (s.mCascadedLevelCount * 2) else s.mCascadedLevelCount := rfl

/-- C3 (amended). After `prepareShadowMapBuffers` has rebuilt the buffers (a reset flag is set
or no texture is held) for a light list with at most one directional light, the number of
cube textures (live and static copies) is the number of point lights times
`2 if dynamic else 1`, the number of 2D textures is the number of spot lights times that
factor, and when there is a directional light the cascade array has
`mCascadedLevelCount` slices times that factor. -/
theorem prepareShadowMapBuffers_slices (s : ShadowMap F) (lights : List (Light F))
    (hlen : lights.length < 2 ^ 31) (hlev : s.mCascadedLevelCount < 2 ^ 31)
    (hclear : s.mShadowResChanged = true ∨ s.mResetShadowMapBuffers = true ∨
      texturesReleased s)
    (hdir : countOfLights LightTypeSM.Directional lights ≤ 1) :
    ∃ s', prepareShadowMapBuffers s lights = Except.ok s' ∧
      s'.mpShadowMapsCube.length + s'.mpShadowMapsCubeStatic.length =
        countOfLights LightTypeSM.Point lights * sliceFactor s ∧
      s'.mpShadowMaps.length = countOfLights LightTypeSM.Spot lights * sliceFactor s ∧
      (0 < countOfLights LightTypeSM.Directional lights →
        ∃ t, s'.mpCascadedShadowMaps = some t ∧
          t.arraySize = s.mCascadedLevelCount * sliceFactor s) := by
  obtain ⟨hc, hs, hsp⟩ := prepared_counts s lights hlen (resetShadowMaps_textures s hclear)
  refine ⟨prepared s lights, ?_, ?_, hsp, ?_⟩
  · rw [prepareShadowMapBuffers_cases s lights (by omega), if_pos hdir]
  · rw [hc, hs]
    unfold sliceFactor
    cases s.mSceneIsDynamic <;> simp
    omega
  · intro hpos
    refine ⟨_, prepared_cascade s lights (by omega) hpos, ?_⟩
    rw [cascadeTexture_arraySize]
    show (if (resetShadowMaps s).mSceneIsDynamic = true
      then u32 ((resetShadowMaps s).mCascadedLevelCount * 2)
      else (resetShadowMaps s).mCascadedLevelCount) = _
    rw [(resetShadowMaps_config s).1, (resetShadowMaps_config s).2.1]
    unfold sliceFactor
    cases s.mSceneIsDynamic
    · simp
    · simp
      exact u32_of_lt (by omega)

end AllocatorClaims2

section AllocatorClaims3

variable {F : Type} [LinearOrderedField F]

theorem getLightType_directionalLight (a : Bool) :
    getLightType (directionalLight a : Light F) = LightTypeSM.Directional := rfl

theorem getLightType_pointLight (x : F) :
    getLightType (pointLight x) = if x > M_PI_4 then LightTypeSM.Point else LightTypeSM.Spot :=
  rfl

theorem sampleLights_types :
    sampleLights.map getLightType =
      [LightTypeSM.Point, LightTypeSM.Spot, LightTypeSM.Directional, LightTypeSM.Point,
        LightTypeSM.Point, LightTypeSM.Spot] := by
  simp only [sampleLights, List.map, getLightType_directionalLight, getLightType_pointLight,
    M_PI_4]
  norm_num

theorem countOfLights_eq_count (t : LightTypeSM) (lights : List (Light F)) :
    countOfLights t lights = (lights.map getLightType).count t := by
  unfold countOfLights
  rw [List.count, List.countP_map]
  congr 1

theorem sampleLights_counts :
    countOfLights LightTypeSM.Point sampleLights = 3 ∧
    countOfLights LightTypeSM.Spot sampleLights = 2 ∧
    countOfLights LightTypeSM.Directional sampleLights = 1 := by
  simp [countOfLights_eq_count, sampleLights_types]

/-- C3, counterexample. For a static scene with one directional light and four cascade levels
the cascade array has four slices, while `countOfLights * (2 if dynamic else 1)` is one. -/
theorem prepareShadowMapBuffers_slices_counterexample :
    ∃ s' t, prepareShadowMapBuffers ({} : ShadowMap ℚ) [directionalLight true] = Except.ok s' ∧
      s'.mpCascadedShadowMaps = some t ∧
      0 < countOfLights LightTypeSM.Directional [(directionalLight true : Light ℚ)] ∧
      t.arraySize = 4 ∧
      t.arraySize ≠ countOfLights LightTypeSM.Directional [(directionalLight true : Light ℚ)] *
        sliceFactor ({} : ShadowMap ℚ) := by
  refine ⟨prepared {} [directionalLight true], _, ?_, rfl, by decide, rfl, by decide⟩
  rw [prepareShadowMapBuffers_cases _ _ (by decide), if_pos (by decide)]

/-- C3, witness: the sample list of three point, two spot and one directional light in a
static scene with four cascade levels. -/
theorem prepareShadowMapBuffers_slices_witness :
    ∃ s', prepareShadowMapBuffers ({} : ShadowMap ℚ) sampleLights = Except.ok s' ∧
      s'.mpShadowMapsCube.length + s'.mpShadowMapsCubeStatic.length =
        countOfLights LightTypeSM.Point sampleLights * sliceFactor ({} : ShadowMap ℚ) ∧
      s'.mpShadowMaps.length =
        countOfLights LightTypeSM.Spot sampleLights * sliceFactor ({} : ShadowMap ℚ) ∧
      (0 < countOfLights LightTypeSM.Directional sampleLights →
        ∃ t, s'.mpCascadedShadowMaps = some t ∧
          t.arraySize = ({} : ShadowMap ℚ).mCascadedLevelCount *
            sliceFactor ({} : ShadowMap ℚ)) :=
  prepareShadowMapBuffers_slices {} sampleLights (by decide) (by decide)
    (Or.inr (Or.inr ⟨rfl, rfl, rfl⟩)) (by rw [sampleLights_counts.2.2])

/-- C2, witness: the table of the sample list. -/
theorem lightMapping_slots_witness :
    ∃ table : List Nat,
      table = (lightLoop (resetShadowMaps ({} : ShadowMap ℚ))
        (formatPlan (resetShadowMaps ({} : ShadowMap ℚ))).shadowMapFormat
        (resetShadowMaps ({} : ShadowMap ℚ)).mpShadowMapsCube sampleLights).lightMapping ∧
      table.length = sampleLights.length ∧
      (∀ g l, sampleLights[g]? = some l →
        table[g]? = some
          (match getLightType l with
           | LightTypeSM.Point => countOfLights LightTypeSM.Point (sampleLights.take g)
           | LightTypeSM.Spot => countOfLights LightTypeSM.Spot (sampleLights.take g)
           | _ => 0)) ∧
      ((resetShadowMaps ({} : ShadowMap ℚ)).mpLightMapping = none → sampleLights ≠ [] →
        countOfLights LightTypeSM.Directional sampleLights ≤ 1 →
        ∃ s' buf, prepareShadowMapBuffers ({} : ShadowMap ℚ) sampleLights = Except.ok s' ∧
          s'.mpLightMapping = some buf ∧ buf.initData = some table ∧
          buf.elementCount = sampleLights.length) :=
  lightMapping_slots {} sampleLights (by decide)

end AllocatorClaims3

section AllocatorClaims4

variable {F : Type} [LinearOrderedField F]

theorem createVPMatrixBuffer_buffers (b : VPMatrixBuffer F) (size : Nat) (n m : String) :
    ∃ buf st, (createVPMatrixBuffer b size n m).buffer = some buf ∧
      (createVPMatrixBuffer b size n m).staging = some st ∧
      buf.elementCount = size ∧ st.elementCount = size * 4 ∧
      st.initData = some (List.replicate (size * 4) float4x4.identity) :=
  ⟨_, _, rfl, rfl, rfl, rfl, rfl⟩

/-- C4. In a static scene with the classic `ShadowMap` type, for any list of six lights of
which three are point lights, two are spot lights and one is directional, a call of
`prepareShadowMapBuffers` that rebuilds everything (the reset flag is set, or nothing is held)
creates exactly three cube textures and no static copy, exactly two 2D textures, one cascade
array with `mCascadedLevelCount` slices in the configured depth format, a light mapping buffer
of six entries, a spot matrix buffer of two matrices with a staging buffer of eight, and a
cascaded matrix buffer of `mCascadedLevelCount` matrices with a staging buffer of four times
as many. -/
theorem prepareShadowMapBuffers_scenario (s : ShadowMap F) (lights : List (Light F))
    (hstatic : s.mSceneIsDynamic = false)
    (htype : s.mShadowMapType = ShadowMapType.ShadowMap)
    (hreset : s.mResetShadowMapBuffers = true ∨ (texturesReleased s ∧ buffersReleased s))
    (hlen : lights.length = 6)
    (hpoint : countOfLights LightTypeSM.Point lights = 3)
    (hspot : countOfLights LightTypeSM.Spot lights = 2)
    (hdir : countOfLights LightTypeSM.Directional lights = 1) :
    ∃ s', prepareShadowMapBuffers s lights = Except.ok s' ∧
      s'.mpShadowMapsCube.length = 3 ∧ s'.mpShadowMapsCubeStatic.length = 0 ∧
      s'.mpShadowMaps.length = 2 ∧
      (∃ t, s'.mpCascadedShadowMaps = some t ∧ t.arraySize = s.mCascadedLevelCount ∧
        t.format = s.mShadowMapFormat) ∧
      (∃ b, s'.mpLightMapping = some b ∧ b.elementCount = 6) ∧
      (∃ b st, s'.mpVPMatrixBuffer.buffer = some b ∧ s'.mpVPMatrixBuffer.staging = some st ∧
        b.elementCount = 2 ∧ st.elementCount = 4 * 2) ∧
      (∃ b st, s'.mpCascadedVPMatrixBuffer.buffer = some b ∧
        s'.mpCascadedVPMatrixBuffer.staging = some st ∧
        b.elementCount = s.mCascadedLevelCount ∧
        st.elementCount = 4 * s.mCascadedLevelCount) := by
  have hlt : lights.length < 2 ^ 31 := by rw [hlen]; decide
  have htex : texturesReleased (resetShadowMaps s) :=
    resetShadowMaps_textures s (hreset.elim (fun h => Or.inr (Or.inl h))
      (fun h => Or.inr (Or.inr h.1)))
  have hbuf : buffersReleased (resetShadowMaps s) :=
    resetShadowMaps_buffers s (hreset.elim Or.inl (fun h => Or.inr h.2))
  obtain ⟨hcfg1, hcfg2, hcfg3, hcfg4, -⟩ := resetShadowMaps_config s
  obtain ⟨hc, hst, hsp⟩ := prepared_counts s lights hlt htex
  obtain ⟨-, -, -, -, -, hL, -⟩ := lightLoop_spec (resetShadowMaps s)
    (formatPlan (resetShadowMaps s)).shadowMapFormat (resetShadowMaps s).mpShadowMapsCube lights
    (by omega)
  have hcas := prepared_cascade s lights (by omega) (by omega)
  have hres := resources_prepared s lights _ _ rfl rfl
  have hlm := congrArg Resources.lightMapping hres
  have hvp := congrArg Resources.vp hres
  have hcvp := congrArg Resources.cascadedVP hres
  obtain ⟨b1, b2, b3⟩ := hbuf
  have hsp2 : (prepared s lights).mpShadowMaps.length = 2 := by
    rw [hsp, hspot]; simp [sliceFactor, hstatic]
  simp only [resources, b1, Option.isNone_none, hL, hlen, gt_iff_lt, Nat.ofNat_pos,
    decide_True, Bool.and_self, if_true] at hlm
  simp only [resources, b2, Option.isNone_none, hsp2, gt_iff_lt, Nat.ofNat_pos,
    decide_True, Bool.and_self, if_true] at hvp
  simp only [resources, b3, Option.isNone_none, hcas, Option.isSome_some,
    Bool.and_self, if_true, hcfg2] at hcvp
  refine ⟨prepared s lights, ?_, ?_, ?_, hsp2, ⟨_, hcas, ?_, ?_⟩, ⟨_, hlm, rfl⟩, ?_, ?_⟩
  · rw [prepareShadowMapBuffers_cases s lights (by omega), if_pos (by omega)]
  · rw [hc, hpoint]
  · rw [hst, hstatic]; simp
  · rw [cascadeTexture_arraySize]
    show (if (resetShadowMaps s).mSceneIsDynamic = true then _ else
      (resetShadowMaps s).mCascadedLevelCount) = _
    rw [hcfg1, hstatic, hcfg2]; simp
  · show (formatPlan (resetShadowMaps s)).shadowMapFormat = _
    unfold formatPlan
    rw [hcfg3, htype, hcfg4]
  · rw [hvp]
    obtain ⟨buf, st, e1, e2, e3, e4, -⟩ := createVPMatrixBuffer_buffers
      (resetShadowMaps s).mpVPMatrixBuffer 2 ("ShadowMap_VP") ("ShadowMap_VPStaging")
    exact ⟨buf, st, e1, e2, e3, by rw [e4]⟩
  · rw [hcvp]
    obtain ⟨buf, st, e1, e2, e3, e4, -⟩ := createVPMatrixBuffer_buffers
      (resetShadowMaps s).mpCascadedVPMatrixBuffer s.mCascadedLevelCount
      ("SMCascaded_VP") ("SMCascaded_VPStaging")
    exact ⟨buf, st, e1, e2, e3, by rw [e4, Nat.mul_comm]⟩

/-- C4, witness: the sample list in a freshly constructed object of the classic type. -/
theorem prepareShadowMapBuffers_scenario_witness :
    ∃ s', prepareShadowMapBuffers
        ({ mShadowMapType := ShadowMapType.ShadowMap } : ShadowMap ℚ) sampleLights =
          Except.ok s' ∧
      s'.mpShadowMapsCube.length = 3 ∧ s'.mpShadowMapsCubeStatic.length = 0 ∧
      s'.mpShadowMaps.length = 2 ∧
      (∃ t, s'.mpCascadedShadowMaps = some t ∧ t.arraySize = 4 ∧
        t.format = ResourceFormat.D32Float) ∧
      (∃ b, s'.mpLightMapping = some b ∧ b.elementCount = 6) ∧
      (∃ b st, s'.mpVPMatrixBuffer.buffer = some b ∧ s'.mpVPMatrixBuffer.staging = some st ∧
        b.elementCount = 2 ∧ st.elementCount = 4 * 2) ∧
      (∃ b st, s'.mpCascadedVPMatrixBuffer.buffer = some b ∧
        s'.mpCascadedVPMatrixBuffer.staging = some st ∧
        b.elementCount = 4 ∧ st.elementCount = 4 * 4) :=
  prepareShadowMapBuffers_scenario { mShadowMapType := ShadowMapType.ShadowMap } sampleLights
    rfl rfl (Or.inr ⟨⟨rfl, rfl, rfl⟩, ⟨rfl, rfl, rfl⟩⟩) rfl sampleLights_counts.1
    sampleLights_counts.2.1 sampleLights_counts.2.2

/-- C5 (amended). For a light list of fewer than `2 ^ 32` lights, `prepareShadowMapBuffers`
fails, with the fatal assertion failure of `countCascade <= 1`, if and only if the list holds
more than one directional light, active or not; with at most one directional light in the
list it completes normally. -/
theorem prepareShadowMapBuffers_fails_iff (s : ShadowMap F) (lights : List (Light F))
    (h : lights.length < 2 ^ 32) :
    (prepareShadowMapBuffers s lights =
        Except.error (FatalError.assertionFailed "countCascade <= 1") ↔
      1 < countOfLights LightTypeSM.Directional lights) ∧
    ((∃ s', prepareShadowMapBuffers s lights = Except.ok s') ↔
      countOfLights LightTypeSM.Directional lights ≤ 1) := by
  rw [prepareShadowMapBuffers_cases s lights h]
  by_cases hd : countOfLights LightTypeSM.Directional lights ≤ 1
  · rw [if_pos hd]
    exact ⟨⟨fun h1 => (by cases h1), fun h1 => (by omega)⟩, ⟨fun _ => hd, fun _ => ⟨_, rfl⟩⟩⟩
  · rw [if_neg hd]
    exact ⟨⟨fun _ => (by omega), fun _ => rfl⟩,
      ⟨fun ⟨_, h1⟩ => (by cases h1), fun h1 => absurd h1 hd⟩⟩

/-- C5, counterexample. With two directional lights of which only the first is active, at most
one directional light is active, and `prepareShadowMapBuffers` fails. -/
theorem prepareShadowMapBuffers_fails_counterexample :
    countActiveDirectional [(directionalLight true : Light ℚ), directionalLight false] ≤ 1 ∧
    prepareShadowMapBuffers ({} : ShadowMap ℚ) [directionalLight true, directionalLight false] =
      Except.error (FatalError.assertionFailed "countCascade <= 1") := by
  refine ⟨by decide, ?_⟩
  rw [prepareShadowMapBuffers_cases _ _ (by decide), if_neg (by decide)]

/-- C5, witness: the sample list, which holds one directional light. -/
theorem prepareShadowMapBuffers_fails_witness :
    (prepareShadowMapBuffers ({} : ShadowMap ℚ) sampleLights =
        Except.error (FatalError.assertionFailed "countCascade <= 1") ↔
      1 < countOfLights LightTypeSM.Directional sampleLights) ∧
    ((∃ s', prepareShadowMapBuffers ({} : ShadowMap ℚ) sampleLights = Except.ok s') ↔
      countOfLights LightTypeSM.Directional sampleLights ≤ 1) :=
  prepareShadowMapBuffers_fails_iff {} sampleLights (by decide)

/-- C6. The format plan computed in `prepareShadowMapBuffers` depends only on the shadow-map
type, the configured depth format and the mip setting, and it is the table `planFormats` of
the specification; the cube format is `R32Float` for the primary format `D32Float`,
`R16Unorm` for `D16Unorm` and the primary format otherwise. -/
theorem formatPlan_table (s : ShadowMap F) :
    planFormats s.mShadowMapType s.mShadowMapFormat s.mUseShadowMipMaps =
      { primaryFormat := (formatPlan s).shadowMapFormat
        cubeFormat := shadowMapCubeFormat (formatPlan s).shadowMapFormat
        bindFlags := (formatPlan s).shadowMapBindFlags
        needsDepthHelper := (formatPlan s).generateAdditionalDepthTextures
        supportsMips := (formatPlan s).genMipMaps } := by
  unfold planFormats formatPlan
  cases s.mShadowMapType <;> cases s.mShadowMapFormat <;> cases s.mUseShadowMipMaps <;> rfl

end AllocatorClaims4

/-! ## The far distances of the cascade levels -/

section SplitLemmas

variable {F : Type} [LinearOrderedField F]

theorem manualVals_length (s : ShadowMap F) :
    (manualVals s).length = s.mCascadedLevelCount := by
  unfold manualVals
  have hfill : ∀ (e : F) (n : Nat) (p : F), (fillManualVals e n p).length = n := by
    intro e n
    induction n with
    | zero => intro p; rfl
    | succ n ih => intro p; simp [fillManualVals, ih]
  split_ifs with h
  · exact hfill _ _ _
  · exact not_not.mp h

theorem cascadedLevelCalculations_zSlices (env : MathEnv F) (s : ShadowMap F)
    (scene : SceneView F) :
    (cascadedLevelCalculations env s scene).mCascadedZSlices =
      match s.mCascadedFrustumMode with
      | CascadedFrustumMode.Manual => zSlicesManual s scene.camera
      | CascadedFrustumMode.AutomaticNvidia =>
        zSlicesNvidia env s scene.camera (cascadedMaxFar env scene) := by
  unfold cascadedLevelCalculations
  cases s.mCascadedFrustumMode <;> rfl

theorem cascadedLevelCalculations_levelCount (env : MathEnv F) (s : ShadowMap F)
    (scene : SceneView F) :
    (cascadedLevelCalculations env s scene).mCascadedLevelCount = s.mCascadedLevelCount := by
  unfold cascadedLevelCalculations
  cases s.mCascadedFrustumMode <;> rfl

theorem cascadedLevelCalculations_maxFar (env : MathEnv F) (s : ShadowMap F)
    (scene : SceneView F) :
    (cascadedLevelCalculations env s scene).mCascadedMaxFar = cascadedMaxFar env scene := by
  unfold cascadedLevelCalculations
  cases s.mCascadedFrustumMode <;> rfl

theorem cascadedLevelCalculations_zSlices_length (env : MathEnv F) (s : ShadowMap F)
    (scene : SceneView F) :
    (cascadedLevelCalculations env s scene).mCascadedZSlices.length = s.mCascadedLevelCount := by
  rw [cascadedLevelCalculations_zSlices]
  cases s.mCascadedFrustumMode
  · simp [zSlicesManual, manualVals_length]
  · simp [zSlicesNvidia]

/-- A call that returns leaves in `mCascadedZSlices` and `mCascadedMaxFar` what the block
"Cascaded level calculations" computed. -/
theorem calcProjViewForCascaded_zSlices (env : MathEnv F) (s : ShadowMap F)
    (scene : SceneView F) (lightData : LightData F) (renderLevel : List Bool)
    (forceUpdate : Bool) (out : ShadowMap F × List Bool)
    (h : calcProjViewForCascaded env s scene lightData renderLevel forceUpdate = some out) :
    out.1.mCascadedZSlices = (cascadedLevelCalculations env s scene).mCascadedZSlices ∧
    out.1.mCascadedMaxFar = cascadedMaxFar env scene := by
  unfold calcProjViewForCascaded at h
  simp only [Option.map_eq_some'] at h
  obtain ⟨st, -, rfl⟩ := h
  exact ⟨rfl, cascadedLevelCalculations_maxFar env s scene⟩

theorem zSlicesNvidia_getElem? (env : MathEnv F) (s : ShadowMap F) (camera : CameraData F)
    (maxFar : F) (k : Nat) (hk : k < s.mCascadedLevelCount) :
    (zSlicesNvidia env s camera maxFar)[k]? =
      some (nvidiaSlice env s.mCascadedFrustumFix camera.nearZ maxFar s.mCascadedLevelCount
        (k + 1)) := by
  simp [zSlicesNvidia, List.getElem?_map, List.getElem?_range hk]

end SplitLemmas

section SplitClaims

variable {F : Type} [LinearOrderedField F]

/-- C9. In `AutomaticNvidia` mode with `N` levels, blend factor `f`, camera near plane `near`
and `maxFar = min (2 * sceneBoundsRadius) cameraFarPlane`, the far distance stored for level
`k < N` is `f * near * (maxFar / near) ^ ((k + 1) / N) +
(1 - f) * (near + ((k + 1) / N) * (maxFar - near))`, where the power is `pow`; a call of
`calcProjViewForCascaded` that returns leaves these distances in `mCascadedZSlices`. -/
theorem nvidia_far_distance (env : MathEnv F) (s : ShadowMap F) (scene : SceneView F)
    (k : Nat) (hmode : s.mCascadedFrustumMode = CascadedFrustumMode.AutomaticNvidia)
    (hk : k < s.mCascadedLevelCount) :
    (cascadedLevelCalculations env s scene).mCascadedZSlices[k]? =
      some (s.mCascadedFrustumFix * scene.camera.nearZ *
          env.pow (min (2 * env.radius scene.sceneBounds) scene.camera.farZ /
            scene.camera.nearZ) (((k : F) + 1) / (s.mCascadedLevelCount : F)) +
        (1 - s.mCascadedFrustumFix) *
          (scene.camera.nearZ + (((k : F) + 1) / (s.mCascadedLevelCount : F)) *
            (min (2 * env.radius scene.sceneBounds) scene.camera.farZ -
              scene.camera.nearZ))) ∧
    ∀ lightData renderLevel forceUpdate out,
      calcProjViewForCascaded env s scene lightData renderLevel forceUpdate = some out →
      out.1.mCascadedZSlices = (cascadedLevelCalculations env s scene).mCascadedZSlices := by
  refine ⟨?_, fun ld rl fu out h => (calcProjViewForCascaded_zSlices env s scene ld rl fu out h).1⟩
  rw [cascadedLevelCalculations_zSlices, hmode]
  simp only []
  rw [zSlicesNvidia_getElem? env s scene.camera _ k hk]
  simp only [nvidiaSlice, cascadedMaxFar, Nat.cast_add, Nat.cast_one, mul_comm _ (2 : F),
    mul_assoc]

end SplitClaims

section SplitLemmas2

variable {F : Type} [LinearOrderedField F]

/-- The blend of line 1212-1214 grows strictly with the level when the power grows strictly
with its exponent. -/
theorem nvidiaSlice_lt (env : MathEnv F) (f near maxFar : F) (N i j : Nat)
    (hnear : 0 < near) (hfar : near < maxFar) (hf0 : 0 ≤ f) (hf1 : f ≤ 1)
    (hpow : ∀ b x y : F, 1 < b → x < y → env.pow b x < env.pow b y)
    (hN : 0 < N) (hij : i < j) :
    nvidiaSlice env f near maxFar N i < nvidiaSlice env f near maxFar N j := by
  unfold nvidiaSlice
  have hNpos : (0 : F) < (N : F) := by exact_mod_cast hN
  have hxy : (i : F) / (N : F) < (j : F) / (N : F) :=
    div_lt_div_of_pos_right (by exact_mod_cast hij) hNpos
  have hr : 1 < maxFar / near := by rw [one_lt_div hnear]; exact hfar
  have hA := mul_lt_mul_of_pos_left (hpow _ _ _ hr hxy) hnear
  have hB : near + (i : F) / (N : F) * (maxFar - near) <
      near + (j : F) / (N : F) * (maxFar - near) := by
    have := mul_lt_mul_of_pos_right hxy (sub_pos.mpr hfar)
    linarith
  rcases eq_or_lt_of_le hf0 with h0 | h0
  · rw [← h0]; simpa using hB
  · have h1 := mul_lt_mul_of_pos_left hA h0
    have h2 := mul_le_mul_of_nonneg_left hB.le (sub_nonneg.mpr hf1)
    linarith

/-- The blend never exceeds `maxFar` up to the last level, where it is `maxFar`. -/
theorem nvidiaSlice_le (env : MathEnv F) (f near maxFar : F) (N i : Nat)
    (hnear : 0 < near) (hfar : near ≤ maxFar) (hf0 : 0 ≤ f) (hf1 : f ≤ 1)
    (hpow1 : ∀ b : F, env.pow b 1 = b)
    (hmono : ∀ b x y : F, 1 ≤ b → x ≤ y → env.pow b x ≤ env.pow b y)
    (hN : 0 < N) (hi : i ≤ N) :
    nvidiaSlice env f near maxFar N i ≤ maxFar := by
  unfold nvidiaSlice
  have hNpos : (0 : F) < (N : F) := by exact_mod_cast hN
  have hx : (i : F) / (N : F) ≤ 1 := by
    rw [div_le_one hNpos]; exact_mod_cast hi
  have hr : 1 ≤ maxFar / near := by rw [one_le_div hnear]; exact hfar
  have hp : env.pow (maxFar / near) ((i : F) / (N : F)) ≤ maxFar / near := by
    have := hmono _ _ _ hr hx
    rwa [hpow1] at this
  have hA : near * env.pow (maxFar / near) ((i : F) / (N : F)) ≤ maxFar := by
    have := mul_le_mul_of_nonneg_left hp hnear.le
    rwa [mul_div_cancel₀ _ hnear.ne'] at this
  have hB : near + (i : F) / (N : F) * (maxFar - near) ≤ maxFar := by
    have := mul_le_mul_of_nonneg_right hx (sub_nonneg.mpr hfar)
    linarith
  have h1 := mul_le_mul_of_nonneg_left hA hf0
  have h2 := mul_le_mul_of_nonneg_left hB (sub_nonneg.mpr hf1)
  linarith

theorem nvidiaSlice_last (env : MathEnv F) (f near maxFar : F) (N : Nat)
    (hnear : 0 < near) (hpow1 : ∀ b : F, env.pow b 1 = b) (hN : 0 < N) :
    nvidiaSlice env f near maxFar N N = maxFar := by
  unfold nvidiaSlice
  have hNpos : (N : F) ≠ 0 := by exact_mod_cast hN.ne'
  rw [div_self hNpos, hpow1, mul_div_cancel₀ _ hnear.ne']
  ring

theorem zSlicesNvidia_pairwise (env : MathEnv F) (s : ShadowMap F) (camera : CameraData F)
    (maxFar : F) (hnear : 0 < camera.nearZ) (hfar : camera.nearZ < maxFar)
    (hf0 : 0 ≤ s.mCascadedFrustumFix) (hf1 : s.mCascadedFrustumFix ≤ 1)
    (hpow : ∀ b x y : F, 1 < b → x < y → env.pow b x < env.pow b y) :
    (zSlicesNvidia env s camera maxFar).Pairwise (fun a b => a < b) := by
  unfold zSlicesNvidia
  rcases Nat.eq_zero_or_pos s.mCascadedLevelCount with h0 | hpos
  · rw [h0]; simp
  · simp only []
    apply List.Pairwise.map _ _ (List.pairwise_lt_range _)
    intro a b hab
    exact nvidiaSlice_lt env _ _ _ _ _ _ hnear hfar hf0 hf1 hpow hpos (by omega)

theorem zSlicesManual_pairwise (s : ShadowMap F) (camera : CameraData F)
    (h : camera.nearZ < camera.farZ) :
    (zSlicesManual s camera).Pairwise (fun a b => a < b) ↔
      (manualVals s).Pairwise (fun a b => a < b) := by
  unfold zSlicesManual
  simp only [List.pairwise_map]
  have hd : 0 < camera.farZ - camera.nearZ := sub_pos.mpr h
  constructor
  · intro hp
    refine hp.imp ?_
    intro a b hab
    have := lt_of_mul_lt_mul_left (by linarith : (camera.farZ - camera.nearZ) * a <
      (camera.farZ - camera.nearZ) * b) hd.le
    exact this
  · intro hp
    refine hp.imp ?_
    intro a b hab
    have := mul_lt_mul_of_pos_left hab hd
    linarith

end SplitLemmas2

section RealPower

/-- The real power function has the three properties of `pow` that the theorems on the far
distances assume. -/
theorem real_power_properties (env : MathEnv ℝ) (h : ∀ b x : ℝ, env.pow b x = b ^ x) :
    (∀ b x y : ℝ, 1 < b → x < y → env.pow b x < env.pow b y) ∧
    (∀ b : ℝ, env.pow b 1 = b) ∧
    (∀ b x y : ℝ, 1 ≤ b → x ≤ y → env.pow b x ≤ env.pow b y) := by
  refine ⟨?_, ?_, ?_⟩
  · intro b x y hb hxy
    rw [h, h]
    exact (Real.rpow_lt_rpow_left_iff hb).mpr hxy
  · intro b
    rw [h, Real.rpow_one]
  · intro b x y hb hxy
    rw [h, h]
    exact Real.rpow_le_rpow_of_exponent_le hb hxy

end RealPower

section SplitClaims2

variable {F : Type} [LinearOrderedField F]

theorem cascadedMaxFar_eq (env : MathEnv F) (scene : SceneView F) :
    cascadedMaxFar env scene = min (2 * env.radius scene.sceneBounds) scene.camera.farZ := by
  unfold cascadedMaxFar
  rw [mul_comm]

theorem cascadedLevelCalculations_manualVals (env : MathEnv F) (s : ShadowMap F)
    (scene : SceneView F) (hmode : s.mCascadedFrustumMode = CascadedFrustumMode.Manual) :
    (cascadedLevelCalculations env s scene).mCascadedFrustumManualVals = manualVals s := by
  unfold cascadedLevelCalculations
  rw [hmode]

theorem sampleEnv_pow_lt (b x y : ℚ) (hb : 1 < b) (hxy : x < y) :
    sampleEnv.pow b x < sampleEnv.pow b y := by
  show 1 + (b - 1) * x < 1 + (b - 1) * y
  have := mul_lt_mul_of_pos_left hxy (sub_pos.mpr hb)
  linarith

theorem sampleEnv_pow_le (b x y : ℚ) (hb : 1 ≤ b) (hxy : x ≤ y) :
    sampleEnv.pow b x ≤ sampleEnv.pow b y := by
  show 1 + (b - 1) * x ≤ 1 + (b - 1) * y
  have := mul_le_mul_of_nonneg_left hxy (sub_nonneg.mpr hb)
  linarith

theorem sampleEnv_pow_one (b : ℚ) : sampleEnv.pow b 1 = b := by
  show 1 + (b - 1) * 1 = b
  ring

theorem sampleScene_maxFar :
    min (2 * sampleEnv.radius sampleScene.sceneBounds) sampleScene.camera.farZ = 4 := by
  simp [sampleEnv, sampleScene, sampleCamera]
  norm_num

/-- C7 (amended). With `0 < cameraNear < maxFar`, a blend factor in `[0, 1]` and a power
function that grows strictly with its exponent for a base above one, the far distances that
`calcProjViewForCascaded` computes in `AutomaticNvidia` mode are strictly increasing in the
level index; in `Manual` mode they are strictly increasing exactly when the breakpoints in
`mCascadedFrustumManualVals` are. -/
theorem zSlices_strictly_increasing (env : MathEnv F) (s : ShadowMap F) (scene : SceneView F)
    (hnear : 0 < scene.camera.nearZ)
    (hfar : scene.camera.nearZ <
      min (2 * env.radius scene.sceneBounds) scene.camera.farZ)
    (hf0 : 0 ≤ s.mCascadedFrustumFix) (hf1 : s.mCascadedFrustumFix ≤ 1)
    (hpow : ∀ b x y : F, 1 < b → x < y → env.pow b x < env.pow b y) :
    (s.mCascadedFrustumMode = CascadedFrustumMode.AutomaticNvidia →
      (cascadedLevelCalculations env s scene).mCascadedZSlices.Pairwise
        (fun a b => a < b)) ∧
    (s.mCascadedFrustumMode = CascadedFrustumMode.Manual →
      ((cascadedLevelCalculations env s scene).mCascadedZSlices.Pairwise
          (fun a b => a < b) ↔
        (cascadedLevelCalculations env s scene).mCascadedFrustumManualVals.Pairwise
          (fun a b => a < b))) := by
  rw [← cascadedMaxFar_eq] at hfar
  constructor
  · intro hmode
    rw [cascadedLevelCalculations_zSlices, hmode]
    exact zSlicesNvidia_pairwise env s scene.camera _ hnear hfar hf0 hf1 hpow
  · intro hmode
    rw [cascadedLevelCalculations_zSlices, cascadedLevelCalculations_manualVals env s scene hmode,
      hmode]
    exact zSlicesManual_pairwise s scene.camera
      (lt_of_lt_of_le hfar (min_le_right _ _))

/-- C7, counterexample. `Manual` mode with two levels and the breakpoints `1/2`, `1/4`, camera
near plane `1`, far plane `4` and `maxFar = 4`: the far distances are `5/2` and `7/4`. -/
theorem zSlices_strictly_increasing_counterexample :
    manualDecreasing.mCascadedLevelCount = 2 ∧
    0 < sampleScene.camera.nearZ ∧
    sampleScene.camera.nearZ <
      min (2 * sampleEnv.radius sampleScene.sceneBounds) sampleScene.camera.farZ ∧
    (cascadedLevelCalculations sampleEnv manualDecreasing sampleScene).mCascadedZSlices =
      [5 / 2, 7 / 4] ∧
    ¬ ([5 / 2, 7 / 4] : List ℚ).Pairwise (fun a b => a < b) := by
  refine ⟨rfl, ?_, ?_, ?_, ?_⟩
  · simp [sampleScene, sampleCamera]
  · rw [sampleScene_maxFar]; simp [sampleScene, sampleCamera]
  · rw [cascadedLevelCalculations_zSlices]
    simp [manualDecreasing, zSlicesManual, manualVals, sampleScene, sampleCamera]
    norm_num
  · simp
    norm_num

/-- C7, witness: the settings of a new object (`AutomaticNvidia`, blend factor `0.85`) with
camera near plane `1` and `maxFar = 4`. -/
theorem zSlices_strictly_increasing_witness :
    (({} : ShadowMap ℚ).mCascadedFrustumMode = CascadedFrustumMode.AutomaticNvidia →
      (cascadedLevelCalculations sampleEnv {} sampleScene).mCascadedZSlices.Pairwise
        (fun a b => a < b)) ∧
    (({} : ShadowMap ℚ).mCascadedFrustumMode = CascadedFrustumMode.Manual →
      ((cascadedLevelCalculations sampleEnv {} sampleScene).mCascadedZSlices.Pairwise
          (fun a b => a < b) ↔
        (cascadedLevelCalculations sampleEnv {} sampleScene).mCascadedFrustumManualVals.Pairwise
          (fun a b => a < b))) :=
  zSlices_strictly_increasing sampleEnv {} sampleScene (by simp [sampleScene, sampleCamera])
    (by rw [sampleScene_maxFar]; simp [sampleScene, sampleCamera])
    (by norm_num) (by norm_num) sampleEnv_pow_lt

/-- C8 (amended). With `0 < cameraNear < maxFar`, where
`maxFar = min (2 * sceneBoundsRadius) cameraFarPlane`, and at least one level: in `Manual` mode
the far distance of level `k` is `near + (cameraFarPlane - near) * v` for the breakpoint `v` of
the level, and with a camera far plane of at most `2 * sceneBoundsRadius` it is below `maxFar`
when `v < 1`; in `AutomaticNvidia` mode, with a blend factor `f` in `[0, 1]` and a power
function with `pow b 1 = b` that grows strictly with its exponent for a base above one, the
far distance of every level before the last is below `maxFar`, and the far distance of the
last level is `f * (near * pow (maxFar / near) 1) + (1 - f) * (near + 1 * (maxFar - near))`. -/
theorem zSlices_bounded (env : MathEnv F) (s : ShadowMap F) (scene : SceneView F)
    (hnear : 0 < scene.camera.nearZ)
    (hfar : scene.camera.nearZ <
      min (2 * env.radius scene.sceneBounds) scene.camera.farZ)
    (hf0 : 0 ≤ s.mCascadedFrustumFix) (hf1 : s.mCascadedFrustumFix ≤ 1)
    (hpow1 : ∀ b : F, env.pow b 1 = b)
    (hpow : ∀ b x y : F, 1 < b → x < y → env.pow b x < env.pow b y)
    (hN : 0 < s.mCascadedLevelCount) :
    (s.mCascadedFrustumMode = CascadedFrustumMode.Manual →
      ∀ (k : Nat) (v : F),
        (cascadedLevelCalculations env s scene).mCascadedFrustumManualVals[k]? = some v →
        (cascadedLevelCalculations env s scene).mCascadedZSlices[k]? =
          some (scene.camera.nearZ + (scene.camera.farZ - scene.camera.nearZ) * v) ∧
        (scene.camera.farZ ≤ 2 * env.radius scene.sceneBounds → v < 1 →
          scene.camera.nearZ + (scene.camera.farZ - scene.camera.nearZ) * v <
            min (2 * env.radius scene.sceneBounds) scene.camera.farZ)) ∧
    (s.mCascadedFrustumMode = CascadedFrustumMode.AutomaticNvidia →
      (∀ (k : Nat) (z : F), k + 1 < s.mCascadedLevelCount →
        (cascadedLevelCalculations env s scene).mCascadedZSlices[k]? = some z →
        z < min (2 * env.radius scene.sceneBounds) scene.camera.farZ) ∧
      (cascadedLevelCalculations env s scene).mCascadedZSlices[s.mCascadedLevelCount - 1]? =
        some (s.mCascadedFrustumFix *
            (scene.camera.nearZ *
              env.pow (min (2 * env.radius scene.sceneBounds) scene.camera.farZ /
                scene.camera.nearZ) 1) +
          (1 - s.mCascadedFrustumFix) *
            (scene.camera.nearZ +
              1 * (min (2 * env.radius scene.sceneBounds) scene.camera.farZ -
                scene.camera.nearZ)))) := by
  constructor
  · intro hmode k v hv
    rw [cascadedLevelCalculations_manualVals env s scene hmode] at hv
    rw [cascadedLevelCalculations_zSlices, hmode]
    simp only [zSlicesManual, List.getElem?_map, hv, Option.map_some']
    refine ⟨trivial, fun hle hv1 => ?_⟩
    rw [min_eq_right hle]
    have hd : 0 < scene.camera.farZ - scene.camera.nearZ :=
      sub_pos.mpr (lt_of_lt_of_le hfar (min_le_right _ _))
    have := mul_lt_mul_of_pos_left hv1 hd
    linarith
  · intro hmode
    rw [← cascadedMaxFar_eq] at hfar ⊢
    constructor
    · intro k z hk hz
      rw [cascadedLevelCalculations_zSlices, hmode] at hz
      simp only [] at hz
      rw [zSlicesNvidia_getElem? env s scene.camera _ k (by omega)] at hz
      cases hz
      have h := nvidiaSlice_lt env s.mCascadedFrustumFix scene.camera.nearZ
        (cascadedMaxFar env scene) s.mCascadedLevelCount (k + 1) s.mCascadedLevelCount
        hnear hfar hf0 hf1 hpow hN hk
      rwa [nvidiaSlice_last env _ _ _ _ hnear hpow1 hN] at h
    · rw [cascadedLevelCalculations_zSlices, hmode]
      simp only []
      rw [zSlicesNvidia_getElem? env s scene.camera _ _ (by omega), Nat.sub_add_cancel hN]
      have hNpos : (s.mCascadedLevelCount : F) ≠ 0 := by exact_mod_cast hN.ne'
      simp only [nvidiaSlice, div_self hNpos]

set_option maxRecDepth 1000000 in
/-- C8, counterexample. The object after the constructor for a scene with one directional
light (four levels) and a call of `renderUI` in which the user has selected the `Manual` mode
and moved the last slider to `0.9`, with the sample camera (near plane `1`, far plane `4`) and
the scene bounds `[-2,2]^3`: the far plane is not above the extent of the bounds, so the
constructor leaves the planes as they are and `maxFar = 4`; the far distances are `23/20`,
`29/20`, `19/10` and `37/10`, and the far distance of the last level is not `maxFar`. -/
theorem zSlices_bounded_counterexample :
    Reachable sampleEnv manualLastBelow ∧
    manualLastBelow.mCascadedLevelCount = 4 ∧
    manualLastBelow.mCascadedFrustumMode = CascadedFrustumMode.Manual ∧
    manualLastBelow.mCascadedFrustumManualVals = [5 / 100, 15 / 100, 3 / 10, 9 / 10] ∧
    clampCameraPlanes (2 * sampleEnv.radius sampleScene.sceneBounds) sampleScene.camera =
      sampleScene.camera ∧
    min (2 * sampleEnv.radius sampleScene.sceneBounds) sampleScene.camera.farZ = 4 ∧
    (cascadedLevelCalculations sampleEnv manualLastBelow sampleScene).mCascadedZSlices =
      [23 / 20, 29 / 20, 19 / 10, 37 / 10] ∧
    ([23 / 20, 29 / 20, 19 / 10, 37 / 10] : List ℚ)[4 - 1]? ≠ some 4 := by
  refine ⟨Reachable.renderUI _ _ (Reachable.construct false [directionalLight true] _
    (by decide) (by with_unfolding_all rfl)), by with_unfolding_all rfl,
    by with_unfolding_all rfl, by with_unfolding_all rfl, by with_unfolding_all rfl,
    sampleScene_maxFar, by with_unfolding_all rfl, by with_unfolding_all decide⟩

/-- C8, witness: the settings of a new object with camera near plane `1` and `maxFar = 4`. -/
theorem zSlices_bounded_witness :
    (({} : ShadowMap ℚ).mCascadedFrustumMode = CascadedFrustumMode.Manual →
      ∀ (k : Nat) (v : ℚ),
        (cascadedLevelCalculations sampleEnv {} sampleScene).mCascadedFrustumManualVals[k]? =
          some v →
        (cascadedLevelCalculations sampleEnv {} sampleScene).mCascadedZSlices[k]? =
          some (sampleScene.camera.nearZ +
            (sampleScene.camera.farZ - sampleScene.camera.nearZ) * v) ∧
        (sampleScene.camera.farZ ≤ 2 * sampleEnv.radius sampleScene.sceneBounds → v < 1 →
          sampleScene.camera.nearZ + (sampleScene.camera.farZ - sampleScene.camera.nearZ) * v <
            min (2 * sampleEnv.radius sampleScene.sceneBounds) sampleScene.camera.farZ)) ∧
    (({} : ShadowMap ℚ).mCascadedFrustumMode = CascadedFrustumMode.AutomaticNvidia →
      (∀ (k : Nat) (z : ℚ), k + 1 < ({} : ShadowMap ℚ).mCascadedLevelCount →
        (cascadedLevelCalculations sampleEnv {} sampleScene).mCascadedZSlices[k]? = some z →
        z < min (2 * sampleEnv.radius sampleScene.sceneBounds) sampleScene.camera.farZ) ∧
      (cascadedLevelCalculations sampleEnv {} sampleScene).mCascadedZSlices[
          ({} : ShadowMap ℚ).mCascadedLevelCount - 1]? =
        some (({} : ShadowMap ℚ).mCascadedFrustumFix *
            (sampleScene.camera.nearZ *
              sampleEnv.pow (min (2 * sampleEnv.radius sampleScene.sceneBounds)
                sampleScene.camera.farZ / sampleScene.camera.nearZ) 1) +
          (1 - ({} : ShadowMap ℚ).mCascadedFrustumFix) *
            (sampleScene.camera.nearZ +
              1 * (min (2 * sampleEnv.radius sampleScene.sceneBounds) sampleScene.camera.farZ -
                sampleScene.camera.nearZ)))) :=
  zSlices_bounded sampleEnv {} sampleScene (by simp [sampleScene, sampleCamera])
    (by rw [sampleScene_maxFar]; simp [sampleScene, sampleCamera])
    (by norm_num) (by norm_num) sampleEnv_pow_one sampleEnv_pow_lt (by decide)

/-- C9, witness: level `1` of the four levels of a new object. -/
theorem nvidia_far_distance_witness :
    (cascadedLevelCalculations sampleEnv ({} : ShadowMap ℚ) sampleScene).mCascadedZSlices[1]? =
      some (({} : ShadowMap ℚ).mCascadedFrustumFix * sampleScene.camera.nearZ *
          sampleEnv.pow (min (2 * sampleEnv.radius sampleScene.sceneBounds)
            sampleScene.camera.farZ / sampleScene.camera.nearZ)
            ((((1 : Nat) : ℚ) + 1) / ((({} : ShadowMap ℚ).mCascadedLevelCount : Nat) : ℚ)) +
        (1 - ({} : ShadowMap ℚ).mCascadedFrustumFix) *
          (sampleScene.camera.nearZ +
            ((((1 : Nat) : ℚ) + 1) / ((({} : ShadowMap ℚ).mCascadedLevelCount : Nat) : ℚ)) *
            (min (2 * sampleEnv.radius sampleScene.sceneBounds) sampleScene.camera.farZ -
              sampleScene.camera.nearZ))) ∧
    ∀ lightData renderLevel forceUpdate out,
      calcProjViewForCascaded sampleEnv ({} : ShadowMap ℚ) sampleScene lightData renderLevel
        forceUpdate = some out →
      out.1.mCascadedZSlices =
        (cascadedLevelCalculations sampleEnv ({} : ShadowMap ℚ) sampleScene).mCascadedZSlices :=
  nvidia_far_distance sampleEnv {} sampleScene 1 rfl (by decide)

end SplitClaims2

/-! ## Temporal reuse of the cascade levels -/

section ReuseLemmas

variable {F : Type} [LinearOrderedField F]

theorem setAt_eq_some {α : Type} {l l' : List α} {i : Nat} {v : α} :
    setAt l i v = some l' ↔ i < l.length ∧ l' = l.set i v := by
  unfold setAt
  split_ifs with h
  · simp [h, eq_comm]
  · simp [h]

/-- The flag `temporalValid` stays set when no corner fails the test of line 1295. -/
theorem temporalValid_of_inside (env : MathEnv F) (c : CascadedTemporalReuse F)
    (corners : List (float4 F))
    (h : ∀ p ∈ corners,
      outsideNDC (mulVec c.ortho
        ⟨(clampedViewPoint env c.view c.aabb p).x, (clampedViewPoint env c.view c.aabb p).y,
          (clampedViewPoint env c.view c.aabb p).z, 1⟩).xyz = false) :
    temporalValid env c corners = true := by
  unfold temporalValid
  have aux : ∀ (init : Bool) (ps : List (float4 F)),
      (∀ p ∈ ps, outsideNDC (mulVec c.ortho
        ⟨(clampedViewPoint env c.view c.aabb p).x, (clampedViewPoint env c.view c.aabb p).y,
          (clampedViewPoint env c.view c.aabb p).z, 1⟩).xyz = false) →
      ps.foldl (fun valid p =>
        if outsideNDC (mulVec c.ortho
          ⟨(clampedViewPoint env c.view c.aabb p).x, (clampedViewPoint env c.view c.aabb p).y,
            (clampedViewPoint env c.view c.aabb p).z, 1⟩).xyz = true then false else valid)
        init = init := by
    intro init ps
    induction ps generalizing init with
    | nil => intro _; rfl
    | cons p ps ih =>
      intro hps
      rw [List.foldl_cons, hps p (List.mem_cons_self _ _)]
      exact ih init (fun q hq => hps q (List.mem_cons_of_mem _ hq))
  exact aux true corners h

/-- The orthographic projection of a box sends a point of the box, in x and y, to a point
that passes the test of line 1295. -/
theorem ortho_inside (l r b t n f x y z : F) (hlx : l ≤ x) (hxr : x ≤ r) (hby : b ≤ y)
    (hyt : y ≤ t) : outsideNDC (mulVec (ortho l r b t n f) ⟨x, y, z, 1⟩).xyz = false := by
  have key : ∀ lo hi v : F, lo ≤ v → v ≤ hi →
      -1 ≤ 2 / (hi - lo) * v + -(hi + lo) / (hi - lo) ∧
      2 / (hi - lo) * v + -(hi + lo) / (hi - lo) ≤ 1 := by
    intro lo hi v h1 h2
    rcases eq_or_lt_of_le (le_trans h1 h2) with h | h
    · have : hi - lo = 0 := by rw [h]; ring
      rw [this]; simp
    · have hd : 0 < hi - lo := sub_pos.mpr h
      have e : 2 / (hi - lo) * v + -(hi + lo) / (hi - lo) =
          (2 * v - (hi + lo)) / (hi - lo) := by field_simp; ring
      rw [e, le_div_iff₀ hd, div_le_iff₀ hd]
      constructor <;> linarith
  obtain ⟨hx1, hx2⟩ := key l r x hlx hxr
  obtain ⟨hy1, hy2⟩ := key b t y hby hyt
  simp only [outsideNDC, mulVec, ortho, float4.dot, float4.xyz, zero_mul, mul_one, add_zero,
    zero_add]
  have hz : ∀ w : F, (decide (w < 0) && decide (w > 1)) = false := by
    intro w
    by_cases hw : w < 0
    · have : ¬ w > 1 := by intro h1; linarith
      simp [this]
    · simp [hw]
  rw [hz, decide_eq_false (not_lt.mpr hx1), decide_eq_false (not_lt.mpr hx2),
    decide_eq_false (not_lt.mpr hy1), decide_eq_false (not_lt.mpr hy2)]
  rfl

/-- The box of a level holds, in x and y, every clamped corner of the level. -/
theorem levelBox_bounds (env : MathEnv F) (casView : float4x4 F) (smViewAABB : AABB F)
    (corners : List (float4 F)) (p : float4 F) (hp : p ∈ corners) :
    (levelBox env casView smViewAABB corners).minX ≤
      (clampedViewPoint env casView smViewAABB p).x ∧
    (clampedViewPoint env casView smViewAABB p).x ≤
      (levelBox env casView smViewAABB corners).maxX ∧
    (levelBox env casView smViewAABB corners).minY ≤
      (clampedViewPoint env casView smViewAABB p).y ∧
    (clampedViewPoint env casView smViewAABB p).y ≤
      (levelBox env casView smViewAABB corners).maxY := by
  have aux : ∀ (ps : List (float4 F)) (b0 : OrthoBox F),
      ((ps.foldl (growBox env casView smViewAABB) b0).minX ≤ b0.minX ∧
        b0.maxX ≤ (ps.foldl (growBox env casView smViewAABB) b0).maxX ∧
        (ps.foldl (growBox env casView smViewAABB) b0).minY ≤ b0.minY ∧
        b0.maxY ≤ (ps.foldl (growBox env casView smViewAABB) b0).maxY) ∧
      ∀ q ∈ ps,
        (ps.foldl (growBox env casView smViewAABB) b0).minX ≤
          (clampedViewPoint env casView smViewAABB q).x ∧
        (clampedViewPoint env casView smViewAABB q).x ≤
          (ps.foldl (growBox env casView smViewAABB) b0).maxX ∧
        (ps.foldl (growBox env casView smViewAABB) b0).minY ≤
          (clampedViewPoint env casView smViewAABB q).y ∧
        (clampedViewPoint env casView smViewAABB q).y ≤
          (ps.foldl (growBox env casView smViewAABB) b0).maxY := by
    intro ps
    induction ps with
    | nil => intro b0; exact ⟨⟨le_refl _, le_refl _, le_refl _, le_refl _⟩, fun q hq => by cases hq⟩
    | cons a ps ih =>
      intro b0
      rw [List.foldl_cons]
      obtain ⟨⟨m1, m2, m3, m4⟩, hin⟩ := ih (growBox env casView smViewAABB b0 a)
      have g1 : (growBox env casView smViewAABB b0 a).minX ≤ b0.minX := min_le_left _ _
      have g2 : b0.maxX ≤ (growBox env casView smViewAABB b0 a).maxX := le_max_left _ _
      have g3 : (growBox env casView smViewAABB b0 a).minY ≤ b0.minY := min_le_left _ _
      have g4 : b0.maxY ≤ (growBox env casView smViewAABB b0 a).maxY := le_max_left _ _
      have a1 : (growBox env casView smViewAABB b0 a).minX ≤
          (clampedViewPoint env casView smViewAABB a).x := min_le_right _ _
      have a2 : (clampedViewPoint env casView smViewAABB a).x ≤
          (growBox env casView smViewAABB b0 a).maxX := le_max_right _ _
      have a3 : (growBox env casView smViewAABB b0 a).minY ≤
          (clampedViewPoint env casView smViewAABB a).y := min_le_right _ _
      have a4 : (clampedViewPoint env casView smViewAABB a).y ≤
          (growBox env casView smViewAABB b0 a).maxY := le_max_right _ _
      refine ⟨⟨le_trans m1 g1, le_trans g2 m2, le_trans m3 g3, le_trans g4 m4⟩, ?_⟩
      intro q hq
      rcases List.mem_cons.mp hq with rfl | hq
      · exact ⟨le_trans m1 a1, le_trans a2 m2, le_trans m3 a3, le_trans a4 m4⟩
      · exact hin q hq
  exact (aux corners _).2 p hp

/-- The enlarged box holds the box, in x and y, when the factor is not negative. -/
theorem enlargeBox_contains (e : F) (b : OrthoBox F) (he : 0 ≤ e) :
    (enlargeBox e b).minX ≤ b.minX ∧ b.maxX ≤ (enlargeBox e b).maxX ∧
    (enlargeBox e b).minY ≤ b.minY ∧ b.maxY ≤ (enlargeBox e b).maxY := by
  unfold enlargeBox
  refine ⟨?_, ?_, ?_, ?_⟩
  · show (if b.minX > 0 then b.minX - b.minX * e else b.minX + b.minX * e) ≤ b.minX
    split_ifs with h
    · have := mul_nonneg h.le he; linarith
    · have := mul_nonneg_of_nonpos_of_nonpos (not_lt.mp h) (neg_nonpos.mpr he)
      nlinarith
  · show b.maxX ≤ (if b.maxX < 0 then b.maxX - b.maxX * e else b.maxX + b.maxX * e)
    split_ifs with h
    · have := mul_nonneg_of_nonpos_of_nonpos h.le (neg_nonpos.mpr he)
      nlinarith
    · have := mul_nonneg (not_lt.mp h) he; linarith
  · show (if b.minY > 0 then b.minY - b.minY * e else b.minY + b.minY * e) ≤ b.minY
    split_ifs with h
    · have := mul_nonneg h.le he; linarith
    · have := mul_nonneg_of_nonpos_of_nonpos (not_lt.mp h) (neg_nonpos.mpr he)
      nlinarith
  · show b.maxY ≤ (if b.maxY < 0 then b.maxY - b.maxY * e else b.maxY + b.maxY * e)
    split_ifs with h
    · have := mul_nonneg_of_nonpos_of_nonpos h.le (neg_nonpos.mpr he)
      nlinarith
    · have := mul_nonneg (not_lt.mp h) he; linarith

/-- A cache entry written for a level passes the reuse test on the corners of that level. -/
theorem temporalValid_fresh (env : MathEnv F) (casView : float4x4 F) (smViewAABB : AABB F)
    (corners : List (float4 F)) (e : F) (he : 0 ≤ e) (v : Bool) :
    temporalValid env
      { valid := v, aabb := smViewAABB, view := casView,
        ortho := casProj (enlargeBox e (levelBox env casView smViewAABB corners)) }
      corners = true := by
  apply temporalValid_of_inside
  intro p hp
  obtain ⟨b1, b2, b3, b4⟩ := levelBox_bounds env casView smViewAABB corners p hp
  obtain ⟨c1, c2, c3, c4⟩ :=
    enlargeBox_contains e (levelBox env casView smViewAABB corners) he
  exact ortho_inside _ _ _ _ _ _ _ _ _ (le_trans c1 b1) (le_trans b2 c2) (le_trans c3 b3)
    (le_trans b4 c4)

end ReuseLemmas

section ReuseSteps

variable {F : Type} [LinearOrderedField F]

/-- What an iteration that is not skipped leaves in the cache, with temporal reuse enabled. -/
theorem storeLevel_some (s : ShadowMap F) (lightData : LightData F) (center : float3 F)
    (casView : float4x4 F) (smViewAABB : AABB F) (b : OrthoBox F) (st st' : CascadeLoop F)
    (i : Nat) (hen : s.mEnableTemporalCascadedBoxTest = true)
    (h : storeLevel s lightData center casView smViewAABB b st i = some st') :
    st'.near = st.near ∧ st'.renderLevel = st.renderLevel ∧
    ∃ c, st.mCascadedTemporalReuse[i]? = some c ∧
      st'.mCascadedTemporalReuse = st.mCascadedTemporalReuse.set i
        { c with aabb := smViewAABB, view := casView, ortho := casProj b } := by
  unfold storeLevel at h
  simp only [hen, if_true, Option.bind_eq_some, setAt_eq_some] at h
  obtain ⟨reuse, ⟨c, hc, -, rfl⟩, wh, -, vp, -, culling, -, hst⟩ := h
  cases hst
  exact ⟨rfl, rfl, c, hc, rfl⟩

theorem recomputeLevel_some (env : MathEnv F) (s : ShadowMap F) (lightData : LightData F)
    (center : float3 F) (casView : float4x4 F) (smViewAABB : AABB F)
    (corners : List (float4 F)) (st st' : CascadeLoop F) (i : Nat)
    (hen : s.mEnableTemporalCascadedBoxTest = true)
    (he : 0 ≤ s.mCascadedReuseEnlargeFactor)
    (h : recomputeLevel s lightData center casView smViewAABB
      (levelBox env casView smViewAABB corners) st i = some st') :
    st'.near = st.near ∧
    st'.mCascadedTemporalReuse.length = st.mCascadedTemporalReuse.length ∧
    (∀ j, j ≠ i → st'.mCascadedTemporalReuse[j]? = st.mCascadedTemporalReuse[j]?) ∧
    ∃ c', st'.mCascadedTemporalReuse[i]? = some c' ∧ c'.valid = true ∧
      temporalValid env c' corners = true := by
  unfold recomputeLevel at h
  simp only [Option.bind_eq_some, setAt_eq_some] at h
  obtain ⟨c, hc, reuse, ⟨hi, rfl⟩, rl, -, hstore⟩ := h
  obtain ⟨hnear, -, c2, hc2, hreuse⟩ := storeLevel_some s lightData center casView smViewAABB _
    _ st' i hen hstore
  simp only [List.getElem?_set_self hi, Option.some.injEq] at hc2
  subst hc2
  refine ⟨hnear, ?_, ?_, ?_⟩
  · rw [hreuse]; simp
  · intro j hj
    rw [hreuse]
    simp [List.getElem?_set_ne (Ne.symm hj)]
  · refine ⟨⟨true, smViewAABB, casView, casProj (enlargeBox s.mCascadedReuseEnlargeFactor
      (levelBox env casView smViewAABB corners))⟩, ?_, rfl, ?_⟩
    · rw [hreuse]
      exact List.getElem?_set_self (by simpa using hi)
    · exact temporalValid_fresh env casView smViewAABB corners _ he true

end ReuseSteps

section ReuseLoop

variable {F : Type} [LinearOrderedField F]

/-- What one iteration of the loop leaves in the cache, with temporal reuse enabled and a
factor that is not negative: the entry of the level is valid and passes the reuse test on the
corners of the level, and the other entries are as before. -/
theorem cascadeLevel_some (env : MathEnv F) (s : ShadowMap F) (scene : SceneView F)
    (lightData : LightData F) (forceUpdate : Bool) (st st' : CascadeLoop F) (i : Nat)
    (hen : s.mEnableTemporalCascadedBoxTest = true)
    (he : 0 ≤ s.mCascadedReuseEnlargeFactor)
    (h : cascadeLevel env s scene lightData forceUpdate st i = some st') :
    ∃ z, s.mCascadedZSlices[i]? = some z ∧ st'.near = z ∧
      st'.mCascadedTemporalReuse.length = st.mCascadedTemporalReuse.length ∧
      (∀ j, j ≠ i → st'.mCascadedTemporalReuse[j]? = st.mCascadedTemporalReuse[j]?) ∧
      ∃ c', st'.mCascadedTemporalReuse[i]? = some c' ∧ c'.valid = true ∧
        temporalValid env c' (frustumCorners env scene.camera st.near z) = true := by
  unfold cascadeLevel at h
  simp only [Option.bind_eq_some, setAt_eq_some, hen, if_true] at h
  obtain ⟨z, hz, rl, ⟨-, rfl⟩, c, hc, hbr⟩ := h
  refine ⟨z, hz, ?_⟩
  split_ifs at hbr with h1 h2
  · cases hbr
    simp only [Bool.and_eq_true] at h1
    exact ⟨rfl, rfl, fun j _ => rfl, c, hc, h1.1, h2⟩
  · exact recomputeLevel_some env s lightData _ _ _ _ _ st' i hen he hbr
  · exact recomputeLevel_some env s lightData _ _ _ _ _ st' i hen he hbr

/-- An iteration whose cache entry is valid and passes the reuse test is skipped when the
update is not forced: only `renderLevel[i]` and `near` are written. -/
theorem cascadeLevel_skip (env : MathEnv F) (s : ShadowMap F) (scene : SceneView F)
    (lightData : LightData F) (st : CascadeLoop F) (i : Nat) (z : F)
    (c : CascadedTemporalReuse F)
    (hen : s.mEnableTemporalCascadedBoxTest = true)
    (hz : s.mCascadedZSlices[i]? = some z) (hrl : i < st.renderLevel.length)
    (hc : st.mCascadedTemporalReuse[i]? = some c) (hv : c.valid = true)
    (ht : temporalValid env c (frustumCorners env scene.camera st.near z) = true) :
    cascadeLevel env s scene lightData false st i =
      some { st with renderLevel := st.renderLevel.set i false, near := z } := by
  unfold cascadeLevel
  simp [hz, setAt, hrl, hen, hc, hv, ht]

theorem cascadeLevels_succ (env : MathEnv F) (s : ShadowMap F) (scene : SceneView F)
    (lightData : LightData F) (forceUpdate : Bool) (st : CascadeLoop F) (n : Nat) :
    cascadeLevels env s scene lightData forceUpdate st (n + 1) =
      (cascadeLevels env s scene lightData forceUpdate st n).bind fun st' =>
        cascadeLevel env s scene lightData forceUpdate st' n := by
  simp [cascadeLevels, List.range_succ, List.foldlM_append]

theorem cascadeLevels_zero (env : MathEnv F) (s : ShadowMap F) (scene : SceneView F)
    (lightData : LightData F) (forceUpdate : Bool) (st : CascadeLoop F) :
    cascadeLevels env s scene lightData forceUpdate st 0 = some st := rfl

/-- After `n` iterations of a loop that returns, with temporal reuse enabled and a factor that
is not negative, the cache entries of the levels below `n` are valid and pass the reuse test
on the corners of their level. -/
theorem cascadeLevels_some (env : MathEnv F) (s : ShadowMap F) (scene : SceneView F)
    (lightData : LightData F) (forceUpdate : Bool) (st : CascadeLoop F)
    (hen : s.mEnableTemporalCascadedBoxTest = true)
    (he : 0 ≤ s.mCascadedReuseEnlargeFactor) (n : Nat) :
    ∀ st', cascadeLevels env s scene lightData forceUpdate st n = some st' →
      st'.near = nearAfter st.near s.mCascadedZSlices n ∧
      st'.mCascadedTemporalReuse.length = st.mCascadedTemporalReuse.length ∧
      ∀ i, i < n → ∃ c', st'.mCascadedTemporalReuse[i]? = some c' ∧ c'.valid = true ∧
        temporalValid env c' (frustumCorners env scene.camera
          (nearAfter st.near s.mCascadedZSlices i) (s.mCascadedZSlices.getD i 0)) = true := by
  induction n with
  | zero =>
    intro st' h
    rw [cascadeLevels_zero] at h
    cases h
    exact ⟨rfl, rfl, fun i hi => absurd hi (Nat.not_lt_zero i)⟩
  | succ n ih =>
    intro st' h
    rw [cascadeLevels_succ, Option.bind_eq_some] at h
    obtain ⟨mid, hmid, hstep⟩ := h
    obtain ⟨hnear, hlen, hprev⟩ := ih mid hmid
    obtain ⟨z, hz, hnear', hlen', hframe, c', hc', hv', ht'⟩ :=
      cascadeLevel_some env s scene lightData forceUpdate mid st' n hen he hstep
    have hzD : s.mCascadedZSlices.getD n 0 = z := by
      simp [List.getD_eq_getElem?_getD, hz]
    refine ⟨?_, by rw [hlen', hlen], ?_⟩
    · rw [hnear']
      simp [nearAfter, List.getD_eq_getElem?_getD, hz]
    · intro i hi
      rcases Nat.lt_succ_iff_lt_or_eq.mp hi with hlt | rfl
      · obtain ⟨c, hc, hv, ht⟩ := hprev i hlt
        exact ⟨c, by rw [hframe i (Nat.ne_of_lt hlt), hc], hv, ht⟩
      · exact ⟨c', hc', hv', by rw [hzD, ← hnear]; exact ht'⟩

theorem set_replicate_drop {α : Type} (l : List α) (n : Nat) (v : α) (h : n < l.length) :
    (List.replicate n v ++ l.drop n).set n v = List.replicate (n + 1) v ++ l.drop (n + 1) := by
  apply List.ext_getElem?
  intro k
  rw [List.getElem?_set]
  rcases Nat.lt_trichotomy k n with hk | hk | hk
  · rw [if_neg (by omega), List.getElem?_append_left (by simpa using hk),
      List.getElem?_append_left (by simp; omega)]
    simp [List.getElem?_replicate, hk, Nat.lt_succ_of_lt hk]
  · subst hk
    rw [if_pos rfl, List.getElem?_append_left (by simp)]
    simp [List.getElem?_replicate, h]
  · rw [if_neg (by omega), List.getElem?_append_right (by simp; omega),
      List.getElem?_append_right (by simp; omega)]
    simp only [List.length_replicate, List.getElem?_drop]
    congr 1
    omega

/-- With temporal reuse enabled and an update that is not forced, `n` iterations over levels
whose cache entries are valid and pass the reuse test only clear the flags of these levels
and move `near`. -/
theorem cascadeLevels_skip (env : MathEnv F) (s : ShadowMap F) (scene : SceneView F)
    (lightData : LightData F) (st : CascadeLoop F)
    (hen : s.mEnableTemporalCascadedBoxTest = true) (n : Nat)
    (hrl : n ≤ st.renderLevel.length) (hzs : n ≤ s.mCascadedZSlices.length)
    (hcache : ∀ i, i < n → ∃ c, st.mCascadedTemporalReuse[i]? = some c ∧ c.valid = true ∧
      temporalValid env c (frustumCorners env scene.camera
        (nearAfter st.near s.mCascadedZSlices i) (s.mCascadedZSlices.getD i 0)) = true) :
    cascadeLevels env s scene lightData false st n =
      some { st with
        renderLevel := List.replicate n false ++ st.renderLevel.drop n
        near := nearAfter st.near s.mCascadedZSlices n } := by
  induction n with
  | zero => simp [cascadeLevels_zero, nearAfter]
  | succ n ih =>
    rw [cascadeLevels_succ, ih (by omega) (by omega) (fun i hi => hcache i (by omega))]
    simp only [Option.some_bind]
    obtain ⟨c, hc, hv, ht⟩ := hcache n (by omega)
    have hz : s.mCascadedZSlices[n]? = some (s.mCascadedZSlices.getD n 0) := by
      rw [List.getD_eq_getElem?_getD, List.getElem?_eq_getElem (by omega)]
      simp
    have hstep := cascadeLevel_skip env s scene lightData
      ⟨nearAfter st.near s.mCascadedZSlices n,
        List.replicate n false ++ st.renderLevel.drop n, st.mCascadedTemporalReuse,
        st.mCascadedWidthHeight, st.mCascadedVPMatrix, st.mFrustumCulling⟩
      n _ c hen hz (by simp; omega) hc hv ht
    rw [hstep]
    have hn : nearAfter st.near s.mCascadedZSlices (n + 1) = s.mCascadedZSlices.getD n 0 := by
      simp [nearAfter, List.getD_eq_getElem?_getD, List.getElem?_eq_getElem
        (by omega : n < s.mCascadedZSlices.length)]
    simp only [set_replicate_drop _ n false (by omega : n < st.renderLevel.length), hn]

end ReuseLoop

section ReuseClaim

variable {F : Type} [LinearOrderedField F]

theorem temporalReuseSized_length (env : MathEnv F) (s : ShadowMap F)
    (hen : s.mEnableTemporalCascadedBoxTest = true) :
    (temporalReuseSized env s).length = s.mCascadedLevelCount := by
  unfold temporalReuseSized
  rw [hen]
  by_cases hl : s.mCascadedTemporalReuse.length = s.mCascadedLevelCount
  · simp [hl]
  · simp [hl]

theorem temporalReuseSized_of_length (env : MathEnv F) (s : ShadowMap F)
    (hl : s.mCascadedTemporalReuse.length = s.mCascadedLevelCount) :
    temporalReuseSized env s = s.mCascadedTemporalReuse := by
  unfold temporalReuseSized
  simp [hl]

/-- The members that the block "Cascaded level calculations" leaves as they are, and the cache
and the breakpoints that it leaves. -/
theorem cascadedLevelCalculations_fields (env : MathEnv F) (s : ShadowMap F)
    (scene : SceneView F) :
    (cascadedLevelCalculations env s scene).mEnableTemporalCascadedBoxTest =
      s.mEnableTemporalCascadedBoxTest ∧
    (cascadedLevelCalculations env s scene).mCascadedReuseEnlargeFactor =
      s.mCascadedReuseEnlargeFactor ∧
    (cascadedLevelCalculations env s scene).mCascadedFrustumMode = s.mCascadedFrustumMode ∧
    (cascadedLevelCalculations env s scene).mCascadedFrustumFix = s.mCascadedFrustumFix ∧
    (cascadedLevelCalculations env s scene).mCascadedTemporalReuse = temporalReuseSized env s ∧
    (cascadedLevelCalculations env s scene).mCascadedWidthHeight = s.mCascadedWidthHeight ∧
    (cascadedLevelCalculations env s scene).mCascadedVPMatrix = s.mCascadedVPMatrix ∧
    (cascadedLevelCalculations env s scene).mFrustumCulling = s.mFrustumCulling ∧
    (s.mCascadedFrustumMode = CascadedFrustumMode.Manual →
      (cascadedLevelCalculations env s scene).mCascadedFrustumManualVals = manualVals s) := by
  unfold cascadedLevelCalculations
  cases s.mCascadedFrustumMode
  · exact ⟨rfl, rfl, rfl, rfl, rfl, rfl, rfl, rfl, fun _ => rfl⟩
  · exact ⟨rfl, rfl, rfl, rfl, rfl, rfl, rfl, rfl, fun h => by cases h⟩

theorem manualVals_of_eq (s s' : ShadowMap F) (hN : s'.mCascadedLevelCount = s.mCascadedLevelCount)
    (hv : s'.mCascadedFrustumManualVals = manualVals s) : manualVals s' = manualVals s := by
  have hm := manualVals_length s
  unfold manualVals at hm ⊢
  rw [if_neg]
  · exact hv
  · rw [hv, hN]
    unfold manualVals
    exact not_not.mpr hm

/-- The far distances are the same for two states with the same split settings. -/
theorem cascadedLevelCalculations_zSlices_congr (env : MathEnv F) (s s' : ShadowMap F)
    (scene : SceneView F)
    (hmode : s'.mCascadedFrustumMode = s.mCascadedFrustumMode)
    (hN : s'.mCascadedLevelCount = s.mCascadedLevelCount)
    (hfix : s'.mCascadedFrustumFix = s.mCascadedFrustumFix)
    (hv : s.mCascadedFrustumMode = CascadedFrustumMode.Manual →
      s'.mCascadedFrustumManualVals = manualVals s) :
    (cascadedLevelCalculations env s' scene).mCascadedZSlices =
      (cascadedLevelCalculations env s scene).mCascadedZSlices := by
  rw [cascadedLevelCalculations_zSlices, cascadedLevelCalculations_zSlices, hmode]
  cases hm : s.mCascadedFrustumMode
  · simp only [zSlicesManual, manualVals_of_eq s s' hN (hv hm)]
  · simp only [zSlicesNvidia, hN, hfix]

/-- What a call that returns has done: the loop over the levels has returned, from the state
`sc` that the block "Cascaded level calculations" left. -/
theorem calcProjViewForCascaded_some (env : MathEnv F) (s : ShadowMap F)
    (scene : SceneView F) (lightData : LightData F) (renderLevel : List Bool)
    (forceUpdate : Bool) (s1 : ShadowMap F) (out : List Bool)
    (h : calcProjViewForCascaded env s scene lightData renderLevel forceUpdate =
      some (s1, out)) :
    ∃ st, cascadeLevels env (cascadedLevelCalculations env s scene) scene lightData forceUpdate
        (cascadeLoopStart (cascadedLevelCalculations env s scene) scene renderLevel)
        (cascadedLevelCalculations env s scene).mCascadedLevelCount = some st ∧
      out = st.renderLevel ∧
      s1.mCascadedTemporalReuse = st.mCascadedTemporalReuse ∧
      s1.mCascadedFrustumMode = s.mCascadedFrustumMode ∧
      s1.mCascadedLevelCount = s.mCascadedLevelCount ∧
      s1.mCascadedFrustumFix = s.mCascadedFrustumFix ∧
      s1.mEnableTemporalCascadedBoxTest = s.mEnableTemporalCascadedBoxTest ∧
      (s.mCascadedFrustumMode = CascadedFrustumMode.Manual →
        s1.mCascadedFrustumManualVals = manualVals s) := by
  unfold calcProjViewForCascaded at h
  simp only [Option.map_eq_some', Prod.mk.injEq] at h
  obtain ⟨st, hst, rfl, rfl⟩ := h
  obtain ⟨f1, -, f3, f4, -, -, -, -, f9⟩ := cascadedLevelCalculations_fields env s scene
  exact ⟨st, hst, rfl, rfl, f3, cascadedLevelCalculations_levelCount env s scene, f4, f1, f9⟩

end ReuseClaim

section Totality

variable {F : Type} [LinearOrderedField F]

theorem setAt_of_lt {α : Type} (l : List α) (i : Nat) (v : α) (h : i < l.length) :
    setAt l i v = some (l.set i v) := by
  unfold setAt
  rw [if_pos h]

theorem storeLevel_returns (s : ShadowMap F) (lightData : LightData F) (center : float3 F)
    (casView : float4x4 F) (smViewAABB : AABB F) (b : OrthoBox F) (st : CascadeLoop F)
    (i n : Nat) (hi : i < n) (hsz : loopSized s st n) :
    ∃ st', storeLevel s lightData center casView smViewAABB b st i = some st' ∧
      loopSized s st' n := by
  obtain ⟨h1, h2, h3, h4, h5⟩ := hsz
  unfold storeLevel
  by_cases hen : s.mEnableTemporalCascadedBoxTest = true
  · by_cases hc : s.mUseFrustumCulling = true
    · have hlt : i < st.mCascadedTemporalReuse.length := lt_of_lt_of_le hi (h2 hen)
      simp only [hen, hc, if_true, List.getElem?_eq_getElem hlt, Option.some_bind,
        setAt_of_lt _ _ _ hlt, setAt_of_lt _ _ _ (lt_of_lt_of_le hi h3),
        setAt_of_lt _ _ _ (lt_of_lt_of_le hi h4), setAt_of_lt _ _ _ (h5 hc i hi)]
      refine ⟨_, rfl, ?_⟩
      refine ⟨h1, fun _ => ?_, ?_, ?_, fun _ j hj => ?_⟩
      · simpa using h2 hen
      · simpa using h3
      · simpa using h4
      · simpa using h5 hc j hj
    · have hlt : i < st.mCascadedTemporalReuse.length := lt_of_lt_of_le hi (h2 hen)
      simp only [hen, hc, if_true, List.getElem?_eq_getElem hlt, Option.some_bind,
        setAt_of_lt _ _ _ hlt, setAt_of_lt _ _ _ (lt_of_lt_of_le hi h3),
        setAt_of_lt _ _ _ (lt_of_lt_of_le hi h4)]
      refine ⟨_, rfl, ?_⟩
      refine ⟨h1, fun _ => ?_, ?_, ?_, fun h => absurd h hc⟩
      · simpa using h2 hen
      · simpa using h3
      · simpa using h4
  · by_cases hc : s.mUseFrustumCulling = true
    · simp only [hen, hc, if_true, Option.some_bind,
        setAt_of_lt _ _ _ (lt_of_lt_of_le hi h3),
        setAt_of_lt _ _ _ (lt_of_lt_of_le hi h4), setAt_of_lt _ _ _ (h5 hc i hi)]
      refine ⟨_, rfl, ?_⟩
      refine ⟨h1, fun h => absurd h hen, ?_, ?_, fun _ j hj => ?_⟩
      · simpa using h3
      · simpa using h4
      · simpa using h5 hc j hj
    · simp only [hen, hc, Option.some_bind,
        setAt_of_lt _ _ _ (lt_of_lt_of_le hi h3),
        setAt_of_lt _ _ _ (lt_of_lt_of_le hi h4)]
      refine ⟨_, rfl, ?_⟩
      refine ⟨h1, fun h => absurd h hen, ?_, ?_, fun h => absurd h hc⟩
      · simpa using h3
      · simpa using h4

theorem recomputeLevel_returns (s : ShadowMap F) (lightData : LightData F)
    (center : float3 F) (casView : float4x4 F) (smViewAABB : AABB F) (b : OrthoBox F)
    (st : CascadeLoop F) (i n : Nat) (hi : i < n) (hsz : loopSized s st n)
    (hen : s.mEnableTemporalCascadedBoxTest = true) :
    ∃ st', recomputeLevel s lightData center casView smViewAABB b st i = some st' ∧
      loopSized s st' n := by
  obtain ⟨h1, h2, h3, h4, h5⟩ := hsz
  have hlt : i < st.mCascadedTemporalReuse.length := lt_of_lt_of_le hi (h2 hen)
  unfold recomputeLevel
  simp only [List.getElem?_eq_getElem hlt, Option.some_bind, setAt_of_lt _ _ _ hlt,
    setAt_of_lt _ _ _ (lt_of_lt_of_le hi h1)]
  apply storeLevel_returns s lightData center casView smViewAABB _ _ i n hi
  refine ⟨?_, fun _ => ?_, h3, h4, h5⟩
  · simpa using h1
  · simpa using h2 hen

/-- An iteration returns when the vectors have room for its level. -/
theorem cascadeLevel_returns (env : MathEnv F) (s : ShadowMap F) (scene : SceneView F)
    (lightData : LightData F) (forceUpdate : Bool) (st : CascadeLoop F) (i n : Nat)
    (hi : i < n) (hz : i < s.mCascadedZSlices.length) (hsz : loopSized s st n) :
    ∃ st', cascadeLevel env s scene lightData forceUpdate st i = some st' ∧
      loopSized s st' n := by
  have hsz' := hsz
  obtain ⟨h1, h2, h3, h4, h5⟩ := hsz
  unfold cascadeLevel
  simp only [List.getElem?_eq_getElem hz, Option.some_bind,
    setAt_of_lt _ _ _ (lt_of_lt_of_le hi h1)]
  have hsz1 : ∀ (v : Bool) (z : F), loopSized s
      { st with renderLevel := st.renderLevel.set i v, near := z } n :=
    fun v z => ⟨by simpa using h1, h2, h3, h4, h5⟩
  by_cases hen : s.mEnableTemporalCascadedBoxTest = true
  · have hlt : i < st.mCascadedTemporalReuse.length := lt_of_lt_of_le hi (h2 hen)
    simp only [hen, if_true, List.getElem?_eq_getElem hlt, Option.some_bind]
    split_ifs
    · exact ⟨_, rfl, hsz1 _ _⟩
    · exact recomputeLevel_returns s lightData _ _ _ _ _ i n hi (hsz1 _ _) hen
    · exact recomputeLevel_returns s lightData _ _ _ _ _ i n hi (hsz1 _ _) hen
  · simp only [hen, if_false]
    exact storeLevel_returns s lightData _ _ _ _ _ i n hi (hsz1 _ _)

/-- The loop over the levels returns when the vectors have room for every level. -/
theorem cascadeLevels_returns (env : MathEnv F) (s : ShadowMap F) (scene : SceneView F)
    (lightData : LightData F) (forceUpdate : Bool) (st : CascadeLoop F) (n : Nat)
    (hz : n ≤ s.mCascadedZSlices.length) (hsz : loopSized s st n) :
    ∀ k, k ≤ n → ∃ st', cascadeLevels env s scene lightData forceUpdate st k = some st' ∧
      loopSized s st' n := by
  intro k
  induction k with
  | zero => intro _; exact ⟨st, rfl, hsz⟩
  | succ k ih =>
    intro hk
    obtain ⟨mid, hmid, hszmid⟩ := ih (by omega)
    obtain ⟨st', hst', hsz'⟩ := cascadeLevel_returns env s scene lightData forceUpdate mid k n
      (by omega) (by omega) hszmid
    exact ⟨st', by rw [cascadeLevels_succ, hmid]; exact hst', hsz'⟩

/-- `calcProjViewForCascaded` returns when the caller's `renderLevel`, `mCascadedWidthHeight`
and `mCascadedVPMatrix` have one entry per level and, with frustum culling, the culling
objects of the levels exist; this is how `prepareShadowMapBuffers` sizes these vectors. -/
theorem calcProjViewForCascaded_returns (env : MathEnv F) (s : ShadowMap F)
    (scene : SceneView F) (lightData : LightData F) (renderLevel : List Bool)
    (forceUpdate : Bool)
    (hrl : s.mCascadedLevelCount ≤ renderLevel.length)
    (hwh : s.mCascadedLevelCount ≤ s.mCascadedWidthHeight.length)
    (hvp : s.mCascadedLevelCount ≤ s.mCascadedVPMatrix.length)
    (hcull : s.mUseFrustumCulling = true → ∀ i, i < s.mCascadedLevelCount →
      u32 (s.mFrustumCullingVectorOffsets.1 + i) < s.mFrustumCulling.length) :
    ∃ out, calcProjViewForCascaded env s scene lightData renderLevel forceUpdate =
      some out := by
  have hN := cascadedLevelCalculations_levelCount env s scene
  obtain ⟨f1, -, -, -, f5, f6, f7, f8, -⟩ := cascadedLevelCalculations_fields env s scene
  have hcfg : (cascadedLevelCalculations env s scene).mUseFrustumCulling = s.mUseFrustumCulling ∧
      (cascadedLevelCalculations env s scene).mFrustumCullingVectorOffsets =
        s.mFrustumCullingVectorOffsets := by
    unfold cascadedLevelCalculations
    cases s.mCascadedFrustumMode <;> exact ⟨rfl, rfl⟩
  have hsz : loopSized (cascadedLevelCalculations env s scene)
      (cascadeLoopStart (cascadedLevelCalculations env s scene) scene renderLevel)
      s.mCascadedLevelCount := by
    refine ⟨hrl, fun hen => ?_, ?_, ?_, fun hc i hi => ?_⟩
    · show _ ≤ (cascadedLevelCalculations env s scene).mCascadedTemporalReuse.length
      rw [f5, temporalReuseSized_length env s (f1 ▸ hen)]
    · show _ ≤ (cascadedLevelCalculations env s scene).mCascadedWidthHeight.length
      rw [f6]; exact hwh
    · show _ ≤ (cascadedLevelCalculations env s scene).mCascadedVPMatrix.length
      rw [f7]; exact hvp
    · show _ < (cascadedLevelCalculations env s scene).mFrustumCulling.length
      rw [f8, hcfg.2]
      exact hcull (hcfg.1 ▸ hc) i hi
  obtain ⟨st', hst', -⟩ := cascadeLevels_returns env _ scene lightData forceUpdate _
    s.mCascadedLevelCount
    (by rw [cascadedLevelCalculations_zSlices_length]) hsz s.mCascadedLevelCount (le_refl _)
  unfold calcProjViewForCascaded
  simp only [hN, hst', Option.map_some']
  exact ⟨_, rfl⟩

end Totality

section DepthLemmas

variable {F : Type} [LinearOrderedField F]

/-- The test of line 1295 fails exactly on the points with x and y in `[-1,1]`: the clause on z
never holds. -/
theorem outsideNDC_eq_false_iff (v : float3 F) :
    outsideNDC v = false ↔ (-1 ≤ v.x ∧ v.x ≤ 1) ∧ (-1 ≤ v.y ∧ v.y ≤ 1) := by
  unfold outsideNDC
  have hz : ¬ (v.z < 0 ∧ v.z > 1) := fun h => by linarith [h.1, h.2]
  simp only [Bool.or_eq_false_iff, Bool.and_eq_false_iff, decide_eq_false_iff_not, not_lt,
    gt_iff_lt]
  constructor
  · rintro ⟨⟨⟨⟨h1, h2⟩, h3⟩, h4⟩, -⟩
    exact ⟨⟨h1, h2⟩, h3, h4⟩
  · rintro ⟨⟨h1, h2⟩, h3, h4⟩
    refine ⟨⟨⟨⟨h1, h2⟩, h3⟩, h4⟩, ?_⟩
    by_cases h : v.z < 0
    · right; linarith
    · left; exact not_lt.mp h

/-- The flag `temporalValid` is set after the loop exactly when no corner fails the test. -/
theorem temporalValid_iff (env : MathEnv F) (c : CascadedTemporalReuse F)
    (corners : List (float4 F)) :
    temporalValid env c corners = true ↔
      ∀ p ∈ corners, outsideNDC (projectedCorner env c p) = false := by
  unfold temporalValid projectedCorner
  have aux : ∀ (ps : List (float4 F)) (init : Bool),
      ps.foldl (fun valid p =>
        if outsideNDC (mulVec c.ortho
          ⟨(clampedViewPoint env c.view c.aabb p).x, (clampedViewPoint env c.view c.aabb p).y,
            (clampedViewPoint env c.view c.aabb p).z, 1⟩).xyz = true then false else valid)
        init = true ↔
      (init = true ∧ ∀ p ∈ ps, outsideNDC (mulVec c.ortho
          ⟨(clampedViewPoint env c.view c.aabb p).x, (clampedViewPoint env c.view c.aabb p).y,
            (clampedViewPoint env c.view c.aabb p).z, 1⟩).xyz = false) := by
    intro ps
    induction ps with
    | nil => intro init; simp
    | cons p ps ih =>
      intro init
      rw [List.foldl_cons, ih]
      by_cases hp : outsideNDC (mulVec c.ortho
          ⟨(clampedViewPoint env c.view c.aabb p).x, (clampedViewPoint env c.view c.aabb p).y,
            (clampedViewPoint env c.view c.aabb p).z, 1⟩).xyz = true
      · simp [hp]
      · simp [hp]
  simpa using aux corners true

/-- In exact arithmetic the projection of a box sends a depth between `minZ` and `maxZ` of the
box to a depth in `[0, 1]`. -/
theorem casProj_depth (b : OrthoBox F) (x y z : F) (hd : b.minZ < b.maxZ) (h1 : b.minZ ≤ z)
    (h2 : z ≤ b.maxZ) :
    0 ≤ (mulVec (casProj b) ⟨x, y, z, 1⟩).z ∧ (mulVec (casProj b) ⟨x, y, z, 1⟩).z ≤ 1 := by
  have hpos : 0 < -1 * b.minZ - -1 * b.maxZ := by linarith
  have e : (mulVec (casProj b) ⟨x, y, z, 1⟩).z =
      (b.maxZ - z) / (-1 * b.minZ - -1 * b.maxZ) := by
    simp only [mulVec, casProj, ortho, float4.dot, zero_mul, mul_one, zero_add]
    field_simp
    ring
  rw [e, le_div_iff₀ hpos, div_le_iff₀ hpos]
  constructor <;> linarith

/-- In exact arithmetic, and with a `clamp` that returns a depth between the bounds it is
given, a cache entry as lines 1330-1332 write it (the box of the level, enlarged, for the view
`casView` and the scene box `smViewAABB` of positive depth) projects every clamped corner to a
depth in `[0, 1]`. -/
theorem written_entry_depth (env : MathEnv F) (casView : float4x4 F) (smViewAABB : AABB F)
    (corners : List (float4 F)) (e : F) (v : Bool) (p : float4 F)
    (hclamp : ∀ q lo hi : float3 F, lo.z ≤ hi.z →
      lo.z ≤ (env.clamp q lo hi).z ∧ (env.clamp q lo hi).z ≤ hi.z)
    (hdepth : smViewAABB.minPoint.z < smViewAABB.maxPoint.z) :
    0 ≤ (projectedCorner env
      { valid := v, aabb := smViewAABB, view := casView,
        ortho := casProj (enlargeBox e (levelBox env casView smViewAABB corners)) } p).z ∧
    (projectedCorner env
      { valid := v, aabb := smViewAABB, view := casView,
        ortho := casProj (enlargeBox e (levelBox env casView smViewAABB corners)) } p).z ≤ 1 := by
  obtain ⟨c1, c2⟩ := hclamp (mulVec casView p).xyz smViewAABB.minPoint smViewAABB.maxPoint
    hdepth.le
  have hmin : (enlargeBox e (levelBox env casView smViewAABB corners)).minZ ≤
      smViewAABB.minPoint.z := min_le_right _ _
  have hmax : smViewAABB.maxPoint.z ≤
      (enlargeBox e (levelBox env casView smViewAABB corners)).maxZ := le_max_right _ _
  exact casProj_depth _ _ _ _ (lt_of_le_of_lt hmin (lt_of_lt_of_le hdepth hmax))
    (le_trans hmin c1) (le_trans c2 hmax)

end DepthLemmas

section UploadLemmas

/-- The staging write returns when the slot has room, and then it has written exactly the
elements of the slot. -/
theorem writeStaging_some {α : Type} (stagingOffset : Nat) (vals : List α) :
    ∀ (mats : List (Option α)) (i : Nat), stagingOffset + i + vals.length ≤ mats.length →
      ∃ r, writeStaging stagingOffset mats i vals = some r ∧ r.length = mats.length ∧
        (∀ j, j < stagingOffset + i → r[j]? = mats[j]?) ∧
        (∀ k, k < vals.length → r[stagingOffset + i + k]? = (vals[k]?).map some) ∧
        (∀ j, stagingOffset + i + vals.length ≤ j → r[j]? = mats[j]?) := by
  induction vals with
  | nil =>
    intro mats i _
    exact ⟨mats, rfl, rfl, fun _ _ => rfl, fun k hk => absurd hk (Nat.not_lt_zero k),
      fun _ _ => rfl⟩
  | cons m rest ih =>
    intro mats i h
    simp only [List.length_cons] at h
    have hlt : stagingOffset + i < mats.length := by omega
    obtain ⟨r, hr, hlen, hlow, hmid, hhigh⟩ :=
      ih (mats.set (stagingOffset + i) (some m)) (i + 1) (by rw [List.length_set]; omega)
    refine ⟨r, ?_, ?_, ?_, ?_, ?_⟩
    · simp only [writeStaging, setAt, hlt, if_true, Option.some_bind]
      exact hr
    · rw [hlen, List.length_set]
    · intro j hj
      rw [hlow j (by omega), List.getElem?_set_ne (by omega)]
    · intro k hk
      cases k with
      | zero =>
        rw [Nat.add_zero, hlow _ (by omega), List.getElem?_set_self hlt]
        simp
      | succ k =>
        simp only [List.length_cons] at hk
        have := hmid k (by omega)
        rw [show stagingOffset + i + (k + 1) = stagingOffset + (i + 1) + k by omega, this]
        simp
    · intro j hj
      simp only [List.length_cons] at hj
      rw [hhigh j (by omega), List.getElem?_set_ne (by omega)]

/-- A region copy that fills the whole destination leaves the region of the source. -/
theorem copyBufferRegion_full {α : Type} (dst src : List (Option α)) (srcOffset : Nat)
    (h : srcOffset + dst.length ≤ src.length) :
    copyBufferRegion dst 0 src srcOffset dst.length =
      some ((src.drop srcOffset).take dst.length) := by
  unfold copyBufferRegion
  simp [h]

/-- One call of `updateSMVPBuffer` on a sized matrix buffer, with as many matrices as the
persistent buffer has elements: the call returns, the buffer stays sized, the fence value is
stored in the slot of the previous call, the next slot of the ring is written after the wait on
the value stored for it, and the persistent buffer holds the matrices. -/
theorem updateSMVPBuffer_some {F : Type} (vpBuffer : VPMatrixBuffer F)
    (lastFrameFenceValue : Nat) (vpMatrix : List (float4x4 F))
    (hsized : vpBuffer.sized vpMatrix.length)
    (h32 : vpMatrix.length * kStagingBufferCount < 2 ^ 32) :
    ∃ r b, updateSMVPBuffer vpBuffer lastFrameFenceValue vpMatrix = some r ∧
      r.vpBuffer.sized vpMatrix.length ∧
      r.slot = (vpBuffer.stagingCount + 1) % kStagingBufferCount ∧
      r.vpBuffer.stagingCount = (vpBuffer.stagingCount + 1) % kStagingBufferCount ∧
      r.vpBuffer.stagingFenceWaitValues =
        vpBuffer.stagingFenceWaitValues.set vpBuffer.stagingCount lastFrameFenceValue ∧
      r.vpBuffer.stagingFenceWaitValues[r.slot]? = some r.fenceWaitVal ∧
      r.vpBuffer.buffer = some b ∧ b.data = vpMatrix.map some := by
  obtain ⟨buffer, staging, hb, hs, hcount, hdata, hstaging, hslot, hfence⟩ := hsized
  have hk : kStagingBufferCount = 4 := rfl
  rw [hk] at hstaging hslot hfence h32
  have hu : u32 (vpBuffer.stagingCount + 1) = vpBuffer.stagingCount + 1 :=
    u32_of_lt (by omega)
  have hc : (vpBuffer.stagingCount + 1) % kStagingBufferCount < 4 := Nat.mod_lt _ (by decide)
  generalize hcdef : (vpBuffer.stagingCount + 1) % kStagingBufferCount = c at hc
  have hoff : u32 (vpMatrix.length * c) = vpMatrix.length * c := by
    apply u32_of_lt
    have : vpMatrix.length * c ≤ vpMatrix.length * 4 := Nat.mul_le_mul_left _ (by omega)
    omega
  have hroom : vpMatrix.length * c + 0 + vpMatrix.length ≤ staging.data.length := by
    have : vpMatrix.length * c + vpMatrix.length = vpMatrix.length * (c + 1) := by ring
    have h2 : vpMatrix.length * (c + 1) ≤ vpMatrix.length * 4 :=
      Nat.mul_le_mul_left _ (by omega)
    omega
  obtain ⟨mats, hmats, hlen, -, hmid, -⟩ :=
    writeStaging_some (vpMatrix.length * c) vpMatrix staging.data 0 hroom
  have hcopy := copyBufferRegion_full buffer.data mats (vpMatrix.length * c)
    (by rw [hlen, hdata]; omega)
  rw [hdata] at hcopy
  have hfc : ∃ w, (vpBuffer.stagingFenceWaitValues.set vpBuffer.stagingCount
      lastFrameFenceValue)[c]? = some w := by
    rw [List.getElem?_eq_getElem (by rw [List.length_set, hfence]; exact hc)]
    exact ⟨_, rfl⟩
  obtain ⟨w, hw⟩ := hfc
  have hcontent : (mats.drop (vpMatrix.length * c)).take vpMatrix.length =
      vpMatrix.map some := by
    apply List.ext_getElem?
    intro i
    by_cases hi : i < vpMatrix.length
    · rw [List.getElem?_take_of_lt hi, List.getElem?_drop]
      have := hmid i hi
      rw [Nat.add_zero] at this
      rw [this, List.getElem?_map]
    · rw [List.getElem?_eq_none (by rw [List.length_take]; omega),
        List.getElem?_eq_none (by rw [List.length_map]; omega)]
  refine ⟨
    { vpBuffer :=
        { buffer := some
            { buffer with data := (mats.drop (vpMatrix.length * c)).take vpMatrix.length }
          staging := some { staging with data := mats }
          stagingFenceWaitValues :=
            vpBuffer.stagingFenceWaitValues.set vpBuffer.stagingCount lastFrameFenceValue
          stagingCount := c }
      slot := c
      fenceWaitVal := w },
    { buffer with data := (mats.drop (vpMatrix.length * c)).take vpMatrix.length }, ?_, ?_,
    rfl, rfl, rfl, hw, rfl, hcontent⟩
  · unfold updateSMVPBuffer
    simp only [setAt, hfence, hslot, if_true, Option.some_bind, hu, hcdef, hw, hoff, hs, hmats,
      hb, hcopy]
  · refine ⟨_, _, rfl, rfl, hcount, ?_, ?_, ?_, ?_⟩
    · show ((mats.drop (vpMatrix.length * c)).take vpMatrix.length).length = _
      rw [hcontent, List.length_map]
    · show mats.length = _
      rw [hlen, hstaging, hk]
    · exact hc
    · show (vpBuffer.stagingFenceWaitValues.set _ _).length = _
      rw [List.length_set, hfence, hk]

end UploadLemmas

section UploadClaims

/-- C12 (amended). For every sequence of `updateSMVPBuffer` calls on one sized matrix buffer,
each with as many matrices as the buffer has elements, every call returns; call `k` (counted
from 0) writes the staging slot `(stagingCount + k + 1) mod 4`, and the fence value that the
CPU waits on before that write is, from the fourth call on, the last-frame fence value that
call `k - 3` read, which is the call after the previous write of the slot (call `k - 4`), and
for the first three calls the value that the slot held before the sequence (0 in a new
object). -/
theorem fence_wait_protocol {F : Type} (n : Nat) (calls : List (Nat × List (float4x4 F)))
    (vpBuffer : VPMatrixBuffer F) (hsized : vpBuffer.sized n)
    (h32 : n * kStagingBufferCount < 2 ^ 32) (hcalls : ∀ call ∈ calls, call.2.length = n) :
      ∃ log, uploads vpBuffer calls = some log ∧ log.length = calls.length ∧
        ∀ k, k < calls.length →
          (log[k]?).map (fun r => r.slot) =
            some ((vpBuffer.stagingCount + k + 1) % kStagingBufferCount) ∧
          (log[k]?).map (fun r => r.fenceWaitVal) =
            if 3 ≤ k then (calls[k - 3]?).map (fun call => call.1)
            else vpBuffer.stagingFenceWaitValues[
              (vpBuffer.stagingCount + k + 1) % kStagingBufferCount]? := by
  induction calls generalizing vpBuffer with
  | nil => exact ⟨[], rfl, rfl, fun k hk => absurd hk (Nat.not_lt_zero k)⟩
  | cons call rest ih =>
    have hn : call.2.length = n := hcalls call (List.mem_cons_self _ _)
    have hslot0 : vpBuffer.stagingCount < 4 := by
      obtain ⟨_, _, _, _, _, _, _, h, _⟩ := hsized
      exact h
    obtain ⟨r, b, hr, hsized1, hslot, hcount, hfences, hwait, -, -⟩ :=
      updateSMVPBuffer_some vpBuffer call.1 call.2 (by rw [hn]; exact hsized)
        (by rw [hn]; exact h32)
    rw [hn] at hsized1
    obtain ⟨log, hlog, hlen, hks⟩ :=
      ih r.vpBuffer hsized1 (fun c hc => hcalls c (List.mem_cons_of_mem _ hc))
    have hk4 : kStagingBufferCount = 4 := rfl
    rw [hk4] at hslot hcount hks ⊢
    refine ⟨r :: log, ?_, by simp [hlen], ?_⟩
    · simp only [uploads, hr, Option.some_bind, hlog, Option.map_some']
    · intro k hk
      cases k with
      | zero =>
        refine ⟨by simp [hslot], ?_⟩
        simp only [List.getElem?_cons_zero, Option.map_some', Nat.add_zero]
        rw [if_neg (by omega), ← hwait, hfences, hslot, List.getElem?_set_ne (by omega)]
      | succ k =>
        simp only [List.length_cons, Nat.add_lt_add_iff_right] at hk
        obtain ⟨h1, h2⟩ := hks k hk
        simp only [List.getElem?_cons_succ]
        refine ⟨?_, ?_⟩
        · rw [h1, hcount]
          congr 1
          omega
        · rw [h2, hcount, hfences]
          by_cases h3 : 3 ≤ k
          · rw [if_pos h3, if_pos (by omega)]
            rw [show k + 1 - 3 = (k - 3) + 1 by omega, List.getElem?_cons_succ]
          · rw [if_neg h3]
            by_cases h2k : k = 2
            · subst h2k
              rw [if_pos (by omega)]
              simp only [Nat.sub_self, List.getElem?_cons_zero, Option.map_some']
              rw [show ((vpBuffer.stagingCount + 1) % 4 + 2 + 1) % 4 = vpBuffer.stagingCount by
                omega]
              obtain ⟨_, _, _, _, _, _, _, _, hf⟩ := hsized
              rw [List.getElem?_set_self (by rw [hf]; exact hslot0)]
            · rw [if_neg (by omega), List.getElem?_set_ne (by omega)]
              congr 1
              omega

/-- C12, counterexample. Four calls on the matrix buffer of a new object, which read the fence
values 7, 8, 9 and 10: the calls write the slots 1, 2, 3 and 0, and the fourth call, the first
to write slot 0, waits on the fence value 7, not on 0. -/
theorem fence_wait_counterexample :
    ∃ log, uploads sampleVPBuffer sampleCalls = some log ∧
      log.map (fun r => (r.slot, r.fenceWaitVal)) = [(1, 0), (2, 0), (3, 0), (0, 7)] ∧
      ¬ waitsOnLastWrite [7, 8, 9, 10] log := by
  have h : (uploads sampleVPBuffer sampleCalls).map
      (fun log => log.map fun r => (r.slot, r.fenceWaitVal)) =
        some [(1, 0), (2, 0), (3, 0), (0, 7)] := by
    rfl
  obtain ⟨log, hlog, hmap⟩ := Option.map_eq_some'.mp h
  refine ⟨log, hlog, hmap, ?_⟩
  intro hw
  rcases log with _ | ⟨r0, _ | ⟨r1, _ | ⟨r2, _ | ⟨r3, _ | ⟨r4, rest⟩⟩⟩⟩⟩ <;>
    simp only [List.map_cons, List.map_nil, List.cons.injEq, Prod.mk.injEq, and_true,
      reduceCtorEq, and_false] at hmap
  obtain ⟨⟨s0, -⟩, ⟨s1, -⟩, ⟨s2, -⟩, s3, w3⟩ := hmap
  have h3 := hw 3 r3 rfl
  simp [s0, s1, s2, s3, w3, fenceAtLastWrite] at h3

/-- C12, witness: the four sample calls on the matrix buffer of a new object. -/
theorem fence_wait_protocol_witness :
    sampleVPBuffer.sized 1 ∧
    ∃ log, uploads sampleVPBuffer sampleCalls = some log ∧ log.length = sampleCalls.length ∧
      ∀ k, k < sampleCalls.length →
        (log[k]?).map (fun r => r.slot) =
          some ((sampleVPBuffer.stagingCount + k + 1) % kStagingBufferCount) ∧
        (log[k]?).map (fun r => r.fenceWaitVal) =
          if 3 ≤ k then (sampleCalls[k - 3]?).map (fun call => call.1)
          else sampleVPBuffer.stagingFenceWaitValues[
            (sampleVPBuffer.stagingCount + k + 1) % kStagingBufferCount]? :=
  ⟨⟨_, _, rfl, rfl, rfl, rfl, rfl, by decide, rfl⟩,
    fence_wait_protocol 1 sampleCalls sampleVPBuffer
      ⟨_, _, rfl, rfl, rfl, rfl, rfl, by decide, rfl⟩ (by decide) (by decide)⟩

/-- C13. For a matrix buffer whose persistent buffer has as many elements as the matrix list
`vpMatrix` and whose staging buffer has `kStagingBufferCount` slots of that size (as
`prepareShadowMapBuffers` creates them), `updateSMVPBuffer` returns, and after the write into
the staging slot and the region copy from that slot, element `i` of the persistent buffer is
`vpMatrix[i]`, for every `i`. -/
theorem updateSMVPBuffer_roundtrip {F : Type} (vpBuffer : VPMatrixBuffer F)
    (lastFrameFenceValue : Nat) (vpMatrix : List (float4x4 F))
    (hsized : vpBuffer.sized vpMatrix.length)
    (h32 : vpMatrix.length * kStagingBufferCount < 2 ^ 32) :
    ∃ r b, updateSMVPBuffer vpBuffer lastFrameFenceValue vpMatrix = some r ∧
      r.vpBuffer.buffer = some b ∧ b.data.length = vpMatrix.length ∧
      ∀ i (hi : i < vpMatrix.length), b.data[i]? = some (some vpMatrix[i]) := by
  obtain ⟨r, b, hr, -, -, -, -, -, hb, hdata⟩ :=
    updateSMVPBuffer_some vpBuffer lastFrameFenceValue vpMatrix hsized h32
  refine ⟨r, b, hr, hb, by rw [hdata, List.length_map], ?_⟩
  intro i hi
  rw [hdata, List.getElem?_map, List.getElem?_eq_getElem hi]
  rfl

/-- C13, witness: two matrices written into the matrix buffer that `createVPMatrixBuffer`
creates for two lights. -/
theorem updateSMVPBuffer_roundtrip_witness :
    (createVPMatrixBuffer ({} : VPMatrixBuffer ℚ) 2 ("ShadowMap_VP")
      ("ShadowMap_VPStaging")).sized 2 ∧
    ∃ r b, updateSMVPBuffer (createVPMatrixBuffer ({} : VPMatrixBuffer ℚ) 2 ("ShadowMap_VP")
        ("ShadowMap_VPStaging")) 7 [ortho (-2) 2 (-2) 2 (-1) 1, float4x4.identity] = some r ∧
      r.vpBuffer.buffer = some b ∧
      b.data.length = [ortho (-2 : ℚ) 2 (-2) 2 (-1) 1, float4x4.identity].length ∧
      ∀ i (hi : i < [ortho (-2 : ℚ) 2 (-2) 2 (-1) 1, float4x4.identity].length),
        b.data[i]? = some (some [ortho (-2 : ℚ) 2 (-2) 2 (-1) 1, float4x4.identity][i]) :=
  ⟨⟨_, _, rfl, rfl, rfl, rfl, rfl, by decide, rfl⟩,
    updateSMVPBuffer_roundtrip _ 7 [ortho (-2) 2 (-2) 2 (-1) 1, float4x4.identity]
      ⟨_, _, rfl, rfl, rfl, rfl, rfl, by decide, rfl⟩ (by decide)⟩

end UploadClaims

section FrameClaims

variable {F : Type} [LinearOrderedField F]

set_option maxRecDepth 1000000 in
/-- C14. The code at a scene with one directional light (four cascade levels) and one point
light, frustum culling enabled, in the first frame of a new object: the offsets are
`(0, 4)` and there are ten culling entries, the six faces of the point light are rasterized
with the entries 0 to 5 and the cascade levels 0 to 2 with the entries 0 to 2, so that a face
and a cascade level share an entry. -/
theorem cube_culling_entries_overlap :
    (prepared ({} : ShadowMap ℚ) overlapFrame.lights).mUseFrustumCulling = true ∧
    (prepared ({} : ShadowMap ℚ) overlapFrame.lights).mFrustumCullingVectorOffsets = (0, 4) ∧
    (prepared ({} : ShadowMap ℚ) overlapFrame.lights).mFrustumCulling.length = 10 ∧
    cullingEntries (update sampleEnv (prepared ({} : ShadowMap ℚ) overlapFrame.lights)
        (some overlapFrame)) =
      [(RenderTarget.cube 0 0, some 0), (RenderTarget.cube 0 1, some 1),
        (RenderTarget.cube 0 2, some 2), (RenderTarget.cube 0 3, some 3),
        (RenderTarget.cube 0 4, some 4), (RenderTarget.cube 0 5, some 5),
        (RenderTarget.cascaded 0, some 0), (RenderTarget.cascaded 1, some 1),
        (RenderTarget.cascaded 2, some 2)] := by
  refine ⟨?_, ?_, ?_, ?_⟩ <;> with_unfolding_all rfl

/-- C15. When the scene has no active light, `update` returns true and leaves the state as it
was: nothing is rebuilt, no raster call is made, no matrix buffer is written and no flag
changes. -/
theorem update_no_active_light (env : MathEnv F) (s : ShadowMap F) (frame : Frame F)
    (h : getActiveLightCount frame.lights = 0) :
    update env s (some frame) =
      Except.ok (some { state := s, returned := true, rasterCalls := [], fenceWaits := [] }) := by
  unfold update
  simp only [h, if_true]

/-- C15, witness: a scene whose only light is switched off, and an object with a pending
change of every kind. -/
theorem update_no_active_light_witness :
    getActiveLightCount darkFrame.lights = 0 ∧
    update sampleEnv
        ({ mTypeChanged := true, mRasterDefinesChanged := true, mBiasSettingsChanged := true,
           mResetShadowMapBuffers := true, mShadowResChanged := true } : ShadowMap ℚ)
        (some darkFrame) =
      Except.ok (some
        { state := { mTypeChanged := true, mRasterDefinesChanged := true,
                     mBiasSettingsChanged := true, mResetShadowMapBuffers := true,
                     mShadowResChanged := true },
          returned := true, rasterCalls := [], fenceWaits := [] }) :=
  ⟨rfl, update_no_active_light sampleEnv _ darkFrame rfl⟩

set_option maxRecDepth 1000000 in
/-- C17. The code at light lists whose length differs from the length of the cached list.
With one spot light cached and a second spot light added, the loop reads `mPrevLightType[1]`
past the end of the cached list; with two spot lights cached and the second one removed, no
mismatch is found: `update` returns true and `mResetShadowMapBuffers` stays false. -/
theorem update_light_count_changed :
    (prepared ({} : ShadowMap ℚ) oneSpotFrame.lights).mPrevLightType = [LightTypeSM.Spot] ∧
    sortLights (prepared ({} : ShadowMap ℚ) oneSpotFrame.lights).mPrevLightType
        twoSpotFrame.lights 0 {} = LightSort.outOfBounds ∧
    update sampleEnv (prepared ({} : ShadowMap ℚ) oneSpotFrame.lights) (some twoSpotFrame) =
      Except.ok none ∧
    (prepared ({} : ShadowMap ℚ) twoSpotFrame.lights).mPrevLightType =
      [LightTypeSM.Spot, LightTypeSM.Spot] ∧
    returnedAndReset (update sampleEnv (prepared ({} : ShadowMap ℚ) twoSpotFrame.lights)
        (some oneSpotFrame)) = some (true, false) := by
  refine ⟨?_, ?_, ?_, ?_, ?_⟩ <;> with_unfolding_all rfl

end FrameClaims

section SortLemmas

variable {F : Type} [LinearOrderedField F]

/-- The render lists with which the loop over the lights ends when it finds no mismatch: each
list has grown by the lights of its classification, in order. -/
theorem sortLights_sorted (mPrevLightType : List LightTypeSM) (lights : List (Light F)) :
    ∀ (i : Nat) (lists out : RenderLists F),
      sortLights mPrevLightType lights i lists = LightSort.sorted out →
      out.lightRenderListCube =
        lists.lightRenderListCube ++ lightsOfType LightTypeSM.Point lights ∧
      out.lightRenderListMisc =
        lists.lightRenderListMisc ++ lightsOfType LightTypeSM.Spot lights ∧
      out.lightRenderListCascaded =
        lists.lightRenderListCascaded ++ lightsOfType LightTypeSM.Directional lights := by
  induction lights with
  | nil =>
    intro i lists out h
    simp only [sortLights, LightSort.sorted.injEq] at h
    subst h
    simp [lightsOfType]
  | cons light rest ih =>
    intro i lists out h
    unfold sortLights at h
    cases hp : mPrevLightType[i]? with
    | none => simp [hp] at h
    | some prev =>
      simp only [hp] at h
      split_ifs at h with hne
      obtain ⟨h1, h2, h3⟩ := ih _ _ _ h
      rw [h1, h2, h3]
      unfold lightsOfType
      cases ht : getLightType light <;> simp [pushLight, List.filter_cons, ht]

/-- The loop over the lights for a cached list that has an entry for every light from the
index `i` on and no entry more: it ends with the render lists when the cached entries are the
classifications of the lights, and with the early return otherwise. -/
theorem sortLights_of_length (mPrevLightType : List LightTypeSM) (lights : List (Light F)) :
    ∀ (i : Nat) (lists : RenderLists F), mPrevLightType.length = i + lights.length →
      sortLights mPrevLightType lights i lists =
        if mPrevLightType.drop i = lights.map getLightType then
          LightSort.sorted
            { lightRenderListCube :=
                lists.lightRenderListCube ++ lightsOfType LightTypeSM.Point lights
              lightRenderListMisc :=
                lists.lightRenderListMisc ++ lightsOfType LightTypeSM.Spot lights
              lightRenderListCascaded :=
                lists.lightRenderListCascaded ++ lightsOfType LightTypeSM.Directional lights }
        else LightSort.typeChanged := by
  induction lights with
  | nil =>
    intro i lists h
    have : mPrevLightType.drop i = [] := List.drop_eq_nil_of_le (by simp at h; omega)
    simp [sortLights, this, lightsOfType]
  | cons light rest ih =>
    intro i lists h
    simp only [List.length_cons] at h
    have hi : i < mPrevLightType.length := by omega
    have hdrop : mPrevLightType.drop i = mPrevLightType[i] :: mPrevLightType.drop (i + 1) :=
      List.drop_eq_getElem_cons hi
    unfold sortLights
    simp only [List.getElem?_eq_getElem hi, hdrop, List.map_cons, List.cons.injEq]
    by_cases hne : getLightType light = mPrevLightType[i]
    · simp only [hne, ne_eq, not_true_eq_false, if_false, true_and]
      rw [ih (i + 1) _ (by omega)]
      rw [← hne]
      unfold lightsOfType
      cases ht : getLightType light <;> simp [pushLight, List.filter_cons, ht]
    · have hne2 : ¬ mPrevLightType[i] = getLightType light := fun h => hne h.symm
      simp [hne, hne2]

end SortLemmas

section CarriedPrepare

variable {F : Type} [LinearOrderedField F]

theorem carried_resetShadowMaps (s : ShadowMap F) : carried (resetShadowMaps s) = carried s := by
  unfold resetShadowMaps
  simp only [carried]
  split_ifs <;> rfl

theorem carried_createSpotTextures (s : ShadowMap F) (plan : FormatPlan) :
    carried (createSpotTextures s plan) = carried s := rfl

theorem carried_createCascadeTexture (s : ShadowMap F) (plan : FormatPlan) (cc : Nat) :
    carried (createCascadeTexture s plan cc) = carried s := by
  unfold createCascadeTexture
  simp only [carried]
  split_ifs <;> rfl

theorem carried_createDepthHelpers (s : ShadowMap F) (plan : FormatPlan) (cp cc : Nat) :
    carried (createDepthHelpers s plan cp cc) = carried s := by
  unfold createDepthHelpers
  simp only [carried]
  split_ifs <;> rfl

theorem carried_createStaticCopies (s : ShadowMap F) :
    carried (createStaticCopies s) = carried s := by
  unfold createStaticCopies
  simp only [carried]
  split_ifs <;> rfl

theorem carried_createFrustumCulling (s : ShadowMap F) (cp : Nat) :
    carried (createFrustumCulling s cp) = carried s := by
  unfold createFrustumCulling
  simp only [carried]
  split_ifs <;> rfl

theorem carried_createLightMapping (s : ShadowMap F) (lm : List Nat) :
    carried (createLightMapping s lm) = carried s := by
  unfold createLightMapping
  simp only [carried]
  split_ifs <;> rfl

theorem carried_createVPMatrices (s : ShadowMap F) :
    carried (createVPMatrices s) = carried s := by
  unfold createVPMatrices
  simp only [carried]
  split_ifs <;> rfl

/-- The loop over the lights caches the classification of every light. -/
theorem lightLoop_prevLightType (s : ShadowMap F) (fmt : ResourceFormat) (cube : List Texture)
    (lights : List (Light F)) :
    (lightLoop s fmt cube lights).mPrevLightType = lights.map getLightType := by
  induction lights using List.reverseRecOn with
  | nil => rfl
  | append_singleton init l ih =>
    rw [lightLoop_append, List.map_append, ← ih]
    unfold lightLoopBody
    simp only []
    split_ifs <;> rfl

/-- What `prepareShadowMapBuffers` leaves in the cached classifications and in the flags. -/
theorem carried_prepared (s : ShadowMap F) (lights : List (Light F)) :
    carried (prepared s lights) =
      { carried s with
        mPrevLightType := lights.map getLightType
        mResetShadowMapBuffers := false
        mShadowResChanged := false } := by
  have hL := lightLoop_prevLightType (resetShadowMaps s)
    (formatPlan (resetShadowMaps s)).shadowMapFormat (resetShadowMaps s).mpShadowMapsCube lights
  have h0 := carried_resetShadowMaps s
  have key : ∀ s5 : ShadowMap F, carried (finishPrepare s5) =
      { carried s5 with mResetShadowMapBuffers := false, mShadowResChanged := false } :=
    fun _ => rfl
  have hstore : ∀ (s0 : ShadowMap F) (loop : LightLoop), carried (storeLightLoop s0 loop) =
      { carried s0 with mPrevLightType := loop.mPrevLightType } := fun _ _ => rfl
  unfold prepared
  simp only [key, carried_createVPMatrices, carried_createLightMapping,
    carried_createFrustumCulling, carried_createStaticCopies, carried_createDepthHelpers,
    carried_createCascadeTexture, carried_createSpotTextures, hstore, h0, hL]

end CarriedPrepare

section CarriedRender

variable {F : Type} [LinearOrderedField F]

theorem carried_spotDefines (s : ShadowMap F) (d : Bool) (index : Nat) :
    carried (spotDefines s d index) = carried s := by
  unfold spotDefines
  split_ifs <;> rfl

theorem carried_updateSpotVP (env : MathEnv F) (s s' : ShadowMap F) (index : Nat)
    (lightData : LightData F) (h : updateSpotVP env s index lightData = some s') :
    carried s' = carried s := by
  unfold updateSpotVP at h
  simp only [Option.bind_eq_some] at h
  obtain ⟨vp, -, culling, -, h⟩ := h
  cases h
  rfl

theorem carried_rasterSpotLight (env : MathEnv F) (s : ShadowMap F) (d : Bool) (index : Nat)
    (light : Light F) (r : ShadowMap F × Bool × List RasterCall)
    (h : rasterSpotLight env s d index light = some r) : carried r.1 = carried s := by
  unfold rasterSpotLight at h
  simp only [] at h
  by_cases hactive : (!light.active) = true
  · rw [if_pos hactive] at h
    cases h
    exact carried_spotDefines s d index
  · rw [if_neg hactive] at h
    simp only [Option.bind_eq_some] at h
    obtain ⟨s1, hs1, _, -, _, -, _, -, h⟩ := h
    cases h
    rw [← carried_spotDefines s d index]
    split_ifs at hs1 with hvp
    · exact carried_updateSpotVP env _ _ _ _ hs1
    · cases hs1
      rfl

theorem carried_rasterSpotLights (env : MathEnv F) (frame : Frame F) (lights : List (Light F)) :
    ∀ (i : Nat) (acc r : ShadowMap F × Bool × List RasterCall),
      rasterSpotLights env frame lights i acc = some r → carried r.1 = carried acc.1 := by
  induction lights with
  | nil =>
    intro i acc r h
    simp only [rasterSpotLights, Option.some.injEq] at h
    rw [h]
  | cons light rest ih =>
    intro i acc r h
    simp only [rasterSpotLights, Option.bind_eq_some] at h
    obtain ⟨r1, hr1, h⟩ := h
    rw [ih _ _ _ h]
    exact carried_rasterSpotLight env _ _ _ _ r1 hr1

theorem carried_cubeDefines (s : ShadowMap F) (d : Bool) (index : Nat) :
    carried (cubeDefines s d index) = carried s := by
  unfold cubeDefines
  simp only [carried]
  split_ifs <;> rfl

theorem carried_rasterCubeFace (env : MathEnv F) (index : Nat) (light : Light F)
    (lightMoved : Bool) (mode : MeshRenderMode) (acc r : ShadowMap F × List RasterCall)
    (face : Nat) (h : rasterCubeFace env index light lightMoved mode acc face = some r) :
    carried r.1 = carried acc.1 := by
  unfold rasterCubeFace at h
  simp only [Option.bind_eq_some] at h
  obtain ⟨_, -, _, -, _, -, h⟩ := h
  cases h
  rfl

theorem carried_rasterCubeFaces (env : MathEnv F) (index : Nat) (light : Light F)
    (lightMoved : Bool) (mode : MeshRenderMode) (faces : List Nat) :
    ∀ (acc r : ShadowMap F × List RasterCall),
      faces.foldlM (rasterCubeFace env index light lightMoved mode) acc = some r →
      carried r.1 = carried acc.1 := by
  induction faces with
  | nil =>
    intro acc r h
    simp only [List.foldlM, pure, Option.some.injEq] at h
    rw [h]
  | cons face rest ih =>
    intro acc r h
    simp only [List.foldlM, bind, Option.bind_eq_some] at h
    obtain ⟨r1, hr1, h⟩ := h
    rw [ih _ _ h]
    exact carried_rasterCubeFace env _ _ _ _ _ _ _ hr1

theorem carried_rasterCubeEachFace (env : MathEnv F) (s : ShadowMap F) (d : Bool) (index : Nat)
    (light : Light F) (r : ShadowMap F × List RasterCall)
    (h : rasterCubeEachFace env s d index light = some r) : carried r.1 = carried s := by
  unfold rasterCubeEachFace at h
  simp only [] at h
  split at h
  · cases h
    exact carried_cubeDefines s d index
  · simp only [Option.map_eq_some'] at h
    obtain ⟨r1, hr1, h⟩ := h
    have := carried_rasterCubeFaces env _ _ _ _ _ _ _ hr1
    rw [carried_cubeDefines] at this
    rw [← this, ← h]
    simp only [carried]
    split_ifs <;> rfl

theorem carried_rasterCubeLights (env : MathEnv F) (frame : Frame F) (lights : List (Light F)) :
    ∀ (i : Nat) (acc r : ShadowMap F × List RasterCall),
      rasterCubeLights env frame lights i acc = some r → carried r.1 = carried acc.1 := by
  induction lights with
  | nil =>
    intro i acc r h
    simp only [rasterCubeLights, Option.some.injEq] at h
    rw [h]
  | cons light rest ih =>
    intro i acc r h
    simp only [rasterCubeLights, Option.bind_eq_some] at h
    obtain ⟨r1, hr1, h⟩ := h
    rw [ih _ _ _ h]
    exact carried_rasterCubeEachFace env _ _ _ _ r1 hr1

theorem carried_cascadedLevelCalculations (env : MathEnv F) (s : ShadowMap F)
    (scene : SceneView F) : carried (cascadedLevelCalculations env s scene) = carried s := by
  unfold cascadedLevelCalculations
  cases s.mCascadedFrustumMode <;> rfl

theorem carried_calcProjViewForCascaded (env : MathEnv F) (s : ShadowMap F)
    (scene : SceneView F) (lightData : LightData F) (renderLevel : List Bool)
    (forceUpdate : Bool) (out : ShadowMap F × List Bool)
    (h : calcProjViewForCascaded env s scene lightData renderLevel forceUpdate = some out) :
    carried out.1 = carried s := by
  unfold calcProjViewForCascaded at h
  simp only [Option.map_eq_some'] at h
  obtain ⟨st, -, rfl⟩ := h
  exact carried_cascadedLevelCalculations env s scene

theorem carried_resizeBlurForCascaded (s : ShadowMap F) :
    carried (resizeBlurForCascaded s) = carried s := by
  unfold resizeBlurForCascaded
  split_ifs <;> rfl

theorem carried_rasterCascaded (env : MathEnv F) (s : ShadowMap F) (view : SceneView F)
    (d : Bool) (light : Light F) (cameraMoved : Bool)
    (r : ShadowMap F × Bool × List RasterCall)
    (h : rasterCascaded env s view d light cameraMoved = some r) : carried r.1 = carried s := by
  unfold rasterCascaded at h
  simp only [] at h
  split at h
  · cases h
    rfl
  split at h
  · cases h
    rfl
  · simp only [Option.bind_eq_some, Option.map_eq_some'] at h
    obtain ⟨out, hout, calls, -, h⟩ := h
    cases h
    rw [carried_resizeBlurForCascaded]
    exact (carried_calcProjViewForCascaded env _ _ _ _ _ out hout).trans rfl

end CarriedRender

section CarriedUpdate

variable {F : Type} [LinearOrderedField F]

/-- A frame that is rendered to its end returns true with `mUpdateShadowMap` and
`mClearDynamicSM` cleared, and leaves the cached classifications and the other flags as they
were. -/
theorem renderLights_some (env : MathEnv F) (s : ShadowMap F) (frame : Frame F)
    (lists : RenderLists F) (r : UpdateResult F)
    (h : renderLights env s frame lists = some r) :
    carried r.state = carried s ∧ r.returned = true ∧ r.state.mUpdateShadowMap = false ∧
      r.state.mClearDynamicSM = false := by
  unfold renderLights at h
  simp only [Option.bind_eq_some] at h
  obtain ⟨cube, hcube, misc, hmisc, vp, -, cascaded, hcascaded, cvp, -, h⟩ := h
  cases h
  have h1 := carried_rasterCubeLights env frame _ _ _ _ hcube
  have h2 := carried_rasterSpotLights env frame _ _ _ _ hmisc
  have h3 : carried cascaded.1 = carried misc.1 := by
    cases hl : lists.lightRenderListCascaded with
    | nil =>
      rw [hl] at hcascaded
      cases hcascaded
      rfl
    | cons light rest =>
      rw [hl] at hcascaded
      exact (carried_rasterCascaded env _ _ _ _ _ _ hcascaded).trans rfl
  refine ⟨?_, rfl, rfl, ?_⟩
  · exact (show carried _ = carried cascaded.1 from rfl).trans (h3.trans (h2.trans h1))
  · show (if cascaded.1.mClearDynamicSM = true then false else cascaded.1.mClearDynamicSM) = false
    cases cascaded.1.mClearDynamicSM <;> rfl

theorem carried_prepareGaussianBlur (s : ShadowMap F) :
    carried (prepareGaussianBlur s) = carried s := by
  unfold prepareGaussianBlur
  simp only []
  split_ifs <;> rfl

theorem carried_applyRerenderStatic (s : ShadowMap F) :
    carried (applyRerenderStatic s) = carried s := by
  unfold applyRerenderStatic
  split_ifs <;> rfl

/-- A call of `prepareShadowMapBuffers` that returns leaves the state `prepared`. -/
theorem prepareShadowMapBuffers_ok (s s' : ShadowMap F) (lights : List (Light F))
    (h : prepareShadowMapBuffers s lights = Except.ok s') : s' = prepared s lights := by
  rw [prepareShadowMapBuffers_eq] at h
  split_ifs at h
  cases h
  rfl

/-- After the pending changes are applied, the flags `mTypeChanged`, `mRasterDefinesChanged`,
`mBiasSettingsChanged`, `mResetShadowMapBuffers` and `mShadowResChanged` are clear. -/
theorem applyPendingChanges_flags (s s1 : ShadowMap F) (lights : List (Light F))
    (h : applyPendingChanges s lights = Except.ok s1) :
    s1.mTypeChanged = false ∧ s1.mRasterDefinesChanged = false ∧
      s1.mBiasSettingsChanged = false ∧ s1.mResetShadowMapBuffers = false ∧
      s1.mShadowResChanged = false := by
  unfold applyPendingChanges at h
  have ha : (applyTypeChanged s).mTypeChanged = false := by
    unfold applyTypeChanged
    split_ifs with h1
    · rfl
    · simpa using h1
  have hb : (applyRasterDefinesChanged (applyTypeChanged s)).mTypeChanged = false ∧
      (applyRasterDefinesChanged (applyTypeChanged s)).mRasterDefinesChanged = false := by
    unfold applyRasterDefinesChanged
    split_ifs with h1
    · exact ⟨ha, rfl⟩
    · exact ⟨ha, by simpa using h1⟩
  generalize applyRasterDefinesChanged (applyTypeChanged s) = b at h hb
  cases hc : rebuildBuffers b lights with
  | error e => rw [hc] at h; cases h
  | ok c =>
    rw [hc] at h
    cases h
    have hcflags : c.mTypeChanged = false ∧ c.mRasterDefinesChanged = false ∧
        c.mResetShadowMapBuffers = false ∧ c.mShadowResChanged = false := by
      unfold rebuildBuffers at hc
      split_ifs at hc with h1
      · have := prepareShadowMapBuffers_ok _ _ _ hc
        subst this
        have hp := carried_prepared b lights
        exact ⟨(congrArg Carried.mTypeChanged hp).trans hb.1,
          (congrArg Carried.mRasterDefinesChanged hp).trans hb.2,
          congrArg Carried.mResetShadowMapBuffers hp, congrArg Carried.mShadowResChanged hp⟩
      · cases hc
        simp only [Bool.or_eq_true, not_or, Bool.not_eq_true] at h1
        exact ⟨hb.1, hb.2, h1.1, h1.2⟩
    have hd : carried (applyBiasSettingsChanged c) =
        { carried c with mBiasSettingsChanged := false } := by
      unfold applyBiasSettingsChanged
      split_ifs with h1
      · rfl
      · simp only [carried, Carried.mk.injEq, true_and, and_true]
        simpa using h1
    have he := (carried_prepareGaussianBlur _).trans
      ((carried_applyRerenderStatic (applyBiasSettingsChanged c)).trans hd)
    exact ⟨(congrArg Carried.mTypeChanged he).trans hcflags.1,
      (congrArg Carried.mRasterDefinesChanged he).trans hcflags.2.1,
      congrArg Carried.mBiasSettingsChanged he,
      (congrArg Carried.mResetShadowMapBuffers he).trans hcflags.2.2.1,
      (congrArg Carried.mShadowResChanged he).trans hcflags.2.2.2⟩

/-- What a call of `update` with a scene that has an active light and that returns has done:
the pending changes were applied, and the loop over the lights ended with the early return or
with the render lists, which were rendered. -/
theorem update_some (env : MathEnv F) (s : ShadowMap F) (frame : Frame F) (r : UpdateResult F)
    (hactive : getActiveLightCount frame.lights ≠ 0)
    (h : update env s (some frame) = Except.ok (some r)) :
    ∃ s1, applyPendingChanges s frame.lights = Except.ok s1 ∧
      ((sortLights s1.mPrevLightType frame.lights 0 {} = LightSort.typeChanged ∧
          r.state = { s1 with mResetShadowMapBuffers := true } ∧ r.returned = false ∧
          r.rasterCalls = [] ∧ r.fenceWaits = []) ∨
        ∃ lists, sortLights s1.mPrevLightType frame.lights 0 {} = LightSort.sorted lists ∧
          renderLights env s1 frame lists = some r) := by
  unfold update at h
  simp only [hactive, if_false] at h
  cases hp : applyPendingChanges s frame.lights with
  | error e => rw [hp] at h; cases h
  | ok s1 =>
    rw [hp] at h
    simp only [Except.map, Except.ok.injEq] at h
    refine ⟨s1, rfl, ?_⟩
    cases hs : sortLights s1.mPrevLightType frame.lights 0 {} with
    | outOfBounds => rw [hs] at h; cases h
    | typeChanged =>
      rw [hs] at h
      simp only [Option.some.injEq] at h
      subst h
      exact Or.inl ⟨rfl, rfl, rfl, rfl, rfl⟩
    | sorted lists =>
      rw [hs] at h
      exact Or.inr ⟨lists, rfl, h⟩

end CarriedUpdate

section FlagClaims

variable {F : Type} [LinearOrderedField F]

/-- C18. Whenever `update` completes a frame of a scene with at least one active light and
returns true, all pending-change flags are clear afterwards: `mUpdateShadowMap`,
`mClearDynamicSM`, `mTypeChanged`, `mRasterDefinesChanged`, `mBiasSettingsChanged`,
`mResetShadowMapBuffers` and `mShadowResChanged` are false. -/
theorem update_clears_flags (env : MathEnv F) (s : ShadowMap F) (frame : Frame F)
    (r : UpdateResult F) (hactive : getActiveLightCount frame.lights ≠ 0)
    (h : update env s (some frame) = Except.ok (some r)) (hret : r.returned = true) :
    r.state.mUpdateShadowMap = false ∧ r.state.mClearDynamicSM = false ∧
      r.state.mTypeChanged = false ∧ r.state.mRasterDefinesChanged = false ∧
      r.state.mBiasSettingsChanged = false ∧ r.state.mResetShadowMapBuffers = false ∧
      r.state.mShadowResChanged = false := by
  obtain ⟨s1, hp, hcase⟩ := update_some env s frame r hactive h
  obtain ⟨f1, f2, f3, f4, f5⟩ := applyPendingChanges_flags s s1 frame.lights hp
  rcases hcase with ⟨-, -, hfalse, -⟩ | ⟨lists, -, hrender⟩
  · rw [hfalse] at hret
    cases hret
  · obtain ⟨hc, -, hu, hd⟩ := renderLights_some env s1 frame lists r hrender
    exact ⟨hu, hd, (congrArg Carried.mTypeChanged hc).trans f1,
      (congrArg Carried.mRasterDefinesChanged hc).trans f2,
      (congrArg Carried.mBiasSettingsChanged hc).trans f3,
      (congrArg Carried.mResetShadowMapBuffers hc).trans f4,
      (congrArg Carried.mShadowResChanged hc).trans f5⟩

end FlagClaims

section SortClaims

variable {F : Type} [LinearOrderedField F]

/-- C19. When the loop over the lights finds no mismatch, `update` renders the frame with the
three render lists, of which the cube list is the subsequence of the point lights, the 2D list
the subsequence of the spot lights and the cascade list the subsequence of the directional
lights, each in the order of the scene; a light that is not supported is in no list and a
supported light is in the list of its classification and in no other. -/
theorem update_render_lists (env : MathEnv F) (s s1 : ShadowMap F) (frame : Frame F)
    (lists : RenderLists F) (hactive : getActiveLightCount frame.lights ≠ 0)
    (hpending : applyPendingChanges s frame.lights = Except.ok s1)
    (hsort : sortLights s1.mPrevLightType frame.lights 0 {} = LightSort.sorted lists) :
    update env s (some frame) = Except.ok (renderLights env s1 frame lists) ∧
    lists.lightRenderListCube = lightsOfType LightTypeSM.Point frame.lights ∧
    lists.lightRenderListMisc = lightsOfType LightTypeSM.Spot frame.lights ∧
    lists.lightRenderListCascaded = lightsOfType LightTypeSM.Directional frame.lights ∧
    ∀ light ∈ frame.lights,
      (light ∈ lists.lightRenderListCube ↔ getLightType light = LightTypeSM.Point) ∧
      (light ∈ lists.lightRenderListMisc ↔ getLightType light = LightTypeSM.Spot) ∧
      (light ∈ lists.lightRenderListCascaded ↔
        getLightType light = LightTypeSM.Directional) := by
  obtain ⟨h1, h2, h3⟩ := sortLights_sorted _ _ _ _ _ hsort
  simp only [List.nil_append] at h1 h2 h3
  refine ⟨?_, h1, h2, h3, ?_⟩
  · unfold update
    simp only [hactive, if_false, hpending, Except.map, hsort]
  · intro light hl
    rw [h1, h2, h3]
    simp [lightsOfType, List.mem_filter, hl]

set_option maxRecDepth 1000000 in
/-- C19, witness: the sample lights (three point lights, two spot lights and a directional
light) in the first frame of a new object. -/
theorem update_render_lists_witness :
    update sampleEnv (prepared ({} : ShadowMap ℚ) sampleLights) (some sampleFrame) =
      Except.ok (renderLights sampleEnv (readyToRender (prepared {} sampleLights)) sampleFrame
        { lightRenderListCube := [pointLight 3, pointLight 2, pointLight 3]
          lightRenderListMisc := [pointLight (1 / 2), pointLight (1 / 4)]
          lightRenderListCascaded := [directionalLight true] }) ∧
    [pointLight 3, pointLight 2, pointLight 3] =
      lightsOfType LightTypeSM.Point sampleFrame.lights ∧
    [pointLight (1 / 2), pointLight (1 / 4)] =
      lightsOfType LightTypeSM.Spot sampleFrame.lights ∧
    [directionalLight true] = lightsOfType LightTypeSM.Directional sampleFrame.lights ∧
    ∀ light ∈ sampleFrame.lights,
      (light ∈ [pointLight 3, pointLight 2, pointLight 3] ↔
        getLightType light = LightTypeSM.Point) ∧
      (light ∈ [pointLight (1 / 2), pointLight (1 / 4)] ↔
        getLightType light = LightTypeSM.Spot) ∧
      (light ∈ [directionalLight true] ↔ getLightType light = LightTypeSM.Directional) :=
  update_render_lists sampleEnv (prepared {} sampleLights)
    (readyToRender (prepared {} sampleLights)) sampleFrame
    { lightRenderListCube := [pointLight 3, pointLight 2, pointLight 3]
      lightRenderListMisc := [pointLight (1 / 2), pointLight (1 / 4)]
      lightRenderListCascaded := [directionalLight true] }
    (by decide) (by with_unfolding_all rfl) (by with_unfolding_all rfl)

set_option maxRecDepth 1000000 in
/-- C18, witness: a new object on which every kind of change is pending, and the scene with
one directional light and one point light. -/
theorem update_clears_flags_witness :
    ∃ r, update sampleEnv allPending (some overlapFrame) = Except.ok (some r) ∧
      r.returned = true ∧
      r.state.mUpdateShadowMap = false ∧ r.state.mClearDynamicSM = false ∧
      r.state.mTypeChanged = false ∧ r.state.mRasterDefinesChanged = false ∧
      r.state.mBiasSettingsChanged = false ∧ r.state.mResetShadowMapBuffers = false ∧
      r.state.mShadowResChanged = false := by
  have h : returnedAndReset (update sampleEnv allPending (some overlapFrame)) =
      some (true, false) := by
    with_unfolding_all rfl
  cases hu : update sampleEnv allPending (some overlapFrame) with
  | error e => rw [hu] at h; cases h
  | ok o =>
    cases o with
    | none => rw [hu] at h; cases h
    | some r =>
      rw [hu] at h
      have hret : r.returned = true := by
        simp only [returnedAndReset, Option.some.injEq, Prod.mk.injEq] at h
        exact h.1
      exact ⟨r, rfl, hret, update_clears_flags sampleEnv allPending overlapFrame r (by decide)
        hu hret⟩

end SortClaims

section SpotClaims

variable {F : Type} [LinearOrderedField F]

/-- Without a pending re-render and without changed defines, lines 1025-1035 leave the state
as it is. -/
theorem spotDefines_eq (s : ShadowMap F) (definesChanged : Bool) (index : Nat)
    (hflag : s.mUpdateShadowMap = false) (hdefines : index = 0 → definesChanged = false) :
    spotDefines s definesChanged index = s := by
  unfold spotDefines
  split_ifs with h0
  · rw [hdefines h0]
    cases s
    simp only at hflag
    subst hflag
    rfl
  · rfl

/-- C20. In `Dynamic` update mode with `mUpdateShadowMap` clear (and unchanged defines in the
call for the first light), `rasterSpotLight` for an active spot light at slot `index`, with
the slots `index` and `mCountSpotShadowMaps + index` allocated, returns; it renders the static
slot `index` (skipping the dynamic geometry) exactly when the change mask of the light has
`Active`, `Position` or `Direction` set, it always renders the dynamic slot
`mCountSpotShadowMaps + index` (skipping the static geometry), after the static slot, and the
returned flag is true exactly when the static slot was rendered. -/
theorem rasterSpotLight_dynamic (env : MathEnv F) (s : ShadowMap F) (definesChanged : Bool)
    (index : Nat) (light : Light F)
    (hmode : s.mShadowMapUpdateMode = SMUpdateMode.Dynamic)
    (hflag : s.mUpdateShadowMap = false) (hdefines : index = 0 → definesChanged = false)
    (hactive : light.active = true)
    (hvp : index < s.mSpotDirViewProjMat.length)
    (hdyn : s.mCountSpotShadowMaps + index < s.mpShadowMaps.length)
    (h32 : s.mCountSpotShadowMaps + index < 2 ^ 32)
    (hcull : s.mUseFrustumCulling = true → index < s.mFrustumCulling.length) :
    ∃ s', rasterSpotLight env s definesChanged index light =
      some (s',
        light.changes.Active || (light.changes.Position || light.changes.Direction),
        (if light.changes.Active || (light.changes.Position || light.changes.Direction) then
          [{ target := RenderTarget.shadowMap index, meshRenderMode := { SkipDynamic := true },
             culling := if s.mUseFrustumCulling then some index else none }]
        else []) ++
        [{ target := RenderTarget.shadowMap (s.mCountSpotShadowMaps + index),
           meshRenderMode := { SkipStatic := true },
           culling := if s.mUseFrustumCulling then some index else none }]) := by
  have hstatic : index < s.mpShadowMaps.length := by omega
  unfold rasterSpotLight
  rw [spotDefines_eq s definesChanged index hflag hdefines]
  cases hc : s.mUseFrustumCulling <;>
    cases hm : (light.changes.Active || (light.changes.Position || light.changes.Direction))
  · simp [hm, hmode, hflag, hactive, bindAndRenderShadowMap, hc, hvp, hstatic, hdyn,
      u32_of_lt h32]
  · simp [hm, hmode, hflag, hactive, bindAndRenderShadowMap, updateSpotVP, setAt, hc, hvp,
      hstatic, hdyn, u32_of_lt h32]
  · have hcl := hcull hc
    simp [hm, hmode, hflag, hactive, bindAndRenderShadowMap, hc, hvp, hstatic, hdyn, hcl,
      u32_of_lt h32]
  · have hcl := hcull hc
    simp [hm, hmode, hflag, hactive, bindAndRenderShadowMap, updateSpotVP, setAt, hc, hvp,
      hstatic, hdyn, hcl, u32_of_lt h32]

end SpotClaims

section RebuildLemmas

variable {F : Type} [LinearOrderedField F]

theorem applyTypeChanged_eq (s : ShadowMap F) (h : s.mTypeChanged = false) :
    applyTypeChanged s = s := by
  unfold applyTypeChanged
  rw [if_neg (by simp [h])]

theorem applyRasterDefinesChanged_eq (s : ShadowMap F) (h : s.mRasterDefinesChanged = false) :
    applyRasterDefinesChanged s = s := by
  unfold applyRasterDefinesChanged
  rw [if_neg (by simp [h])]

/-- With the reset flag set and no other rebuild cause pending, the pending changes are
applied by a run of `prepareShadowMapBuffers`, which returns unless there are two directional
lights. -/
theorem applyPendingChanges_reset (s : ShadowMap F) (lights : List (Light F))
    (htype : s.mTypeChanged = false) (hraster : s.mRasterDefinesChanged = false)
    (hreset : s.mResetShadowMapBuffers = true) (hlen : lights.length < 2 ^ 32)
    (hdir : countOfLights LightTypeSM.Directional lights ≤ 1) :
    applyPendingChanges s lights = Except.ok (readyToRender (prepared s lights)) := by
  unfold applyPendingChanges
  rw [applyTypeChanged_eq s htype, applyRasterDefinesChanged_eq s hraster]
  unfold rebuildBuffers
  rw [if_pos (by simp [hreset]), prepareShadowMapBuffers_cases s lights hlen, if_pos hdir]
  rfl

theorem carried_readyToRender (s : ShadowMap F) :
    (readyToRender s).mPrevLightType = s.mPrevLightType := by
  unfold readyToRender
  have h1 := congrArg Carried.mPrevLightType (carried_prepareGaussianBlur
    (applyRerenderStatic (applyBiasSettingsChanged s)))
  have h2 := congrArg Carried.mPrevLightType (carried_applyRerenderStatic
    (applyBiasSettingsChanged s))
  have h3 : (applyBiasSettingsChanged s).mPrevLightType = s.mPrevLightType := by
    unfold applyBiasSettingsChanged
    split_ifs <;> rfl
  exact h1.trans (h2.trans h3)

/-- The buffers that a rebuild with the reset flag allocates: the light mapping buffer when
there is a light, the spot matrix buffer when there is a spot light and the cascaded matrix
buffer when there is a directional light. -/
theorem prepared_buffers (s : ShadowMap F) (lights : List (Light F))
    (hreset : s.mResetShadowMapBuffers = true) (hlen : lights.length < 2 ^ 31) :
    ((prepared s lights).mpLightMapping.isSome = true ↔ 0 < lights.length) ∧
    ((prepared s lights).mpVPMatrixBuffer.buffer.isSome = true ↔
      0 < countOfLights LightTypeSM.Spot lights) ∧
    ((prepared s lights).mpCascadedVPMatrixBuffer.buffer.isSome = true ↔
      0 < countOfLights LightTypeSM.Directional lights) := by
  have htex : texturesReleased (resetShadowMaps s) :=
    resetShadowMaps_textures s (Or.inr (Or.inl hreset))
  obtain ⟨b1, b2, b3⟩ := resetShadowMaps_buffers s (Or.inl hreset)
  obtain ⟨-, -, hsp⟩ := prepared_counts s lights hlen htex
  obtain ⟨-, -, hD, -, -, hL, -⟩ := lightLoop_spec (resetShadowMaps s)
    (formatPlan (resetShadowMaps s)).shadowMapFormat (resetShadowMaps s).mpShadowMapsCube lights
    (by omega)
  have hcas0 : (resetShadowMaps s).mpCascadedShadowMaps = none := by
    unfold resetShadowMaps
    simp [hreset]
  have hres := resources_prepared s lights _ _ rfl rfl
  have hlm := congrArg Resources.lightMapping hres
  have hvp := congrArg Resources.vp hres
  have hcvp := congrArg Resources.cascadedVP hres
  have hcas := congrArg Resources.cascade hres
  simp only [resources, b1, Option.isNone_none, hL, Bool.true_and] at hlm
  simp only [resources, b2, Option.isNone_none, hsp, Bool.true_and] at hvp
  simp only [resources, hD, hcas0] at hcas
  simp only [resources, b3, Option.isNone_none, hcas, Bool.true_and] at hcvp
  have hfac : 0 < sliceFactor s := by
    unfold sliceFactor
    split_ifs <;> decide
  refine ⟨?_, ?_, ?_⟩
  · rw [hlm]
    by_cases h0 : 0 < lights.length
    · simp [h0]
    · simp [h0]
  · rw [hvp]
    by_cases h0 : 0 < countOfLights LightTypeSM.Spot lights
    · have : 0 < countOfLights LightTypeSM.Spot lights * sliceFactor s :=
        Nat.mul_pos h0 hfac
      simp [h0, this, createVPMatrixBuffer]
    · have h1 : countOfLights LightTypeSM.Spot lights = 0 := by omega
      simp [h1, b2]
  · rw [hcvp]
    by_cases h0 : 0 < countOfLights LightTypeSM.Directional lights
    · simp [h0, createVPMatrixBuffer]
    · simp [h0, b3]

end RebuildLemmas

section RebuildClaims

variable {F : Type} [LinearOrderedField F]

/-- C16 (amended). If the scene has an active light and the cached classifications, after the
pending changes of the frame are applied, are as many as the lights and differ from the
classifications of the lights, `update` renders nothing, returns false and sets
`mResetShadowMapBuffers`.  The next call of `update`, for a scene with an active light, fewer
than `2^31` lights and at most one directional light, runs `prepareShadowMapBuffers`, which
caches the classifications of the lights and allocates one cube texture per point light, the
2D textures of the spot lights, the light mapping buffer, the spot matrix buffer when there is
a spot light and the cascaded matrix buffer when there is a directional light; the frame is
then rendered with the render lists of the new classifications. -/
theorem update_type_changed (env : MathEnv F) (s s1 t p : ShadowMap F) (frame next : Frame F)
    (hactive : getActiveLightCount frame.lights ≠ 0)
    (hpending : applyPendingChanges s frame.lights = Except.ok s1)
    (hlen : s1.mPrevLightType.length = frame.lights.length)
    (hdiff : s1.mPrevLightType ≠ frame.lights.map getLightType)
    (ht : t = { s1 with mResetShadowMapBuffers := true })
    (hnactive : getActiveLightCount next.lights ≠ 0)
    (hnlen : next.lights.length < 2 ^ 31)
    (hndir : countOfLights LightTypeSM.Directional next.lights ≤ 1)
    (hp : p = prepared t next.lights) :
    update env s (some frame) =
      Except.ok (some { state := t, returned := false, rasterCalls := [], fenceWaits := [] }) ∧
    update env t (some next) =
      Except.ok (renderLights env (readyToRender p) next
        { lightRenderListCube := lightsOfType LightTypeSM.Point next.lights
          lightRenderListMisc := lightsOfType LightTypeSM.Spot next.lights
          lightRenderListCascaded := lightsOfType LightTypeSM.Directional next.lights }) ∧
    p.mPrevLightType = next.lights.map getLightType ∧
    p.mpShadowMapsCube.length = countOfLights LightTypeSM.Point next.lights ∧
    p.mpShadowMaps.length = countOfLights LightTypeSM.Spot next.lights * sliceFactor t ∧
    p.mpLightMapping.isSome = true ∧
    (p.mpVPMatrixBuffer.buffer.isSome = true ↔
      0 < countOfLights LightTypeSM.Spot next.lights) ∧
    (p.mpCascadedVPMatrixBuffer.buffer.isSome = true ↔
      0 < countOfLights LightTypeSM.Directional next.lights) := by
  obtain ⟨f1, f2, -, -, -⟩ := applyPendingChanges_flags s s1 frame.lights hpending
  have hsort1 := sortLights_of_length s1.mPrevLightType frame.lights 0 {}
    (by rw [hlen, Nat.zero_add])
  rw [List.drop_zero, if_neg hdiff] at hsort1
  have htreset : t.mResetShadowMapBuffers = true := by rw [ht]
  have hprev : p.mPrevLightType = next.lights.map getLightType := by
    rw [hp]
    exact congrArg Carried.mPrevLightType (carried_prepared t next.lights)
  have hnext := applyPendingChanges_reset t next.lights (by rw [ht]; exact f1)
    (by rw [ht]; exact f2) htreset (by omega) hndir
  have hrp : (readyToRender p).mPrevLightType = next.lights.map getLightType :=
    (carried_readyToRender p).trans hprev
  have hsort2 := sortLights_of_length (readyToRender p).mPrevLightType next.lights 0 {}
    (by rw [hrp, List.length_map, Nat.zero_add])
  rw [List.drop_zero, if_pos hrp] at hsort2
  simp only [List.nil_append] at hsort2
  obtain ⟨hc, -, hsp⟩ := prepared_counts t next.lights hnlen
    (resetShadowMaps_textures t (Or.inr (Or.inl htreset)))
  obtain ⟨b1, b2, b3⟩ := prepared_buffers t next.lights htreset hnlen
  have hpos : 0 < next.lights.length := by
    rcases hl : next.lights with _ | ⟨l, rest⟩
    · rw [hl] at hnactive
      exact absurd rfl hnactive
    · simp
  refine ⟨?_, ?_, hprev, ?_, ?_, ?_, ?_, ?_⟩
  · unfold update
    simp only [hactive, if_false, hpending, Except.map, hsort1, ht]
  · unfold update
    simp only [hnactive, if_false, hnext, Except.map, ← hp, hsort2]
  · rw [hp, hc]
  · rw [hp, hsp]
  · rw [hp]
    exact b1.mpr hpos
  · rw [hp]
    exact b2
  · rw [hp]
    exact b3

set_option maxRecDepth 1000000 in
/-- C16, counterexample. With one spot light cached: when the light has become a point light
and is switched off, `update` returns true and does not set `mResetShadowMapBuffers`; when the
light has become a point light and is active, `update` returns false with the flag set, and
the next call, which rebuilds the buffers, holds neither matrix buffer afterwards. -/
theorem update_type_changed_counterexample :
    (prepared ({} : ShadowMap ℚ) oneSpotFrame.lights).mPrevLightType = [LightTypeSM.Spot] ∧
    inactivePointFrame.lights.map getLightType = [LightTypeSM.Point] ∧
    returnedAndReset (update sampleEnv (prepared ({} : ShadowMap ℚ) oneSpotFrame.lights)
      (some inactivePointFrame)) = some (true, false) ∧
    onePointFrame.lights.map getLightType = [LightTypeSM.Point] ∧
    returnedAndReset (update sampleEnv (prepared ({} : ShadowMap ℚ) oneSpotFrame.lights)
      (some onePointFrame)) = some (false, true) ∧
    returnedAndReset (thenUpdate sampleEnv
      (update sampleEnv (prepared ({} : ShadowMap ℚ) oneSpotFrame.lights) (some onePointFrame))
      (some onePointFrame)) = some (true, false) ∧
    matrixBuffersHeld (thenUpdate sampleEnv
      (update sampleEnv (prepared ({} : ShadowMap ℚ) oneSpotFrame.lights) (some onePointFrame))
      (some onePointFrame)) = some (false, false) := by
  refine ⟨?_, ?_, ?_, ?_, ?_, ?_, ?_⟩ <;> with_unfolding_all rfl

set_option maxRecDepth 1000000 in
/-- C16, witness: one spot light is cached and the light has become a point light; the next
frame is of a scene with a directional light and a point light. -/
theorem update_type_changed_witness :
    update sampleEnv (prepared {} oneSpotFrame.lights) (some onePointFrame) =
      Except.ok (some
        { state := flagged, returned := false, rasterCalls := [], fenceWaits := [] }) ∧
    update sampleEnv flagged (some overlapFrame) =
      Except.ok (renderLights sampleEnv
        (readyToRender (prepared flagged overlapFrame.lights)) overlapFrame
        { lightRenderListCube := lightsOfType LightTypeSM.Point overlapFrame.lights
          lightRenderListMisc := lightsOfType LightTypeSM.Spot overlapFrame.lights
          lightRenderListCascaded := lightsOfType LightTypeSM.Directional overlapFrame.lights }) ∧
    (prepared flagged overlapFrame.lights).mPrevLightType =
      overlapFrame.lights.map getLightType ∧
    (prepared flagged overlapFrame.lights).mpShadowMapsCube.length =
      countOfLights LightTypeSM.Point overlapFrame.lights ∧
    (prepared flagged overlapFrame.lights).mpShadowMaps.length =
      countOfLights LightTypeSM.Spot overlapFrame.lights * sliceFactor flagged ∧
    (prepared flagged overlapFrame.lights).mpLightMapping.isSome = true ∧
    ((prepared flagged overlapFrame.lights).mpVPMatrixBuffer.buffer.isSome = true ↔
      0 < countOfLights LightTypeSM.Spot overlapFrame.lights) ∧
    ((prepared flagged overlapFrame.lights).mpCascadedVPMatrixBuffer.buffer.isSome = true ↔
      0 < countOfLights LightTypeSM.Directional overlapFrame.lights) :=
  update_type_changed sampleEnv (prepared {} oneSpotFrame.lights) staleSpot flagged
    (prepared flagged overlapFrame.lights) onePointFrame overlapFrame (by decide)
    (by with_unfolding_all rfl) (by with_unfolding_all rfl) (by with_unfolding_all decide) rfl
    (by decide) (by decide) (by with_unfolding_all decide) rfl

end RebuildClaims

section SpotWitness

set_option maxRecDepth 1000000 in
/-- C20, witness: the second spot light of a dynamic scene with two spot lights has moved;
its static slot is 1 and its dynamic slot is 3. -/
theorem rasterSpotLight_dynamic_witness :
    dynamicSpots.mCountSpotShadowMaps + 1 = 3 ∧
    ∃ s', rasterSpotLight sampleEnv dynamicSpots false 1 movedSpot =
      some (s',
        movedSpot.changes.Active || (movedSpot.changes.Position || movedSpot.changes.Direction),
        (if movedSpot.changes.Active ||
            (movedSpot.changes.Position || movedSpot.changes.Direction) then
          [{ target := RenderTarget.shadowMap 1, meshRenderMode := { SkipDynamic := true },
             culling := if dynamicSpots.mUseFrustumCulling then some 1 else none }]
        else []) ++
        [{ target := RenderTarget.shadowMap (dynamicSpots.mCountSpotShadowMaps + 1),
           meshRenderMode := { SkipStatic := true },
           culling := if dynamicSpots.mUseFrustumCulling then some 1 else none }]) :=
  ⟨by with_unfolding_all rfl,
    rasterSpotLight_dynamic sampleEnv dynamicSpots false 1 movedSpot
      (by with_unfolding_all rfl) rfl (fun _ => rfl) rfl (by with_unfolding_all decide)
      (by with_unfolding_all decide) (by with_unfolding_all decide)
      (fun _ => by with_unfolding_all decide)⟩

end SpotWitness

section BoxClaims

variable {F : Type} [LinearOrderedField F]

/-- With the factor 0 the box is left as it is. -/
theorem enlargeBox_zero (b : OrthoBox F) : enlargeBox 0 b = b := by
  unfold enlargeBox
  cases b
  simp

/-- The cache entry that a recomputed level leaves holds the projection of the enlarged
box. -/
theorem recomputeLevel_ortho (s : ShadowMap F) (lightData : LightData F) (center : float3 F)
    (casView : float4x4 F) (smViewAABB : AABB F) (b : OrthoBox F) (st st' : CascadeLoop F)
    (i : Nat) (hen : s.mEnableTemporalCascadedBoxTest = true)
    (h : recomputeLevel s lightData center casView smViewAABB b st i = some st') :
    ∃ c, st'.mCascadedTemporalReuse[i]? = some c ∧
      c.ortho = casProj (enlargeBox s.mCascadedReuseEnlargeFactor b) := by
  unfold recomputeLevel at h
  simp only [Option.bind_eq_some, setAt_eq_some] at h
  obtain ⟨c, hc, reuse, ⟨hi, rfl⟩, rl, -, hstore⟩ := h
  obtain ⟨-, -, c2, hc2, hreuse⟩ := storeLevel_some s lightData center casView smViewAABB _
    _ st' i hen hstore
  rw [hreuse]
  exact ⟨_, List.getElem?_set_self (by simpa using hi), rfl⟩

/-- C22. For every enlarge factor `e >= 0` and every freshly computed box, the enlarged box,
whose projection `calcProjViewForCascaded` caches for a recomputed level, contains the box
on X and Y: the new `minX` and `minY` are not greater than the old ones and the new `maxX` and
`maxY` are not smaller; Z is left as it is, and for `e = 0` the box is unchanged. -/
theorem enlarged_box_contains (s : ShadowMap F) (b : OrthoBox F)
    (he : 0 ≤ s.mCascadedReuseEnlargeFactor) :
    (enlargeBox s.mCascadedReuseEnlargeFactor b).minX ≤ b.minX ∧
    b.maxX ≤ (enlargeBox s.mCascadedReuseEnlargeFactor b).maxX ∧
    (enlargeBox s.mCascadedReuseEnlargeFactor b).minY ≤ b.minY ∧
    b.maxY ≤ (enlargeBox s.mCascadedReuseEnlargeFactor b).maxY ∧
    (enlargeBox s.mCascadedReuseEnlargeFactor b).minZ = b.minZ ∧
    (enlargeBox s.mCascadedReuseEnlargeFactor b).maxZ = b.maxZ ∧
    (s.mCascadedReuseEnlargeFactor = 0 → enlargeBox s.mCascadedReuseEnlargeFactor b = b) ∧
    ∀ (lightData : LightData F) (center : float3 F) (casView : float4x4 F)
      (smViewAABB : AABB F) (st st' : CascadeLoop F) (i : Nat),
      s.mEnableTemporalCascadedBoxTest = true →
      recomputeLevel s lightData center casView smViewAABB b st i = some st' →
      ∃ c, st'.mCascadedTemporalReuse[i]? = some c ∧
        c.ortho = casProj (enlargeBox s.mCascadedReuseEnlargeFactor b) := by
  obtain ⟨h1, h2, h3, h4⟩ := enlargeBox_contains s.mCascadedReuseEnlargeFactor b he
  refine ⟨h1, h2, h3, h4, rfl, rfl, fun h0 => ?_, ?_⟩
  · rw [h0]
    exact enlargeBox_zero b
  · intro lightData center casView smViewAABB st st' i hen h
    exact recomputeLevel_ortho s lightData center casView smViewAABB b st st' i hen h

/-- C22, witness: the factor 0.15 of a new object and a box with a positive `minY`. -/
theorem enlarged_box_contains_witness :
    (0 : ℚ) ≤ ({} : ShadowMap ℚ).mCascadedReuseEnlargeFactor ∧
    (enlargeBox ({} : ShadowMap ℚ).mCascadedReuseEnlargeFactor sampleBox).minX ≤
      sampleBox.minX ∧
    sampleBox.maxX ≤
      (enlargeBox ({} : ShadowMap ℚ).mCascadedReuseEnlargeFactor sampleBox).maxX ∧
    (enlargeBox ({} : ShadowMap ℚ).mCascadedReuseEnlargeFactor sampleBox).minY ≤
      sampleBox.minY ∧
    sampleBox.maxY ≤
      (enlargeBox ({} : ShadowMap ℚ).mCascadedReuseEnlargeFactor sampleBox).maxY :=
  ⟨by show (0 : ℚ) ≤ 15 / 100; norm_num,
    (enlarged_box_contains {} sampleBox (by show (0 : ℚ) ≤ 15 / 100; norm_num)).1,
    (enlarged_box_contains {} sampleBox (by show (0 : ℚ) ≤ 15 / 100; norm_num)).2.1,
    (enlarged_box_contains {} sampleBox (by show (0 : ℚ) ≤ 15 / 100; norm_num)).2.2.1,
    (enlarged_box_contains {} sampleBox (by show (0 : ℚ) ≤ 15 / 100; norm_num)).2.2.2.1⟩

end BoxClaims

section AlphaClaims

variable {F : Type} [LinearOrderedField F]

/-- C29. `getCascadedAlphaTestDistance` returns 100000 when the alpha-disable level `d` is not
smaller than the level count; for `1 <= d < levelCount` it returns
`getCascadedFarForLevel (d - 1)`, which is `z + stochasticRange * (z - mNear)` for the far
distance `z` of level `d - 1`; for `d = 0` the `uint` subtraction wraps to `2^32 - 1`, no such
level is found and the result is 0.  `getCascadedFarForLevel` returns 0 for every level index
that is not smaller than the number of computed slices. -/
theorem alpha_test_distance (s : ShadowMap F) (hsize : s.mCascadedZSlices.length < 2 ^ 32)
    (hd : s.mCascadedDisableAlphaLevel < 2 ^ 32) :
    (s.mCascadedLevelCount ≤ s.mCascadedDisableAlphaLevel →
      getCascadedAlphaTestDistance s = 100000) ∧
    (1 ≤ s.mCascadedDisableAlphaLevel →
      s.mCascadedDisableAlphaLevel < s.mCascadedLevelCount →
      getCascadedAlphaTestDistance s =
        getCascadedFarForLevel s (s.mCascadedDisableAlphaLevel - 1) ∧
      ∀ z, s.mCascadedZSlices[s.mCascadedDisableAlphaLevel - 1]? = some z →
        getCascadedAlphaTestDistance s = z + s.mCascadedStochasticRange * (z - s.mNear)) ∧
    (s.mCascadedDisableAlphaLevel = 0 → 0 < s.mCascadedLevelCount →
      u32 (s.mCascadedDisableAlphaLevel + 2 ^ 32 - 1) = 2 ^ 32 - 1 ∧
      getCascadedAlphaTestDistance s = 0) ∧
    ∀ level, s.mCascadedZSlices.length ≤ level → getCascadedFarForLevel s level = 0 := by
  have hfar : ∀ level, s.mCascadedZSlices.length ≤ level →
      getCascadedFarForLevel s level = 0 := by
    intro level hl
    unfold getCascadedFarForLevel
    rw [if_neg (by omega)]
  refine ⟨fun h => ?_, fun h1 h2 => ?_, fun h0 hN => ?_, hfar⟩
  · unfold getCascadedAlphaTestDistance
    rw [if_neg (by omega)]
  · have hu : u32 (s.mCascadedDisableAlphaLevel + 2 ^ 32 - 1) =
        s.mCascadedDisableAlphaLevel - 1 := by
      unfold u32
      omega
    have hval : getCascadedAlphaTestDistance s =
        getCascadedFarForLevel s (s.mCascadedDisableAlphaLevel - 1) := by
      unfold getCascadedAlphaTestDistance
      rw [if_pos h2, hu]
    refine ⟨hval, fun z hz => ?_⟩
    rw [hval]
    unfold getCascadedFarForLevel
    have hlt : s.mCascadedDisableAlphaLevel - 1 < s.mCascadedZSlices.length := by
      by_contra hge
      rw [List.getElem?_eq_none (by omega)] at hz
      cases hz
    rw [if_pos (by omega)]
    simp [List.getD_eq_getElem?_getD, hz]
  · have hu : u32 (s.mCascadedDisableAlphaLevel + 2 ^ 32 - 1) = 2 ^ 32 - 1 := by
      rw [h0]
      rfl
    refine ⟨hu, ?_⟩
    unfold getCascadedAlphaTestDistance
    rw [if_pos (by omega), hu]
    exact hfar _ (by omega)

/-- C29, witness: four far distances 2, 4, 8, 16, near plane 1, range 0.05 and the alpha test
disabled from level 2 on: the distance is `4 + 0.05 * 3`. -/
theorem alpha_test_distance_witness :
    alphaFromTwo.mCascadedZSlices.length < 2 ^ 32 ∧
    alphaFromTwo.mCascadedDisableAlphaLevel < 2 ^ 32 ∧
    getCascadedAlphaTestDistance alphaFromTwo =
      4 + alphaFromTwo.mCascadedStochasticRange * (4 - alphaFromTwo.mNear) :=
  ⟨by decide, by decide,
    ((alpha_test_distance alphaFromTwo (by decide) (by decide)).2.1 (by decide)
      (by decide)).2 4 rfl⟩

end AlphaClaims

section SlotLemmas

/-- One call of `updateSMVPBuffer` on a sized matrix buffer: the staging elements of the next
slot of the ring are written and every other staging element is left as it is. -/
theorem updateSMVPBuffer_staging {F : Type} (vpBuffer : VPMatrixBuffer F)
    (lastFrameFenceValue : Nat) (vpMatrix : List (float4x4 F))
    (hsized : vpBuffer.sized vpMatrix.length)
    (h32 : vpMatrix.length * kStagingBufferCount < 2 ^ 32) :
    ∃ r st st', updateSMVPBuffer vpBuffer lastFrameFenceValue vpMatrix = some r ∧
      vpBuffer.staging = some st ∧ r.vpBuffer.staging = some st' ∧
      writesSlot st.data st'.data r.slot vpMatrix.length vpMatrix := by
  obtain ⟨buffer, staging, hb, hs, hcount, hdata, hstaging, hslot, hfence⟩ := hsized
  have hk : kStagingBufferCount = 4 := rfl
  rw [hk] at hstaging hslot hfence h32
  have hu : u32 (vpBuffer.stagingCount + 1) = vpBuffer.stagingCount + 1 :=
    u32_of_lt (by omega)
  have hc : (vpBuffer.stagingCount + 1) % kStagingBufferCount < 4 := Nat.mod_lt _ (by decide)
  generalize hcdef : (vpBuffer.stagingCount + 1) % kStagingBufferCount = c at hc
  have hle : vpMatrix.length * c + vpMatrix.length ≤ vpMatrix.length * 4 := by
    have : vpMatrix.length * c + vpMatrix.length = vpMatrix.length * (c + 1) := by ring
    rw [this]
    exact Nat.mul_le_mul_left _ (by omega)
  have hoff : u32 (vpMatrix.length * c) = vpMatrix.length * c := u32_of_lt (by omega)
  obtain ⟨mats, hmats, hlen, hlow, hmid, hhigh⟩ :=
    writeStaging_some (vpMatrix.length * c) vpMatrix staging.data 0 (by omega)
  have hcopy := copyBufferRegion_full buffer.data mats (vpMatrix.length * c)
    (by rw [hlen, hdata]; omega)
  rw [hdata] at hcopy
  have hfc : ∃ w, (vpBuffer.stagingFenceWaitValues.set vpBuffer.stagingCount
      lastFrameFenceValue)[c]? = some w := by
    rw [List.getElem?_eq_getElem (by rw [List.length_set, hfence]; exact hc)]
    exact ⟨_, rfl⟩
  obtain ⟨w, hw⟩ := hfc
  refine ⟨
    { vpBuffer :=
        { buffer := some
            { buffer with data := (mats.drop (vpMatrix.length * c)).take vpMatrix.length }
          staging := some { staging with data := mats }
          stagingFenceWaitValues :=
            vpBuffer.stagingFenceWaitValues.set vpBuffer.stagingCount lastFrameFenceValue
          stagingCount := c }
      slot := c
      fenceWaitVal := w }, staging, { staging with data := mats }, ?_, hs, rfl, ?_⟩
  · unfold updateSMVPBuffer
    simp only [setAt, hfence, hslot, if_true, Option.some_bind, hu, hcdef, hw, hoff, hs, hmats,
      hb, hcopy]
  · show writesSlot staging.data mats c vpMatrix.length vpMatrix
    have hcomm : c * vpMatrix.length = vpMatrix.length * c := Nat.mul_comm _ _
    unfold writesSlot
    rw [hcomm]
    refine ⟨hlen, by rw [hstaging]; exact hle, fun i hi => ?_, fun j hj => ?_⟩
    · have := hmid i hi
      rw [Nat.add_zero] at this
      exact this
    · rcases hj with hj | hj
      · exact hlow j (by rw [Nat.add_zero]; exact hj)
      · exact hhigh j (by rw [Nat.add_zero]; exact hj)

end SlotLemmas

section SlotClaims

/-- C27. For every sequence of `updateSMVPBuffer` calls with matrix lists of `n` elements on a
sized matrix buffer (staging buffer of `4 * n` elements), every call returns; the slot index
after the call number `k + 1` is `(stagingCount + k + 1) mod 4`, which is `(k + 1) mod 4` for a
sequence that starts with the slot counter 0 of a new object, and is smaller than 4; the
staging elements that the call writes are those of `[slot * n, slot * n + n)`, within the
staging buffer, and every other staging element is left as it was. -/
theorem staging_ring_slots {F : Type} (n : Nat) (calls : List (Nat × List (float4x4 F)))
    (vpBuffer : VPMatrixBuffer F) (hsized : vpBuffer.sized n)
    (h32 : n * kStagingBufferCount < 2 ^ 32) (hcalls : ∀ call ∈ calls, call.2.length = n) :
    ∃ log, uploads vpBuffer calls = some log ∧ log.length = calls.length ∧
      ∀ k, k < calls.length → ∃ r before st st' vpMatrix,
        log[k]? = some r ∧ (buffersAlong vpBuffer log)[k]? = some before ∧
        (calls[k]?).map (fun call => call.2) = some vpMatrix ∧
        r.slot = (vpBuffer.stagingCount + k + 1) % kStagingBufferCount ∧
        r.vpBuffer.stagingCount = r.slot ∧ r.slot < kStagingBufferCount ∧
        (vpBuffer.stagingCount = 0 → r.slot = (k + 1) % kStagingBufferCount) ∧
        before.staging = some st ∧ r.vpBuffer.staging = some st' ∧
        st.data.length = n * kStagingBufferCount ∧
        writesSlot st.data st'.data r.slot n vpMatrix := by
  induction calls generalizing vpBuffer with
  | nil => exact ⟨[], rfl, rfl, fun k hk => absurd hk (Nat.not_lt_zero k)⟩
  | cons call rest ih =>
    have hn : call.2.length = n := hcalls call (List.mem_cons_self _ _)
    have hstlen : ∀ st, vpBuffer.staging = some st → st.data.length = n * kStagingBufferCount := by
      intro st hst
      obtain ⟨_, st0, _, hs0, _, _, hl, _, _⟩ := hsized
      rw [hs0] at hst
      cases hst
      exact hl
    have hslot0 : vpBuffer.stagingCount < 4 := by
      obtain ⟨_, _, _, _, _, _, _, h, _⟩ := hsized
      exact h
    obtain ⟨r, b, hr, hsized1, hslot, hcount, -, -, -, -⟩ :=
      updateSMVPBuffer_some vpBuffer call.1 call.2 (by rw [hn]; exact hsized)
        (by rw [hn]; exact h32)
    obtain ⟨r2, st, st', hr2, hst, hst', hw⟩ :=
      updateSMVPBuffer_staging vpBuffer call.1 call.2 (by rw [hn]; exact hsized)
        (by rw [hn]; exact h32)
    rw [hr] at hr2
    cases hr2
    rw [hn] at hsized1 hw
    obtain ⟨log, hlog, hlen, hks⟩ :=
      ih r.vpBuffer hsized1 (fun c hc => hcalls c (List.mem_cons_of_mem _ hc))
    have hk4 : kStagingBufferCount = 4 := rfl
    refine ⟨r :: log, ?_, by simp [hlen], ?_⟩
    · simp only [uploads, hr, Option.some_bind, hlog, Option.map_some']
    · intro k hk
      cases k with
      | zero =>
        refine ⟨r, vpBuffer, st, st', call.2, by simp, rfl, by simp, by rw [hslot], ?_, ?_, ?_, hst,
          hst', hstlen st hst, hw⟩
        · rw [hcount, hslot]
        · rw [hslot]
          exact Nat.mod_lt _ (by decide)
        · intro h0
          rw [hslot, h0]
      | succ k =>
        simp only [List.length_cons, Nat.add_lt_add_iff_right] at hk
        obtain ⟨r', before, s1, s1', vp, h1, h2, h3, h4, h5, h6, -, h8, h9, h10, h11⟩ :=
          hks k hk
        refine ⟨r', before, s1, s1', vp, ?_, ?_, ?_, ?_, h5, h6, ?_, h8, h9, h10, h11⟩
        · simpa using h1
        · simpa [buffersAlong] using h2
        · simpa using h3
        · rw [h4, hcount, hk4]
          omega
        · intro h0
          rw [h4, hcount, hk4, h0]
          omega

/-- C27, witness: the four sample calls on the matrix buffer of a new object. -/
theorem staging_ring_slots_witness :
    sampleVPBuffer.sized 1 ∧ sampleVPBuffer.stagingCount = 0 ∧
    ∃ log, uploads sampleVPBuffer sampleCalls = some log ∧ log.length = sampleCalls.length ∧
      ∀ k, k < sampleCalls.length → ∃ r before st st' vpMatrix,
        log[k]? = some r ∧ (buffersAlong sampleVPBuffer log)[k]? = some before ∧
        (sampleCalls[k]?).map (fun call => call.2) = some vpMatrix ∧
        r.slot = (sampleVPBuffer.stagingCount + k + 1) % kStagingBufferCount ∧
        r.vpBuffer.stagingCount = r.slot ∧ r.slot < kStagingBufferCount ∧
        (sampleVPBuffer.stagingCount = 0 → r.slot = (k + 1) % kStagingBufferCount) ∧
        before.staging = some st ∧ r.vpBuffer.staging = some st' ∧
        st.data.length = 1 * kStagingBufferCount ∧
        writesSlot st.data st'.data r.slot 1 vpMatrix :=
  ⟨⟨_, _, rfl, rfl, rfl, rfl, rfl, by decide, rfl⟩, rfl,
    staging_ring_slots 1 sampleCalls sampleVPBuffer
      ⟨_, _, rfl, rfl, rfl, rfl, rfl, by decide, rfl⟩ (by decide) (by decide)⟩

end SlotClaims

section RegistryLemmas

variable {F : Type} [LinearOrderedField F]

theorem registry_resetShadowMaps (s : ShadowMap F) :
    registry (resetShadowMaps s) = registry s := by
  unfold resetShadowMaps
  simp only [registry]
  split_ifs <;> rfl

theorem registry_createCascadeTexture (s : ShadowMap F) (plan : FormatPlan) (cc : Nat) :
    registry (createCascadeTexture s plan cc) = registry s := by
  unfold createCascadeTexture
  simp only [registry]
  split_ifs <;> rfl

theorem registry_createDepthHelpers (s : ShadowMap F) (plan : FormatPlan) (cp cc : Nat) :
    registry (createDepthHelpers s plan cp cc) = registry s := by
  unfold createDepthHelpers
  simp only [registry]
  split_ifs <;> rfl

theorem registry_createStaticCopies (s : ShadowMap F) :
    registry (createStaticCopies s) = registry s := by
  unfold createStaticCopies
  simp only [registry]
  split_ifs <;> rfl

theorem registry_createLightMapping (s : ShadowMap F) (lm : List Nat) :
    registry (createLightMapping s lm) = registry s := by
  unfold createLightMapping
  simp only [registry]
  split_ifs <;> rfl

theorem registry_createVPMatrices (s : ShadowMap F) :
    registry (createVPMatrices s) = registry s := by
  unfold createVPMatrices
  simp only [registry]
  split_ifs <;> rfl

theorem registry_createFrustumCulling (s : ShadowMap F) (cp : Nat) :
    registry (createFrustumCulling s cp) =
      if (registry s).mUseFrustumCulling then
        { registry s with
          offsets := ((registry s).mCountSpotShadowMaps,
            u32 ((registry s).mCountSpotShadowMaps + (registry s).mCascadedLevelCount))
          size := u32 (u32 ((registry s).mCountSpotShadowMaps +
            (registry s).mCascadedLevelCount) + u32 (cp * 6)) }
      else registry s := by
  unfold createFrustumCulling
  simp only [registry]
  split_ifs
  · simp only [List.length_replicate]
  · rfl

/-- The culling registry after `prepareShadowMapBuffers`, when frustum culling is enabled. -/
theorem registry_prepared (s : ShadowMap F) (lights : List (Light F))
    (hlen : lights.length < 2 ^ 32) (hcull : s.mUseFrustumCulling = true) :
    registry (prepared s lights) =
      { mUseFrustumCulling := true
        mCountSpotShadowMaps := countOfLights LightTypeSM.Spot lights
        mCascadedLevelCount := s.mCascadedLevelCount
        offsets := (countOfLights LightTypeSM.Spot lights,
          u32 (countOfLights LightTypeSM.Spot lights + s.mCascadedLevelCount))
        size := u32 (u32 (countOfLights LightTypeSM.Spot lights + s.mCascadedLevelCount) +
          u32 (countOfLights LightTypeSM.Point lights * 6)) } := by
  obtain ⟨hP, hS, -⟩ := lightLoop_spec (resetShadowMaps s)
    (formatPlan (resetShadowMaps s)).shadowMapFormat (resetShadowMaps s).mpShadowMapsCube lights
    hlen
  have h0 := registry_resetShadowMaps s
  have key : ∀ s5 : ShadowMap F, registry (finishPrepare s5) = registry s5 := fun _ => rfl
  have hspot : ∀ (s1 : ShadowMap F) (plan : FormatPlan),
      registry (createSpotTextures s1 plan) = registry s1 := fun _ _ => rfl
  have hstore : ∀ (s0 : ShadowMap F) (loop : LightLoop), registry (storeLightLoop s0 loop) =
      { registry s0 with mCountSpotShadowMaps := loop.mCountSpotShadowMaps } := fun _ _ => rfl
  unfold prepared
  simp only [key, registry_createVPMatrices, registry_createLightMapping,
    registry_createFrustumCulling, registry_createStaticCopies, registry_createDepthHelpers,
    registry_createCascadeTexture, hspot, hstore, h0, hP, hS]
  simp only [registry, hcull, if_true]

end RegistryLemmas

section RegistryClaims

variable {F : Type} [LinearOrderedField F]

/-- C24. After `prepareShadowMapBuffers` has returned with frustum culling enabled (for a
light list whose registry size `spotCount + cascadeLevelCount + 6 * pointCount` fits in a
`uint`), the registry has exactly that size, the offsets are
`(spotCount, spotCount + cascadeLevelCount)`, and every culling index used during rendering
is in bounds: `j` for every spot slot `j < spotCount`, `offsets.x + i` for every cascade level
`i < cascadeLevelCount`, and `offsets.x + 6 * p + f` for every point light `p < pointCount`
and face `f < 6`. -/
theorem culling_indices_in_bounds (s s' : ShadowMap F) (lights : List (Light F))
    (hcull : s.mUseFrustumCulling = true)
    (hsize : countOfLights LightTypeSM.Spot lights + s.mCascadedLevelCount +
      countOfLights LightTypeSM.Point lights * 6 < 2 ^ 32)
    (hlen : lights.length < 2 ^ 32)
    (hok : prepareShadowMapBuffers s lights = Except.ok s') :
    s'.mUseFrustumCulling = true ∧
    s'.mCountSpotShadowMaps = countOfLights LightTypeSM.Spot lights ∧
    s'.mCascadedLevelCount = s.mCascadedLevelCount ∧
    s'.mFrustumCulling.length = s'.mCountSpotShadowMaps + s'.mCascadedLevelCount +
      6 * countOfLights LightTypeSM.Point lights ∧
    s'.mFrustumCullingVectorOffsets =
      (s'.mCountSpotShadowMaps, s'.mCountSpotShadowMaps + s'.mCascadedLevelCount) ∧
    (∀ j, j < s'.mCountSpotShadowMaps → j < s'.mFrustumCulling.length) ∧
    (∀ i, i < s'.mCascadedLevelCount →
      u32 (s'.mFrustumCullingVectorOffsets.1 + i) = s'.mFrustumCullingVectorOffsets.1 + i ∧
      s'.mFrustumCullingVectorOffsets.1 + i < s'.mFrustumCulling.length) ∧
    (∀ p f, p < countOfLights LightTypeSM.Point lights → f < 6 →
      u32 (s'.mFrustumCullingVectorOffsets.1 + p * 6 + f) =
        s'.mFrustumCullingVectorOffsets.1 + 6 * p + f ∧
      s'.mFrustumCullingVectorOffsets.1 + 6 * p + f < s'.mFrustumCulling.length) := by
  rw [prepareShadowMapBuffers_cases s lights hlen] at hok
  split at hok
  swap
  · cases hok
  cases hok
  have hreg := registry_prepared s lights hlen hcull
  have h1 := congrArg Registry.mUseFrustumCulling hreg
  have h2 := congrArg Registry.mCountSpotShadowMaps hreg
  have h3 := congrArg Registry.mCascadedLevelCount hreg
  have h4 := congrArg Registry.offsets hreg
  have h5 := congrArg Registry.size hreg
  simp only [registry] at h1 h2 h3 h4 h5
  rw [u32_of_lt (n := countOfLights LightTypeSM.Spot lights + s.mCascadedLevelCount)
    (by omega)] at h4 h5
  rw [u32_of_lt (n := countOfLights LightTypeSM.Point lights * 6) (by omega),
    u32_of_lt hsize] at h5
  rw [h2, h3, h4, h5]
  refine ⟨h1, rfl, rfl, by omega, rfl, fun j hj => by omega, fun i hi => ?_, fun p f hp hf => ?_⟩
  · exact ⟨u32_of_lt (by omega), by omega⟩
  · refine ⟨?_, by omega⟩
    rw [u32_of_lt (by omega)]
    omega

set_option maxRecDepth 1000000 in
/-- C24, witness: the six sample lights (three point lights, two spot lights and a directional
light) on a new object, whose registry has `2 + 4 + 18` entries. -/
theorem culling_indices_in_bounds_witness :
    (prepared ({} : ShadowMap ℚ) sampleLights).mFrustumCulling.length =
      (prepared ({} : ShadowMap ℚ) sampleLights).mCountSpotShadowMaps +
      (prepared ({} : ShadowMap ℚ) sampleLights).mCascadedLevelCount +
      6 * countOfLights LightTypeSM.Point sampleLights :=
  (culling_indices_in_bounds ({} : ShadowMap ℚ) (prepared {} sampleLights) sampleLights rfl
    (by with_unfolding_all decide) (by decide) (by with_unfolding_all rfl)).2.2.2.1

end RegistryClaims

section SlotRenderLemmas

variable {F : Type} [LinearOrderedField F]

/-- The loop over the cube list renders the light at position `pre.length` of the list with
the index `i + pre.length`. -/
theorem rasterCubeLights_append (env : MathEnv F) (frame : Frame F) (l : Light F)
    (post : List (Light F)) :
    ∀ (pre : List (Light F)) (i : Nat) (acc : ShadowMap F × List RasterCall),
      rasterCubeLights env frame (pre ++ l :: post) i acc =
        (rasterCubeLights env frame pre i acc).bind fun mid =>
          (rasterCubeEachFace env mid.1 frame.cubeDefinesChanged (u32 (i + pre.length))
            l).bind fun r =>
            rasterCubeLights env frame post (i + pre.length + 1) (r.1, mid.2 ++ r.2) := by
  intro pre
  induction pre with
  | nil =>
    intro i acc
    simp [rasterCubeLights]
  | cons a pre ih =>
    intro i acc
    simp only [List.cons_append, rasterCubeLights, Option.bind_assoc, List.length_cons]
    congr 1
    funext r
    have h : i + 1 + pre.length = i + (pre.length + 1) := by omega
    rw [← h]
    exact ih (i + 1) _

/-- The loop over the 2D list renders the light at position `pre.length` of the list with the
index `i + pre.length`. -/
theorem rasterSpotLights_append (env : MathEnv F) (frame : Frame F) (l : Light F)
    (post : List (Light F)) :
    ∀ (pre : List (Light F)) (i : Nat) (acc : ShadowMap F × Bool × List RasterCall),
      rasterSpotLights env frame (pre ++ l :: post) i acc =
        (rasterSpotLights env frame pre i acc).bind fun mid =>
          (rasterSpotLight env mid.1 frame.spotDefinesChanged (u32 (i + pre.length))
            l).bind fun r =>
            rasterSpotLights env frame post (i + pre.length + 1)
              (r.1, mid.2.1 || r.2.1, mid.2.2 ++ r.2.2) := by
  intro pre
  induction pre with
  | nil =>
    intro i acc
    simp [rasterSpotLights]
  | cons a pre ih =>
    intro i acc
    simp only [List.cons_append, rasterSpotLights, Option.bind_assoc, List.length_cons]
    congr 1
    funext r
    have h : i + 1 + pre.length = i + (pre.length + 1) := by omega
    rw [← h]
    exact ih (i + 1) _

/-- The lights of classification `t` around the light at global index `g`, which has that
classification. -/
theorem lightsOfType_split (t : LightTypeSM) (lights : List (Light F)) (g : Nat) (l : Light F)
    (hg : lights[g]? = some l) (ht : getLightType l = t) :
    lightsOfType t lights =
      lightsOfType t (lights.take g) ++ l :: lightsOfType t (lights.drop (g + 1)) ∧
    (lightsOfType t (lights.take g)).length = countOfLights t (lights.take g) := by
  have hlt : g < lights.length := by
    rcases Nat.lt_or_ge g lights.length with h1 | h1
    · exact h1
    · rw [List.getElem?_eq_none h1] at hg; cases hg
  have hl : lights[g] = l := by
    rw [List.getElem?_eq_getElem hlt] at hg
    exact Option.some.inj hg
  constructor
  · conv_lhs => rw [← List.take_append_drop g lights, List.drop_eq_getElem_cons hlt, hl]
    unfold lightsOfType
    rw [List.filter_append, List.filter_cons_of_pos (by simpa using ht)]
  · unfold lightsOfType countOfLights
    rw [List.countP_eq_length_filter]

end SlotRenderLemmas

section SlotRenderClaims

variable {F : Type} [LinearOrderedField F]

/-- C25. For a light list of fewer than `2 ^ 32` lights that matches the cached
classifications, the loop over the lights of `update` ends with the render lists, and a point
light (a spot light) at global index `g` stands in the cube list (the 2D list) at the position
`slotIndex lights g`, which is the index with which the render loop calls
`rasterCubeEachFace` (`rasterSpotLight`) for it; the light mapping buffer that
`prepareShadowMapBuffers` creates for the same list holds `slotIndex lights g` at `g`. -/
theorem render_index_is_slot (env : MathEnv F) (s s0 s' : ShadowMap F) (frame : Frame F)
    (g : Nat) (l : Light F) (hlen : frame.lights.length < 2 ^ 32)
    (hprev : s.mPrevLightType = frame.lights.map getLightType)
    (hnone : (resetShadowMaps s0).mpLightMapping = none)
    (hok : prepareShadowMapBuffers s0 frame.lights = Except.ok s')
    (hg : frame.lights[g]? = some l) :
    (∃ buf table, s'.mpLightMapping = some buf ∧ buf.initData = some table ∧
      table[g]? = some (slotIndex frame.lights g)) ∧
    ∃ lists, sortLights s.mPrevLightType frame.lights 0 {} = LightSort.sorted lists ∧
      (getLightType l = LightTypeSM.Point → ∃ pre post,
        lists.lightRenderListCube = pre ++ l :: post ∧
        pre.length = slotIndex frame.lights g ∧
        ∀ acc, rasterCubeLights env frame lists.lightRenderListCube 0 acc =
          (rasterCubeLights env frame pre 0 acc).bind fun mid =>
            (rasterCubeEachFace env mid.1 frame.cubeDefinesChanged
              (slotIndex frame.lights g) l).bind fun r =>
              rasterCubeLights env frame post (slotIndex frame.lights g + 1)
                (r.1, mid.2 ++ r.2)) ∧
      (getLightType l = LightTypeSM.Spot → ∃ pre post,
        lists.lightRenderListMisc = pre ++ l :: post ∧
        pre.length = slotIndex frame.lights g ∧
        ∀ acc, rasterSpotLights env frame lists.lightRenderListMisc 0 acc =
          (rasterSpotLights env frame pre 0 acc).bind fun mid =>
            (rasterSpotLight env mid.1 frame.spotDefinesChanged
              (slotIndex frame.lights g) l).bind fun r =>
              rasterSpotLights env frame post (slotIndex frame.lights g + 1)
                (r.1, mid.2.1 || r.2.1, mid.2.2 ++ r.2.2)) := by
  have hlt : g < frame.lights.length := by
    rcases Nat.lt_or_ge g frame.lights.length with h1 | h1
    · exact h1
    · rw [List.getElem?_eq_none h1] at hg; cases hg
  obtain ⟨-, -, -, -, -, hL, hM⟩ := lightLoop_spec (resetShadowMaps s0)
    (formatPlan (resetShadowMaps s0)).shadowMapFormat (resetShadowMaps s0).mpShadowMapsCube
    frame.lights hlen
  constructor
  · rw [prepareShadowMapBuffers_cases s0 frame.lights hlen] at hok
    split at hok
    swap
    · cases hok
    cases hok
    have hpos : 0 < frame.lights.length := by omega
    have hlm := congrArg Resources.lightMapping (resources_prepared s0 frame.lights _ _ rfl rfl)
    simp only [resources, hnone, Option.isNone_none, hL, hpos, gt_iff_lt, decide_True,
      Bool.and_self, if_true] at hlm
    exact ⟨_, _, hlm, rfl, hM g hlt⟩
  · have hsort := sortLights_of_length s.mPrevLightType frame.lights 0 {}
      (by rw [hprev, List.length_map, Nat.zero_add])
    rw [List.drop_zero, if_pos hprev] at hsort
    refine ⟨_, hsort, ?_, ?_⟩
    · intro ht
      obtain ⟨hsplit, hpre⟩ := lightsOfType_split LightTypeSM.Point frame.lights g l hg ht
      have hslot : slotIndex frame.lights g =
          countOfLights LightTypeSM.Point (frame.lights.take g) := by
        unfold slotIndex
        rw [hg]
        simp only [ht]
      have hb := countOfLights_le LightTypeSM.Point (frame.lights.take g)
      rw [List.length_take] at hb
      refine ⟨lightsOfType LightTypeSM.Point (frame.lights.take g),
        lightsOfType LightTypeSM.Point (frame.lights.drop (g + 1)), ?_,
        hpre.trans hslot.symm, ?_⟩
      · simp only [List.nil_append]
        exact hsplit
      · intro acc
        simp only [List.nil_append]
        rw [hsplit, rasterCubeLights_append, Nat.zero_add, hpre, ← hslot,
          u32_of_lt (by rw [hslot]; omega)]
    · intro ht
      obtain ⟨hsplit, hpre⟩ := lightsOfType_split LightTypeSM.Spot frame.lights g l hg ht
      have hslot : slotIndex frame.lights g =
          countOfLights LightTypeSM.Spot (frame.lights.take g) := by
        unfold slotIndex
        rw [hg]
        simp only [ht]
      have hb := countOfLights_le LightTypeSM.Spot (frame.lights.take g)
      rw [List.length_take] at hb
      refine ⟨lightsOfType LightTypeSM.Spot (frame.lights.take g),
        lightsOfType LightTypeSM.Spot (frame.lights.drop (g + 1)), ?_,
        hpre.trans hslot.symm, ?_⟩
      · simp only [List.nil_append]
        exact hsplit
      · intro acc
        simp only [List.nil_append]
        rw [hsplit, rasterSpotLights_append, Nat.zero_add, hpre, ← hslot,
          u32_of_lt (by rw [hslot]; omega)]

set_option maxRecDepth 1000000 in
/-- C25, witness: the second point light of the sample lights, at global index 3, has the
slot 1 in the light mapping buffer of a new object. -/
theorem render_index_is_slot_witness :
    slotIndex sampleFrame.lights 3 = 1 ∧
    ∃ buf table, (prepared ({} : ShadowMap ℚ) sampleLights).mpLightMapping = some buf ∧
      buf.initData = some table ∧ table[3]? = some (slotIndex sampleFrame.lights 3) :=
  ⟨by with_unfolding_all decide,
    (render_index_is_slot sampleEnv (prepared ({} : ShadowMap ℚ) sampleLights) {}
      (prepared ({} : ShadowMap ℚ) sampleLights) sampleFrame 3 (pointLight 2)
      (by with_unfolding_all decide) (by with_unfolding_all rfl) rfl
      (by with_unfolding_all rfl) (by with_unfolding_all rfl)).1⟩

end SlotRenderClaims

section LevelLemmas

variable {F : Type} [LinearOrderedField F]

/-- What the end of an iteration writes for its level, and that it leaves the other levels. -/
theorem storeLevel_level (s : ShadowMap F) (lightData : LightData F) (center : float3 F)
    (casView : float4x4 F) (smViewAABB : AABB F) (b : OrthoBox F) (st st' : CascadeLoop F)
    (i : Nat) (h : storeLevel s lightData center casView smViewAABB b st i = some st') :
    st'.near = st.near ∧ st'.renderLevel = st.renderLevel ∧
    st'.mCascadedVPMatrix[i]? = some (mulMat (casProj b) casView) ∧
    st'.mCascadedWidthHeight[i]? = some ⟨|b.maxX - b.minX|, |b.maxY - b.minY|⟩ ∧
    ∀ j, j ≠ i → levelAt st' j = levelAt st j := by
  unfold storeLevel at h
  by_cases hen : s.mEnableTemporalCascadedBoxTest = true
  · simp only [hen, if_true, Option.bind_eq_some, setAt_eq_some] at h
    obtain ⟨reuse, ⟨c, -, -, rfl⟩, wh, ⟨hwh, rfl⟩, vp, ⟨hvp, rfl⟩, culling, -, hst⟩ := h
    cases hst
    refine ⟨rfl, rfl, List.getElem?_set_self hvp, List.getElem?_set_self hwh, fun j hj => ?_⟩
    simp only [levelAt, List.getElem?_set_ne (Ne.symm hj)]
  · have hen' : s.mEnableTemporalCascadedBoxTest = false := by simpa using hen
    simp only [hen', Bool.false_eq_true, if_false, Option.bind_eq_some, setAt_eq_some,
      Option.some.injEq] at h
    obtain ⟨reuse, rfl, wh, ⟨hwh, rfl⟩, vp, ⟨hvp, rfl⟩, culling, -, hst⟩ := h
    cases hst
    refine ⟨rfl, rfl, List.getElem?_set_self hvp, List.getElem?_set_self hwh, fun j hj => ?_⟩
    simp only [levelAt, List.getElem?_set_ne (Ne.symm hj)]

/-- What a recomputation writes for its level, and that it leaves the other levels. -/
theorem recomputeLevel_level (s : ShadowMap F) (lightData : LightData F) (center : float3 F)
    (casView : float4x4 F) (smViewAABB : AABB F) (b : OrthoBox F) (st st' : CascadeLoop F)
    (i : Nat) (h : recomputeLevel s lightData center casView smViewAABB b st i = some st') :
    st'.near = st.near ∧ st'.renderLevel[i]? = some true ∧
    st'.mCascadedVPMatrix[i]? =
      some (mulMat (casProj (enlargeBox s.mCascadedReuseEnlargeFactor b)) casView) ∧
    st'.mCascadedWidthHeight[i]? =
      some ⟨|(enlargeBox s.mCascadedReuseEnlargeFactor b).maxX -
          (enlargeBox s.mCascadedReuseEnlargeFactor b).minX|,
        |(enlargeBox s.mCascadedReuseEnlargeFactor b).maxY -
          (enlargeBox s.mCascadedReuseEnlargeFactor b).minY|⟩ ∧
    ∀ j, j ≠ i → levelAt st' j = levelAt st j := by
  unfold recomputeLevel at h
  simp only [Option.bind_eq_some, setAt_eq_some] at h
  obtain ⟨c, -, reuse, ⟨-, rfl⟩, rl, ⟨hrl, rfl⟩, hstore⟩ := h
  obtain ⟨hnear, hrender, hvp, hwh, hframe⟩ :=
    storeLevel_level s lightData center casView smViewAABB _ _ st' i hstore
  refine ⟨hnear, ?_, hvp, hwh, fun j hj => ?_⟩
  · rw [hrender]
    exact List.getElem?_set_self hrl
  · rw [hframe j hj]
    simp only [levelAt, List.getElem?_set_ne (Ne.symm hj)]

/-- One iteration of the loop over the levels: it moves `near` to the far distance of the
level and leaves the other levels; when temporal reuse is disabled, or the update is forced,
or the cache entry of the level is not valid or fails the reuse test, the level is flagged and
its matrix and its width and height are the recomputed ones. -/
theorem cascadeLevel_level (env : MathEnv F) (s : ShadowMap F) (scene : SceneView F)
    (lightData : LightData F) (forceUpdate : Bool) (st st' : CascadeLoop F) (i : Nat)
    (h : cascadeLevel env s scene lightData forceUpdate st i = some st') :
    ∃ z, s.mCascadedZSlices[i]? = some z ∧ st'.near = z ∧
      (∀ j, j ≠ i → levelAt st' j = levelAt st j) ∧
      ((s.mEnableTemporalCascadedBoxTest = false ∨ forceUpdate = true ∨
          ∀ c, st.mCascadedTemporalReuse[i]? = some c →
            ¬ (c.valid = true ∧
              temporalValid env c (frustumCorners env scene.camera st.near z) = true)) →
        st'.renderLevel[i]? = some true ∧
        st'.mCascadedVPMatrix[i]? = some (levelResult env s scene lightData st.near z).1 ∧
        st'.mCascadedWidthHeight[i]? =
          some (levelResult env s scene lightData st.near z).2) := by
  unfold cascadeLevel at h
  simp only [Option.bind_eq_some, setAt_eq_some] at h
  obtain ⟨z, hz, rl, ⟨hrl, rfl⟩, hbr⟩ := h
  refine ⟨z, hz, ?_⟩
  have hframe0 : ∀ (v : Bool) (j : Nat), j ≠ i →
      levelAt { st with renderLevel := st.renderLevel.set i v, near := z } j = levelAt st j := by
    intro v j hj
    simp only [levelAt, List.getElem?_set_ne (Ne.symm hj)]
  by_cases hen : s.mEnableTemporalCascadedBoxTest = true
  · simp only [hen, if_true, Option.bind_eq_some] at hbr
    obtain ⟨c, hc, hbr⟩ := hbr
    have hrec : ∀ st'', recomputeLevel s lightData
        (frustumCenter (frustumCorners env scene.camera st.near z))
        (env.matrixFromLookAt (frustumCenter (frustumCorners env scene.camera st.near z))
          ((frustumCenter (frustumCorners env scene.camera st.near z)).add lightData.dirW)
          ⟨0, 1, 0⟩)
        (env.transform scene.sceneBounds
          (env.matrixFromLookAt (frustumCenter (frustumCorners env scene.camera st.near z))
            ((frustumCenter (frustumCorners env scene.camera st.near z)).add lightData.dirW)
            ⟨0, 1, 0⟩))
        (levelBox env
          (env.matrixFromLookAt (frustumCenter (frustumCorners env scene.camera st.near z))
            ((frustumCenter (frustumCorners env scene.camera st.near z)).add lightData.dirW)
            ⟨0, 1, 0⟩)
          (env.transform scene.sceneBounds
            (env.matrixFromLookAt (frustumCenter (frustumCorners env scene.camera st.near z))
              ((frustumCenter (frustumCorners env scene.camera st.near z)).add lightData.dirW)
              ⟨0, 1, 0⟩))
          (frustumCorners env scene.camera st.near z))
        { st with renderLevel := st.renderLevel.set i (!true), near := z } i = some st'' →
        st''.near = z ∧ (∀ j, j ≠ i → levelAt st'' j = levelAt st j) ∧
        st''.renderLevel[i]? = some true ∧
        st''.mCascadedVPMatrix[i]? = some (levelResult env s scene lightData st.near z).1 ∧
        st''.mCascadedWidthHeight[i]? =
          some (levelResult env s scene lightData st.near z).2 := by
      intro st'' h2
      obtain ⟨a1, a2, a3, a4, a5⟩ := recomputeLevel_level s lightData _ _ _ _ _ st'' i h2
      refine ⟨a1, fun j hj => (a5 j hj).trans (hframe0 _ j hj), a2, ?_, ?_⟩
      · rw [a3]
        simp only [levelResult, hen, if_true]
      · rw [a4]
        simp only [levelResult, hen, if_true]
    split at hbr
    · rename_i h1
      split at hbr
      · rename_i h2
        cases hbr
        simp only [Bool.and_eq_true, Bool.not_eq_true'] at h1
        refine ⟨rfl, fun j hj => hframe0 _ j hj, fun hcond => ?_⟩
        rcases hcond with h3 | h3 | h3
        · rw [hen] at h3; cases h3
        · rw [h1.2] at h3; cases h3
        · exact absurd ⟨h1.1, h2⟩ (h3 c hc)
      · obtain ⟨a1, a2, a3⟩ := hrec st' hbr
        exact ⟨a1, a2, fun _ => a3⟩
    · obtain ⟨a1, a2, a3⟩ := hrec st' hbr
      exact ⟨a1, a2, fun _ => a3⟩
  · have hen' : s.mEnableTemporalCascadedBoxTest = false := by simpa using hen
    simp only [hen', Bool.false_eq_true, if_false, Bool.not_false] at hbr
    obtain ⟨a1, a2, a3, a4, a5⟩ := storeLevel_level s lightData _ _ _ _ _ st' i hbr
    refine ⟨a1, fun j hj => (a5 j hj).trans (hframe0 _ j hj), fun _ => ⟨?_, ?_, ?_⟩⟩
    · rw [a2]
      exact List.getElem?_set_self hrl
    · rw [a3]
      simp only [levelResult, hen', Bool.false_eq_true, if_false]
    · rw [a4]
      simp only [levelResult, hen', Bool.false_eq_true, if_false]

/-- The loop over the levels `0 .. n - 1`: `near` has moved to the far distance of the last
level, the levels from `n` on are as before, and every level below `n` for which temporal
reuse is disabled, or the update is forced, or the cache entry at the start of the loop is not
valid or fails the reuse test, is flagged and holds the recomputed matrix and width and
height. -/
theorem cascadeLevels_level (env : MathEnv F) (s : ShadowMap F) (scene : SceneView F)
    (lightData : LightData F) (forceUpdate : Bool) (st : CascadeLoop F) (n : Nat) :
    ∀ st', cascadeLevels env s scene lightData forceUpdate st n = some st' →
      st'.near = nearAfter st.near s.mCascadedZSlices n ∧
      (∀ j, n ≤ j → levelAt st' j = levelAt st j) ∧
      ∀ i, i < n →
        (s.mEnableTemporalCascadedBoxTest = false ∨ forceUpdate = true ∨
          ∀ c, st.mCascadedTemporalReuse[i]? = some c →
            ¬ (c.valid = true ∧
              temporalValid env c (frustumCorners env scene.camera
                (nearAfter st.near s.mCascadedZSlices i)
                (s.mCascadedZSlices.getD i 0)) = true)) →
        st'.renderLevel[i]? = some true ∧
        st'.mCascadedVPMatrix[i]? = some (levelResult env s scene lightData
          (nearAfter st.near s.mCascadedZSlices i) (s.mCascadedZSlices.getD i 0)).1 ∧
        st'.mCascadedWidthHeight[i]? = some (levelResult env s scene lightData
          (nearAfter st.near s.mCascadedZSlices i) (s.mCascadedZSlices.getD i 0)).2 := by
  induction n with
  | zero =>
    intro st' h
    rw [cascadeLevels_zero] at h
    cases h
    exact ⟨rfl, fun _ _ => rfl, fun i hi => absurd hi (Nat.not_lt_zero i)⟩
  | succ n ih =>
    intro st' h
    rw [cascadeLevels_succ, Option.bind_eq_some] at h
    obtain ⟨mid, hmid, hstep⟩ := h
    obtain ⟨hnear, hrest, hprev⟩ := ih mid hmid
    obtain ⟨z, hz, hnear', hframe, hres⟩ :=
      cascadeLevel_level env s scene lightData forceUpdate mid st' n hstep
    have hzD : s.mCascadedZSlices.getD n 0 = z := by
      simp [List.getD_eq_getElem?_getD, hz]
    refine ⟨?_, fun j hj => ?_, fun i hi hcond => ?_⟩
    · rw [hnear']
      simp [nearAfter, List.getD_eq_getElem?_getD, hz]
    · rw [hframe j (by omega), hrest j (by omega)]
    · rcases Nat.lt_succ_iff_lt_or_eq.mp hi with hlt | rfl
      · have hk := hframe i (Nat.ne_of_lt hlt)
        simp only [levelAt, Prod.mk.injEq] at hk
        obtain ⟨k1, k2, k3, -⟩ := hk
        rw [k1, k2, k3]
        exact hprev i hlt hcond
      · have hk := hrest i (le_refl i)
        simp only [levelAt, Prod.mk.injEq] at hk
        obtain ⟨-, -, -, k4⟩ := hk
        rw [hzD, ← hnear, ← k4] at hcond
        have := hres hcond
        rw [hzD, ← hnear]
        exact this

theorem levelResult_cascadedLevelCalculations (env : MathEnv F) (s : ShadowMap F)
    (scene view : SceneView F) (lightData : LightData F) (near zFar : F) :
    levelResult env (cascadedLevelCalculations env s scene) view lightData near zFar =
      levelResult env s view lightData near zFar := by
  unfold cascadedLevelCalculations
  cases s.mCascadedFrustumMode <;> rfl

end LevelLemmas

section LevelClaims

variable {F : Type} [LinearOrderedField F]

/-- C28. `calcProjViewForCascaded` returns when the vectors that it indexes have an entry per
level, and for every level `i` it then holds: when temporal reuse is disabled, or the update
is forced, or the cache entry of the level (after the resize of the cache) is not valid or
fails the reuse test on the corners of the level, the level is flagged for re-render and its
view-projection matrix and its width and height are the recomputed ones (from the enlarged
box when temporal reuse is enabled).  `rasterCascaded` calls it with `forceUpdate = true` for
an active light when the re-render flag is set or the direction of the light has changed. -/
theorem forced_levels_recomputed (env : MathEnv F) (s : ShadowMap F) (scene : SceneView F)
    (lightData : LightData F) (renderLevel : List Bool) (forceUpdate : Bool)
    (hrl : s.mCascadedLevelCount ≤ renderLevel.length)
    (hwh : s.mCascadedLevelCount ≤ s.mCascadedWidthHeight.length)
    (hvp : s.mCascadedLevelCount ≤ s.mCascadedVPMatrix.length)
    (hcull : s.mUseFrustumCulling = true → ∀ i, i < s.mCascadedLevelCount →
      u32 (s.mFrustumCullingVectorOffsets.1 + i) < s.mFrustumCulling.length) :
    (∃ s' out, calcProjViewForCascaded env s scene lightData renderLevel forceUpdate =
        some (s', out) ∧
      ∀ i, i < s.mCascadedLevelCount →
        (s.mEnableTemporalCascadedBoxTest = false ∨ forceUpdate = true ∨
          ∀ c, (cascadedLevelCalculations env s scene).mCascadedTemporalReuse[i]? = some c →
            ¬ (c.valid = true ∧ temporalValid env c (levelCorners env scene
              (cascadedLevelCalculations env s scene).mCascadedZSlices i) = true)) →
        out[i]? = some true ∧
        s'.mCascadedVPMatrix[i]? = some (levelResult env s scene lightData
          (nearAfter scene.camera.nearZ
            (cascadedLevelCalculations env s scene).mCascadedZSlices i)
          ((cascadedLevelCalculations env s scene).mCascadedZSlices.getD i 0)).1 ∧
        s'.mCascadedWidthHeight[i]? = some (levelResult env s scene lightData
          (nearAfter scene.camera.nearZ
            (cascadedLevelCalculations env s scene).mCascadedZSlices i)
          ((cascadedLevelCalculations env s scene).mCascadedZSlices.getD i 0)).2) ∧
    ∀ (definesChanged cameraMoved : Bool) (light : Light F)
      (r : ShadowMap F × Bool × List RasterCall),
      light.active = true → (s.mUpdateShadowMap = true ∨ light.changes.Direction = true) →
      rasterCascaded env s scene definesChanged light cameraMoved = some r →
      ∃ p, calcProjViewForCascaded env
          { s with mUpdateShadowMap := s.mUpdateShadowMap || definesChanged } scene light.data
          (List.replicate s.mCascadedLevelCount false) true = some p ∧
        r.1 = resizeBlurForCascaded p.1 ∧ r.2.1 = p.2.foldl (fun acc b => acc || b) false := by
  constructor
  · obtain ⟨⟨s', out⟩, hcall⟩ := calcProjViewForCascaded_returns env s scene lightData
      renderLevel forceUpdate hrl hwh hvp hcull
    refine ⟨s', out, hcall, ?_⟩
    have hN := cascadedLevelCalculations_levelCount env s scene
    obtain ⟨f1, -⟩ := cascadedLevelCalculations_fields env s scene
    unfold calcProjViewForCascaded at hcall
    simp only [Option.map_eq_some', Prod.mk.injEq] at hcall
    obtain ⟨st, hst, rfl, rfl⟩ := hcall
    obtain ⟨-, -, hlev⟩ := cascadeLevels_level env _ scene lightData forceUpdate _ _ st hst
    intro i hi hcond
    have := hlev i (by rw [hN]; exact hi) (by rw [f1]; exact hcond)
    simp only [levelResult_cascadedLevelCalculations] at this
    exact this
  · intro definesChanged cameraMoved light r hactive hforce h
    have hf : ((s.mUpdateShadowMap || definesChanged) || light.changes.Direction) = true := by
      rcases hforce with h1 | h1
      · simp [h1]
      · simp [h1]
    unfold rasterCascaded at h
    simp only [] at h
    split at h
    · rename_i h1
      simp only [Bool.and_eq_true, Bool.not_eq_true'] at h1
      rcases hforce with h2 | h2
      · rw [h2] at h1
        simp at h1
      · rw [h2] at h1
        simp at h1
    · rw [hactive] at h
      simp only [Bool.not_true, Bool.false_eq_true, if_false, hf, Option.bind_eq_some,
        Option.map_eq_some'] at h
      obtain ⟨p, hp, calls, -, hr⟩ := h
      exact ⟨p, hp, by rw [← hr], by rw [← hr]⟩

set_option maxRecDepth 1000000 in
/-- C28, witness: a forced call on the object as `prepareShadowMapBuffers` leaves it for a
scene with one directional light (four levels, frustum culling enabled). -/
theorem forced_levels_recomputed_witness :
    ∃ s' out, calcProjViewForCascaded sampleEnv
        (prepared ({} : ShadowMap ℚ) [directionalLight true]) sampleScene
        (directionalLight true).data (List.replicate 4 false) true = some (s', out) ∧
      ∀ i, i < (prepared ({} : ShadowMap ℚ) [directionalLight true]).mCascadedLevelCount →
        ((prepared ({} : ShadowMap ℚ)
            [directionalLight true]).mEnableTemporalCascadedBoxTest = false ∨
          true = true ∨
          ∀ c, (cascadedLevelCalculations sampleEnv
              (prepared ({} : ShadowMap ℚ) [directionalLight true])
              sampleScene).mCascadedTemporalReuse[i]? = some c →
            ¬ (c.valid = true ∧ temporalValid sampleEnv c (levelCorners sampleEnv sampleScene
              (cascadedLevelCalculations sampleEnv
                (prepared ({} : ShadowMap ℚ) [directionalLight true])
                sampleScene).mCascadedZSlices i) = true)) →
        out[i]? = some true ∧
        s'.mCascadedVPMatrix[i]? = some (levelResult sampleEnv
          (prepared ({} : ShadowMap ℚ) [directionalLight true]) sampleScene
          (directionalLight true).data
          (nearAfter sampleScene.camera.nearZ
            (cascadedLevelCalculations sampleEnv
              (prepared ({} : ShadowMap ℚ) [directionalLight true])
              sampleScene).mCascadedZSlices i)
          ((cascadedLevelCalculations sampleEnv
            (prepared ({} : ShadowMap ℚ) [directionalLight true])
            sampleScene).mCascadedZSlices.getD i 0)).1 ∧
        s'.mCascadedWidthHeight[i]? = some (levelResult sampleEnv
          (prepared ({} : ShadowMap ℚ) [directionalLight true]) sampleScene
          (directionalLight true).data
          (nearAfter sampleScene.camera.nearZ
            (cascadedLevelCalculations sampleEnv
              (prepared ({} : ShadowMap ℚ) [directionalLight true])
              sampleScene).mCascadedZSlices i)
          ((cascadedLevelCalculations sampleEnv
            (prepared ({} : ShadowMap ℚ) [directionalLight true])
            sampleScene).mCascadedZSlices.getD i 0)).2 :=
  (forced_levels_recomputed sampleEnv (prepared ({} : ShadowMap ℚ) [directionalLight true])
    sampleScene (directionalLight true).data (List.replicate 4 false) true
    (by with_unfolding_all decide) (by with_unfolding_all decide)
    (by with_unfolding_all decide) (by with_unfolding_all decide)).1

end LevelClaims

section SettingsLemmas

variable {F : Type} [LinearOrderedField F]

theorem settings_cascadedLevelCalculations (env : MathEnv F) (s : ShadowMap F)
    (scene : SceneView F) :
    settings (cascadedLevelCalculations env s scene) = settings s ∧
    (cascadedLevelCalculations env s scene).mClearDynamicSM = s.mClearDynamicSM := by
  unfold cascadedLevelCalculations
  cases s.mCascadedFrustumMode <;> exact ⟨rfl, rfl⟩

theorem settings_calcProjViewForCascaded (env : MathEnv F) (s : ShadowMap F)
    (scene : SceneView F) (lightData : LightData F) (renderLevel : List Bool)
    (forceUpdate : Bool) (out : ShadowMap F × List Bool)
    (h : calcProjViewForCascaded env s scene lightData renderLevel forceUpdate = some out) :
    settings out.1 = settings s ∧ out.1.mClearDynamicSM = s.mClearDynamicSM := by
  unfold calcProjViewForCascaded at h
  simp only [Option.map_eq_some'] at h
  obtain ⟨st, -, rfl⟩ := h
  exact settings_cascadedLevelCalculations env s scene

theorem settings_resizeBlurForCascaded (s : ShadowMap F) :
    settings (resizeBlurForCascaded s) = settings s ∧
    (resizeBlurForCascaded s).mClearDynamicSM = s.mClearDynamicSM := by
  unfold resizeBlurForCascaded
  split_ifs <;> exact ⟨rfl, rfl⟩

/-- `calcProjViewForCascaded` returns when the vectors that it indexes have an entry per
level, and the vectors that it returns have an entry per level. -/
theorem calcProjViewForCascaded_sized (env : MathEnv F) (s : ShadowMap F)
    (scene : SceneView F) (lightData : LightData F) (renderLevel : List Bool)
    (forceUpdate : Bool)
    (hrl : s.mCascadedLevelCount ≤ renderLevel.length)
    (hwh : s.mCascadedLevelCount ≤ s.mCascadedWidthHeight.length)
    (hvp : s.mCascadedLevelCount ≤ s.mCascadedVPMatrix.length)
    (hcull : s.mUseFrustumCulling = true → ∀ i, i < s.mCascadedLevelCount →
      u32 (s.mFrustumCullingVectorOffsets.1 + i) < s.mFrustumCulling.length) :
    ∃ s1 out, calcProjViewForCascaded env s scene lightData renderLevel forceUpdate =
        some (s1, out) ∧
      s.mCascadedLevelCount ≤ out.length ∧
      s.mCascadedLevelCount ≤ s1.mCascadedWidthHeight.length ∧
      s.mCascadedLevelCount ≤ s1.mCascadedVPMatrix.length ∧
      (s.mUseFrustumCulling = true → ∀ i, i < s.mCascadedLevelCount →
        u32 (s.mFrustumCullingVectorOffsets.1 + i) < s1.mFrustumCulling.length) ∧
      out.length = renderLevel.length := by
  have hN := cascadedLevelCalculations_levelCount env s scene
  obtain ⟨f1, -, -, -, f5, f6, f7, f8, -⟩ := cascadedLevelCalculations_fields env s scene
  have hcfg := (settings_cascadedLevelCalculations env s scene).1
  have hc1 := congrArg Settings.mUseFrustumCulling hcfg
  have hc2 := congrArg Settings.mFrustumCullingVectorOffsets hcfg
  simp only [settings] at hc1 hc2
  have hsz : loopSized (cascadedLevelCalculations env s scene)
      (cascadeLoopStart (cascadedLevelCalculations env s scene) scene renderLevel)
      s.mCascadedLevelCount := by
    refine ⟨hrl, fun hen => ?_, ?_, ?_, fun hc i hi => ?_⟩
    · show _ ≤ (cascadedLevelCalculations env s scene).mCascadedTemporalReuse.length
      rw [f5, temporalReuseSized_length env s (f1 ▸ hen)]
    · show _ ≤ (cascadedLevelCalculations env s scene).mCascadedWidthHeight.length
      rw [f6]; exact hwh
    · show _ ≤ (cascadedLevelCalculations env s scene).mCascadedVPMatrix.length
      rw [f7]; exact hvp
    · show _ < (cascadedLevelCalculations env s scene).mFrustumCulling.length
      rw [f8, hc2]
      exact hcull (hc1 ▸ hc) i hi
  obtain ⟨st', hst', g1, -, g3, g4, g5⟩ := cascadeLevels_returns env _ scene lightData
    forceUpdate _ s.mCascadedLevelCount
    (by rw [cascadedLevelCalculations_zSlices_length]) hsz s.mCascadedLevelCount (le_refl _)
  unfold calcProjViewForCascaded
  simp only [hN, hst', Option.map_some']
  obtain ⟨-, hrest, -⟩ := cascadeLevels_level env _ scene lightData forceUpdate _ _ st' hst'
  have hflag : ∀ j, s.mCascadedLevelCount ≤ j → st'.renderLevel[j]? = renderLevel[j]? := by
    intro j hj
    have hk := hrest j hj
    simp only [levelAt, Prod.mk.injEq] at hk
    exact hk.1
  refine ⟨_, _, rfl, g1, g3, g4, fun hc i hi => ?_, ?_⟩
  · have := g5 (hc1.trans hc) i hi
    rw [hc2] at this
    exact this
  · rcases Nat.lt_trichotomy st'.renderLevel.length renderLevel.length with h | h | h
    · have := hflag st'.renderLevel.length g1
      rw [List.getElem?_eq_none (le_refl _), List.getElem?_eq_getElem h] at this
      cases this
    · exact h
    · have := hflag renderLevel.length hrl
      rw [List.getElem?_eq_none (le_refl _), List.getElem?_eq_getElem h] at this
      cases this

/-- An iteration of the raster loop outside the dynamic mode: the level is rendered when it
is flagged and not left to ray tracing. -/
theorem rasterCascadedPass_static (s : ShadowMap F) (flags : List Bool)
    (calls : List RasterCall) (i : Nat) (hf : i < flags.length)
    (hvp : i < s.mCascadedVPMatrix.length)
    (hcull : s.mUseFrustumCulling = true →
      u32 (s.mFrustumCullingVectorOffsets.1 + i) < s.mFrustumCulling.length) :
    rasterCascadedPass s false flags calls i =
      some (calls ++ if flags.getD i false && !fullyRayTraced s i
        then [staticCascadeCall s false i] else []) := by
  unfold rasterCascadedPass
  simp only [Bool.false_eq_true, if_false, List.getElem?_eq_getElem hf, Option.some_bind,
    List.getD_eq_getElem?_getD, Option.getD_some, Bool.not_false, Bool.and_true,
    List.getElem?_eq_getElem hvp, Bool.false_and]
  by_cases hb : flags[i] = true
  · by_cases hr : fullyRayTraced s i = true
    · have hr' := hr
      unfold fullyRayTraced at hr'
      simp [hb, hr, hr']
    · have hr' := hr
      unfold fullyRayTraced at hr'
      by_cases hc : s.mUseFrustumCulling = true
      · simp [hb, hr, hr', hc, staticCascadeCall, List.getElem?_eq_getElem (hcull hc)]
      · simp [hb, hr, hr', hc, staticCascadeCall]
  · simp [hb]

/-- The static pass of a level in the dynamic mode: the level is rendered without the dynamic
geometry when it is flagged and not left to ray tracing. -/
theorem rasterCascadedPass_even (s : ShadowMap F) (flags : List Bool)
    (calls : List RasterCall) (k : Nat) (hf : k < flags.length)
    (hvp : k < s.mCascadedVPMatrix.length)
    (hcull : s.mUseFrustumCulling = true →
      u32 (s.mFrustumCullingVectorOffsets.1 + k) < s.mFrustumCulling.length) :
    rasterCascadedPass s true flags calls (2 * k) =
      some (calls ++ if flags.getD k false && !fullyRayTraced s k
        then [staticCascadeCall s true k] else []) := by
  have h1 : 2 * k / 2 = k := by omega
  have h2 : ¬ (2 * k % 2 = 1) := by omega
  unfold rasterCascadedPass
  simp only [if_true, h1, h2, decide_False, Bool.false_eq_true, if_false,
    List.getElem?_eq_getElem hf, Option.some_bind,
    List.getD_eq_getElem?_getD, Option.getD_some, Bool.not_false, Bool.and_true,
    List.getElem?_eq_getElem hvp, Bool.and_false]
  by_cases hb : flags[k] = true
  · by_cases hr : fullyRayTraced s k = true
    · have hr' := hr
      unfold fullyRayTraced at hr'
      simp [hb, hr, hr']
    · have hr' := hr
      unfold fullyRayTraced at hr'
      by_cases hc : s.mUseFrustumCulling = true
      · simp [hb, hr, hr', hc, staticCascadeCall, List.getElem?_eq_getElem (hcull hc)]
      · simp [hb, hr, hr', hc, staticCascadeCall]
  · simp [hb]

/-- The dynamic pass of a level while the dynamic shadow maps are cleared: nothing is
rendered. -/
theorem rasterCascadedPass_odd (s : ShadowMap F) (flags : List Bool)
    (calls : List RasterCall) (k : Nat) (hf : k < flags.length)
    (hvp : k < s.mCascadedVPMatrix.length) (hclear : s.mClearDynamicSM = true) :
    rasterCascadedPass s true flags calls (2 * k + 1) = some calls := by
  have h1 : (2 * k + 1) / 2 = k := by omega
  have h2 : (2 * k + 1) % 2 = 1 := by omega
  unfold rasterCascadedPass
  simp only [if_true, h1, h2, decide_True, List.getElem?_eq_getElem hf, Option.some_bind,
    List.getElem?_eq_getElem hvp, hclear, Bool.and_self, Bool.not_true, Bool.and_false,
    Bool.false_eq_true, if_false]
  split_ifs <;> rfl

theorem foldlM_append_steps {α : Type} (f : List α → Nat → Option (List α))
    (g : Nat → List α) (n : Nat) (h : ∀ i, i < n → ∀ calls, f calls i = some (calls ++ g i)) :
    ∀ calls, (List.range n).foldlM f calls = some (calls ++ (List.range n).flatMap g) := by
  induction n with
  | zero => intro calls; simp
  | succ n ih =>
    intro calls
    rw [List.range_succ, List.foldlM_append, ih (fun i hi => h i (by omega))]
    simp [h n (by omega)]

theorem flatMap_double {α : Type} (gs : Nat → List α) (n : Nat) :
    (List.range (n * 2)).flatMap (fun i => if i % 2 = 0 then gs (i / 2) else []) =
      (List.range n).flatMap gs := by
  induction n with
  | zero => rfl
  | succ n ih =>
    have h : (n + 1) * 2 = n * 2 + 1 + 1 := by omega
    have h1 : n * 2 % 2 = 0 := by omega
    have h2 : ¬ ((n * 2 + 1) % 2 = 0) := by omega
    have h3 : n * 2 / 2 = n := by omega
    rw [h, List.range_succ, List.range_succ, List.range_succ]
    simp [ih, h1, h2, h3]

theorem flatMap_if_singleton {α β : Type} (p : α → Bool) (c : α → β) (l : List α) :
    l.flatMap (fun k => if p k then [c k] else []) = (l.filter p).map c := by
  induction l with
  | nil => rfl
  | cons a l ih =>
    rw [List.flatMap_cons, ih]
    by_cases h : p a = true
    · simp [h]
    · simp [h]

theorem fullyRayTraced_congr (a b : ShadowMap F) (h : settings a = settings b) :
    fullyRayTraced a = fullyRayTraced b := by
  have h1 := congrArg Settings.mCanUseRayTracing h
  have h2 := congrArg Settings.mCascadedLastLevelRayTrace h
  have h3 := congrArg Settings.mCascadedLevelTrace h
  simp only [settings] at h1 h2 h3
  funext i
  simp only [fullyRayTraced, h1, h2, h3]

theorem staticCascadeCall_congr (a b : ShadowMap F) (h : settings a = settings b) :
    staticCascadeCall a = staticCascadeCall b := by
  have h1 := congrArg Settings.mSMDoubleSidedOnly h
  have h2 := congrArg Settings.mUseFrustumCulling h
  have h3 := congrArg Settings.mFrustumCullingVectorOffsets h
  simp only [settings] at h1 h2 h3
  funext d i
  simp only [staticCascadeCall, h1, h2, h3]

/-- The raster loop of `rasterCascaded` (lines 1380-1461) when the dynamic mode is on only
because the dynamic shadow maps are cleared: the flagged levels that are not left to ray
tracing are rendered, in the order of the levels. -/
theorem rasterCascadedLoop_static (s : ShadowMap F) (flags : List Bool)
    (hN : s.mCascadedLevelCount * 2 < 2 ^ 32)
    (hf : s.mCascadedLevelCount ≤ flags.length)
    (hvp : s.mCascadedLevelCount ≤ s.mCascadedVPMatrix.length)
    (hcull : s.mUseFrustumCulling = true → ∀ i, i < s.mCascadedLevelCount →
      u32 (s.mFrustumCullingVectorOffsets.1 + i) < s.mFrustumCulling.length) :
    (List.range (if s.mClearDynamicSM then u32 (s.mCascadedLevelCount * 2)
        else s.mCascadedLevelCount)).foldlM
      (rasterCascadedPass s s.mClearDynamicSM flags) [] =
      some (((List.range s.mCascadedLevelCount).filter
        fun i => flags.getD i false && !fullyRayTraced s i).map
          (staticCascadeCall s s.mClearDynamicSM)) := by
  by_cases hclear : s.mClearDynamicSM = true
  · rw [hclear, if_pos rfl, u32_of_lt hN]
    rw [foldlM_append_steps _
      (fun i => if i % 2 = 0 then
        (if flags.getD (i / 2) false && !fullyRayTraced s (i / 2)
          then [staticCascadeCall s true (i / 2)] else [])
        else []) _ ?_ [], List.nil_append,
      flatMap_double (fun k => if flags.getD k false && !fullyRayTraced s k
        then [staticCascadeCall s true k] else []),
      flatMap_if_singleton (fun i => flags.getD i false && !fullyRayTraced s i)]
    intro i hi calls
    rcases Nat.mod_two_eq_zero_or_one i with h0 | h1
    · have hi2 : i = 2 * (i / 2) := by omega
      show _ = some (calls ++ if i % 2 = 0 then _ else _)
      rw [if_pos h0]
      conv_lhs => rw [hi2]
      exact rasterCascadedPass_even s flags calls (i / 2) (by omega) (by omega)
        (fun hc => hcull hc _ (by omega))
    · have hi2 : i = 2 * (i / 2) + 1 := by omega
      have hne : ¬ (i % 2 = 0) := by omega
      show _ = some (calls ++ if i % 2 = 0 then _ else _)
      rw [if_neg hne, List.append_nil]
      conv_lhs => rw [hi2]
      exact rasterCascadedPass_odd s flags calls (i / 2) (by omega) (by omega) hclear
  · have hclear' : s.mClearDynamicSM = false := by simpa using hclear
    rw [hclear']
    simp only [Bool.false_eq_true, if_false]
    rw [foldlM_append_steps _
      (fun i => if flags.getD i false && !fullyRayTraced s i
        then [staticCascadeCall s false i] else []) _ ?_ [], List.nil_append,
      flatMap_if_singleton (fun i => flags.getD i false && !fullyRayTraced s i)]
    intro i hi calls
    exact rasterCascadedPass_static s flags calls i (by omega) (by omega)
      (fun hc => hcull hc _ hi)

theorem foldl_or_eq_true (l : List Bool) (a : Bool) :
    l.foldl (fun acc b => acc || b) a = true ↔ a = true ∨ ∃ i : Nat, l[i]? = some true := by
  induction l generalizing a with
  | nil => simp
  | cons b l ih =>
    rw [List.foldl_cons, ih]
    constructor
    · rintro (h | ⟨i, hi⟩)
      · rcases Bool.or_eq_true_iff.mp h with h1 | h1
        · exact Or.inl h1
        · exact Or.inr ⟨0, by simp [h1]⟩
      · exact Or.inr ⟨i + 1, by simpa using hi⟩
    · rintro (h | ⟨i, hi⟩)
      · exact Or.inl (by simp [h])
      · cases i with
        | zero =>
          simp only [List.getElem?_cons_zero, Option.some.injEq] at hi
          exact Or.inl (by simp [hi])
        | succ i => exact Or.inr ⟨i, by simpa using hi⟩

end SettingsLemmas

section StaticCascadeClaims

variable {F : Type} [LinearOrderedField F]

/-- C21. `rasterCascaded` in the `Static` update mode returns when the vectors that it
indexes have an entry per level.  With `flags` the render flags of the planner (all false
when an early return keeps the planner from running), the raster calls are those of the
levels that are flagged and not left to ray tracing, in the order of the levels, so that
level `i` is rasterized if and only if it is flagged and not
(`mCanUseRayTracing` and `mCascadedLastLevelRayTrace` and `i > mCascadedLevelTrace`); the
returned flag is true if and only if some level is flagged. -/
theorem rasterCascaded_static_levels (env : MathEnv F) (s : ShadowMap F) (view : SceneView F)
    (definesChanged : Bool) (light : Light F) (cameraMoved : Bool)
    (hmode : s.mShadowMapUpdateMode = SMUpdateMode.Static)
    (hN : s.mCascadedLevelCount * 2 < 2 ^ 32)
    (hwh : s.mCascadedLevelCount ≤ s.mCascadedWidthHeight.length)
    (hvp : s.mCascadedLevelCount ≤ s.mCascadedVPMatrix.length)
    (hcull : s.mUseFrustumCulling = true → ∀ i, i < s.mCascadedLevelCount →
      u32 (s.mFrustumCullingVectorOffsets.1 + i) < s.mFrustumCulling.length) :
    ∃ s' flags,
      rasterCascaded env s view definesChanged light cameraMoved =
        some (s', flags.foldl (fun acc b => acc || b) false,
          ((List.range s.mCascadedLevelCount).filter
            fun i => flags.getD i false && !fullyRayTraced s i).map
              (staticCascadeCall s s.mClearDynamicSM)) ∧
      flags.length = s.mCascadedLevelCount ∧
      (if cascadesPlanned s definesChanged light cameraMoved then
        ∃ s1, calcProjViewForCascaded env
          { s with mUpdateShadowMap := s.mUpdateShadowMap || definesChanged } view light.data
          (List.replicate s.mCascadedLevelCount false)
          (s.mUpdateShadowMap || definesChanged || light.changes.Direction) = some (s1, flags)
      else flags = List.replicate s.mCascadedLevelCount false) ∧
      (∀ i, (∃ call ∈ ((List.range s.mCascadedLevelCount).filter
            fun i => flags.getD i false && !fullyRayTraced s i).map
              (staticCascadeCall s s.mClearDynamicSM),
          call.target = RenderTarget.cascaded i) ↔
        (i < s.mCascadedLevelCount ∧ flags[i]? = some true ∧
          ¬ (s.mCanUseRayTracing = true ∧ s.mCascadedLastLevelRayTrace = true ∧
            i > s.mCascadedLevelTrace))) ∧
      (flags.foldl (fun acc b => acc || b) false = true ↔
        ∃ i, i < s.mCascadedLevelCount ∧ flags[i]? = some true) := by
  have key : ∀ flags : List Bool, flags.length = s.mCascadedLevelCount →
      (∀ i, (∃ call ∈ ((List.range s.mCascadedLevelCount).filter
            fun i => flags.getD i false && !fullyRayTraced s i).map
              (staticCascadeCall s s.mClearDynamicSM),
          call.target = RenderTarget.cascaded i) ↔
        (i < s.mCascadedLevelCount ∧ flags[i]? = some true ∧
          ¬ (s.mCanUseRayTracing = true ∧ s.mCascadedLastLevelRayTrace = true ∧
            i > s.mCascadedLevelTrace))) ∧
      (flags.foldl (fun acc b => acc || b) false = true ↔
        ∃ i, i < s.mCascadedLevelCount ∧ flags[i]? = some true) := by
    intro flags hlen
    constructor
    · intro i
      constructor
      · rintro ⟨call, hcall, htarget⟩
        simp only [List.mem_map, List.mem_filter, List.mem_range, Bool.and_eq_true,
          Bool.not_eq_true'] at hcall
        obtain ⟨k, ⟨hk, hflag, hray⟩, rfl⟩ := hcall
        simp only [staticCascadeCall, RenderTarget.cascaded.injEq] at htarget
        subst htarget
        refine ⟨hk, ?_, fun hr => ?_⟩
        · rw [List.getD_eq_getElem?_getD, List.getElem?_eq_getElem (by omega)] at hflag
          rw [List.getElem?_eq_getElem (by omega)]
          simpa using hflag
        · simp [fullyRayTraced, hr.1, hr.2.1, hr.2.2] at hray
      · rintro ⟨hi, hflag, hray⟩
        refine ⟨staticCascadeCall s s.mClearDynamicSM i, ?_, rfl⟩
        simp only [List.mem_map, List.mem_filter, List.mem_range, Bool.and_eq_true,
          Bool.not_eq_true']
        refine ⟨i, ⟨hi, ?_, ?_⟩, rfl⟩
        · simp [List.getD_eq_getElem?_getD, hflag]
        · by_contra hne
          have ht : fullyRayTraced s i = true := by simpa using hne
          simp only [fullyRayTraced, Bool.and_eq_true, decide_eq_true_eq] at ht
          exact hray ⟨ht.1.1, ht.1.2, ht.2⟩
    · rw [foldl_or_eq_true]
      constructor
      · rintro (h | ⟨i, hi⟩)
        · cases h
        · refine ⟨i, ?_, hi⟩
          rcases Nat.lt_or_ge i flags.length with h1 | h1
          · omega
          · rw [List.getElem?_eq_none h1] at hi; cases hi
      · rintro ⟨i, -, hi⟩
        exact Or.inr ⟨i, hi⟩
  have hdyn : (decide (s.mShadowMapUpdateMode ≠ SMUpdateMode.Static) || s.mClearDynamicSM) =
      s.mClearDynamicSM := by simp [hmode]
  by_cases hp : cascadesPlanned s definesChanged light cameraMoved = true
  · obtain ⟨s1, out, hcalc, h1, -, h3, h4, h5⟩ := calcProjViewForCascaded_sized env
      { s with mUpdateShadowMap := s.mUpdateShadowMap || definesChanged } view light.data
      (List.replicate s.mCascadedLevelCount false)
      (s.mUpdateShadowMap || definesChanged || light.changes.Direction)
      (by simp) hwh hvp hcull
    obtain ⟨hset, hclear⟩ := settings_calcProjViewForCascaded env _ view light.data _ _ _ hcalc
    have hset' : settings s1 = settings s := hset
    have hclear' : s1.mClearDynamicSM = s.mClearDynamicSM := hclear
    have hN1 : s1.mCascadedLevelCount = s.mCascadedLevelCount :=
      congrArg Settings.mCascadedLevelCount hset'
    have hU1 : s1.mUseFrustumCulling = s.mUseFrustumCulling :=
      congrArg Settings.mUseFrustumCulling hset'
    have hO1 : s1.mFrustumCullingVectorOffsets = s.mFrustumCullingVectorOffsets :=
      congrArg Settings.mFrustumCullingVectorOffsets hset'
    have hlen : out.length = s.mCascadedLevelCount := by simpa using h5
    have hloop := rasterCascadedLoop_static s1 out (by rw [hN1]; exact hN)
      (by rw [hN1]; exact h1) (by rw [hN1]; exact h3)
      (fun hc i hi => by
        rw [hO1]
        exact h4 (hU1 ▸ hc) i (hN1 ▸ hi))
    rw [hclear', fullyRayTraced_congr s1 s hset', staticCascadeCall_congr s1 s hset',
      hN1] at hloop
    refine ⟨resizeBlurForCascaded s1, out, ?_, hlen, ?_, key out hlen⟩
    · unfold cascadesPlanned at hp
      unfold rasterCascaded
      simp only [hdyn] at hp ⊢
      split
      · rename_i hc
        rw [hc] at hp
        simp at hp
      · split
        · rename_i hc hc2
          simp only [Bool.and_eq_true] at hp
          rw [hp.2] at hc2
          simp at hc2
        · have hcalc' := hcalc
          simp only [] at hcalc'
          rw [hcalc']
          simp only [Option.some_bind, hN1]
          rw [hloop]
          rfl
    · rw [if_pos hp]
      exact ⟨s1, hcalc⟩
  · have hp' : cascadesPlanned s definesChanged light cameraMoved = false := by simpa using hp
    have hlen : (List.replicate s.mCascadedLevelCount false).length = s.mCascadedLevelCount :=
      List.length_replicate _ _
    refine ⟨{ s with mUpdateShadowMap := s.mUpdateShadowMap || definesChanged },
      List.replicate s.mCascadedLevelCount false, ?_, hlen, ?_, key _ hlen⟩
    · have hret : (List.replicate s.mCascadedLevelCount false).foldl
          (fun acc b => acc || b) false = false := by
        cases hr : (List.replicate s.mCascadedLevelCount false).foldl
          (fun acc b => acc || b) false
        · rfl
        · obtain ⟨i, -, hi⟩ := (key _ hlen).2.mp hr
          rw [List.getElem?_replicate] at hi
          split at hi <;> cases hi
      have hcalls : ((List.range s.mCascadedLevelCount).filter
          fun i => (List.replicate s.mCascadedLevelCount false).getD i false &&
            !fullyRayTraced s i) = [] := by
        rw [List.filter_eq_nil_iff]
        intro i _
        simp [List.getD_eq_getElem?_getD, List.getElem?_replicate]
        intro h
        split at h <;> simp at h
      rw [hret, hcalls, List.map_nil]
      unfold cascadesPlanned at hp'
      unfold rasterCascaded
      simp only [hdyn] at hp' ⊢
      split
      · rfl
      · split
        · rfl
        · rename_i hc hc2
          simp only [Bool.not_eq_true] at hc hc2
          rw [hc] at hp'
          simp at hc2
          simp [hc2] at hp'
    · rw [hp']
      simp

set_option maxRecDepth 1000000 in
/-- C21, witness: the first frame of a new object for a static scene with one directional
light, with four levels of which the last one is left to ray tracing. -/
theorem rasterCascaded_static_levels_witness :
    ∃ (s' : ShadowMap ℚ) (flags : List Bool),
      rasterCascaded sampleEnv (prepared ({} : ShadowMap ℚ) [directionalLight true])
          sampleScene false (directionalLight true) true =
        some (s', flags.foldl (fun acc b => acc || b) false,
          ((List.range 4).filter fun i => flags.getD i false &&
            !fullyRayTraced (prepared ({} : ShadowMap ℚ) [directionalLight true]) i).map
              (staticCascadeCall (prepared ({} : ShadowMap ℚ) [directionalLight true])
                false)) ∧
      flags.length = 4 := by
  obtain ⟨s', flags, h1, h2, -⟩ := rasterCascaded_static_levels sampleEnv
    (prepared ({} : ShadowMap ℚ) [directionalLight true]) sampleScene false
    (directionalLight true) true (by with_unfolding_all rfl) (by with_unfolding_all decide)
    (by with_unfolding_all decide) (by with_unfolding_all decide)
    (by with_unfolding_all decide)
  exact ⟨s', flags, h1, h2⟩

end StaticCascadeClaims

section SnapshotClaims

set_option maxRecDepth 1000000 in
/-- C23. A dynamic scene with one point light in the `Dynamic` update mode: the first update
renders the static snapshot of the light (six skip-dynamic passes into the static cube map);
in the next frame the light has moved, and the update copies the snapshot forward (six
skip-static passes into the live cube map) and does not render the snapshot again. -/
theorem cube_snapshot_copied_after_move :
    movedPoint.changes.Position = true ∧
    renderModes (update sampleEnv dynamicPoint (some onePointFrame)) =
      (List.range 6).map (fun face =>
        (RenderTarget.cubeStatic 0 face, ({ SkipDynamic := true } : MeshRenderMode))) ∧
    renderModes (thenUpdate sampleEnv (update sampleEnv dynamicPoint (some onePointFrame))
        (some movedPointFrame)) =
      (List.range 6).map (fun face =>
        (RenderTarget.cube 0 face, ({ SkipStatic := true } : MeshRenderMode))) := by
  refine ⟨rfl, ?_, ?_⟩
  · with_unfolding_all rfl
  · with_unfolding_all rfl

end SnapshotClaims

section HeapLemmas

open GpuMemoryHeap

theorem u64_of_lt {n : Nat} (h : n < 2 ^ 64) : u64 n = n := Nat.mod_eq_of_lt h

theorem u64_succ_ne (n : Nat) : u64 (n + 1) ≠ n := by
  unfold u64
  omega

theorem allocateNewPage_fields (h : GpuMemoryHeap) :
    (allocateNewPage h).mPageSize = h.mPageSize ∧
    (allocateNewPage h).mCurrentPageId = u64 (h.mCurrentPageId + 1) ∧
    ∃ p, (allocateNewPage h).mpActivePage = some p ∧ p.currentOffset = 0 := by
  unfold allocateNewPage
  exact ⟨rfl, rfl, _, rfl, rfl⟩

/-- The heap after its constructor. -/
theorem heapInv_create (pageSize : Nat) :
    heapInv (create pageSize) [] ∧ (create pageSize).mPageSize = pageSize := by
  obtain ⟨h1, -, p, hp, h0⟩ := allocateNewPage_fields { mPageSize := pageSize }
  refine ⟨⟨p, hp, ?_, fun m hm => absurd hm (List.not_mem_nil m)⟩, h1⟩
  rw [h0]
  exact Nat.zero_le _

/-- A request that fits in a page, on a heap with an active page: the offset is a multiple of
the alignment, the range ends within the page, and it starts where the allocations of the
list have ended, or on a new page. -/
theorem allocate_fits (env : HeapEnv) (h : GpuMemoryHeap) (live : List Made)
    (size alignment cpuValue : Nat) (henv : env.rounds) (hinv : heapInv h live)
    (ha : 0 < alignment) (hfit : alignment + 2 * h.mPageSize ≤ 2 ^ 64)
    (hsize : size ≤ h.mPageSize) :
    ∃ data h', h.allocate env size alignment cpuValue = some (data, h') ∧
      h'.mPageSize = h.mPageSize ∧ alignment ∣ data.offset ∧
      data.offset + size ≤ h.mPageSize ∧ data.pageID = h'.mCurrentPageId ∧
      ((h'.mCurrentPageId = h.mCurrentPageId ∧
          (∀ m ∈ live, m.offset + m.size ≤ data.offset) ∧
          heapInv h' (live ++ [{ pageID := data.pageID, offset := data.offset, size := size }])) ∨
        (h'.mCurrentPageId ≠ h.mCurrentPageId ∧
          heapInv h' [{ pageID := data.pageID, offset := data.offset, size := size }])) := by
  obtain ⟨p, hp, hle, hlive⟩ := hinv
  obtain ⟨hdvd, hge, hlt⟩ := henv alignment p.currentOffset ha
  unfold allocate
  rw [if_neg (by omega), hp, Option.some_bind]
  by_cases hbr : u64 (env.align_to alignment p.currentOffset + size) > h.mPageSize
  · obtain ⟨f1, f2, q, hq, hq0⟩ := allocateNewPage_fields h
    simp only [hbr, if_true, hq, Option.map_some']
    have hu : u64 (0 + size) = size := by
      rw [Nat.zero_add]
      exact u64_of_lt (by omega)
    refine ⟨_, _, rfl, f1, Nat.dvd_zero _, ?_, rfl, Or.inr ⟨?_, ?_⟩⟩
    · show 0 + size ≤ h.mPageSize
      omega
    · show (allocateNewPage h).mCurrentPageId ≠ h.mCurrentPageId
      rw [f2]
      exact u64_succ_ne _
    · refine ⟨_, rfl, ?_, ?_⟩
      · show u64 (0 + size) ≤ (allocateNewPage h).mPageSize
        rw [hu, f1]
        exact hsize
      · intro m hm
        rw [List.mem_singleton] at hm
        subst hm
        refine ⟨rfl, ?_⟩
        show 0 + size ≤ u64 (0 + size)
        rw [hu]
        omega
  · have hu : u64 (env.align_to alignment p.currentOffset + size) =
        env.align_to alignment p.currentOffset + size := u64_of_lt (by omega)
    simp only [hbr, if_false, hp, Option.map_some']
    rw [hu] at hbr
    refine ⟨_, _, rfl, rfl, hdvd, ?_, rfl, Or.inl ⟨rfl, ?_, ?_⟩⟩
    · show env.align_to alignment p.currentOffset + size ≤ h.mPageSize
      omega
    · intro m hm
      have := (hlive m hm).2
      show m.offset + m.size ≤ env.align_to alignment p.currentOffset
      omega
    · refine ⟨_, rfl, ?_, ?_⟩
      · show u64 (env.align_to alignment p.currentOffset + size) ≤ h.mPageSize
        rw [hu]
        omega
      · intro m hm
        show m.pageID = h.mCurrentPageId ∧
          m.offset + m.size ≤ u64 (env.align_to alignment p.currentOffset + size)
        rw [hu]
        rcases List.mem_append.mp hm with h1 | h1
        · have := hlive m h1
          exact ⟨this.1, by omega⟩
        · rw [List.mem_singleton] at h1
          subst h1
          exact ⟨rfl, le_refl _⟩

/-- A request that does not fit in a page gets a buffer of its own. -/
theorem allocate_mega (env : HeapEnv) (h : GpuMemoryHeap) (size alignment cpuValue : Nat)
    (hsize : h.mPageSize < size) :
    h.allocate env size alignment cpuValue =
      some ({ pageID := env.kMegaPageId, offset := 0, fenceValue := cpuValue,
              gfxBufferResource := true }, h) := by
  unfold allocate
  rw [if_pos hsize]

/-- The body of the loop of `executeDeferredReleases` keeps the page size, the page id and
the active page, whose offset it keeps or resets. -/
theorem executeRelease_active (env : HeapEnv) (h h' : GpuMemoryHeap) (data : Allocation)
    (p : PageData) (hp : h.mpActivePage = some p) (hstep : executeRelease env h data = some h') :
    h'.mPageSize = h.mPageSize ∧ h'.mCurrentPageId = h.mCurrentPageId ∧
    ∃ p', h'.mpActivePage = some p' ∧
      (p'.currentOffset = p.currentOffset ∨ p'.currentOffset = 0) := by
  unfold executeRelease at hstep
  split at hstep
  · rw [hp] at hstep
    simp only [Option.map_some', Option.some.injEq] at hstep
    by_cases hc : u32 (p.allocationsCount + 2 ^ 32 - 1) = 0
    · simp only [hc, if_true] at hstep
      subst hstep
      exact ⟨rfl, rfl, _, rfl, Or.inr rfl⟩
    · simp only [hc, if_false] at hstep
      subst hstep
      exact ⟨rfl, rfl, _, rfl, Or.inl rfl⟩
  · split at hstep
    · simp only [Option.map_eq_some'] at hstep
      obtain ⟨pData, -, hh⟩ := hstep
      split at hh
      · subst hh
        exact ⟨rfl, rfl, p, hp, Or.inl rfl⟩
      · subst hh
        exact ⟨rfl, rfl, p, hp, Or.inl rfl⟩
    · cases hstep
      exact ⟨rfl, rfl, p, hp, Or.inl rfl⟩

theorem executeLoop_active (env : HeapEnv) (gpuVal : Nat) (fuel : Nat) :
    ∀ (h h' : GpuMemoryHeap) (p : PageData), h.mpActivePage = some p →
      executeLoop env gpuVal fuel h = some h' →
      h'.mPageSize = h.mPageSize ∧ h'.mCurrentPageId = h.mCurrentPageId ∧
      ∃ p', h'.mpActivePage = some p' ∧
        (p'.currentOffset = p.currentOffset ∨ p'.currentOffset = 0) := by
  induction fuel with
  | zero =>
    intro h h' p hp hrun
    cases hrun
    exact ⟨rfl, rfl, p, hp, Or.inl rfl⟩
  | succ fuel ih =>
    intro h h' p hp hrun
    unfold executeLoop at hrun
    split at hrun
    · cases hrun
      exact ⟨rfl, rfl, p, hp, Or.inl rfl⟩
    · rename_i data _
      split at hrun
      · rw [Option.bind_eq_some] at hrun
        obtain ⟨h1, hstep, hrest⟩ := hrun
        obtain ⟨a1, a2, p1, hp1, hoff1⟩ := executeRelease_active env h h1 data p hp hstep
        obtain ⟨b1, b2, p2, hp2, hoff2⟩ :=
          ih { h1 with mDeferredReleases := h1.mDeferredReleases.erase data } h' p1 hp1 hrest
        refine ⟨b1.trans a1, b2.trans a2, p2, hp2, ?_⟩
        rcases hoff2 with h2 | h2
        · rcases hoff1 with h3 | h3
          · exact Or.inl (h2.trans h3)
          · exact Or.inr (h2.trans h3)
        · exact Or.inr h2
      · cases hrun
        exact ⟨rfl, rfl, p, hp, Or.inl rfl⟩

/-- A call that returns keeps the page size and the invariant of the heap, for the list of
the allocations made on the active page since it became active and since its offset was
last reset. -/
theorem heapStep_inv (env : HeapEnv) (henv : env.rounds) (st st' : GpuMemoryHeap × List Made)
    (call : HeapCall) (hinv : heapInv st.1 st.2) (hfit : call.fits st.1.mPageSize)
    (hstep : heapStep env true st call = some st') :
    heapInv st'.1 st'.2 ∧ st'.1.mPageSize = st.1.mPageSize := by
  cases call with
  | allocate size alignment cpuValue =>
    simp only [heapStep, Option.map_eq_some'] at hstep
    obtain ⟨r, hr, rfl⟩ := hstep
    by_cases hsize : size ≤ st.1.mPageSize
    · obtain ⟨data, h', hcall, hps, -, -, -, hcase⟩ :=
        allocate_fits env st.1 st.2 size alignment cpuValue henv hinv hfit.1 hfit.2 hsize
      rw [hcall] at hr
      cases hr
      simp only [if_neg (Nat.not_lt.mpr hsize)]
      rcases hcase with ⟨hid, -, hinv'⟩ | ⟨hid, hinv'⟩
      · rw [if_pos hid]
        exact ⟨hinv', hps⟩
      · rw [if_neg hid]
        exact ⟨hinv', hps⟩
    · have hgt : st.1.mPageSize < size := Nat.lt_of_not_le hsize
      rw [allocate_mega env st.1 size alignment cpuValue hgt] at hr
      cases hr
      simp only [gt_iff_lt, hgt, if_true, and_true]
      exact hinv
  | release data =>
    simp only [heapStep, release, FALCOR_ASSERT] at hstep
    split at hstep
    · rename_i h hok
      cases hstep
      split at hok
      · simp only [Except.map] at hok
        cases hok
        exact ⟨hinv, rfl⟩
      · simp only [Except.map] at hok
        cases hok
    · cases hstep
  | executeDeferredReleases gpuVal =>
    simp only [heapStep, Option.map_eq_some'] at hstep
    obtain ⟨h, hrun, rfl⟩ := hstep
    obtain ⟨p, hp, hle, hlive⟩ := hinv
    obtain ⟨a1, a2, p', hp', hoff⟩ := executeLoop_active env gpuVal _ st.1 h p hp hrun
    refine ⟨?_, a1⟩
    simp only [Bool.true_and, hp', hp, Option.map_some', ne_eq, Option.some.injEq,
      decide_not, Bool.not_eq_true', decide_eq_false_iff_not, ite_not]
    by_cases hsame : p'.currentOffset = p.currentOffset
    · rw [if_pos hsame]
      refine ⟨p', hp', by rw [hsame, a1]; exact hle, fun m hm => ?_⟩
      rw [a2, hsame]
      exact hlive m hm
    · rw [if_neg hsame]
      refine ⟨p', hp', ?_, fun m hm => absurd hm (List.not_mem_nil m)⟩
      rcases hoff with h1 | h1
      · exact absurd h1 hsame
      · rw [h1]
        exact Nat.zero_le _

theorem heapCalls_inv (env : HeapEnv) (henv : env.rounds) (calls : List HeapCall) :
    ∀ (st st' : GpuMemoryHeap × List Made), heapInv st.1 st.2 →
      (∀ call ∈ calls, call.fits st.1.mPageSize) →
      heapCalls env true st calls = some st' →
      heapInv st'.1 st'.2 ∧ st'.1.mPageSize = st.1.mPageSize := by
  induction calls with
  | nil =>
    intro st st' hinv _ hrun
    simp only [heapCalls, List.foldlM_nil] at hrun
    cases hrun
    exact ⟨hinv, rfl⟩
  | cons call rest ih =>
    intro st st' hinv hfit hrun
    simp only [heapCalls, List.foldlM_cons, Option.bind_eq_bind, Option.bind_eq_some] at hrun
    obtain ⟨mid, hstep, hrest⟩ := hrun
    obtain ⟨h1, h2⟩ := heapStep_inv env henv st mid call hinv
      (hfit call (List.mem_cons_self _ _)) hstep
    obtain ⟨h3, h4⟩ := ih mid st' h1
      (fun c hc => by rw [h2]; exact hfit c (List.mem_cons_of_mem _ hc)) hrest
    exact ⟨h3, h4.trans h2⟩

/-- The round-up to a multiple of the alignment is the least multiple that is not below the
value. -/
theorem sampleHeapEnv_rounds : sampleHeapEnv.rounds := by
  intro a v ha
  show a ∣ (v + a - 1) / a * a ∧ v ≤ (v + a - 1) / a * a ∧ (v + a - 1) / a * a < v + a
  have h1 := Nat.div_add_mod (v + a - 1) a
  have h2 := Nat.mod_lt (v + a - 1) ha
  rw [Nat.mul_comm] at h1
  refine ⟨Dvd.intro_left _ rfl, ?_, ?_⟩
  · generalize (v + a - 1) / a * a = q at h1
    omega
  · generalize (v + a - 1) / a * a = q at h1
    omega

end HeapLemmas

section HeapClaims

open GpuMemoryHeap

/-- C30 (amended). On a heap reached from its constructor by calls that have returned (with
positive alignments and without `size_t` wrap), `allocate(size, alignment)` with
`size <= pageSize` returns an offset that is a multiple of the alignment, with
`offset + size <= pageSize`, and the byte range `[offset, offset + size)` does not overlap the
range of any earlier allocation made on the same page since that page became active and since
`executeDeferredReleases` last reset the offset of the page; a request with `size > pageSize`
leaves the heap, and so the active page, as it is and is tagged with the mega-page id. -/
theorem allocate_on_active_page (env : HeapEnv) (pageSize : Nat) (calls : List HeapCall)
    (h : GpuMemoryHeap) (live : List Made) (size alignment cpuValue : Nat)
    (henv : env.rounds) (hfit : ∀ call ∈ calls, call.fits pageSize)
    (hrun : heapCalls env true (create pageSize, []) calls = some (h, live))
    (ha : 0 < alignment) (hwrap : alignment + 2 * pageSize ≤ 2 ^ 64) :
    h.mPageSize = pageSize ∧
    (size ≤ pageSize →
      ∃ data h', h.allocate env size alignment cpuValue = some (data, h') ∧
        alignment ∣ data.offset ∧ data.offset + size ≤ pageSize ∧
        ∀ m ∈ live, m.pageID = data.pageID →
          m.offset + m.size ≤ data.offset ∨ data.offset + size ≤ m.offset) ∧
    (pageSize < size →
      h.allocate env size alignment cpuValue =
        some ({ pageID := env.kMegaPageId, offset := 0, fenceValue := cpuValue,
                gfxBufferResource := true }, h)) := by
  obtain ⟨hinv0, hps0⟩ := heapInv_create pageSize
  obtain ⟨hinv, hps⟩ := heapCalls_inv env henv calls (create pageSize, []) (h, live) hinv0
    (fun c hc => by rw [hps0]; exact hfit c hc) hrun
  have hsz : h.mPageSize = pageSize := hps.trans hps0
  refine ⟨hsz, fun hsize => ?_, fun hsize => ?_⟩
  · obtain ⟨data, h', hcall, -, hdvd, hend, hid, hcase⟩ :=
      allocate_fits env h live size alignment cpuValue henv hinv ha (by rw [hsz]; exact hwrap)
        (by rw [hsz]; exact hsize)
    refine ⟨data, h', hcall, hdvd, by rw [← hsz]; exact hend, fun m hm hpage => ?_⟩
    rcases hcase with ⟨-, hbelow, -⟩ | ⟨hne, -⟩
    · exact Or.inl (hbelow m hm)
    · obtain ⟨p, -, -, hlive⟩ := hinv
      exact absurd ((hid.symm.trans hpage.symm).trans (hlive m hm).1) hne
  · exact allocate_mega env h size alignment cpuValue (by rw [hsz]; exact hsize)

/-- C30, witness: the third allocation on a new heap with pages of 64 bytes, after
allocations of eight bytes at the offsets 0 and 16. -/
theorem allocate_on_active_page_witness :
    ∃ data h',
      GpuMemoryHeap.allocate sampleHeapEnv
        { mPageSize := 64, mCurrentPageId := 1,
          mpActivePage := some { allocationsCount := 2, currentOffset := 24 } } 4 4 7 =
        some (data, h') ∧
      4 ∣ data.offset ∧ data.offset + 4 ≤ 64 ∧
      ∀ m ∈ ([{ pageID := 1, offset := 0, size := 8 },
          { pageID := 1, offset := 16, size := 8 }] : List Made),
        m.pageID = data.pageID → m.offset + m.size ≤ data.offset ∨ data.offset + 4 ≤ m.offset :=
  (allocate_on_active_page sampleHeapEnv 64
    [HeapCall.allocate 8 4 5, HeapCall.allocate 8 16 6] _ _ 4 4 7 sampleHeapEnv_rounds
    (by simp [HeapCall.fits]) (by decide) (by decide) (by decide)).2.1 (by decide)

/-- C30, counterexample: on a new heap with pages of 64 bytes, eight bytes are allocated at
the offset 0 of page 1 and released, and `executeDeferredReleases` runs after the fence has
passed; page 1 is still the active page, and the next allocation of eight bytes is again at
the offset 0 of page 1, the range of the earlier allocation. -/
theorem allocate_overlaps_after_rewind :
    GpuMemoryHeap.allocate sampleHeapEnv (create 64) 8 4 5 =
      some (firstAllocation,
        { mPageSize := 64, mCurrentPageId := 1,
          mpActivePage := some { allocationsCount := 1, currentOffset := 8 } }) ∧
    heapCalls sampleHeapEnv false (create 64, []) rewindCalls =
      some ({ mPageSize := 64, mCurrentPageId := 1, mpActivePage := some {} },
        [{ pageID := 1, offset := 0, size := 8 }]) ∧
    GpuMemoryHeap.allocate sampleHeapEnv
        { mPageSize := 64, mCurrentPageId := 1, mpActivePage := some {} } 8 4 6 =
      some ({ pageID := 1, offset := 0, fenceValue := 6, gfxBufferResource := true },
        { mPageSize := 64, mCurrentPageId := 1,
          mpActivePage := some { allocationsCount := 1, currentOffset := 8 } }) ∧
    ¬ ((0 : Nat) + 8 ≤ 0 ∨ (0 : Nat) + 8 ≤ 0) := by
  decide

end HeapClaims

section SpotModePrepare

variable {F : Type} [LinearOrderedField F]

theorem spotMode_resetShadowMaps (s : ShadowMap F) :
    spotMode (resetShadowMaps s) = spotMode s := by
  unfold resetShadowMaps
  simp only [spotMode]
  split_ifs <;> rfl

theorem spotMode_createCascadeTexture (s : ShadowMap F) (plan : FormatPlan) (cc : Nat) :
    spotMode (createCascadeTexture s plan cc) = spotMode s := by
  unfold createCascadeTexture
  simp only [spotMode]
  split_ifs <;> rfl

theorem spotMode_createDepthHelpers (s : ShadowMap F) (plan : FormatPlan) (cp cc : Nat) :
    spotMode (createDepthHelpers s plan cp cc) = spotMode s := by
  unfold createDepthHelpers
  simp only [spotMode]
  split_ifs <;> rfl

theorem spotMode_createStaticCopies (s : ShadowMap F) :
    spotMode (createStaticCopies s) = spotMode s := by
  unfold createStaticCopies
  simp only [spotMode]
  split_ifs <;> rfl

theorem spotMode_createFrustumCulling (s : ShadowMap F) (cp : Nat) :
    spotMode (createFrustumCulling s cp) = spotMode s := by
  unfold createFrustumCulling
  simp only [spotMode]
  split_ifs <;> rfl

theorem spotMode_createLightMapping (s : ShadowMap F) (lm : List Nat) :
    spotMode (createLightMapping s lm) = spotMode s := by
  unfold createLightMapping
  simp only [spotMode]
  split_ifs <;> rfl

theorem spotMode_createVPMatrices (s : ShadowMap F) :
    spotMode (createVPMatrices s) = spotMode s := by
  unfold createVPMatrices
  simp only [spotMode]
  split_ifs <;> rfl

/-- The spot count, the update mode and the pending clear after `prepareShadowMapBuffers`. -/
theorem spotMode_prepared (s : ShadowMap F) (lights : List (Light F))
    (hlen : lights.length < 2 ^ 32) :
    spotMode (prepared s lights) =
      { spotMode s with mCountSpotShadowMaps := countOfLights LightTypeSM.Spot lights } := by
  obtain ⟨-, hS, -⟩ := lightLoop_spec (resetShadowMaps s)
    (formatPlan (resetShadowMaps s)).shadowMapFormat (resetShadowMaps s).mpShadowMapsCube lights
    hlen
  have h0 := spotMode_resetShadowMaps s
  have key : ∀ s5 : ShadowMap F, spotMode (finishPrepare s5) = spotMode s5 := fun _ => rfl
  have hspot : ∀ (s1 : ShadowMap F) (plan : FormatPlan),
      spotMode (createSpotTextures s1 plan) = spotMode s1 := fun _ _ => rfl
  have hstore : ∀ (s0 : ShadowMap F) (loop : LightLoop), spotMode (storeLightLoop s0 loop) =
      { spotMode s0 with mCountSpotShadowMaps := loop.mCountSpotShadowMaps } := fun _ _ => rfl
  unfold prepared
  simp only [key, spotMode_createVPMatrices, spotMode_createLightMapping,
    spotMode_createFrustumCulling, spotMode_createStaticCopies, spotMode_createDepthHelpers,
    spotMode_createCascadeTexture, hspot, hstore, h0, hS]

end SpotModePrepare

section SettingsRender

variable {F : Type} [LinearOrderedField F]

theorem rendered_spotDefines (s : ShadowMap F) (d : Bool) (index : Nat) :
    settings (spotDefines s d index) = settings s := by
  unfold spotDefines
  split_ifs <;> rfl

theorem rendered_updateSpotVP (env : MathEnv F) (s s' : ShadowMap F) (index : Nat)
    (lightData : LightData F) (h : updateSpotVP env s index lightData = some s') :
    settings s' = settings s := by
  unfold updateSpotVP at h
  simp only [Option.bind_eq_some] at h
  obtain ⟨vp, -, culling, -, h⟩ := h
  cases h
  rfl

theorem rendered_rasterSpotLight (env : MathEnv F) (s : ShadowMap F) (d : Bool) (index : Nat)
    (light : Light F) (r : ShadowMap F × Bool × List RasterCall)
    (h : rasterSpotLight env s d index light = some r) : settings r.1 = settings s := by
  unfold rasterSpotLight at h
  simp only [] at h
  by_cases hactive : (!light.active) = true
  · rw [if_pos hactive] at h
    cases h
    exact rendered_spotDefines s d index
  · rw [if_neg hactive] at h
    simp only [Option.bind_eq_some] at h
    obtain ⟨s1, hs1, _, -, _, -, _, -, h⟩ := h
    cases h
    rw [← rendered_spotDefines s d index]
    split_ifs at hs1 with hvp
    · exact rendered_updateSpotVP env _ _ _ _ hs1
    · cases hs1
      rfl

theorem rendered_rasterSpotLights (env : MathEnv F) (frame : Frame F) (lights : List (Light F)) :
    ∀ (i : Nat) (acc r : ShadowMap F × Bool × List RasterCall),
      rasterSpotLights env frame lights i acc = some r → settings r.1 = settings acc.1 := by
  induction lights with
  | nil =>
    intro i acc r h
    simp only [rasterSpotLights, Option.some.injEq] at h
    rw [h]
  | cons light rest ih =>
    intro i acc r h
    simp only [rasterSpotLights, Option.bind_eq_some] at h
    obtain ⟨r1, hr1, h⟩ := h
    rw [ih _ _ _ h]
    exact rendered_rasterSpotLight env _ _ _ _ r1 hr1

theorem rendered_cubeDefines (s : ShadowMap F) (d : Bool) (index : Nat) :
    settings (cubeDefines s d index) = settings s := by
  unfold cubeDefines
  simp only [settings]
  split_ifs <;> rfl

theorem rendered_rasterCubeFace (env : MathEnv F) (index : Nat) (light : Light F)
    (lightMoved : Bool) (mode : MeshRenderMode) (acc r : ShadowMap F × List RasterCall)
    (face : Nat) (h : rasterCubeFace env index light lightMoved mode acc face = some r) :
    settings r.1 = settings acc.1 := by
  unfold rasterCubeFace at h
  simp only [Option.bind_eq_some] at h
  obtain ⟨_, -, _, -, _, -, h⟩ := h
  cases h
  rfl

theorem rendered_rasterCubeFaces (env : MathEnv F) (index : Nat) (light : Light F)
    (lightMoved : Bool) (mode : MeshRenderMode) (faces : List Nat) :
    ∀ (acc r : ShadowMap F × List RasterCall),
      faces.foldlM (rasterCubeFace env index light lightMoved mode) acc = some r →
      settings r.1 = settings acc.1 := by
  induction faces with
  | nil =>
    intro acc r h
    simp only [List.foldlM, pure, Option.some.injEq] at h
    rw [h]
  | cons face rest ih =>
    intro acc r h
    simp only [List.foldlM, bind, Option.bind_eq_some] at h
    obtain ⟨r1, hr1, h⟩ := h
    rw [ih _ _ h]
    exact rendered_rasterCubeFace env _ _ _ _ _ _ _ hr1

theorem rendered_rasterCubeEachFace (env : MathEnv F) (s : ShadowMap F) (d : Bool) (index : Nat)
    (light : Light F) (r : ShadowMap F × List RasterCall)
    (h : rasterCubeEachFace env s d index light = some r) : settings r.1 = settings s := by
  unfold rasterCubeEachFace at h
  simp only [] at h
  split at h
  · cases h
    exact rendered_cubeDefines s d index
  · simp only [Option.map_eq_some'] at h
    obtain ⟨r1, hr1, h⟩ := h
    have := rendered_rasterCubeFaces env _ _ _ _ _ _ _ hr1
    rw [rendered_cubeDefines] at this
    rw [← this, ← h]
    simp only [settings]
    split_ifs <;> rfl

theorem rendered_rasterCubeLights (env : MathEnv F) (frame : Frame F) (lights : List (Light F)) :
    ∀ (i : Nat) (acc r : ShadowMap F × List RasterCall),
      rasterCubeLights env frame lights i acc = some r → settings r.1 = settings acc.1 := by
  induction lights with
  | nil =>
    intro i acc r h
    simp only [rasterCubeLights, Option.some.injEq] at h
    rw [h]
  | cons light rest ih =>
    intro i acc r h
    simp only [rasterCubeLights, Option.bind_eq_some] at h
    obtain ⟨r1, hr1, h⟩ := h
    rw [ih _ _ _ h]
    exact rendered_rasterCubeEachFace env _ _ _ _ r1 hr1

theorem rendered_cascadedLevelCalculations (env : MathEnv F) (s : ShadowMap F)
    (scene : SceneView F) : settings (cascadedLevelCalculations env s scene) = settings s := by
  unfold cascadedLevelCalculations
  cases s.mCascadedFrustumMode <;> rfl

theorem rendered_calcProjViewForCascaded (env : MathEnv F) (s : ShadowMap F)
    (scene : SceneView F) (lightData : LightData F) (renderLevel : List Bool)
    (forceUpdate : Bool) (out : ShadowMap F × List Bool)
    (h : calcProjViewForCascaded env s scene lightData renderLevel forceUpdate = some out) :
    settings out.1 = settings s := by
  unfold calcProjViewForCascaded at h
  simp only [Option.map_eq_some'] at h
  obtain ⟨st, -, rfl⟩ := h
  exact rendered_cascadedLevelCalculations env s scene

theorem rendered_resizeBlurForCascaded (s : ShadowMap F) :
    settings (resizeBlurForCascaded s) = settings s := by
  unfold resizeBlurForCascaded
  split_ifs <;> rfl

theorem rendered_rasterCascaded (env : MathEnv F) (s : ShadowMap F) (view : SceneView F)
    (d : Bool) (light : Light F) (cameraMoved : Bool)
    (r : ShadowMap F × Bool × List RasterCall)
    (h : rasterCascaded env s view d light cameraMoved = some r) : settings r.1 = settings s := by
  unfold rasterCascaded at h
  simp only [] at h
  split at h
  · cases h
    rfl
  split at h
  · cases h
    rfl
  · simp only [Option.bind_eq_some, Option.map_eq_some'] at h
    obtain ⟨out, hout, calls, -, h⟩ := h
    cases h
    rw [rendered_resizeBlurForCascaded]
    exact (rendered_calcProjViewForCascaded env _ _ _ _ _ out hout).trans rfl

/-- A frame that is rendered to its end leaves the settings, the counts and the sizes of the
textures as they were. -/
theorem rendered_renderLights (env : MathEnv F) (s : ShadowMap F) (frame : Frame F)
    (lists : RenderLists F) (r : UpdateResult F)
    (h : renderLights env s frame lists = some r) : settings r.state = settings s := by
  unfold renderLights at h
  simp only [Option.bind_eq_some] at h
  obtain ⟨cube, hcube, misc, hmisc, vp, -, cascaded, hcascaded, cvp, -, h⟩ := h
  cases h
  have h1 := rendered_rasterCubeLights env frame _ _ _ _ hcube
  have h2 := rendered_rasterSpotLights env frame _ _ _ _ hmisc
  have h3 : settings cascaded.1 = settings misc.1 := by
    cases hl : lists.lightRenderListCascaded with
    | nil =>
      rw [hl] at hcascaded
      cases hcascaded
      rfl
    | cons light rest =>
      rw [hl] at hcascaded
      exact (rendered_rasterCascaded env _ _ _ _ _ _ hcascaded).trans rfl
  exact (show settings _ = settings cascaded.1 from rfl).trans (h3.trans (h2.trans h1))

end SettingsRender

section UILemmas

variable {F : Type} [LinearOrderedField F]

theorem keepsLayout_refl (s : ShadowMap F) : keepsLayout s s :=
  ⟨rfl, rfl, rfl, rfl, fun h => h.elim Or.inl fun h => Or.inr (Or.inl h), id, id, Or.inl rfl⟩

theorem keepsLayout_trans {s s' s'' : ShadowMap F} (h1 : keepsLayout s s')
    (h2 : keepsLayout s' s'') : keepsLayout s s'' := by
  obtain ⟨a1, a2, a3, a4, a5, a6, a7, a8⟩ := h1
  obtain ⟨b1, b2, b3, b4, b5, b6, b7, b8⟩ := h2
  refine ⟨b1.trans a1, b2.trans a2, b3.trans a3, b4.trans a4, fun h => ?_, fun h => b6 (a6 h),
    fun h => b7 (a7 h), ?_⟩
  · rcases b5 h with h' | h' | h'
    · exact a5 (Or.inl h')
    · exact a5 (Or.inr h')
    · exact Or.inr (Or.inr (a1 ▸ h'))
  · rcases b8 with h' | h'
    · rcases a8 with h'' | ⟨f1, f2, f3⟩
      · exact Or.inl (h'.trans h'')
      · exact Or.inr ⟨b6 f1, b7 f2, h' ▸ f3⟩
    · exact Or.inr h'

theorem layoutInv_of_keepsLayout {s s' : ShadowMap F} (hinv : layoutInv s)
    (h : keepsLayout s s') : layoutInv s' := by
  obtain ⟨a1, a2, a3, a4, a5, a6, a7, a8⟩ := h
  obtain ⟨i1, i2, i3, i4⟩ := hinv
  have hfactor : sliceFactor s' = sliceFactor s := by
    unfold sliceFactor
    rw [a1]
  refine ⟨fun h => ?_, ?_, ?_, fun hr hc t ht => ?_⟩
  · rw [a1]
    rcases a5 h with h' | h' | h'
    · exact i1 (Or.inl h')
    · exact i1 (Or.inr h')
    · exact h'
  · rw [a3, a2, hfactor]
    exact i2
  · rcases a8 with h' | h'
    · rw [h']
      exact i3
    · exact h'.2.2
  · have hr0 : s.mResetShadowMapBuffers = false := by
      cases hs : s.mResetShadowMapBuffers
      · rfl
      · rw [a6 hs] at hr
        cases hr
    have hc0 : s.mShadowResChanged = false := by
      cases hs : s.mShadowResChanged
      · rfl
      · rw [a7 hs] at hc
        cases hc
    have hN : s'.mCascadedLevelCount = s.mCascadedLevelCount := by
      rcases a8 with h' | h'
      · exact h'
      · rw [h'.1] at hr
        cases hr
    rw [ht] at a4
    cases hs : s.mpCascadedShadowMaps with
    | none =>
      rw [hs] at a4
      cases a4
    | some t0 =>
      rw [hs] at a4
      simp only [Option.map_some', Option.some.injEq] at a4
      rw [a4, hN, hfactor]
      exact i4 hr0 hc0 t0 hs

/-- A step that keeps the scene flag, the counts, the textures, the update mode and the
pending clear, and that clears no pending rebuild. -/
theorem keepsLayout_of_fields (s s' : ShadowMap F)
    (h1 : s'.mSceneIsDynamic = s.mSceneIsDynamic)
    (h2 : s'.mCountSpotShadowMaps = s.mCountSpotShadowMaps)
    (h3 : s'.mpShadowMaps = s.mpShadowMaps)
    (h4 : s'.mpCascadedShadowMaps = s.mpCascadedShadowMaps)
    (h5 : s'.mShadowMapUpdateMode = s.mShadowMapUpdateMode)
    (h6 : s'.mClearDynamicSM = s.mClearDynamicSM)
    (h7 : s.mResetShadowMapBuffers = true → s'.mResetShadowMapBuffers = true)
    (h8 : s.mShadowResChanged = true → s'.mShadowResChanged = true)
    (h9 : s'.mCascadedLevelCount = s.mCascadedLevelCount) : keepsLayout s s' := by
  refine ⟨h1, h2, by rw [h3], by rw [h4], fun h => ?_, h7, h8, Or.inl h9⟩
  rw [h5, h6] at h
  exact h.elim Or.inl fun h => Or.inr (Or.inl h)

theorem keepsLayout_uiApplyResolution (s : ShadowMap F) (ui : UIInput F) :
    keepsLayout s (uiApplyResolution s ui) := by
  unfold uiApplyResolution
  split_ifs <;>
    exact keepsLayout_of_fields _ _ rfl rfl rfl rfl rfl rfl (by intro h; simp [h])
      (by intro h; simp [h]) rfl

theorem keepsLayout_uiCommonWidgetsLeakTracing (s : ShadowMap F) (ui : UIInput F) :
    keepsLayout s (uiCommonWidgetsLeakTracing s ui) := by
  unfold uiCommonWidgetsLeakTracing
  exact keepsLayout_of_fields _ _ rfl rfl rfl rfl rfl rfl (by intro h; simp [h])
    (by intro h; simp [h]) rfl

theorem keepsLayout_blurMipUi (s : ShadowMap F) (ui : UIInput F) :
    keepsLayout s (blurMipUi s ui) := by
  unfold blurMipUi
  exact keepsLayout_of_fields _ _ rfl rfl rfl rfl rfl rfl (by intro h; simp [h])
    (by intro h; simp [h]) rfl

theorem keepsLayout_uiEnableBlur (s : ShadowMap F) (ui : UIInput F) :
    keepsLayout s (uiEnableBlur s ui) := by
  unfold uiEnableBlur
  exact keepsLayout_of_fields _ _ rfl rfl rfl rfl rfl rfl (by intro h; simp [h])
    (by intro h; simp [h]) rfl

theorem keepsLayout_uiBias (s : ShadowMap F) (ui : UIInput F) :
    keepsLayout s (uiBias s ui) := by
  unfold uiBias
  split_ifs <;>
    exact keepsLayout_of_fields _ _ rfl rfl rfl rfl rfl rfl (by intro h; simp [h])
      (by intro h; simp [h]) rfl

theorem keepsLayout_uiLevelTraceLeakTracing (s : ShadowMap F) (ui : UIInput F) (leak : Bool) :
    keepsLayout s (uiLevelTraceLeakTracing s ui leak) := by
  unfold uiLevelTraceLeakTracing
  simp only []
  split_ifs <;>
    exact keepsLayout_of_fields _ _ rfl rfl rfl rfl rfl rfl (by intro h; simp [h])
      (by intro h; simp [h]) rfl

theorem keepsLayout_uiTemporalReuse (s : ShadowMap F) (ui : UIInput F) :
    keepsLayout s (uiTemporalReuse s ui) := by
  unfold uiTemporalReuse
  exact keepsLayout_of_fields _ _ rfl rfl rfl rfl rfl rfl (by intro h; simp [h])
    (by intro h; simp [h]) rfl

theorem keepsLayout_uiBlurPerLevel (s : ShadowMap F) (ui : UIInput F) :
    keepsLayout s (uiBlurPerLevel s ui) := by
  unfold uiBlurPerLevel
  split_ifs <;>
    exact keepsLayout_of_fields _ _ rfl rfl rfl rfl rfl rfl (by intro h; simp [h])
      (by intro h; simp [h]) rfl

theorem keepsLayout_uiFrustumCulling (s : ShadowMap F) (ui : UIInput F) :
    keepsLayout s (uiFrustumCulling s ui) := by
  unfold uiFrustumCulling
  exact keepsLayout_of_fields _ _ rfl rfl rfl rfl rfl rfl (by intro h; simp [h])
    (by intro h; simp [h]) rfl

theorem keepsLayout_uiRerenderStatic (s : ShadowMap F) (ui : UIInput F) :
    keepsLayout s (uiRerenderStatic s ui) := by
  unfold uiRerenderStatic
  split_ifs <;>
    exact keepsLayout_of_fields _ _ rfl rfl rfl rfl rfl rfl (by intro h; simp [h])
      (by intro h; simp [h]) rfl

theorem keepsLayout_uiCommon (s : ShadowMap F) (ui : UIInput F) :
    keepsLayout s (uiCommon s ui) := by
  unfold uiCommon
  split_ifs <;>
    exact keepsLayout_of_fields _ _ rfl rfl rfl rfl rfl rfl (by intro h; simp [h])
      (by intro h; simp [h]) rfl

theorem keepsLayout_uiBlurMips (s : ShadowMap F) (ui : UIInput F) :
    keepsLayout s (uiBlurMips s ui) := by
  unfold uiBlurMips
  exact keepsLayout_of_fields _ _ rfl rfl rfl rfl rfl rfl (by intro h; simp [h])
    (by intro h; simp [h]) rfl

theorem keepsLayout_uiLevelTrace (s : ShadowMap F) (ui : UIInput F) :
    keepsLayout s (uiLevelTrace s ui) := by
  unfold uiLevelTrace
  exact keepsLayout_of_fields _ _ rfl rfl rfl rfl rfl rfl (by intro h; simp [h])
    (by intro h; simp [h]) rfl

theorem keepsLayout_uiStochastic (s : ShadowMap F) (ui : UIInput F) :
    keepsLayout s (uiStochastic s ui) := by
  unfold uiStochastic
  exact keepsLayout_of_fields _ _ rfl rfl rfl rfl rfl rfl (by intro h; simp [h])
    (by intro h; simp [h]) rfl

theorem keepsLayout_applyTypeChanged (s : ShadowMap F) :
    keepsLayout s (applyTypeChanged s) := by
  unfold applyTypeChanged
  split_ifs <;>
    exact keepsLayout_of_fields _ _ rfl rfl rfl rfl rfl rfl (by intro h; simp [h])
      (by intro h; simp [h]) rfl

theorem keepsLayout_applyRasterDefinesChanged (s : ShadowMap F) :
    keepsLayout s (applyRasterDefinesChanged s) := by
  unfold applyRasterDefinesChanged
  split_ifs <;>
    exact keepsLayout_of_fields _ _ rfl rfl rfl rfl rfl rfl (by intro h; simp [h])
      (by intro h; simp [h]) rfl

theorem keepsLayout_applyBiasSettingsChanged (s : ShadowMap F) :
    keepsLayout s (applyBiasSettingsChanged s) := by
  unfold applyBiasSettingsChanged
  split_ifs <;>
    exact keepsLayout_of_fields _ _ rfl rfl rfl rfl rfl rfl (by intro h; simp [h])
      (by intro h; simp [h]) rfl

theorem keepsLayout_applyRerenderStatic (s : ShadowMap F) :
    keepsLayout s (applyRerenderStatic s) := by
  unfold applyRerenderStatic
  split_ifs <;>
    exact keepsLayout_of_fields _ _ rfl rfl rfl rfl rfl rfl (by intro h; simp [h])
      (by intro h; simp [h]) rfl

theorem keepsLayout_prepareGaussianBlur (s : ShadowMap F) :
    keepsLayout s (prepareGaussianBlur s) := by
  unfold prepareGaussianBlur
  simp only []
  split_ifs <;>
    exact keepsLayout_of_fields _ _ rfl rfl rfl rfl rfl rfl (by intro h; simp [h])
      (by intro h; simp [h]) rfl

theorem keepsLayout_uiShadowMapType (s : ShadowMap F) (ui : UIInput F) :
    keepsLayout s (uiShadowMapType s ui) := by
  unfold uiShadowMapType
  simp only []
  split_ifs <;> exact keepsLayout_refl s

theorem keepsLayout_uiUpdateMode (s : ShadowMap F) (ui : UIInput F) :
    keepsLayout s (uiUpdateMode s ui) := by
  unfold uiUpdateMode
  split_ifs with hdyn
  · exact ⟨rfl, rfl, rfl, rfl, fun _ => Or.inr (Or.inr hdyn), id, id, Or.inl rfl⟩
  · exact keepsLayout_refl s

theorem keepsLayout_uiCascadedLevel (s : ShadowMap F) (ui : UIInput F) :
    keepsLayout s (uiCascadedLevel s ui) := by
  unfold uiCascadedLevel
  simp only []
  split_ifs with hchanged
  · refine ⟨rfl, rfl, rfl, rfl, fun h => h.elim Or.inl fun h => Or.inr (Or.inl h),
      fun _ => rfl, fun _ => rfl, Or.inr ⟨rfl, rfl, ?_⟩⟩
    show (varUint s.mCascadedLevelCount 1 8 ui.cascadedLevel).1 ≤ 8
    cases hin : ui.cascadedLevel with
    | none =>
      rw [hin] at hchanged
      simp [varUint, widgetSet] at hchanged
    | some v =>
      simp only [varUint, widgetSet, Option.map_some']
      exact Nat.max_le.mpr ⟨by decide, Nat.min_le_left _ _⟩
  · cases hin : ui.cascadedLevel with
    | none => exact keepsLayout_of_fields _ _ rfl rfl rfl rfl rfl rfl id id (by simp [varUint, widgetSet, hin])
    | some v =>
      rw [hin] at hchanged
      simp only [varUint, widgetSet, Option.map_some', ne_eq, decide_not, Bool.not_eq_true',
        decide_eq_false_iff_not, not_not] at hchanged
      exact keepsLayout_of_fields _ _ rfl rfl rfl rfl rfl rfl id id
        (by simp [varUint, widgetSet, hin, hchanged])

theorem keepsLayout_uiFrustumMode (s : ShadowMap F) (ui : UIInput F) :
    keepsLayout s (uiFrustumMode s ui) := by
  unfold uiFrustumMode
  split <;> exact keepsLayout_of_fields _ _ rfl rfl rfl rfl rfl rfl id id rfl

theorem keepsLayout_uiCommonLeakTracing (s : ShadowMap F) (ui : UIInput F) :
    keepsLayout s (uiCommonLeakTracing s ui) := by
  unfold uiCommonLeakTracing
  split_ifs
  · exact keepsLayout_trans (keepsLayout_uiApplyResolution s ui)
      (keepsLayout_uiCommonWidgetsLeakTracing _ ui)
  · exact keepsLayout_refl s

theorem keepsLayout_uiTypeLeakTracing (s : ShadowMap F) (ui : UIInput F) :
    keepsLayout s (uiTypeLeakTracing s ui) := by
  unfold uiTypeLeakTracing
  split_ifs
  · split
    · exact keepsLayout_uiBias s ui
    · exact keepsLayout_blurMipUi s ui
    · exact keepsLayout_refl s
    · exact keepsLayout_trans (keepsLayout_uiEnableBlur s ui) (keepsLayout_blurMipUi _ ui)
    · exact keepsLayout_blurMipUi s ui
    · exact keepsLayout_refl s
    · exact keepsLayout_blurMipUi s ui
    · exact keepsLayout_blurMipUi s ui
    · exact keepsLayout_refl s
  · exact keepsLayout_refl s

theorem keepsLayout_uiType (s : ShadowMap F) (ui : UIInput F) :
    keepsLayout s (uiType s ui) := by
  unfold uiType
  split_ifs
  · split
    · exact keepsLayout_uiBias s ui
    · exact keepsLayout_uiBlurMips s ui
    · exact keepsLayout_refl s
    · exact keepsLayout_uiBlurMips s ui
    · exact keepsLayout_uiBlurMips s ui
    · exact keepsLayout_refl s
    · exact keepsLayout_uiBlurMips s ui
    · exact keepsLayout_uiBlurMips s ui
    · exact keepsLayout_refl s
  · exact keepsLayout_refl s

theorem keepsLayout_uiCascadedLeakTracing (s : ShadowMap F) (ui : UIInput F) (leak : Bool) :
    keepsLayout s (uiCascadedLeakTracing s ui leak) := by
  unfold uiCascadedLeakTracing
  split_ifs
  · exact keepsLayout_trans (keepsLayout_uiCascadedLevel s ui)
      (keepsLayout_trans (keepsLayout_uiFrustumMode _ ui)
        (keepsLayout_trans (keepsLayout_uiLevelTraceLeakTracing _ ui leak)
          (keepsLayout_uiTemporalReuse _ ui)))
  · exact keepsLayout_refl s

theorem keepsLayout_uiCascaded (s : ShadowMap F) (ui : UIInput F) :
    keepsLayout s (uiCascaded s ui) := by
  unfold uiCascaded
  split_ifs
  · exact keepsLayout_trans (keepsLayout_uiCascadedLevel s ui)
      (keepsLayout_trans (keepsLayout_uiFrustumMode _ ui)
        (keepsLayout_trans (keepsLayout_uiLevelTrace _ ui)
          (keepsLayout_trans (keepsLayout_uiTemporalReuse _ ui)
            (keepsLayout_uiStochastic _ ui))))
  · exact keepsLayout_refl s

theorem keepsLayout_uiBlurLeakTracing (s : ShadowMap F) (ui : UIInput F) :
    keepsLayout s (uiBlurLeakTracing s ui) := by
  unfold uiBlurLeakTracing
  split_ifs
  · exact keepsLayout_trans (keepsLayout_uiBlurPerLevel s ui)
      (keepsLayout_of_fields _ _ rfl rfl rfl rfl rfl rfl id id rfl)
  · exact keepsLayout_refl s
  · exact keepsLayout_refl s

theorem keepsLayout_uiBlur (s : ShadowMap F) (ui : UIInput F) :
    keepsLayout s (uiBlur s ui) := by
  unfold uiBlur
  simp only []
  split_ifs
  · exact keepsLayout_trans (keepsLayout_uiBlurPerLevel s ui)
      (keepsLayout_of_fields _ _ rfl rfl rfl rfl rfl rfl id id rfl)
  · exact keepsLayout_of_fields _ _ rfl rfl rfl rfl rfl rfl id id rfl
  · exact keepsLayout_refl s

/-- What `renderUILeakTracing` keeps. -/
theorem keepsLayout_renderUILeakTracing (s : ShadowMap F) (ui : UIInput F) (leak : Bool) :
    keepsLayout s (renderUILeakTracing s ui leak) := by
  unfold renderUILeakTracing
  exact keepsLayout_trans (keepsLayout_uiShadowMapType s ui)
    (keepsLayout_trans (keepsLayout_uiCommonLeakTracing _ ui)
      (keepsLayout_trans (keepsLayout_uiTypeLeakTracing _ ui)
        (keepsLayout_trans (keepsLayout_uiCascadedLeakTracing _ ui leak)
          (keepsLayout_uiBlurLeakTracing _ ui))))

/-- What `renderUI` keeps. -/
theorem keepsLayout_renderUI (s : ShadowMap F) (ui : UIInput F) :
    keepsLayout s (renderUI s ui) := by
  unfold renderUI
  exact keepsLayout_trans (keepsLayout_uiFrustumCulling s ui)
    (keepsLayout_trans (keepsLayout_uiShadowMapType _ ui)
      (keepsLayout_trans (keepsLayout_uiUpdateMode _ ui)
        (keepsLayout_trans (keepsLayout_uiRerenderStatic _ ui)
          (keepsLayout_trans (keepsLayout_uiApplyResolution _ ui)
            (keepsLayout_trans (keepsLayout_uiCommon _ ui)
              (keepsLayout_trans (keepsLayout_uiType _ ui)
                (keepsLayout_trans (keepsLayout_uiCascaded _ ui)
                  (keepsLayout_uiBlur _ ui))))))))

/-- The texture layout after `prepareShadowMapBuffers`, when the object holds no 2D texture
and no cascade array after the resets: the invariant holds, and no rebuild is pending. -/
theorem layoutInv_prepared (s : ShadowMap F) (lights : List (Light F))
    (hlen : lights.length < 2 ^ 31) (hN : s.mCascadedLevelCount ≤ 8)
    (hmode : (s.mShadowMapUpdateMode ≠ SMUpdateMode.Static ∨ s.mClearDynamicSM = true) →
      s.mSceneIsDynamic = true)
    (htex : texturesReleased (resetShadowMaps s))
    (hcas : (resetShadowMaps s).mpCascadedShadowMaps = none) :
    layoutInv (prepared s lights) := by
  have hres := resources_prepared s lights _ _ rfl rfl
  have hdyn : (prepared s lights).mSceneIsDynamic = s.mSceneIsDynamic :=
    (congrArg Resources.dyn hres).trans (resetShadowMaps_config s).1
  have hlev : (prepared s lights).mCascadedLevelCount = s.mCascadedLevelCount :=
    (congrArg Resources.levels hres).trans (resetShadowMaps_config s).2.1
  have hsm := spotMode_prepared s lights (by omega)
  have hcount : (prepared s lights).mCountSpotShadowMaps =
      countOfLights LightTypeSM.Spot lights := congrArg SpotMode.mCountSpotShadowMaps hsm
  have hmd : (prepared s lights).mShadowMapUpdateMode = s.mShadowMapUpdateMode :=
    congrArg SpotMode.mShadowMapUpdateMode hsm
  have hcl : (prepared s lights).mClearDynamicSM = s.mClearDynamicSM :=
    congrArg SpotMode.mClearDynamicSM hsm
  obtain ⟨-, -, hsp⟩ := prepared_counts s lights hlen htex
  have hfactor : sliceFactor (prepared s lights) = sliceFactor s := by
    unfold sliceFactor
    rw [hdyn]
  refine ⟨?_, ?_, ?_, fun _ _ t ht => ?_⟩
  · rw [hmd, hcl, hdyn]
    exact hmode
  · rw [hsp, hcount, hfactor]
  · rw [hlev]
    exact hN
  · have hc := congrArg Resources.cascade hres
    simp only [resources] at hc
    rw [ht, hcas] at hc
    split at hc
    · rw [Option.some.injEq] at hc
      rw [hc, cascadeTexture_arraySize, hlev, hfactor]
      show (if (resetShadowMaps s).mSceneIsDynamic = true
        then u32 ((resetShadowMaps s).mCascadedLevelCount * 2)
        else (resetShadowMaps s).mCascadedLevelCount) = _
      rw [(resetShadowMaps_config s).1, (resetShadowMaps_config s).2.1]
      unfold sliceFactor
      cases s.mSceneIsDynamic
      · simp
      · simp
        exact u32_of_lt (by omega)
    · cases hc

theorem resetShadowMaps_cascade (s : ShadowMap F)
    (h : s.mResetShadowMapBuffers = true ∨ s.mShadowResChanged = true) :
    (resetShadowMaps s).mpCascadedShadowMaps = none := by
  unfold resetShadowMaps
  rcases h with h | h
  · simp only [h, Bool.or_true, if_true]
  · simp only [h, Bool.true_or, if_true]
    split_ifs <;> rfl

/-- The pending changes of `update` keep the invariant of the texture layout. -/
theorem layoutInv_applyPendingChanges (s s1 : ShadowMap F) (lights : List (Light F))
    (hlen : lights.length < 2 ^ 31) (hinv : layoutInv s)
    (h : applyPendingChanges s lights = Except.ok s1) : layoutInv s1 := by
  have hsa : layoutInv (applyRasterDefinesChanged (applyTypeChanged s)) :=
    layoutInv_of_keepsLayout hinv (keepsLayout_trans (keepsLayout_applyTypeChanged s)
      (keepsLayout_applyRasterDefinesChanged _))
  unfold applyPendingChanges at h
  cases hmid : rebuildBuffers (applyRasterDefinesChanged (applyTypeChanged s)) lights with
  | error e =>
    rw [hmid] at h
    cases h
  | ok mid =>
    rw [hmid] at h
    simp only [Except.map, Except.ok.injEq] at h
    subst h
    have hmidinv : layoutInv mid := by
      unfold rebuildBuffers at hmid
      split_ifs at hmid with hflag
      · rw [prepareShadowMapBuffers_ok _ _ _ hmid]
        rw [Bool.or_eq_true] at hflag
        exact layoutInv_prepared _ lights hlen hsa.2.2.1 hsa.1
          (resetShadowMaps_textures _ (hflag.elim (fun h => Or.inr (Or.inl h)) Or.inl))
          (resetShadowMaps_cascade _ hflag)
      · cases hmid
        exact hsa
    exact layoutInv_of_keepsLayout hmidinv
      (keepsLayout_trans (keepsLayout_applyBiasSettingsChanged _)
        (keepsLayout_trans (keepsLayout_applyRerenderStatic _)
          (keepsLayout_prepareGaussianBlur _)))

/-- A call of `update` that returns keeps the invariant of the texture layout. -/
theorem layoutInv_update (env : MathEnv F) (s : ShadowMap F) (frame : Frame F)
    (r : UpdateResult F) (hlen : frame.lights.length < 2 ^ 31) (hinv : layoutInv s)
    (h : update env s (some frame) = Except.ok (some r)) : layoutInv r.state := by
  by_cases hactive : getActiveLightCount frame.lights = 0
  · unfold update at h
    simp only [hactive, if_true, Except.ok.injEq, Option.some.injEq] at h
    subst h
    exact hinv
  · obtain ⟨s1, hs1, hcase⟩ := update_some env s frame r hactive h
    have h1 := layoutInv_applyPendingChanges s s1 frame.lights hlen hinv hs1
    rcases hcase with ⟨-, hstate, -⟩ | ⟨lists, -, hrender⟩
    · rw [hstate]
      exact layoutInv_of_keepsLayout h1
        (keepsLayout_of_fields _ _ rfl rfl rfl rfl rfl rfl (fun _ => rfl) id rfl)
    · have hset := rendered_renderLights env s1 frame lists r hrender
      obtain ⟨hcar, -, -, hclear⟩ := renderLights_some env s1 frame lists r hrender
      have hmode := congrArg Settings.mShadowMapUpdateMode hset
      have hreset := congrArg Carried.mResetShadowMapBuffers hcar
      have hres := congrArg Carried.mShadowResChanged hcar
      simp only [settings] at hmode
      simp only [carried] at hreset hres
      refine layoutInv_of_keepsLayout h1 ⟨congrArg Settings.mSceneIsDynamic hset,
        congrArg Settings.mCountSpotShadowMaps hset, congrArg Settings.spotTextures hset,
        congrArg Settings.cascadeSlices hset, fun hm => ?_, fun hh => hreset.trans hh,
        fun hh => hres.trans hh, Or.inl (congrArg Settings.mCascadedLevelCount hset)⟩
      rcases hm with hm | hm
      · exact Or.inl (hmode ▸ hm)
      · rw [hclear] at hm
        cases hm

/-- The constructor establishes the invariant of the texture layout. -/
theorem layoutInv_construct (hasDynamicGeometry : Bool) (lights : List (Light F))
    (s : ShadowMap F) (hlen : lights.length < 2 ^ 31)
    (h : construct hasDynamicGeometry lights = Except.ok s) : layoutInv s := by
  unfold construct at h
  simp only [] at h
  have key : ∀ s0 : ShadowMap F, s0.mCascadedLevelCount ≤ 8 →
      ((s0.mShadowMapUpdateMode ≠ SMUpdateMode.Static ∨ s0.mClearDynamicSM = true) →
        s0.mSceneIsDynamic = true) →
      texturesReleased (resetShadowMaps s0) →
      (resetShadowMaps s0).mpCascadedShadowMaps = none →
      ∀ mid, prepareShadowMapBuffers s0 lights = Except.ok mid →
        layoutInv
          { mid with
            mpVPMatrixBuffer :=
              { mid.mpVPMatrixBuffer with
                stagingFenceWaitValues :=
                  mid.mpVPMatrixBuffer.stagingFenceWaitValues.map fun _ => 0 }
            mpCascadedVPMatrixBuffer :=
              { mid.mpCascadedVPMatrixBuffer with
                stagingFenceWaitValues :=
                  mid.mpCascadedVPMatrixBuffer.stagingFenceWaitValues.map fun _ => 0 }
            mUpdateShadowMap := true } := by
    intro s0 h1 h2 h3 h4 mid hmid
    rw [prepareShadowMapBuffers_ok _ _ _ hmid]
    exact layoutInv_of_keepsLayout (layoutInv_prepared s0 lights hlen h1 h2 h3 h4)
      (keepsLayout_of_fields _ _ rfl rfl rfl rfl rfl rfl id id rfl)
  cases hasDynamicGeometry with
  | false =>
    simp only [Bool.false_eq_true, if_false] at h
    cases hmid : prepareShadowMapBuffers ({} : ShadowMap F) lights with
    | error e =>
      rw [hmid] at h
      cases h
    | ok mid =>
      rw [hmid] at h
      simp only [Except.map, Except.ok.injEq] at h
      subst h
      exact key ({} : ShadowMap F) (show (4 : Nat) ≤ 8 by decide)
        (fun hm => hm.elim (fun hm => absurd rfl hm) (fun hm => by cases hm))
        ⟨rfl, rfl, rfl⟩ rfl mid hmid
  | true =>
    simp only [if_true] at h
    cases hmid : prepareShadowMapBuffers
        ({ mSceneIsDynamic := true, mShadowMapUpdateMode := SMUpdateMode.Dynamic } :
          ShadowMap F) lights with
    | error e =>
      rw [hmid] at h
      cases h
    | ok mid =>
      rw [hmid] at h
      simp only [Except.map, Except.ok.injEq] at h
      subst h
      exact key
        ({ mSceneIsDynamic := true, mShadowMapUpdateMode := SMUpdateMode.Dynamic } :
          ShadowMap F)
        (show (4 : Nat) ≤ 8 by decide) (fun _ => rfl) ⟨rfl, rfl, rfl⟩ rfl mid hmid

/-- Every state of the object satisfies the invariant of the texture layout. -/
theorem layoutInv_of_reachable (env : MathEnv F) (s : ShadowMap F) (h : Reachable env s) :
    layoutInv s := by
  induction h with
  | construct dyn lights s hlen hc => exact layoutInv_construct dyn lights s hlen hc
  | update s frame r _ hlen hu ih => exact layoutInv_update env s frame r hlen ih hu
  | renderUI s ui _ ih => exact layoutInv_of_keepsLayout ih (keepsLayout_renderUI s ui)
  | renderUILeakTracing s ui leak _ ih =>
    exact layoutInv_of_keepsLayout ih (keepsLayout_renderUILeakTracing s ui leak)

end UILemmas

section UIClaims

variable {F : Type} [LinearOrderedField F]

/-- C26 (amended). In every state reached from the constructor through `update`, `renderUI`
and `renderUILeakTracing` (for scenes with fewer than `2 ^ 31` lights), the `Dynamic` update
mode or a pending clear of the dynamic shadow maps implies that the scene is dynamic, and
then `spotCount + i` is smaller than the number of 2D shadow textures for every spot slot
`i`, and `cascLevel + cascadeLevelCount` is smaller than the slice count of the cascade array
for every cascade level whenever no rebuild of the buffers is pending; this is the case in
the state in which `update` renders, after it has applied the pending changes. -/
theorem dynamic_targets_in_bounds (env : MathEnv F) (s : ShadowMap F) (h : Reachable env s) :
    ((s.mShadowMapUpdateMode ≠ SMUpdateMode.Static ∨ s.mClearDynamicSM = true) →
      s.mSceneIsDynamic = true ∧
      (∀ i, i < s.mCountSpotShadowMaps →
        s.mCountSpotShadowMaps + i < s.mpShadowMaps.length) ∧
      (s.mResetShadowMapBuffers = false → s.mShadowResChanged = false →
        ∀ t, s.mpCascadedShadowMaps = some t → ∀ cascLevel, cascLevel < s.mCascadedLevelCount →
          cascLevel + s.mCascadedLevelCount < t.arraySize)) ∧
    ∀ (lights : List (Light F)) (s1 : ShadowMap F), lights.length < 2 ^ 31 →
      applyPendingChanges s lights = Except.ok s1 →
      (s1.mShadowMapUpdateMode ≠ SMUpdateMode.Static ∨ s1.mClearDynamicSM = true) →
      s1.mSceneIsDynamic = true ∧
      (∀ i, i < s1.mCountSpotShadowMaps →
        s1.mCountSpotShadowMaps + i < s1.mpShadowMaps.length) ∧
      ∀ t, s1.mpCascadedShadowMaps = some t → ∀ cascLevel, cascLevel < s1.mCascadedLevelCount →
        cascLevel + s1.mCascadedLevelCount < t.arraySize := by
  have hinv := layoutInv_of_reachable env s h
  have key : ∀ s2 : ShadowMap F, layoutInv s2 →
      (s2.mShadowMapUpdateMode ≠ SMUpdateMode.Static ∨ s2.mClearDynamicSM = true) →
      s2.mSceneIsDynamic = true ∧
      (∀ i, i < s2.mCountSpotShadowMaps →
        s2.mCountSpotShadowMaps + i < s2.mpShadowMaps.length) ∧
      (s2.mResetShadowMapBuffers = false → s2.mShadowResChanged = false →
        ∀ t, s2.mpCascadedShadowMaps = some t →
          ∀ cascLevel, cascLevel < s2.mCascadedLevelCount →
            cascLevel + s2.mCascadedLevelCount < t.arraySize) := by
    intro s2 hi hmode
    obtain ⟨i1, i2, -, i4⟩ := hi
    have hdyn := i1 hmode
    have hfactor : sliceFactor s2 = 2 := by
      unfold sliceFactor
      rw [hdyn, if_pos rfl]
    rw [hfactor] at i2 i4
    refine ⟨hdyn, fun i hi => by omega, fun hr hc t ht lvl hl => ?_⟩
    rw [i4 hr hc t ht]
    omega
  refine ⟨key s hinv, fun lights s1 hlen hs1 hmode => ?_⟩
  obtain ⟨-, -, -, f4, f5⟩ := applyPendingChanges_flags s s1 lights hs1
  obtain ⟨k1, k2, k3⟩ := key s1 (layoutInv_applyPendingChanges s s1 lights hlen hinv hs1) hmode
  exact ⟨k1, k2, k3 f4 f5⟩

set_option maxRecDepth 1000000 in
/-- C26, witness: the object after its constructor for a dynamic scene with two spot lights and
a directional light. -/
theorem dynamic_targets_in_bounds_witness :
    (constructed true [pointLight (1 / 2), pointLight (1 / 4),
        directionalLight true]).mSceneIsDynamic = true ∧
    ∀ i, i < (constructed true [pointLight (1 / 2), pointLight (1 / 4),
        directionalLight true]).mCountSpotShadowMaps →
      (constructed true [pointLight (1 / 2), pointLight (1 / 4),
        directionalLight true]).mCountSpotShadowMaps + i <
      (constructed true [pointLight (1 / 2), pointLight (1 / 4),
        directionalLight true]).mpShadowMaps.length :=
  ⟨((dynamic_targets_in_bounds sampleEnv _
      (Reachable.construct true [pointLight (1 / 2), pointLight (1 / 4), directionalLight true]
        _ (by decide) (by with_unfolding_all rfl))).1 (Or.inl (by with_unfolding_all decide))).1,
    ((dynamic_targets_in_bounds sampleEnv _
      (Reachable.construct true [pointLight (1 / 2), pointLight (1 / 4), directionalLight true]
        _ (by decide) (by with_unfolding_all rfl))).1
          (Or.inl (by with_unfolding_all decide))).2.1⟩

set_option maxRecDepth 1000000 in
/-- C26, counterexample: after the constructor for a dynamic scene with a directional light,
the user raises the number of cascade levels from 4 to 8 in `renderUI`.  The state is in the
`Dynamic` update mode, the cascade array still has the 8 slices of four levels, and
`cascLevel + cascadeLevelCount` is 8 for the level 0. -/
theorem dynamic_targets_before_rebuild :
    Reachable sampleEnv (renderUI (constructed true [directionalLight true]) eightLevels) ∧
    (renderUI (constructed true [directionalLight true]) eightLevels).mShadowMapUpdateMode =
      SMUpdateMode.Dynamic ∧
    (renderUI (constructed true [directionalLight true]) eightLevels).mCascadedLevelCount = 8 ∧
    (renderUI (constructed true [directionalLight true]) eightLevels).mResetShadowMapBuffers =
      true ∧
    ∃ t, (renderUI (constructed true [directionalLight true])
        eightLevels).mpCascadedShadowMaps = some t ∧ t.arraySize = 8 ∧
      ¬ (0 + (renderUI (constructed true [directionalLight true])
        eightLevels).mCascadedLevelCount < t.arraySize) := by
  refine ⟨Reachable.renderUI _ _ (Reachable.construct true [directionalLight true] _
    (by decide) (by with_unfolding_all rfl)), by with_unfolding_all rfl,
    by with_unfolding_all rfl, by with_unfolding_all rfl, _, by with_unfolding_all rfl,
    by with_unfolding_all rfl, by with_unfolding_all decide⟩

end UIClaims

end Falcor
